import Mathlib

/-! Table index entries of the catalog, the posting writer and the Thrift
front end.

A shallow embedding of `src/storage/meta/entry/table_index_entry.cpp`,
`src/storage/invertedindex/posting_writer.cpp` and
`src/network/thrift_server.cpp`.

* Shared pointers to `SegmentIndexEntry` objects are modelled by the address of
  the object they point to (`SegmentIndexEntry.addr`) together with the
  object's immutable `segment_id`.
* Calls into classes whose bodies live in other translation units
  (`SegmentIndexEntry::Commit`, `SaveIndexFile`, `Cleanup`, ...) are recorded,
  in program order, in the `trace` of the `World`.
* `std::map` is an association list whose keys are strictly ascending
  (`Map.WF`); iteration is in list order.
* Exceptions raised by `RecoverableError` / `UnrecoverableError` are values of
  `Exception` returned through `Except`.
* The engine behind the Thrift handler (class `Infinity`) is a function from
  engine calls to results (`RpcEnv.engine`); the calls made are recorded, in
  program order, in `ServerWorld.calls`. A pointer that may be null, and a
  wire field with an `__isset` flag, is an `Option`.
* Memory is a list of bytes (`List Nat`); a `memcpy` outside its source or
  destination is the exception `UndefinedBehaviour`. Fixed-width integers are
  `Nat` or `Int` reduced modulo their width (`toU64`, `toI64`, `toI32`).
* The use of the mutex `rw_locker_` is described by a second model of
  `GetOrCreateSegment`, `PopulateEntirely` and `CreateIndexPrepare`, which
  returns the result of the first together with the lock, unlock, read and
  write steps (`SyncStep`); the allocations and deletions of `Update` are a
  list of `HeapEvent`s.
-/

namespace infinity

abbrev SegmentID := Nat
abbrev TxnTimeStamp := Nat
abbrev TransactionID := Nat

/-! ## Status codes and exceptions -/

inductive ErrorCode where
  | kOk
  | kSyntaxError
  | kNotSupport
  | kSessionNotFound
  | kInvalidConflictType
  | kInvalidDataType
  | kInvalidConstraintType
  | kInvalidIndexType
  | kInvalidKnnDistanceType
  | kInvalidEmbeddingDataType
  | kInvalidConstantType
  | kInvalidParsedExprType
  | kInvalidParameterValue
  | kImportFileFormatError
  | kEmptySelectFields
  | kInsertWithoutValues
  | kColumnCountMismatch
  | kEngineError (code : Nat)
  deriving DecidableEq, Repr

structure Status where
  code : ErrorCode
  msg : String
  deriving DecidableEq, Repr

def Status.OK : Status := ⟨ErrorCode.kOk, ""⟩
def Status.SyntaxError (msg : String) : Status := ⟨ErrorCode.kSyntaxError, msg⟩
def Status.NotSupport (msg : String) : Status := ⟨ErrorCode.kNotSupport, msg⟩

/-- The two exception classes thrown by `RecoverableError(status)` and
`UnrecoverableError(message)`; `UndefinedBehaviour` marks executions the C++
standard leaves undefined (null dereference, out-of-range write, division by
zero, a `static_cast` to the wrong dynamic type); `JsonTypeError` is the
exception of the JSON library when a value has the wrong type, `OutOfRange` is
`std::out_of_range`, thrown by `at` on a missing key. -/
inductive Exception where
  | Recoverable (status : Status)
  | Unrecoverable (msg : String)
  | UndefinedBehaviour
  | JsonTypeError
  | OutOfRange
  deriving DecidableEq, Repr

def RecoverableError {α : Type} (status : Status) : Except Exception α :=
  Except.error (Exception.Recoverable status)

def UnrecoverableError {α : Type} (msg : String) : Except Exception α :=
  Except.error (Exception.Unrecoverable msg)

/-! ## `std::map<SegmentID, V>` -/

abbrev Map (V : Type) := List (SegmentID × V)

namespace Map

variable {V : Type}

/-- Keys in iteration order. -/
def keys (m : Map V) : List SegmentID := m.map Prod.fst

/-- The representation invariant of `std::map`: strictly ascending keys. -/
def WF (m : Map V) : Prop := (keys m).Pairwise (· < ·)

instance (m : Map V) : Decidable (WF m) := by unfold WF; infer_instance

/-- Models `m.find(k)`: `none` stands for `m.end()`. -/
def find : Map V → SegmentID → Option V
  | [], _ => none
  | (k', v') :: rest, k => if k' = k then some v' else find rest k

def contains (m : Map V) (k : SegmentID) : Bool := (find m k).isSome

/-- Models `m.emplace(k, v)`: inserts at the sorted position; a key that is already
present keeps its old value. -/
def emplace : Map V → SegmentID → V → Map V
  | [], k, v => [(k, v)]
  | (k', v') :: rest, k, v =>
    if k < k' then (k, v) :: (k', v') :: rest
    else if k = k' then (k', v') :: rest
    else (k', v') :: emplace rest k v

/-- Models `m.erase(k)`: the map without key `k` and the number of elements removed. -/
def erase (m : Map V) (k : SegmentID) : Map V × Nat :=
  (m.filter (fun p => p.1 != k), (m.filter (fun p => p.1 == k)).length)

end Map

/-! ## `std::binary_search` -/

/-- The loop of `std::lower_bound` on the range `[first, first + count)` of
`xs`; `fuel` bounds the number of iterations. -/
def lower_bound_loop (xs : List SegmentID) (value : SegmentID) : Nat → Nat → Nat → Nat
  | 0, first, _ => first
  | fuel + 1, first, count =>
    if 0 < count then
      let step := count / 2
      let it := first + step
      if xs.getD it 0 < value then
        lower_bound_loop xs value fuel (it + 1) (count - (step + 1))
      else
        lower_bound_loop xs value fuel first step
    else first

/-- Models `std::lower_bound(xs.begin(), xs.end(), value)` as an index into `xs`. -/
def lower_bound (xs : List SegmentID) (value : SegmentID) : Nat :=
  lower_bound_loop xs value xs.length 0 xs.length

/-- Models `std::binary_search(xs.begin(), xs.end(), value)`:
`first = lower_bound(...); return first != last && !(value < *first);`. -/
def binary_search (xs : List SegmentID) (value : SegmentID) : Bool :=
  let first := lower_bound xs value
  decide (first ≠ xs.length) && !decide (value < xs.getD first 0)

/-! ## Index definitions -/

inductive IndexType where
  | kIVFFlat
  | kHnsw
  | kFullText
  | kSecondary
  | kInvalid
  deriving DecidableEq, Repr

inductive EmbeddingDataType where
  | kElemBit
  | kElemInt8
  | kElemInt16
  | kElemInt32
  | kElemInt64
  | kElemFloat
  | kElemDouble
  | kElemInvalid
  deriving DecidableEq, Repr

structure IndexBase where
  index_type_ : IndexType
  index_name_ : String
  column_names_ : List String
  deriving DecidableEq, Repr

/-- The part of a column definition that `CreateFileWorker` reads: the element
type of its embedding type info (`none` when the column type carries no
embedding info). -/
structure ColumnDef where
  name : String
  elem_type : Option EmbeddingDataType
  deriving DecidableEq, Repr

/-! ## Segment index entries and the effects on them -/

/-- A shared pointer to a `SegmentIndexEntry`: the address of the object and
its immutable `segment_id()`. -/
structure SegmentIndexEntry where
  addr : Nat
  segment_id : SegmentID
  deriving DecidableEq, Repr

/-- Calls that leave `table_index_entry.cpp`, in the order they are made. -/
inductive Event where
  | SaveIndexFile (entry : SegmentIndexEntry)
  | Commit (entry : SegmentIndexEntry) (commit_ts : TxnTimeStamp)
  | Cleanup (entry : SegmentIndexEntry)
  | CreateIndexPrepare (entry : SegmentIndexEntry) (segment : SegmentID) (prepare check_ts : Bool)
  | PopulateEntirely (entry : SegmentIndexEntry) (segment : SegmentID)
  | UpdateFulltextSegmentTs (ts : TxnTimeStamp)
  | CreateIndexDo (entry : SegmentIndexEntry) (create_index_idx : Nat)
  deriving DecidableEq, Repr

/-- Everything outside the table index entry that its methods touch: the
allocator of segment index entries and the trace of outgoing calls. -/
structure World where
  next_addr : Nat
  trace : List Event
  deriving DecidableEq, Repr

def World.emit (w : World) (ev : Event) : World := { w with trace := w.trace ++ [ev] }

/-- Modelled from the spec: `SegmentIndexEntry::NewIndexEntry(table_index_entry,
segment_id, txn, param)` is defined outside these sources; it allocates a new
segment index entry whose `segment_id()` is the given id
("SegmentIndexEntry: one segment's realization of the index"). -/
def SegmentIndexEntry.NewIndexEntry (w : World) (segment_id : SegmentID) :
    SegmentIndexEntry × World :=
  (⟨w.next_addr, segment_id⟩, { w with next_addr := w.next_addr + 1 })

/-- The cleanup scanner, as the sequence of entries handed to `AddEntry`. -/
structure CleanupScanner where
  entries : List SegmentIndexEntry
  deriving DecidableEq, Repr

def CleanupScanner.AddEntry (scanner : CleanupScanner) (entry : SegmentIndexEntry) :
    CleanupScanner :=
  ⟨scanner.entries ++ [entry]⟩

/-- Models `TxnIndexStore::index_entry_map_`: the segment index entries a transaction
created for one table index, in the iteration order of the container. -/
structure TxnIndexStore where
  index_entry_map_ : List (SegmentID × SegmentIndexEntry)
  deriving DecidableEq, Repr

/-! ## `TableIndexEntry` -/

structure TableIndexEntry where
  txn_id_ : TransactionID
  begin_ts_ : TxnTimeStamp
  commit_ts_ : TxnTimeStamp
  deleted_ : Bool
  index_base_ : Option IndexBase
  index_dir_ : Option String
  column_def_ : Option ColumnDef
  index_by_segment_ : Map SegmentIndexEntry
  last_segment_ : Option SegmentIndexEntry
  deriving DecidableEq, Repr

/-- Modelled from the spec: `BaseEntry::Committed()` is declared outside these
sources; "`commit_ts = 0` means uncommitted". -/
def TableIndexEntry.Committed (e : TableIndexEntry) : Bool := e.commit_ts_ != 0

/-- Models `TableIndexEntry::PickCleanupBySegments`, the loop over `index_by_segment_`:
an entry whose key is found by `std::binary_search` is moved to the scanner and
erased, any other entry is kept. -/
def PickCleanupBySegments.loop (sorted_segment_ids : List SegmentID) :
    Map SegmentIndexEntry → CleanupScanner → Map SegmentIndexEntry × CleanupScanner
  | [], scanner => ([], scanner)
  | (segment_id, segment_index_entry) :: rest, scanner =>
    if binary_search sorted_segment_ids segment_id then
      PickCleanupBySegments.loop sorted_segment_ids rest (scanner.AddEntry segment_index_entry)
    else
      let r := PickCleanupBySegments.loop sorted_segment_ids rest scanner
      ((segment_id, segment_index_entry) :: r.1, r.2)

def TableIndexEntry.PickCleanupBySegments (e : TableIndexEntry)
    (sorted_segment_ids : List SegmentID) (scanner : CleanupScanner) :
    TableIndexEntry × CleanupScanner :=
  let r := PickCleanupBySegments.loop sorted_segment_ids e.index_by_segment_ scanner
  ({ e with index_by_segment_ := r.1 }, r.2)

/-- Models `TableIndexEntry::GetOrCreateSegment`: the returned pair is the `created`
flag and the value left in the out-parameter `segment_index_entry`. The
parameter object built by `SegmentIndexEntry::GetCreateIndexParam` is only
handed on to `NewIndexEntry`. -/
def TableIndexEntry.GetOrCreateSegment (e : TableIndexEntry) (w : World)
    (segment_id : SegmentID) : (Bool × SegmentIndexEntry) × TableIndexEntry × World :=
  match Map.find e.index_by_segment_ segment_id with
  | none =>
    let r := SegmentIndexEntry.NewIndexEntry w segment_id
    ((true, r.1), { e with index_by_segment_ := Map.emplace e.index_by_segment_ segment_id r.1 },
      r.2)
  | some segment_index_entry => ((false, segment_index_entry), e, w)

/-- The loop of `CommitCreateIndex` over `txn_index_store->index_entry_map_`. -/
def CommitCreateIndex.loop (commit_ts : TxnTimeStamp) (is_replay : Bool) :
    List (SegmentID × SegmentIndexEntry) → World → World
  | [], w => w
  | (_, segment_index_entry) :: rest, w =>
    let w1 := if !is_replay then w.emit (Event.SaveIndexFile segment_index_entry) else w
    CommitCreateIndex.loop commit_ts is_replay rest
      (w1.emit (Event.Commit segment_index_entry commit_ts))

/-- Models `TableIndexEntry::CommitCreateIndex`. Reading `index_base()->index_type_`
through a null `index_base_` is undefined. -/
def TableIndexEntry.CommitCreateIndex (e : TableIndexEntry) (w : World)
    (txn_index_store : TxnIndexStore) (commit_ts : TxnTimeStamp) (is_replay : Bool) :
    Except Exception (TableIndexEntry × World) :=
  let w1 := CommitCreateIndex.loop commit_ts is_replay txn_index_store.index_entry_map_ w
  let e1 := if !e.Committed then { e with commit_ts_ := commit_ts } else e
  match e1.index_base_ with
  | none => Except.error Exception.UndefinedBehaviour
  | some index_base =>
    if index_base.index_type_ = IndexType.kFullText then
      Except.ok (e1, w1.emit (Event.UpdateFulltextSegmentTs commit_ts))
    else
      Except.ok (e1, w1)

/-- The loop of `RollbackCreateIndex` over `txn_index_store->index_entry_map_`. -/
def RollbackCreateIndex.loop :
    List (SegmentID × SegmentIndexEntry) → Map SegmentIndexEntry → World →
      Except Exception (Map SegmentIndexEntry × World)
  | [], m, w => Except.ok (m, w)
  | (segment_id, segment_index_entry) :: rest, m, w =>
    let w1 := w.emit (Event.Cleanup segment_index_entry)
    let r := Map.erase m segment_id
    if r.2 = 0 then UnrecoverableError "Failed to erase segment index entry"
    else RollbackCreateIndex.loop rest r.1 w1

/-- Models `TableIndexEntry::RollbackCreateIndex`. -/
def TableIndexEntry.RollbackCreateIndex (e : TableIndexEntry) (w : World)
    (txn_index_store : TxnIndexStore) : Except Exception (TableIndexEntry × World) :=
  match RollbackCreateIndex.loop txn_index_store.index_entry_map_ e.index_by_segment_ w with
  | Except.error ex => Except.error ex
  | Except.ok r => Except.ok ({ e with index_by_segment_ := r.1 }, r.2)

/-- Models `TableIndexEntry::UpdateEntryReplay`. -/
def TableIndexEntry.UpdateEntryReplay (e : TableIndexEntry) (txn_id : TransactionID)
    (begin_ts commit_ts : TxnTimeStamp) : TableIndexEntry :=
  { e with commit_ts_ := commit_ts, begin_ts_ := begin_ts, txn_id_ := txn_id }

/-- The fields of a `SegmentEntry` read by the table index entry. -/
structure SegmentEntry where
  segment_id : SegmentID
  row_count : Nat
  row_capacity : Nat
  deriving DecidableEq, Repr

/-- Models `TableIndexEntry::PopulateEntirely`: `none` is the returned `nullptr`. -/
def TableIndexEntry.PopulateEntirely (e : TableIndexEntry) (w : World)
    (segment_entry : SegmentEntry) :
    Except Exception (Option SegmentIndexEntry × TableIndexEntry × World) :=
  match e.index_base_ with
  | none => Except.error Exception.UndefinedBehaviour
  | some index_base =>
    if index_base.index_type_ ≠ IndexType.kFullText then Except.ok (none, e, w)
    else
      let segment_id := segment_entry.segment_id
      let r := SegmentIndexEntry.NewIndexEntry w segment_id
      let w1 := r.2.emit (Event.PopulateEntirely r.1 segment_entry.segment_id)
      Except.ok (some r.1,
        { e with index_by_segment_ := Map.emplace e.index_by_segment_ segment_id r.1 }, w1)

/-- The loop of `CreateIndexPrepare` over `block_index->segments_`; the list
argument `segment_index_entries` is the result vector built so far. -/
def CreateIndexPrepare.loop (unsealed_id : SegmentID) (prepare is_replay check_ts : Bool) :
    List SegmentEntry → TableIndexEntry → World → List SegmentIndexEntry →
      List SegmentIndexEntry × TableIndexEntry × World
  | [], e, w, segment_index_entries => (segment_index_entries, e, w)
  | segment_entry :: rest, e, w, segment_index_entries =>
    let segment_id := segment_entry.segment_id
    let r := SegmentIndexEntry.NewIndexEntry w segment_id
    let w1 :=
      if !is_replay then
        r.2.emit (Event.CreateIndexPrepare r.1 segment_entry.segment_id prepare check_ts)
      else r.2
    let e1 := { e with index_by_segment_ := Map.emplace e.index_by_segment_ segment_id r.1 }
    let e2 := if unsealed_id = segment_id then { e1 with last_segment_ := some r.1 } else e1
    CreateIndexPrepare.loop unsealed_id prepare is_replay check_ts rest e2 w1
      (segment_index_entries ++ [r.1])

/-- Models `TableIndexEntry::CreateIndexPrepare`; `unsealed_id` is
`table_entry->unsealed_id()` and `segments` is `block_index->segments_`. -/
def TableIndexEntry.CreateIndexPrepare (e : TableIndexEntry) (w : World)
    (unsealed_id : SegmentID) (segments : List SegmentEntry)
    (prepare is_replay check_ts : Bool) :
    (List SegmentIndexEntry × Status) × TableIndexEntry × World :=
  let r := CreateIndexPrepare.loop unsealed_id prepare is_replay check_ts segments e w []
  ((r.1, Status.OK), r.2.1, r.2.2)

/-- The methods of `TableIndexEntry` that write one of its fields. -/
inductive Op where
  | GetOrCreateSegment (segment_id : SegmentID)
  | CommitCreateIndex (txn_index_store : TxnIndexStore) (commit_ts : TxnTimeStamp)
      (is_replay : Bool)
  | RollbackCreateIndex (txn_index_store : TxnIndexStore)
  | PopulateEntirely (segment_entry : SegmentEntry)
  | CreateIndexPrepare (unsealed_id : SegmentID) (segments : List SegmentEntry)
      (prepare is_replay check_ts : Bool)
  | PickCleanupBySegments (sorted_segment_ids : List SegmentID)
  | UpdateEntryReplay (txn_id : TransactionID) (begin_ts commit_ts : TxnTimeStamp)
  deriving DecidableEq, Repr

def Op.isUpdateEntryReplay : Op → Bool
  | Op.UpdateEntryReplay _ _ _ => true
  | _ => false

/-- One method call on a table index entry. -/
def Op.apply (op : Op) (e : TableIndexEntry) (w : World) :
    Except Exception (TableIndexEntry × World) :=
  match op with
  | Op.GetOrCreateSegment segment_id => Except.ok (e.GetOrCreateSegment w segment_id).2
  | Op.CommitCreateIndex store commit_ts is_replay =>
    e.CommitCreateIndex w store commit_ts is_replay
  | Op.RollbackCreateIndex store => e.RollbackCreateIndex w store
  | Op.PopulateEntirely segment_entry =>
    match e.PopulateEntirely w segment_entry with
    | Except.error ex => Except.error ex
    | Except.ok r => Except.ok r.2
  | Op.CreateIndexPrepare unsealed_id segments prepare is_replay check_ts =>
    Except.ok (e.CreateIndexPrepare w unsealed_id segments prepare is_replay check_ts).2
  | Op.PickCleanupBySegments sorted_segment_ids =>
    Except.ok ((e.PickCleanupBySegments sorted_segment_ids ⟨[]⟩).1, w)
  | Op.UpdateEntryReplay txn_id begin_ts commit_ts =>
    Except.ok (e.UpdateEntryReplay txn_id begin_ts commit_ts, w)

/-- A sequence of method calls, stopping at the first exception. -/
def runOps : List Op → TableIndexEntry → World → Except Exception (TableIndexEntry × World)
  | [], e, w => Except.ok (e, w)
  | op :: rest, e, w =>
    match op.apply e w with
    | Except.error ex => Except.error ex
    | Except.ok r => runOps rest r.1 r.2

/-! ## JSON documents -/

/-- The values of `nlohmann::json` that the catalog writes. -/
inductive Json where
  | null
  | bool (b : Bool)
  | num (n : Nat)
  | str (s : String)
  | arr (elements : List Json)
  | obj (members : List (String × Json))

/-- The members of a JSON object; the order of the list carries no meaning. -/
abbrev Members := List (String × Json)

/-- Models `doc[key]` of a constant document: `none` if the key is absent. -/
def Members.get : Members → String → Option Json
  | [], _ => none
  | (k, v) :: rest, key => if k = key then some v else Members.get rest key

def Members.contains (ms : Members) (key : String) : Bool := (Members.get ms key).isSome

/-- Models `doc[key] = value`: replaces the member if the key exists, adds it
otherwise. -/
def Members.set : Members → String → Json → Members
  | [], key, value => [(key, value)]
  | (k, v) :: rest, key, value =>
    if k = key then (k, value) :: rest else (k, v) :: Members.set rest key value

/-- Models `value.emplace_back(x)`: a null value becomes a one-element array, an array
grows by one element. (On any other value the library throws; `Serialize`
only reaches the two cases above.) -/
def Json.emplace_back : Json → Json → Json
  | Json.null, x => Json.arr [x]
  | Json.arr xs, x => Json.arr (xs ++ [x])
  | j, _ => j

/-- Models `doc[key].emplace_back(x)`: `doc[key]` creates a null member if the key is
absent. -/
def Members.emplace_back (ms : Members) (key : String) (x : Json) : Members :=
  Members.set ms key (Json.emplace_back ((Members.get ms key).getD Json.null) x)

/-- The values a range-for over a JSON value visits. -/
def Json.elements : Json → List Json
  | Json.null => []
  | Json.arr xs => xs
  | Json.obj ms => ms.map Prod.snd
  | j => [j]

def Members.getNat (ms : Members) (key : String) : Except Exception Nat :=
  match Members.get ms key with
  | none => Except.error Exception.UndefinedBehaviour
  | some (Json.num n) => Except.ok n
  | some _ => Except.error Exception.JsonTypeError

def Members.getBool (ms : Members) (key : String) : Except Exception Bool :=
  match Members.get ms key with
  | none => Except.error Exception.UndefinedBehaviour
  | some (Json.bool b) => Except.ok b
  | some _ => Except.error Exception.JsonTypeError

def Members.getStr (ms : Members) (key : String) : Except Exception String :=
  match Members.get ms key with
  | none => Except.error Exception.UndefinedBehaviour
  | some (Json.str s) => Except.ok s
  | some _ => Except.error Exception.JsonTypeError

/-! ## Functions defined in other translation units -/

/-- The functions `table_index_entry.cpp` calls whose bodies are outside these
sources; the model is parametric in them. -/
structure Env where
  /-- Models `IndexBase::Serialize`. -/
  IndexBase_Serialize : IndexBase → Json
  /-- Models `IndexBase::Deserialize`. -/
  IndexBase_Deserialize : Json → IndexBase
  /-- Models `SegmentIndexEntry::Serialize`. -/
  SegmentIndexEntry_Serialize : SegmentIndexEntry → Json
  /-- Models `SegmentIndexEntry::Deserialize`. -/
  SegmentIndexEntry_Deserialize : Json → SegmentIndexEntry
  /-- Models `table_index_meta->GetTableEntry()->GetColumnDefByName(index_base->column_name())`. -/
  GetColumnDef : IndexBase → Option ColumnDef
  /-- Models `DetermineIndexDir(table_entry_dir, index_name)`. -/
  DetermineIndexDir : String → String → String
  /-- Models `IndexFileName(segment_id)`. -/
  IndexFileName : SegmentID → String
  /-- Models `IndexInfo::IndexTypeToString`. -/
  IndexTypeToString : IndexType → String

/-! ## Construction -/

/-- Modelled from the spec: the `commit_ts` with which the constructor of
`BaseEntry` (declared outside these sources) starts an entry; "`commit_ts = 0`
means uncommitted". -/
abbrev BaseEntry.initial_commit_ts : TxnTimeStamp := 0

/-- The constructor `TableIndexEntry::TableIndexEntry`: a live entry needs a
non-null `index_base` and looks up its column definition. -/
def TableIndexEntry.construct (env : Env) (index_base : Option IndexBase) (is_delete : Bool)
    (index_entry_dir : Option String) (txn_id : TransactionID) (begin_ts : TxnTimeStamp) :
    Except Exception TableIndexEntry :=
  if !is_delete then
    match index_base with
    | none => Except.error Exception.UndefinedBehaviour
    | some ib =>
      Except.ok ⟨txn_id, begin_ts, BaseEntry.initial_commit_ts, is_delete, index_base,
        index_entry_dir, env.GetColumnDef ib, [], none⟩
  else
    Except.ok ⟨txn_id, begin_ts, BaseEntry.initial_commit_ts, is_delete, index_base,
      index_entry_dir, none, [], none⟩

/-- Models `TableIndexEntry::NewTableIndexEntry`; `table_entry_dir` is
`*table_index_meta->GetTableEntry()->TableEntryDir()`. -/
def TableIndexEntry.NewTableIndexEntry (env : Env) (index_base : Option IndexBase)
    (is_delete : Bool) (table_entry_dir : String) (txn_id : TransactionID)
    (begin_ts : TxnTimeStamp) : Except Exception TableIndexEntry :=
  if is_delete then
    TableIndexEntry.construct env index_base is_delete none txn_id begin_ts
  else
    match index_base with
    | none => Except.error Exception.UndefinedBehaviour
    | some ib =>
      let index_dir :=
        if is_delete then "deleted" else env.DetermineIndexDir table_entry_dir ib.index_name_
      match TableIndexEntry.construct env index_base is_delete (some index_dir) txn_id begin_ts with
      | Except.error ex => Except.error ex
      | Except.ok table_index_entry =>
        if ib.column_names_.length ≠ 1 then
          RecoverableError (Status.SyntaxError "Currently, composite index doesn't supported.")
        else Except.ok table_index_entry

/-- Models `TableIndexEntry::ReplayTableIndexEntry`. -/
def TableIndexEntry.ReplayTableIndexEntry (env : Env) (is_delete : Bool)
    (index_base : Option IndexBase) (index_entry_dir : Option String) (txn_id : TransactionID)
    (begin_ts commit_ts : TxnTimeStamp) : Except Exception TableIndexEntry :=
  match TableIndexEntry.construct env index_base is_delete index_entry_dir txn_id begin_ts with
  | Except.error ex => Except.error ex
  | Except.ok table_index_entry => Except.ok { table_index_entry with commit_ts_ := commit_ts }

/-! ## Serialization -/

/-- Models `TableIndexEntry::Serialize`. Dereferencing a null `index_dir_` or
`index_base_` of a live entry is undefined. -/
def TableIndexEntry.Serialize (env : Env) (e : TableIndexEntry) (_max_commit_ts : TxnTimeStamp) :
    Except Exception Json :=
  let json : Members := []
  let json := Members.set json "txn_id" (Json.num e.txn_id_)
  let json := Members.set json "begin_ts" (Json.num e.begin_ts_)
  let json := Members.set json "commit_ts" (Json.num e.commit_ts_)
  let json := Members.set json "deleted" (Json.bool e.deleted_)
  if e.deleted_ then Except.ok (Json.obj json)
  else
    match e.index_dir_, e.index_base_ with
    | some index_dir, some index_base =>
      let json := Members.set json "index_dir" (Json.str index_dir)
      let json := Members.set json "index_base" (env.IndexBase_Serialize index_base)
      let segment_index_entry_candidates := e.index_by_segment_.map Prod.snd
      let json := segment_index_entry_candidates.foldl
        (fun json segment_index_entry =>
          Members.emplace_back json "segment_indexes"
            (env.SegmentIndexEntry_Serialize segment_index_entry))
        json
      Except.ok (Json.obj json)
    | _, _ => Except.error Exception.UndefinedBehaviour

/-- Models `TableIndexEntry::Deserialize`. -/
def TableIndexEntry.Deserialize (env : Env) (index_def_entry_json : Json) :
    Except Exception TableIndexEntry :=
  match index_def_entry_json with
  | Json.obj doc =>
    match Members.getNat doc "txn_id", Members.getNat doc "begin_ts",
        Members.getNat doc "commit_ts", Members.getBool doc "deleted" with
    | Except.ok txn_id, Except.ok begin_ts, Except.ok commit_ts, Except.ok deleted =>
      if deleted then
        match TableIndexEntry.ReplayTableIndexEntry env true none none txn_id begin_ts commit_ts with
        | Except.error ex => Except.error ex
        | Except.ok table_index_entry =>
          Except.ok { table_index_entry with commit_ts_ := commit_ts, begin_ts_ := begin_ts }
      else
        match Members.getStr doc "index_dir", Members.get doc "index_base" with
        | Except.ok index_dir, some index_base_json =>
          let index_base := env.IndexBase_Deserialize index_base_json
          match TableIndexEntry.ReplayTableIndexEntry env false (some index_base) (some index_dir)
              txn_id begin_ts commit_ts with
          | Except.error ex => Except.error ex
          | Except.ok table_index_entry =>
            let table_index_entry :=
              { table_index_entry with commit_ts_ := commit_ts, begin_ts_ := begin_ts }
            if Members.contains doc "segment_indexes" then
              let segments := ((Members.get doc "segment_indexes").getD Json.null).elements
              Except.ok { table_index_entry with
                index_by_segment_ := segments.foldl
                  (fun m segment_index_entry_json =>
                    let segment_index_entry :=
                      env.SegmentIndexEntry_Deserialize segment_index_entry_json
                    Map.emplace m segment_index_entry.segment_id segment_index_entry)
                  table_index_entry.index_by_segment_ }
            else Except.ok table_index_entry
        | Except.error ex, _ => Except.error ex
        | _, none => Except.error Exception.UndefinedBehaviour
    | Except.error ex, _, _, _ => Except.error ex
    | _, Except.error ex, _, _ => Except.error ex
    | _, _, Except.error ex, _ => Except.error ex
    | _, _, _, Except.error ex => Except.error ex
  | _ => Except.error Exception.JsonTypeError

/-! ## File workers -/

/-- The dynamic type of a `CreateIndexParam` and the fields the subclass adds. -/
inductive CreateIndexParamKind where
  | Base
  | AnnIVFFlat (row_count : Nat)
  | Hnsw (max_element : Nat)
  | Secondary (row_count part_capacity : Nat)
  deriving DecidableEq, Repr

structure CreateIndexParam where
  index_base_ : IndexBase
  column_def_ : ColumnDef
  kind : CreateIndexParamKind
  deriving DecidableEq, Repr

/-- The three file worker classes with their constructor arguments. -/
inductive IndexFileWorker where
  | AnnIVFFlat_f32 (index_dir : Option String) (file_name : String) (index_base : IndexBase)
      (column_def : ColumnDef) (row_count : Nat)
  | Hnsw (index_dir : Option String) (file_name : String) (index_base : IndexBase)
      (column_def : ColumnDef) (max_element : Nat)
  | Secondary (index_dir : Option String) (file_name : String) (index_base : IndexBase)
      (column_def : ColumnDef) (worker_id row_count part_capacity : Nat)
  deriving DecidableEq, Repr

def IndexFileWorker.file_name : IndexFileWorker → String
  | IndexFileWorker.AnnIVFFlat_f32 _ n _ _ _ => n
  | IndexFileWorker.Hnsw _ n _ _ _ => n
  | IndexFileWorker.Secondary _ n _ _ _ _ _ => n

/-- The loop `for (u32 i = 1; i <= part_num; ++i)` of `CreateFileWorker`: the
first argument counts the iterations that remain, `i` is the loop variable. -/
def CreateFileWorker.part_loop (mk : Nat → IndexFileWorker) :
    Nat → Nat → List (Option IndexFileWorker) → List (Option IndexFileWorker)
  | 0, _, vector_file_worker => vector_file_worker
  | n + 1, i, vector_file_worker =>
    CreateFileWorker.part_loop mk n (i + 1) (vector_file_worker.set i (some (mk i)))

/-- Models `vector.resize(n)`: new slots hold null pointers. -/
def resize (v : List (Option IndexFileWorker)) (n : Nat) : List (Option IndexFileWorker) :=
  v.take n ++ List.replicate (n - v.length) none

/-- The tail of `CreateFileWorker`: a null worker 0 is an unrecoverable error. -/
def CreateFileWorker.finish (vector_file_worker : List (Option IndexFileWorker)) :
    Except Exception (List (Option IndexFileWorker)) :=
  match vector_file_worker with
  | [] => Except.error Exception.UndefinedBehaviour
  | none :: _ => UnrecoverableError "Failed to create index file worker"
  | some _ :: _ => Except.ok vector_file_worker

/-- Models `TableIndexEntry::CreateFileWorker`. `bits` is the width of the unsigned
type in which `row_count + part_capacity - 1` is computed (the fields of
`CreateSecondaryIndexParam` are declared outside these sources); `part_num` is a
`u32`. -/
def TableIndexEntry.CreateFileWorker (env : Env) (bits : Nat) (e : TableIndexEntry)
    (param : CreateIndexParam) (segment_id : SegmentID) :
    Except Exception (List (Option IndexFileWorker)) :=
  let vector_file_worker : List (Option IndexFileWorker) := []
  let index_base := param.index_base_
  let column_def := param.column_def_
  if index_base.index_type_ = IndexType.kFullText then Except.ok vector_file_worker
  else
    let file_name := env.IndexFileName segment_id
    let vector_file_worker := resize vector_file_worker 1
    match index_base.index_type_ with
    | IndexType.kIVFFlat =>
      match column_def.elem_type with
      | none => Except.error Exception.UndefinedBehaviour
      | some EmbeddingDataType.kElemFloat =>
        match param.kind with
        | CreateIndexParamKind.AnnIVFFlat row_count =>
          CreateFileWorker.finish (vector_file_worker.set 0
            (some (IndexFileWorker.AnnIVFFlat_f32 e.index_dir_ file_name index_base column_def
              row_count)))
        | _ => Except.error Exception.UndefinedBehaviour
      | some _ => UnrecoverableError "Create IVF Flat index: Unsupported element type."
    | IndexType.kHnsw =>
      match param.kind with
      | CreateIndexParamKind.Hnsw max_element =>
        CreateFileWorker.finish (vector_file_worker.set 0
          (some (IndexFileWorker.Hnsw e.index_dir_ file_name index_base column_def max_element)))
      | _ => Except.error Exception.UndefinedBehaviour
    | IndexType.kFullText => CreateFileWorker.finish vector_file_worker
    | IndexType.kSecondary =>
      match param.kind with
      | CreateIndexParamKind.Secondary row_count part_capacity =>
        if part_capacity = 0 then Except.error Exception.UndefinedBehaviour
        else
          let part_num := (((row_count + part_capacity - 1) % 2 ^ bits) / part_capacity) % 2 ^ 32
          let vector_file_worker := resize vector_file_worker ((part_num + 1) % 2 ^ 32)
          if vector_file_worker.length = 0 then Except.error Exception.UndefinedBehaviour
          else
            let vector_file_worker := vector_file_worker.set 0
              (some (IndexFileWorker.Secondary e.index_dir_ file_name index_base column_def 0
                row_count part_capacity))
            let vector_file_worker := CreateFileWorker.part_loop
              (fun i => IndexFileWorker.Secondary e.index_dir_
                (file_name ++ "_part" ++ toString i) index_base column_def i row_count
                part_capacity)
              part_num 1 vector_file_worker
            CreateFileWorker.finish vector_file_worker
      | _ => Except.error Exception.UndefinedBehaviour
    | IndexType.kInvalid =>
      UnrecoverableError
        ("File worker isn't implemented: " ++ env.IndexTypeToString index_base.index_type_)

/-! ## Sample values used to run the model -/

def sample_index_base : IndexBase := ⟨IndexType.kHnsw, "idx", ["c"]⟩

def sample_fulltext_base : IndexBase := ⟨IndexType.kFullText, "ft", ["body"]⟩

/-- A live table index entry with the given commit timestamp and segment map. -/
def sample_entry (commit_ts : TxnTimeStamp) (m : Map SegmentIndexEntry) : TableIndexEntry :=
  ⟨7, 3, commit_ts, false, some sample_index_base, some "/tbl/idx", none, m, none⟩

/-- A sample environment: an index base is written as its name, a segment
index entry as its segment id. -/
def sample_env : Env where
  IndexBase_Serialize := fun ib => Json.str ib.index_name_
  IndexBase_Deserialize := fun j =>
    match j with
    | Json.str name => ⟨IndexType.kHnsw, name, ["c"]⟩
    | _ => ⟨IndexType.kInvalid, "", []⟩
  SegmentIndexEntry_Serialize := fun s => Json.num s.segment_id
  SegmentIndexEntry_Deserialize := fun j =>
    match j with
    | Json.num n => ⟨100 + n, n⟩
    | _ => ⟨0, 0⟩
  GetColumnDef := fun _ => none
  DetermineIndexDir := fun table_dir index_name => table_dir ++ "/" ++ index_name
  IndexFileName := fun segment_id => toString segment_id
  IndexTypeToString := fun _ => "Invalid"

def sample_secondary_param (row_count part_capacity : Nat) : CreateIndexParam :=
  ⟨⟨IndexType.kSecondary, "sec", ["c"]⟩, ⟨"c", none⟩,
    CreateIndexParamKind.Secondary row_count part_capacity⟩

/-! ## `CreateIndexDo` and `Cleanup` of a table index entry -/

/-- Models `Status::ok()`. -/
def Status.ok (s : Status) : Bool := s.code == ErrorCode.kOk

/-- The loop of `TableIndexEntry::CreateIndexDo` over `index_by_segment_`.
`create_index_idxes` maps a segment id to the value of its progress counter and
`segment_CreateIndexDo` is the status which `SegmentIndexEntry::CreateIndexDo`
(defined outside these sources) returns for an entry and its counter. -/
def CreateIndexDo.loop (segment_CreateIndexDo : SegmentIndexEntry → Nat → Status)
    (create_index_idxes : Map Nat) : Map SegmentIndexEntry → World → Except Exception (Status × World)
  | [], w => Except.ok (Status.OK, w)
  | (segment_id, segment_index_entry) :: rest, w =>
    match Map.find create_index_idxes segment_id with
    | none => Except.error Exception.OutOfRange
    | some create_index_idx =>
      let w1 := w.emit (Event.CreateIndexDo segment_index_entry create_index_idx)
      let status := segment_CreateIndexDo segment_index_entry create_index_idx
      if !status.ok then Except.ok (status, w1)
      else CreateIndexDo.loop segment_CreateIndexDo create_index_idxes rest w1

/-- Models `TableIndexEntry::CreateIndexDo`. -/
def TableIndexEntry.CreateIndexDo (segment_CreateIndexDo : SegmentIndexEntry → Nat → Status)
    (e : TableIndexEntry) (w : World) (create_index_idxes : Map Nat) :
    Except Exception (Status × World) :=
  match e.index_base_ with
  | none => Except.error Exception.UndefinedBehaviour
  | some index_base =>
    if index_base.column_names_.length ≠ 1 then
      RecoverableError (Status.NotSupport "Not implemented")
    else
      CreateIndexDo.loop segment_CreateIndexDo create_index_idxes e.index_by_segment_ w

/-- Modelled from the spec: `LocalFileSystem` is defined outside these sources
("low-level filesystem wrappers"); the file system is the list of its files
with their bytes and the list of its directories. -/
structure LocalFileSystem where
  files : List (String × List Nat)
  dirs : List String
  deriving DecidableEq, Repr

/-- Modelled from the spec: `LocalFileSystem::Exists(path)`. -/
def LocalFileSystem.Exists (fs : LocalFileSystem) (path : String) : Bool :=
  decide (path ∈ fs.dirs) || decide (path ∈ fs.files.map Prod.fst)

/-- A path is `dir` itself or lies below it. -/
def LocalFileSystem.within (dir path : String) : Bool :=
  path == dir || path.startsWith (dir ++ "/")

/-- Modelled from the spec: `LocalFileSystem::DeleteDirectory(dir)` "deletes
the full on-disk directory": the directory and everything below it. -/
def LocalFileSystem.DeleteDirectory (fs : LocalFileSystem) (dir : String) : LocalFileSystem :=
  { files := fs.files.filter (fun f => !LocalFileSystem.within dir f.1),
    dirs := fs.dirs.filter (fun d => !LocalFileSystem.within dir d) }

/-- Modelled from the spec: `SegmentIndexEntry::Cleanup` (defined outside these
sources) "releases buffer handles and removes files; idempotent". The call is
recorded in the trace and the files owned by the entry, `owned_files`, are
removed. -/
def SegmentIndexEntry.Cleanup (owned_files : SegmentIndexEntry → List String)
    (entry : SegmentIndexEntry) (w : World) (fs : LocalFileSystem) : World × LocalFileSystem :=
  (w.emit (Event.Cleanup entry),
    { fs with files := fs.files.filter (fun f => decide (f.1 ∉ owned_files entry)) })

/-- The loop of `TableIndexEntry::Cleanup` over `index_by_segment_`. -/
def Cleanup.loop (owned_files : SegmentIndexEntry → List String) :
    Map SegmentIndexEntry → World → LocalFileSystem → World × LocalFileSystem
  | [], w, fs => (w, fs)
  | (_, segment_index_entry) :: rest, w, fs =>
    let r := SegmentIndexEntry.Cleanup owned_files segment_index_entry w fs
    Cleanup.loop owned_files rest r.1 r.2

/-- Models `TableIndexEntry::Cleanup`. -/
def TableIndexEntry.Cleanup (owned_files : SegmentIndexEntry → List String)
    (e : TableIndexEntry) (w : World) (fs : LocalFileSystem) :
    Except Exception (World × LocalFileSystem) :=
  if e.deleted_ then Except.ok (w, fs)
  else
    let r := Cleanup.loop owned_files e.index_by_segment_ w fs
    match e.index_dir_ with
    | none => Except.error Exception.UndefinedBehaviour
    | some index_dir =>
      if !r.2.Exists index_dir then Except.ok r
      else Except.ok (r.1, r.2.DeleteDirectory index_dir)

/-! ## `PostingWriter` (`src/storage/invertedindex/posting_writer.cpp`) -/

/-- The part of `PostingFormatOption` which the posting writer reads itself:
`HasPositionList()`; `flags` stands for the rest of the option. -/
structure PostingFormatOption where
  flags : Nat
  HasPositionList : Bool
  deriving DecidableEq, Repr

/-- Modelled from the spec: `FileWriter` is defined outside these sources; a
sequential writer, given by the bytes written so far. -/
structure FileWriter where
  written : List Nat
  deriving DecidableEq, Repr

/-- Modelled from the spec: `FileWriter::TotalWrittenBytes()`. -/
def FileWriter.TotalWrittenBytes (file_writer : FileWriter) : Nat := file_writer.written.length

/-- Modelled from the spec: `FileReader` is defined outside these sources; a
sequential reader, given by the bytes not yet read. -/
structure FileReader where
  rest : List Nat
  deriving DecidableEq, Repr

structure TermMeta where
  doc_start_ : Nat
  pos_start_ : Nat
  pos_end_ : Nat
  deriving DecidableEq, Repr

/-- The methods of `DocListEncoder` (state `D`) and `PositionListEncoder`
(state `P`) which the posting writer calls; both classes are defined outside
these sources. `Dump` is given by the bytes it appends to the file writer,
`Load` by the new encoder state and the reader it leaves. -/
structure Encoders (D P : Type) where
  new_DocListEncoder : PostingFormatOption → D
  new_PositionListEncoder : PostingFormatOption → P
  doc_Dump : D → Bool → List Nat
  pos_Dump : P → Bool → List Nat
  doc_Load : D → FileReader → D × FileReader
  pos_Load : P → FileReader → P × FileReader
  doc_Flush : D → D
  pos_Flush : P → P

/-- The encoders a `PostingWriter` owns; `none` is the null
`position_list_encoder_`. -/
structure PostingWriter (D P : Type) where
  posting_option_ : PostingFormatOption
  position_list_encoder_ : Option P
  doc_list_encoder_ : D

/-- The constructor `PostingWriter::PostingWriter`. -/
def PostingWriter.new {D P : Type} (enc : Encoders D P) (posting_option : PostingFormatOption) :
    PostingWriter D P :=
  { posting_option_ := posting_option,
    position_list_encoder_ :=
      if posting_option.HasPositionList then some (enc.new_PositionListEncoder posting_option)
      else none,
    doc_list_encoder_ := enc.new_DocListEncoder posting_option }

/-- Models `PostingWriter::Dump`: the file writer and the term meta after the
call. -/
def PostingWriter.Dump {D P : Type} (enc : Encoders D P) (pw : PostingWriter D P)
    (file_writer : FileWriter) (term_meta : TermMeta) (spill : Bool) : FileWriter × TermMeta :=
  let term_meta := { term_meta with doc_start_ := file_writer.TotalWrittenBytes }
  let file_writer : FileWriter :=
    ⟨file_writer.written ++ enc.doc_Dump pw.doc_list_encoder_ spill⟩
  match pw.position_list_encoder_ with
  | some position_list_encoder =>
    let term_meta := { term_meta with pos_start_ := file_writer.TotalWrittenBytes }
    let file_writer : FileWriter :=
      ⟨file_writer.written ++ enc.pos_Dump position_list_encoder spill⟩
    let term_meta := { term_meta with pos_end_ := file_writer.TotalWrittenBytes }
    (file_writer, term_meta)
  | none => (file_writer, term_meta)

/-- Models `PostingWriter::Load`. -/
def PostingWriter.Load {D P : Type} (enc : Encoders D P) (pw : PostingWriter D P)
    (file_reader : FileReader) : PostingWriter D P × FileReader :=
  let r := enc.doc_Load pw.doc_list_encoder_ file_reader
  match pw.position_list_encoder_ with
  | some position_list_encoder =>
    let r2 := enc.pos_Load position_list_encoder r.2
    ({ pw with doc_list_encoder_ := r.1, position_list_encoder_ := some r2.1 }, r2.2)
  | none => ({ pw with doc_list_encoder_ := r.1 }, r.2)

/-- Models `PostingWriter::EndSegment`. -/
def PostingWriter.EndSegment {D P : Type} (enc : Encoders D P) (pw : PostingWriter D P) :
    PostingWriter D P :=
  { pw with
    doc_list_encoder_ := enc.doc_Flush pw.doc_list_encoder_,
    position_list_encoder_ := pw.position_list_encoder_.map enc.pos_Flush }

/-- Models `PostingWriter::GetDumpLength`, a `u32`. -/
def PostingWriter.GetDumpLength {D P : Type} (doc_GetDumpLength : D → Nat)
    (pos_GetDumpLength : P → Nat) (pw : PostingWriter D P) : Nat :=
  let length := doc_GetDumpLength pw.doc_list_encoder_ % 2 ^ 32
  match pw.position_list_encoder_ with
  | some position_list_encoder => (length + pos_GetDumpLength position_list_encoder) % 2 ^ 32
  | none => length

/-- Sample encoders whose state is the list of bytes they hold. -/
def sample_encoders : Encoders (List Nat) (List Nat) where
  new_DocListEncoder := fun _ => []
  new_PositionListEncoder := fun _ => []
  doc_Dump := fun d _ => d.length :: d
  pos_Dump := fun p _ => p.length :: p
  doc_Load := fun _ r => ((r.rest.drop 1).take (r.rest.headD 0),
    ⟨(r.rest.drop 1).drop (r.rest.headD 0)⟩)
  pos_Load := fun _ r => ((r.rest.drop 1).take (r.rest.headD 0),
    ⟨(r.rest.drop 1).drop (r.rest.headD 0)⟩)
  doc_Flush := fun d => d
  pos_Flush := fun p => p

/-! ## The Thrift front end (`src/network/thrift_server.cpp`): enumerations -/

/-- Modelled from the spec: the `Status` factories below are defined outside
these sources; each carries the error kind of its name ("Error kinds (closed
set)"). The wording of a message built there is not modelled: a message is the
text the caller passes, if any. -/
def Status.SessionNotFound (_session_id : Int) : Status := ⟨ErrorCode.kSessionNotFound, ""⟩

def Status.InvalidConflictType : Status := ⟨ErrorCode.kInvalidConflictType, ""⟩
def Status.InvalidDataType : Status := ⟨ErrorCode.kInvalidDataType, ""⟩
def Status.InvalidConstraintType : Status := ⟨ErrorCode.kInvalidConstraintType, ""⟩
def Status.InvalidIndexType : Status := ⟨ErrorCode.kInvalidIndexType, ""⟩
def Status.InvalidKnnDistanceType : Status := ⟨ErrorCode.kInvalidKnnDistanceType, ""⟩
def Status.InvalidEmbeddingDataType : Status := ⟨ErrorCode.kInvalidEmbeddingDataType, ""⟩
def Status.InvalidConstantType : Status := ⟨ErrorCode.kInvalidConstantType, ""⟩
def Status.InvalidParsedExprType : Status := ⟨ErrorCode.kInvalidParsedExprType, ""⟩
def Status.EmptySelectFields : Status := ⟨ErrorCode.kEmptySelectFields, ""⟩
def Status.InsertWithoutValues : Status := ⟨ErrorCode.kInsertWithoutValues, ""⟩
def Status.ImportFileFormatError (msg : String) : Status := ⟨ErrorCode.kImportFileFormatError, msg⟩
def Status.ColumnCountMismatch (msg : String) : Status := ⟨ErrorCode.kColumnCountMismatch, msg⟩

def Status.InvalidParameterValue (_name _value : String) (msg : String) : Status :=
  ⟨ErrorCode.kInvalidParameterValue, msg⟩

/-- Conversion of an `i64` to a `u64` (the key type of the session map). -/
def toU64 (x : Int) : Nat := (x % 2 ^ 64).toNat

/-- Conversion of a `u64` to an `i64` (the type of the session id on the wire). -/
def toI64 (n : Nat) : Int := if n % 2 ^ 64 < 2 ^ 63 then (n % 2 ^ 64 : Nat) else (n % 2 ^ 64 : Nat) - 2 ^ 64

namespace infinity_thrift_rpc

/-! The enumerations of the wire protocol. In each of them `other` stands for
every value which the `switch` of the conversion function sends to `default`. -/

inductive CreateConflict where
  | Ignore | Error | Replace | other (value : Int)
  deriving DecidableEq, Repr

inductive DropConflict where
  | Ignore | Error | other (value : Int)
  deriving DecidableEq, Repr

inductive CopyFileType where
  | CSV | JSON | JSONL | FVECS | other (value : Int)
  deriving DecidableEq, Repr

inductive ExplainType where
  | Analyze | Ast | Physical | Pipeline | UnOpt | Opt | Fragment | other (value : Int)
  deriving DecidableEq, Repr

inductive LogicType where
  | Boolean | TinyInt | SmallInt | Integer | BigInt | HugeInt | Decimal | Float | Double
  | Embedding | Varchar | other (value : Int)
  deriving DecidableEq, Repr

inductive ElementType where
  | ElementBit | ElementInt8 | ElementInt16 | ElementInt32 | ElementInt64 | ElementFloat32
  | ElementFloat64 | other (value : Int)
  deriving DecidableEq, Repr

inductive Constraint where
  | NotNull | Null | PrimaryKey | Unique | other (value : Int)
  deriving DecidableEq, Repr

inductive IndexType where
  | IVFFlat | Hnsw | FullText | other (value : Int)
  deriving DecidableEq, Repr

inductive KnnDistanceType where
  | L2 | Cosine | InnerProduct | Hamming | other (value : Int)
  deriving DecidableEq, Repr

inductive LiteralType where
  | Boolean | Double | String | Int64 | Null | IntegerArray | DoubleArray | other (value : Int)
  deriving DecidableEq, Repr

inductive ColumnType where
  | ColumnBool | ColumnInt8 | ColumnInt16 | ColumnInt32 | ColumnInt64 | ColumnFloat32
  | ColumnFloat64 | ColumnVarchar | ColumnEmbedding | ColumnRowID | ColumnInvalid
  deriving DecidableEq, Repr

end infinity_thrift_rpc

inductive ConflictType where
  | kInvalid | kIgnore | kError | kReplace
  deriving DecidableEq, Repr

inductive CopyFileType where
  | kCSV | kJSON | kJSONL | kFVECS | kInvalid
  deriving DecidableEq, Repr

inductive ExplainType where
  | kAnalyze | kAst | kUnOpt | kOpt | kPhysical | kPipeline | kFragment | kInvalid
  deriving DecidableEq, Repr

inductive LogicalType where
  | kBoolean | kTinyInt | kSmallInt | kInteger | kBigInt | kHugeInt | kDecimal | kFloat
  | kDouble | kVarchar | kEmbedding | kRowID | kInvalid
  deriving DecidableEq, Repr

inductive ConstraintType where
  | kNull | kNotNull | kPrimaryKey | kUnique | kInvalid
  deriving DecidableEq, Repr

inductive KnnDistanceType where
  | kInvalid | kL2 | kCosine | kInnerProduct | kHamming
  deriving DecidableEq, Repr

inductive LiteralType where
  | kBoolean | kDouble | kString | kInteger | kNull | kIntegerArray | kDoubleArray
  deriving DecidableEq, Repr

/-- Models `GetCopyFileType`. -/
def GetCopyFileType (copy_file_type : infinity_thrift_rpc.CopyFileType) : CopyFileType × Status :=
  match copy_file_type with
  | infinity_thrift_rpc.CopyFileType.CSV => (CopyFileType.kCSV, Status.OK)
  | infinity_thrift_rpc.CopyFileType.JSON => (CopyFileType.kJSON, Status.OK)
  | infinity_thrift_rpc.CopyFileType.JSONL => (CopyFileType.kJSONL, Status.OK)
  | infinity_thrift_rpc.CopyFileType.FVECS => (CopyFileType.kFVECS, Status.OK)
  | infinity_thrift_rpc.CopyFileType.other _ =>
    (CopyFileType.kInvalid, Status.ImportFileFormatError "Not implemented yet")

/-- Models `GetEmbeddingDataTypeFromProto`. -/
def GetEmbeddingDataTypeFromProto (type : infinity_thrift_rpc.ElementType) : EmbeddingDataType :=
  match type with
  | infinity_thrift_rpc.ElementType.ElementBit => EmbeddingDataType.kElemBit
  | infinity_thrift_rpc.ElementType.ElementInt8 => EmbeddingDataType.kElemInt8
  | infinity_thrift_rpc.ElementType.ElementInt16 => EmbeddingDataType.kElemInt16
  | infinity_thrift_rpc.ElementType.ElementInt32 => EmbeddingDataType.kElemInt32
  | infinity_thrift_rpc.ElementType.ElementInt64 => EmbeddingDataType.kElemInt64
  | infinity_thrift_rpc.ElementType.ElementFloat32 => EmbeddingDataType.kElemFloat
  | infinity_thrift_rpc.ElementType.ElementFloat64 => EmbeddingDataType.kElemDouble
  | infinity_thrift_rpc.ElementType.other _ => EmbeddingDataType.kElemInvalid

/-- Models `GetIndexTypeFromProto`. -/
def GetIndexTypeFromProto (type : infinity_thrift_rpc.IndexType) : IndexType :=
  match type with
  | infinity_thrift_rpc.IndexType.IVFFlat => IndexType.kIVFFlat
  | infinity_thrift_rpc.IndexType.Hnsw => IndexType.kHnsw
  | infinity_thrift_rpc.IndexType.FullText => IndexType.kFullText
  | infinity_thrift_rpc.IndexType.other _ => IndexType.kInvalid

/-- Models `GetConstraintTypeFromProto`. -/
def GetConstraintTypeFromProto (constraint : infinity_thrift_rpc.Constraint) : ConstraintType :=
  match constraint with
  | infinity_thrift_rpc.Constraint.NotNull => ConstraintType.kNotNull
  | infinity_thrift_rpc.Constraint.Null => ConstraintType.kNull
  | infinity_thrift_rpc.Constraint.PrimaryKey => ConstraintType.kPrimaryKey
  | infinity_thrift_rpc.Constraint.Unique => ConstraintType.kUnique
  | infinity_thrift_rpc.Constraint.other _ => ConstraintType.kInvalid

/-- Models `GetDistanceTypeFormProto`. -/
def GetDistanceTypeFormProto (type : infinity_thrift_rpc.KnnDistanceType) : KnnDistanceType :=
  match type with
  | infinity_thrift_rpc.KnnDistanceType.L2 => KnnDistanceType.kL2
  | infinity_thrift_rpc.KnnDistanceType.Cosine => KnnDistanceType.kCosine
  | infinity_thrift_rpc.KnnDistanceType.InnerProduct => KnnDistanceType.kInnerProduct
  | infinity_thrift_rpc.KnnDistanceType.Hamming => KnnDistanceType.kHamming
  | infinity_thrift_rpc.KnnDistanceType.other _ => KnnDistanceType.kInvalid

/-- Models `GetExplainTypeFromProto`. -/
def GetExplainTypeFromProto (type : infinity_thrift_rpc.ExplainType) : ExplainType :=
  match type with
  | infinity_thrift_rpc.ExplainType.Analyze => ExplainType.kAnalyze
  | infinity_thrift_rpc.ExplainType.Ast => ExplainType.kAst
  | infinity_thrift_rpc.ExplainType.Physical => ExplainType.kPhysical
  | infinity_thrift_rpc.ExplainType.Pipeline => ExplainType.kPipeline
  | infinity_thrift_rpc.ExplainType.UnOpt => ExplainType.kUnOpt
  | infinity_thrift_rpc.ExplainType.Opt => ExplainType.kOpt
  | infinity_thrift_rpc.ExplainType.Fragment => ExplainType.kFragment
  | infinity_thrift_rpc.ExplainType.other _ => ExplainType.kInvalid

/-! ## Column definitions of `CreateTable` -/

/-- The result of `EmbeddingInfo::Make(embedding_type, dimension)`. -/
structure EmbeddingInfo where
  type : EmbeddingDataType
  dimension : Int
  deriving DecidableEq, Repr

/-- The internal `DataType`: a logical type and, for an embedding, its type
info. -/
structure DataType where
  type : LogicalType
  type_info : Option EmbeddingInfo
  deriving DecidableEq, Repr

namespace infinity_thrift_rpc

structure EmbeddingType where
  dimension : Int
  element_type : ElementType
  deriving DecidableEq, Repr

/-- The wire `DataType`; `embedding_type` is `physical_type.embedding_type`. -/
structure DataType where
  logic_type : LogicType
  embedding_type : EmbeddingType
  deriving DecidableEq, Repr

structure ColumnDef where
  id : Int
  name : String
  data_type : DataType
  constraints : List Constraint
  deriving DecidableEq, Repr

end infinity_thrift_rpc

/-- The column definition built by `new ColumnDef(id, type, name, constraints)`
for `CreateTable`; `constraints` is the `HashSet`, as the list of its distinct
elements. -/
structure TableColumnDef where
  id : Int
  column_type : DataType
  name : String
  constraints : List ConstraintType
  deriving DecidableEq, Repr

/-- Models `GetColumnTypeFromProto`. -/
def GetColumnTypeFromProto (type : infinity_thrift_rpc.DataType) : DataType :=
  match type.logic_type with
  | infinity_thrift_rpc.LogicType.Boolean => ⟨LogicalType.kBoolean, none⟩
  | infinity_thrift_rpc.LogicType.TinyInt => ⟨LogicalType.kTinyInt, none⟩
  | infinity_thrift_rpc.LogicType.SmallInt => ⟨LogicalType.kSmallInt, none⟩
  | infinity_thrift_rpc.LogicType.Integer => ⟨LogicalType.kInteger, none⟩
  | infinity_thrift_rpc.LogicType.BigInt => ⟨LogicalType.kBigInt, none⟩
  | infinity_thrift_rpc.LogicType.HugeInt => ⟨LogicalType.kHugeInt, none⟩
  | infinity_thrift_rpc.LogicType.Decimal => ⟨LogicalType.kDecimal, none⟩
  | infinity_thrift_rpc.LogicType.Float => ⟨LogicalType.kFloat, none⟩
  | infinity_thrift_rpc.LogicType.Double => ⟨LogicalType.kDouble, none⟩
  | infinity_thrift_rpc.LogicType.Embedding =>
    let embedding_type := GetEmbeddingDataTypeFromProto type.embedding_type.element_type
    if embedding_type = EmbeddingDataType.kElemInvalid then ⟨LogicalType.kInvalid, none⟩
    else ⟨LogicalType.kEmbedding, some ⟨embedding_type, type.embedding_type.dimension⟩⟩
  | infinity_thrift_rpc.LogicType.Varchar => ⟨LogicalType.kVarchar, none⟩
  | infinity_thrift_rpc.LogicType.other _ => ⟨LogicalType.kInvalid, none⟩

/-- The loop of `GetColumnDefFromProto` over the wire constraints: `none` when a
constraint is invalid, otherwise the set built by `constraints.insert`. -/
def GetColumnDefFromProto.constraints :
    List infinity_thrift_rpc.Constraint → List ConstraintType → Option (List ConstraintType)
  | [], acc => some acc
  | constraint :: rest, acc =>
    let type := GetConstraintTypeFromProto constraint
    if type = ConstraintType.kInvalid then none
    else GetColumnDefFromProto.constraints rest (if type ∈ acc then acc else acc ++ [type])

/-- Models `GetColumnDefFromProto`: the returned pointer (`none` is `nullptr`)
and status. -/
def GetColumnDefFromProto (column_def : infinity_thrift_rpc.ColumnDef) :
    Option TableColumnDef × Status :=
  let column_def_data_type_ptr := GetColumnTypeFromProto column_def.data_type
  if column_def_data_type_ptr.type = LogicalType.kInvalid then (none, Status.InvalidDataType)
  else
    match GetColumnDefFromProto.constraints column_def.constraints [] with
    | none => (none, Status.InvalidConstraintType)
    | some constraints =>
      (some ⟨column_def.id, column_def_data_type_ptr, column_def.name, constraints⟩, Status.OK)

/-! ## Expressions: the wire form and the parsed form -/

/-- An IEEE double, by its bit pattern. -/
structure F64 where
  bits : Nat
  deriving DecidableEq, Repr

/-- An IEEE float, by its bit pattern. -/
structure F32 where
  bits : Nat
  deriving DecidableEq, Repr

structure InitParameter where
  param_name_ : String
  param_value_ : String
  deriving DecidableEq, Repr

namespace infinity_thrift_rpc

structure ColumnExpr where
  column_name : List String
  star : Bool
  deriving DecidableEq, Repr

structure ConstantExpr where
  literal_type : LiteralType
  bool_value : Bool
  i64_value : Int
  f64_value : F64
  str_value : String
  i64_array_value : List Int
  f64_array_value : List F64
  deriving DecidableEq, Repr

/-- The wire `EmbeddingData`: a field is `some` when its `__isset` flag is set. -/
structure EmbeddingData where
  i8_array_value : Option (List Int)
  i16_array_value : Option (List Int)
  i32_array_value : Option (List Int)
  i64_array_value : Option (List Int)
  f32_array_value : Option (List F64)
  f64_array_value : Option (List F64)
  deriving DecidableEq, Repr

structure InitParameter where
  param_name : String
  param_value : String
  deriving DecidableEq, Repr

structure KnnExpr where
  column_expr : ColumnExpr
  embedding_data : EmbeddingData
  embedding_data_type : ElementType
  distance_type : KnnDistanceType
  topn : Int
  opt_params : List InitParameter
  deriving DecidableEq, Repr

structure MatchExpr where
  fields : String
  matching_text : String
  options_text : String
  deriving DecidableEq, Repr

structure FusionExpr where
  method : String
  options_text : String
  deriving DecidableEq, Repr

mutual
/-- The wire `ParsedExpr`: the six fields of `expr.type`, each `some` (or `set`)
when its `__isset` flag is set. -/
inductive ParsedExpr where
  | mk (column_expr : Option ColumnExpr) (constant_expr : Option ConstantExpr)
      (function_expr : FunctionExprOpt) (knn_expr : Option KnnExpr)
      (match_expr_ : Option MatchExpr) (fusion_expr : Option FusionExpr)
/-- The pointer `expr.type.function_expr`, with its `__isset` flag. -/
inductive FunctionExprOpt where
  | unset
  | set (function_expr : FunctionExpr)
/-- The wire `FunctionExpr`. -/
inductive FunctionExpr where
  | mk (function_name : String) (arguments : ParsedExprList)
/-- The argument vector of a wire `FunctionExpr`. -/
inductive ParsedExprList where
  | nil
  | cons (head : ParsedExpr) (tail : ParsedExprList)
end

/-- The wire `SearchExpr`. -/
structure SearchExpr where
  knn_exprs : List KnnExpr
  match_exprs : List MatchExpr
  fusion_expr : Option FusionExpr

structure UpdateExpr where
  column_name : String
  value : ParsedExpr

structure IndexInfo where
  column_name : String
  index_type : IndexType
  index_param_list : List InitParameter
  deriving DecidableEq, Repr

end infinity_thrift_rpc

structure ColumnExpr where
  names_ : List String
  star_ : Bool
  deriving DecidableEq, Repr

/-- A `ConstantExpr`: `new ConstantExpr(literal_type)` followed by the
assignment of the field of that literal type. -/
structure ConstantExpr where
  literal_type_ : LiteralType
  bool_value_ : Bool := false
  double_value_ : F64 := ⟨0⟩
  str_value_ : Option String := none
  integer_value_ : Int := 0
  long_array_ : List Int := []
  double_array_ : List F64 := []
  deriving DecidableEq, Repr

/-- The array behind `embedding_data_ptr_`. -/
inductive EmbeddingDataPtr where
  | null
  | i8 (data : List Int)
  | i16 (data : List Int)
  | i32 (data : List Int)
  | i64 (data : List Int)
  | f32 (data : List F32)
  | f64 (data : List F64)
  deriving DecidableEq, Repr

structure KnnExpr where
  column_expr_ : ColumnExpr
  distance_type_ : KnnDistanceType
  embedding_data_type_ : EmbeddingDataType
  embedding_data_ptr_ : EmbeddingDataPtr
  dimension_ : Int
  topn_ : Int
  opt_params_ : List InitParameter
  deriving DecidableEq, Repr

structure MatchExpr where
  fields_ : String
  matching_text_ : String
  options_text_ : String
  deriving DecidableEq, Repr

/-- A `FusionExpr`: `method_` and the text handed to `SetOptions`. -/
structure FusionExpr where
  method_ : String
  options_text : String
  deriving DecidableEq, Repr

/-- The parsed expression tree; an argument of a function is a pointer, `none`
being `nullptr`. -/
inductive ParsedExpr where
  | Column (e : ColumnExpr)
  | Constant (e : ConstantExpr)
  | Function (func_name_ : String) (arguments_ : List (Option ParsedExpr))
  | Knn (e : KnnExpr)
  | Match (e : MatchExpr)
  | Fusion (e : FusionExpr)

/-- A `SearchExpr` after `SetExprs(search_expr_list)`. -/
structure SearchExpr where
  exprs : List (Option ParsedExpr)

structure UpdateExpr where
  column_name : String
  value : Option ParsedExpr

structure IndexInfo where
  index_type_ : IndexType
  column_name_ : String
  index_param_list_ : List InitParameter
  deriving DecidableEq, Repr

/-! ## The engine behind a session -/

/-- A `SharedPtr<Infinity>`: the address of the session object and its
`GetSessionId()`, a `u64`. -/
structure Infinity where
  addr : Nat
  session_id : Nat
  deriving DecidableEq, Repr

/-- The `u64` returned by `GetSessionId()`. -/
def Infinity.GetSessionId (infinity : Infinity) : Nat := infinity.session_id % 2 ^ 64

/-- The calls of the handler into the engine (class `Infinity`, defined outside
these sources), with their arguments. -/
inductive EngineCall where
  | RemoteConnect (infinity : Infinity)
  | RemoteDisconnect (infinity : Infinity)
  | CreateDatabase (infinity : Infinity) (db_name : String) (conflict_type_ : ConflictType)
  | DropDatabase (infinity : Infinity) (db_name : String) (conflict_type_ : ConflictType)
  | CreateTable (infinity : Infinity) (db_name table_name : String)
      (column_defs : List (Option TableColumnDef)) (conflict_type_ : ConflictType)
      (properties_ : List InitParameter)
  | DropTable (infinity : Infinity) (db_name table_name : String) (conflict_type_ : ConflictType)
  | Insert (infinity : Infinity) (db_name table_name : String) (columns : List String)
      (values : List (List (Option ConstantExpr)))
  | Import (infinity : Infinity) (db_name table_name path : String)
      (copy_file_type_ : CopyFileType) (delimiter_ : Nat)
  | Search (infinity : Infinity) (db_name table_name : String) (search_expr : Option SearchExpr)
      (filter : Option ParsedExpr) (output_columns : List (Option ParsedExpr))
  | Explain (infinity : Infinity) (db_name table_name : String) (explain_type : ExplainType)
      (search_expr : Option SearchExpr) (filter : Option ParsedExpr)
      (output_columns : List (Option ParsedExpr))
  | ShowVariable (infinity : Infinity) (variable_name : String)
  | Delete (infinity : Infinity) (db_name table_name : String) (filter : Option ParsedExpr)
  | Update (infinity : Infinity) (db_name table_name : String) (filter : Option ParsedExpr)
      (update_expr_array : Option (List UpdateExpr))
  | ListDatabases (infinity : Infinity)
  | ListTables (infinity : Infinity) (db_name : String)
  | ShowDatabase (infinity : Infinity) (db_name : String)
  | ShowTable (infinity : Infinity) (db_name table_name : String)
  | ShowColumns (infinity : Infinity) (db_name table_name : String)
  | ShowTables (infinity : Infinity) (db_name : String)
  | GetDatabase (infinity : Infinity) (db_name : String)
  | GetTable (infinity : Infinity) (db_name table_name : String)
  | CreateIndex (infinity : Infinity) (db_name table_name index_name : String)
      (index_info_list : List IndexInfo) (conflict_type_ : ConflictType)
  | DropIndex (infinity : Infinity) (db_name table_name index_name : String)
      (conflict_type_ : ConflictType)
  | ListTableIndexes (infinity : Infinity) (db_name table_name : String)
  | ShowIndex (infinity : Infinity) (db_name table_name index_name : String)

/-- A `Value` read from a data block, as the two views the handler takes of it. -/
structure Value where
  GetVarchar : String
  big_int : Int
  deriving DecidableEq, Repr

structure DataBlock where
  row_count : Nat
  GetValue : Nat → Nat → Value

structure DataTable where
  ColumnCount : Nat
  GetDataBlockById : Nat → DataBlock

/-- A `QueryResult`: `IsOk()`, `ErrorCode()` and `ErrorStr()` read `status`. -/
structure QueryResult where
  status : Status
  result_table_ : Option DataTable

def QueryResult.IsOk (result : QueryResult) : Bool := result.status.ok

/-! ## Responses -/

/-- A response struct of the wire protocol: the two fields every response has
and the fields of the particular response. An optional field is `none` until
its `__set_` function is called. -/
structure Response (α : Type) where
  error_code : Option ErrorCode
  error_msg : Option String
  payload : α
  deriving DecidableEq, Repr

structure CommonPayload where
  session_id : Option Int
  deriving DecidableEq, Repr

structure UploadPayload where
  can_skip : Option Bool
  deriving DecidableEq, Repr

structure ColumnField where
  column_type : Option infinity_thrift_rpc.ColumnType
  column_vectors : List (List Nat)
  deriving DecidableEq, Repr

structure ProtoColumnDef where
  id : Int
  name : String
  data_type : Option infinity_thrift_rpc.DataType
  deriving DecidableEq, Repr

structure SelectPayload where
  column_defs : List ProtoColumnDef
  column_fields : List ColumnField
  deriving DecidableEq, Repr

structure ShowDatabasePayload where
  database_name : String
  store_dir : String
  table_count : Int
  deriving DecidableEq, Repr

structure ShowTablePayload where
  database_name : String
  table_name : String
  store_dir : String
  column_count : Int
  segment_count : Int
  row_count : Int
  deriving DecidableEq, Repr

structure ShowIndexPayload where
  db_name : String
  table_name : String
  index_name : String
  index_type : String
  index_column_names : String
  index_column_ids : String
  other_parameters : String
  store_dir : String
  segment_index_count : String
  deriving DecidableEq, Repr

abbrev CommonResponse := Response CommonPayload
abbrev UploadResponse := Response UploadPayload
abbrev SelectResponse := Response SelectPayload
abbrev ListDatabaseResponse := Response (List String)
abbrev ListTableResponse := Response (List String)
abbrev ListIndexResponse := Response (List String)
abbrev ShowDatabaseResponse := Response ShowDatabasePayload
abbrev ShowTableResponse := Response ShowTablePayload
abbrev ShowIndexResponse := Response ShowIndexPayload

/-- Models `ProcessStatus`, for every response type. -/
def ProcessStatus {α : Type} (response : Response α) (status : Status) : Response α :=
  let response := { response with error_code := some status.code }
  if !status.ok then { response with error_msg := some status.msg } else response

/-- Models `ProcessQueryResult`, for every response type. -/
def ProcessQueryResult {α : Type} (response : Response α) (result : QueryResult) : Response α :=
  let response := { response with error_code := some result.status.code }
  if !result.IsOk then { response with error_msg := some result.status.msg } else response

/-! ## The handler and its environment -/

/-- What the handler reaches outside these sources: the configured temporary
directory, the conversion of a double to a float, and the result of each engine
call. `ProcessDataBlocks`, the encoding of the result blocks of an engine call
into a `SelectResponse`, is a parameter as well. -/
structure RpcEnv where
  temp_dir : String
  f64_to_f32 : F64 → F32
  engine : EngineCall → QueryResult
  ProcessDataBlocks : QueryResult → SelectResponse → Except Exception SelectResponse

/-- The state outside the handler: the engine calls made so far and the local
file system. -/
structure ServerWorld where
  calls : List EngineCall
  fs : LocalFileSystem

/-- An engine call: its result and the world in which the call is recorded. -/
def ServerWorld.call (sw : ServerWorld) (env : RpcEnv) (c : EngineCall) :
    QueryResult × ServerWorld :=
  (env.engine c, { sw with calls := sw.calls ++ [c] })

/-- The state of an `InfinityServiceHandler`: `infinity_session_map_`, a
`HashMap<u64, SharedPtr<Infinity>>`, of which only `find`, `emplace` and `erase`
are used. -/
structure InfinityServiceHandler where
  infinity_session_map_ : Map Infinity
  deriving DecidableEq, Repr

/-- Models `GetInfinityBySessionID`: `none` is `nullptr`. -/
def InfinityServiceHandler.GetInfinityBySessionID (h : InfinityServiceHandler)
    (session_id : Int) : Option Infinity × Status :=
  match Map.find h.infinity_session_map_ (toU64 session_id) with
  | none => (none, Status.SessionNotFound session_id)
  | some infinity => (some infinity, Status.OK)

/-- Models `GetAndRemoveSessionID`. -/
def InfinityServiceHandler.GetAndRemoveSessionID (h : InfinityServiceHandler) (sw : ServerWorld)
    (env : RpcEnv) (session_id : Int) : Status × InfinityServiceHandler × ServerWorld :=
  match Map.find h.infinity_session_map_ (toU64 session_id) with
  | none => (Status.SessionNotFound session_id, h, sw)
  | some infinity =>
    let sw := (sw.call env (EngineCall.RemoteDisconnect infinity)).2
    (Status.OK,
      { h with infinity_session_map_ := (Map.erase h.infinity_session_map_ (toU64 session_id)).1 },
      sw)

/-! ## Conversion of expressions -/

/-- Models `GetConstantFromProto`. In the `default` case the function assigns
the status and reaches its end without a `return`, which is undefined
behaviour for a function returning a pointer. -/
def GetConstantFromProto (_status : Status) (expr : infinity_thrift_rpc.ConstantExpr) :
    Except Exception (ConstantExpr × Status) :=
  match expr.literal_type with
  | infinity_thrift_rpc.LiteralType.Boolean =>
    pure ({ literal_type_ := LiteralType.kBoolean, bool_value_ := expr.bool_value }, _status)
  | infinity_thrift_rpc.LiteralType.Double =>
    pure ({ literal_type_ := LiteralType.kDouble, double_value_ := expr.f64_value }, _status)
  | infinity_thrift_rpc.LiteralType.String =>
    pure ({ literal_type_ := LiteralType.kString, str_value_ := some expr.str_value }, _status)
  | infinity_thrift_rpc.LiteralType.Int64 =>
    pure ({ literal_type_ := LiteralType.kInteger, integer_value_ := expr.i64_value }, _status)
  | infinity_thrift_rpc.LiteralType.Null =>
    pure ({ literal_type_ := LiteralType.kNull }, _status)
  | infinity_thrift_rpc.LiteralType.IntegerArray =>
    pure ({ literal_type_ := LiteralType.kIntegerArray, long_array_ := expr.i64_array_value },
      _status)
  | infinity_thrift_rpc.LiteralType.DoubleArray =>
    pure ({ literal_type_ := LiteralType.kDoubleArray, double_array_ := expr.f64_array_value },
      _status)
  | infinity_thrift_rpc.LiteralType.other _ => Except.error Exception.UndefinedBehaviour

/-- Models `GetColumnExprFromProto`. -/
def GetColumnExprFromProto (column_expr : infinity_thrift_rpc.ColumnExpr) : ColumnExpr :=
  { names_ := column_expr.column_name, star_ := column_expr.star }

/-- Models `GetEmbeddingDataTypeDataPtrFromProto`: the data pointer, the
dimension and the status. The `f32` array arrives as doubles, which are
narrowed in place. -/
def GetEmbeddingDataTypeDataPtrFromProto (f64_to_f32 : F64 → F32)
    (embedding_data : infinity_thrift_rpc.EmbeddingData) : EmbeddingDataPtr × Int × Status :=
  match embedding_data.i8_array_value with
  | some v => (EmbeddingDataPtr.i8 v, v.length, Status.OK)
  | none =>
  match embedding_data.i16_array_value with
  | some v => (EmbeddingDataPtr.i16 v, v.length, Status.OK)
  | none =>
  match embedding_data.i32_array_value with
  | some v => (EmbeddingDataPtr.i32 v, v.length, Status.OK)
  | none =>
  match embedding_data.i64_array_value with
  | some v => (EmbeddingDataPtr.i64 v, v.length, Status.OK)
  | none =>
  match embedding_data.f32_array_value with
  | some v => (EmbeddingDataPtr.f32 (v.map f64_to_f32), v.length, Status.OK)
  | none =>
  match embedding_data.f64_array_value with
  | some v => (EmbeddingDataPtr.f64 v, v.length, Status.OK)
  | none => (EmbeddingDataPtr.null, 0, Status.InvalidEmbeddingDataType)

/-- Models `GetKnnExprFromProto`: the returned pointer (`none` is `nullptr`) and
status. -/
def GetKnnExprFromProto (f64_to_f32 : F64 → F32) (expr : infinity_thrift_rpc.KnnExpr) :
    Option KnnExpr × Status :=
  let column_expr_ := GetColumnExprFromProto expr.column_expr
  let distance_type_ := GetDistanceTypeFormProto expr.distance_type
  if distance_type_ = KnnDistanceType.kInvalid then (none, Status.InvalidKnnDistanceType)
  else
    let embedding_data_type_ := GetEmbeddingDataTypeFromProto expr.embedding_data_type
    if embedding_data_type_ = EmbeddingDataType.kElemInvalid then
      (none, Status.InvalidEmbeddingDataType)
    else
      let r := GetEmbeddingDataTypeDataPtrFromProto f64_to_f32 expr.embedding_data
      let embedding_data_ptr := r.1
      let dimension := r.2.1
      let status := r.2.2
      if !status.ok then (none, status)
      else
        let topn_ := expr.topn
        if topn_ ≤ 0 then
          (none, Status.InvalidParameterValue "topn" (toString expr.topn)
            "topn should be greater than 0")
        else
          let opt_params_ := expr.opt_params.map
            (fun param => ({ param_name_ := param.param_name,
                             param_value_ := param.param_value } : InitParameter))
          (some { column_expr_ := column_expr_, distance_type_ := distance_type_,
                  embedding_data_type_ := embedding_data_type_,
                  embedding_data_ptr_ := embedding_data_ptr, dimension_ := dimension,
                  topn_ := topn_, opt_params_ := opt_params_ }, status)

/-- Models `GetMatchExprFromProto`. -/
def GetMatchExprFromProto (expr : infinity_thrift_rpc.MatchExpr) : MatchExpr :=
  { fields_ := expr.fields, matching_text_ := expr.matching_text,
    options_text_ := expr.options_text }

/-- Models `GetFusionExprFromProto`. -/
def GetFusionExprFromProto (expr : infinity_thrift_rpc.FusionExpr) : FusionExpr :=
  { method_ := expr.method, options_text := expr.options_text }

mutual
/-- Models `GetParsedExprFromProto`: the returned pointer (`none` is `nullptr`)
and the status behind the reference `status`. -/
def GetParsedExprFromProto (f64_to_f32 : F64 → F32) (status : Status) :
    infinity_thrift_rpc.ParsedExpr → Except Exception (Option ParsedExpr × Status)
  | infinity_thrift_rpc.ParsedExpr.mk (some column_expr) _ _ _ _ _ =>
    pure (some (ParsedExpr.Column (GetColumnExprFromProto column_expr)), status)
  | infinity_thrift_rpc.ParsedExpr.mk none (some constant_expr) _ _ _ _ => do
    let r ← GetConstantFromProto status constant_expr
    pure (some (ParsedExpr.Constant r.1), r.2)
  | infinity_thrift_rpc.ParsedExpr.mk none none
      (infinity_thrift_rpc.FunctionExprOpt.set function_expr) _ _ _ =>
    GetFunctionExprFromProto f64_to_f32 status function_expr
  | infinity_thrift_rpc.ParsedExpr.mk none none infinity_thrift_rpc.FunctionExprOpt.unset
      (some knn_expr) _ _ =>
    let r := GetKnnExprFromProto f64_to_f32 knn_expr
    pure (r.1.map ParsedExpr.Knn, r.2)
  | infinity_thrift_rpc.ParsedExpr.mk none none infinity_thrift_rpc.FunctionExprOpt.unset none
      (some match_expr_) _ =>
    pure (some (ParsedExpr.Match (GetMatchExprFromProto match_expr_)), status)
  | infinity_thrift_rpc.ParsedExpr.mk none none infinity_thrift_rpc.FunctionExprOpt.unset none
      none (some fusion_expr) =>
    pure (some (ParsedExpr.Fusion (GetFusionExprFromProto fusion_expr)), status)
  | infinity_thrift_rpc.ParsedExpr.mk none none infinity_thrift_rpc.FunctionExprOpt.unset none
      none none =>
    pure (none, Status.InvalidParsedExprType)
/-- Models `GetFunctionExprFromProto`. -/
def GetFunctionExprFromProto (f64_to_f32 : F64 → F32) (status : Status) :
    infinity_thrift_rpc.FunctionExpr → Except Exception (Option ParsedExpr × Status)
  | infinity_thrift_rpc.FunctionExpr.mk function_name arguments => do
    let r ← GetFunctionExprFromProto.loop f64_to_f32 status arguments []
    match r.1 with
    | none => pure (none, r.2)
    | some arguments => pure (some (ParsedExpr.Function function_name arguments), r.2)
/-- The loop of `GetFunctionExprFromProto` over the arguments; `none` when the
function returns `nullptr` from inside the loop. -/
def GetFunctionExprFromProto.loop (f64_to_f32 : F64 → F32) (status : Status) :
    infinity_thrift_rpc.ParsedExprList → List (Option ParsedExpr) →
    Except Exception (Option (List (Option ParsedExpr)) × Status)
  | infinity_thrift_rpc.ParsedExprList.nil, arguments => pure (some arguments, status)
  | infinity_thrift_rpc.ParsedExprList.cons args rest, arguments =>
    match GetParsedExprFromProto f64_to_f32 status args with
    | Except.error e => Except.error e
    | Except.ok r =>
      if !r.2.ok then pure (none, r.2)
      else GetFunctionExprFromProto.loop f64_to_f32 r.2 rest (arguments ++ [r.1])
end

/-- Models `GetUpdateExprFromProto`. -/
def GetUpdateExprFromProto (f64_to_f32 : F64 → F32) (update_expr : infinity_thrift_rpc.UpdateExpr) :
    Except Exception (UpdateExpr × Status) := do
  let status := Status.OK
  let r ← GetParsedExprFromProto f64_to_f32 status update_expr.value
  pure ({ column_name := update_expr.column_name, value := r.1 }, r.2)

/-- The field `expr.type.constant_expr` of a wire expression. -/
def infinity_thrift_rpc.ParsedExpr.constant_expr :
    infinity_thrift_rpc.ParsedExpr → Option infinity_thrift_rpc.ConstantExpr
  | infinity_thrift_rpc.ParsedExpr.mk _ constant_expr _ _ _ _ => constant_expr

/-! ## Requests -/

namespace infinity_thrift_rpc

structure Property where
  key : String
  value : String
  deriving DecidableEq, Repr

structure CreateOption where
  conflict_type : CreateConflict
  properties : List Property
  deriving DecidableEq, Repr

structure DropOption where
  conflict_type : DropConflict
  deriving DecidableEq, Repr

structure ImportOption where
  delimiter : String
  copy_file_type : CopyFileType
  deriving DecidableEq, Repr

structure CommonRequest where
  session_id : Int

structure CreateDatabaseRequest where
  db_name : String
  session_id : Int
  create_option : CreateOption

structure DropDatabaseRequest where
  db_name : String
  session_id : Int
  drop_option : DropOption

structure CreateTableRequest where
  db_name : String
  table_name : String
  column_defs : List ColumnDef
  session_id : Int
  create_option : CreateOption

structure DropTableRequest where
  db_name : String
  table_name : String
  session_id : Int
  drop_option : DropOption

structure Field where
  parse_exprs : List ParsedExpr

structure InsertRequest where
  db_name : String
  table_name : String
  column_names : List String
  fields : List Field
  session_id : Int

structure ImportRequest where
  db_name : String
  table_name : String
  file_name : String
  import_option : ImportOption
  session_id : Int

/-- The wire `FileChunk`; `data` is the byte string of the chunk. The handler
reads every field but `session_id`. -/
structure FileChunk where
  db_name : String
  table_name : String
  file_name : String
  index : Int
  data : List Nat
  session_id : Int
  total_size : Int

/-- The wire `SelectRequest`; an optional field is `some` when its `__isset`
flag is set. -/
structure SelectRequest where
  session_id : Int
  db_name : String
  table_name : String
  select_list : Option (List ParsedExpr)
  search_expr : Option SearchExpr
  where_expr : Option ParsedExpr

structure ExplainRequest where
  session_id : Int
  db_name : String
  table_name : String
  select_list : Option (List ParsedExpr)
  search_expr : Option SearchExpr
  where_expr : Option ParsedExpr
  explain_type : ExplainType

structure ShowVariableRequest where
  session_id : Int
  variable_name : String

structure DeleteRequest where
  db_name : String
  table_name : String
  where_expr : Option ParsedExpr
  session_id : Int

structure UpdateRequest where
  db_name : String
  table_name : String
  where_expr : Option ParsedExpr
  update_expr_array : Option (List UpdateExpr)
  session_id : Int

structure ListDatabaseRequest where
  session_id : Int

structure ListTableRequest where
  db_name : String
  session_id : Int

structure ShowDatabaseRequest where
  db_name : String
  session_id : Int

structure ShowTableRequest where
  db_name : String
  table_name : String
  session_id : Int

structure ShowColumnsRequest where
  db_name : String
  table_name : String
  session_id : Int

structure ShowTablesRequest where
  db_name : String
  session_id : Int

structure GetDatabaseRequest where
  db_name : String
  session_id : Int

structure GetTableRequest where
  db_name : String
  table_name : String
  session_id : Int

structure CreateIndexRequest where
  db_name : String
  table_name : String
  index_name : String
  index_info_list : List IndexInfo
  session_id : Int
  create_option : CreateOption

structure DropIndexRequest where
  db_name : String
  table_name : String
  index_name : String
  session_id : Int
  drop_option : DropOption

structure ListIndexRequest where
  db_name : String
  table_name : String
  session_id : Int

structure ShowIndexRequest where
  db_name : String
  table_name : String
  index_name : String
  session_id : Int

end infinity_thrift_rpc

/-! ## Files of an upload -/

/-- Modelled from the spec: `LocalFileSystem::GetFileSizeByPath(path)`, the
number of bytes of the file. -/
def LocalFileSystem.GetFileSizeByPath (fs : LocalFileSystem) (path : String) : Nat :=
  match fs.files.find? (fun f => f.1 == path) with
  | some f => f.2.length
  | none => 0

/-- Modelled from the spec: `LocalFileSystem::DeleteFile(path)`. -/
def LocalFileSystem.DeleteFile (fs : LocalFileSystem) (path : String) : LocalFileSystem :=
  { fs with files := fs.files.filter (fun f => f.1 != path) }

/-- Modelled from the spec: a `FileWriter` opened on `path`, one `Write` of
`data` and `Flush` ("file-upload writes": chunk 0 creates the file, "subsequent
chunks append"). With the append flag the bytes follow those of an existing
file; without it the file holds exactly `data`. -/
def LocalFileSystem.WriteFile (fs : LocalFileSystem) (path : String) (data : List Nat)
    (append : Bool) : LocalFileSystem :=
  if append && decide (path ∈ fs.files.map Prod.fst) then
    { fs with files := fs.files.map (fun f => if f.1 == path then (f.1, f.2 ++ data) else f) }
  else
    { fs with files := fs.files.filter (fun f => f.1 != path) ++ [(path, data)] }

/-- The path of an uploaded file: the format string joins the temporary
directory, the database, the table and the file name with underscores. -/
def upload_path (env : RpcEnv) (db_name table_name file_name : String) : String :=
  env.temp_dir ++ "_" ++ db_name ++ "_" ++ table_name ++ "_" ++ file_name

/-- The byte `s[0]` of a `std::string`: the terminating zero when `s` is empty. -/
def first_byte (s : String) : Nat :=
  match s.data with
  | [] => 0
  | c :: _ => if c.toNat < 128 then c.toNat else ((String.utf8EncodeChar c).headD 0).toNat

/-! ## The handlers of sessions, databases and tables -/

namespace InfinityServiceHandler

/-- Models `Connect`; `infinity` is the session object which
`Infinity::RemoteConnect()` returns. -/
def Connect (h : InfinityServiceHandler) (sw : ServerWorld) (infinity : Infinity)
    (response : CommonResponse) : CommonResponse × InfinityServiceHandler × ServerWorld :=
  let sw := { sw with calls := sw.calls ++ [EngineCall.RemoteConnect infinity] }
  let h := { h with
    infinity_session_map_ := (Map.emplace h.infinity_session_map_ infinity.GetSessionId infinity) }
  let response := { response with
    payload := (⟨some (toI64 infinity.GetSessionId)⟩ : CommonPayload) }
  let response := { response with error_code := some ErrorCode.kOk }
  (response, h, sw)

/-- Models `Disconnect`. -/
def Disconnect (h : InfinityServiceHandler) (sw : ServerWorld) (env : RpcEnv)
    (response : CommonResponse) (request : infinity_thrift_rpc.CommonRequest) :
    CommonResponse × InfinityServiceHandler × ServerWorld :=
  let r := h.GetAndRemoveSessionID sw env request.session_id
  let status := r.1
  if status.ok then ({ response with error_code := some status.code }, r.2.1, r.2.2)
  else
    ({ response with error_code := some status.code, error_msg := some status.msg }, r.2.1, r.2.2)

/-- Models `CreateDatabase`. -/
def CreateDatabase (h : InfinityServiceHandler) (sw : ServerWorld) (env : RpcEnv)
    (response : CommonResponse) (request : infinity_thrift_rpc.CreateDatabaseRequest) :
    CommonResponse × ServerWorld :=
  let conflict : Option ConflictType :=
    match request.create_option.conflict_type with
    | infinity_thrift_rpc.CreateConflict.Ignore => some ConflictType.kIgnore
    | infinity_thrift_rpc.CreateConflict.Error => some ConflictType.kError
    | infinity_thrift_rpc.CreateConflict.Replace => some ConflictType.kReplace
    | infinity_thrift_rpc.CreateConflict.other _ => none
  match conflict with
  | none => (ProcessStatus response Status.InvalidConflictType, sw)
  | some conflict_type_ =>
    match h.GetInfinityBySessionID request.session_id with
    | (some infinity, _) =>
      let r := sw.call env (EngineCall.CreateDatabase infinity request.db_name conflict_type_)
      (ProcessQueryResult response r.1, r.2)
    | (none, status) => (ProcessStatus response status, sw)

/-- Models `DropDatabase`. -/
def DropDatabase (h : InfinityServiceHandler) (sw : ServerWorld) (env : RpcEnv)
    (response : CommonResponse) (request : infinity_thrift_rpc.DropDatabaseRequest) :
    CommonResponse × ServerWorld :=
  let conflict : Option ConflictType :=
    match request.drop_option.conflict_type with
    | infinity_thrift_rpc.DropConflict.Ignore => some ConflictType.kIgnore
    | infinity_thrift_rpc.DropConflict.Error => some ConflictType.kError
    | infinity_thrift_rpc.DropConflict.other _ => none
  match conflict with
  | none => (ProcessStatus response Status.InvalidConflictType, sw)
  | some conflict_type_ =>
    match h.GetInfinityBySessionID request.session_id with
    | (some infinity, _) =>
      let r := sw.call env (EngineCall.DropDatabase infinity request.db_name conflict_type_)
      (ProcessQueryResult response r.1, r.2)
    | (none, status) => (ProcessStatus response status, sw)

/-- The loop of `CreateTable` over the wire column definitions: the converted
definitions, or the status of the first one that fails. -/
def CreateTable.column_defs :
    List infinity_thrift_rpc.ColumnDef → List (Option TableColumnDef) →
    Except Status (List (Option TableColumnDef))
  | [], column_defs => Except.ok column_defs
  | proto_column_def :: rest, column_defs =>
    let r := GetColumnDefFromProto proto_column_def
    if !r.2.ok then Except.error r.2
    else CreateTable.column_defs rest (column_defs ++ [r.1])

/-- Models `CreateTable`. -/
def CreateTable (h : InfinityServiceHandler) (sw : ServerWorld) (env : RpcEnv)
    (response : CommonResponse) (request : infinity_thrift_rpc.CreateTableRequest) :
    CommonResponse × ServerWorld :=
  match CreateTable.column_defs request.column_defs [] with
  | Except.error column_def_status => (ProcessStatus response column_def_status, sw)
  | Except.ok column_defs =>
    let conflict : Option ConflictType :=
      match request.create_option.conflict_type with
      | infinity_thrift_rpc.CreateConflict.Ignore => some ConflictType.kIgnore
      | infinity_thrift_rpc.CreateConflict.Error => some ConflictType.kError
      | infinity_thrift_rpc.CreateConflict.Replace => some ConflictType.kReplace
      | infinity_thrift_rpc.CreateConflict.other _ => none
    match conflict with
    | none => (ProcessStatus response Status.InvalidConflictType, sw)
    | some conflict_type_ =>
      let properties_ := request.create_option.properties.map
        (fun property => ({ param_name_ := property.key,
                            param_value_ := property.value } : InitParameter))
      match h.GetInfinityBySessionID request.session_id with
      | (none, infinity_status) => (ProcessStatus response infinity_status, sw)
      | (some infinity, _) =>
        let r := sw.call env (EngineCall.CreateTable infinity request.db_name request.table_name
          column_defs conflict_type_ properties_)
        (ProcessQueryResult response r.1, r.2)

/-- Models `DropTable`. -/
def DropTable (h : InfinityServiceHandler) (sw : ServerWorld) (env : RpcEnv)
    (response : CommonResponse) (request : infinity_thrift_rpc.DropTableRequest) :
    CommonResponse × ServerWorld :=
  match h.GetInfinityBySessionID request.session_id with
  | (none, infinity_status) => (ProcessStatus response infinity_status, sw)
  | (some infinity, _) =>
    let conflict : Option ConflictType :=
      match request.drop_option.conflict_type with
      | infinity_thrift_rpc.DropConflict.Ignore => some ConflictType.kIgnore
      | infinity_thrift_rpc.DropConflict.Error => some ConflictType.kError
      | infinity_thrift_rpc.DropConflict.other _ => none
    match conflict with
    | none => (ProcessStatus response Status.InvalidConflictType, sw)
    | some conflict_type_ =>
      let r := sw.call env
        (EngineCall.DropTable infinity request.db_name request.table_name conflict_type_)
      (ProcessQueryResult response r.1, r.2)

/-- Models `Import`. Neither `ProcessStatus` of the two checks is followed by a
`return`. -/
def Import (h : InfinityServiceHandler) (sw : ServerWorld) (env : RpcEnv)
    (response : CommonResponse) (request : infinity_thrift_rpc.ImportRequest) :
    CommonResponse × ServerWorld :=
  match h.GetInfinityBySessionID request.session_id with
  | (none, infinity_status) => (ProcessStatus response infinity_status, sw)
  | (some infinity, _) =>
    let path := upload_path env request.db_name request.table_name request.file_name
    let r := GetCopyFileType request.import_option.copy_file_type
    let copy_file_type := r.1
    let status := r.2
    let response := if !status.ok then ProcessStatus response status else response
    let copy_file_type_ := copy_file_type
    let delimiter_string := request.import_option.delimiter
    let response :=
      if copy_file_type_ = CopyFileType.kCSV ∧ delimiter_string.utf8ByteSize ≠ 1 then
        ProcessStatus response (Status.SyntaxError "CSV file delimiter isn't a char.")
      else response
    let delimiter_ := first_byte delimiter_string
    let result := sw.call env (EngineCall.Import infinity request.db_name request.table_name path
      copy_file_type_ delimiter_)
    (ProcessQueryResult response result.1, result.2)

/-- Models `UploadFileChunk`. -/
def UploadFileChunk (sw : ServerWorld) (env : RpcEnv) (response : UploadResponse)
    (request : infinity_thrift_rpc.FileChunk) : UploadResponse × ServerWorld :=
  let path := upload_path env request.db_name request.table_name request.file_name
  let done (sw : ServerWorld) : UploadResponse × ServerWorld :=
    ({ response with error_code := some ErrorCode.kOk, payload := (⟨some false⟩ : UploadPayload) }, sw)
  if request.index ≠ 0 then
    done { sw with fs := sw.fs.WriteFile path request.data true }
  else if sw.fs.Exists path then
    let exist_file_size := sw.fs.GetFileSizeByPath path
    if toI64 exist_file_size ≠ request.total_size then
      let fs := sw.fs.DeleteFile path
      done { sw with fs := fs.WriteFile path request.data false }
    else
      ({ response with error_code := some ErrorCode.kOk, payload := (⟨some true⟩ : UploadPayload) },
        sw)
  else
    done { sw with fs := sw.fs.WriteFile path request.data false }

end InfinityServiceHandler

/-! ## The handlers of queries -/

namespace InfinityServiceHandler

/-- The inner loop of `Insert` over the expressions of one row; `none` when the
handler returns from inside the loop. The pointer `expr.type.constant_expr` is
dereferenced without a test. -/
def Insert.value_list (constant_status : Status) :
    List infinity_thrift_rpc.ParsedExpr → List (Option ConstantExpr) →
    Except Exception (Option (List (Option ConstantExpr)) × Status)
  | [], value_list => pure (some value_list, constant_status)
  | expr :: rest, value_list =>
    match expr.constant_expr with
    | none => Except.error Exception.UndefinedBehaviour
    | some constant_expr =>
      match GetConstantFromProto constant_status constant_expr with
      | Except.error e => Except.error e
      | Except.ok r =>
        if !r.2.ok then pure (none, r.2)
        else Insert.value_list r.2 rest (value_list ++ [some r.1])

/-- The outer loop of `Insert` over the rows. -/
def Insert.values (constant_status : Status) :
    List infinity_thrift_rpc.Field → List (List (Option ConstantExpr)) →
    Except Exception (Option (List (List (Option ConstantExpr))) × Status)
  | [], values => pure (some values, constant_status)
  | value :: rest, values =>
    match Insert.value_list constant_status value.parse_exprs [] with
    | Except.error e => Except.error e
    | Except.ok (none, status) => pure (none, status)
    | Except.ok (some value_list, status) => Insert.values status rest (values ++ [value_list])

/-- Models `Insert`. -/
def Insert (h : InfinityServiceHandler) (sw : ServerWorld) (env : RpcEnv)
    (response : CommonResponse) (request : infinity_thrift_rpc.InsertRequest) :
    Except Exception (CommonResponse × ServerWorld) :=
  match h.GetInfinityBySessionID request.session_id with
  | (none, infinity_status) => pure (ProcessStatus response infinity_status, sw)
  | (some infinity, _) =>
    if request.fields.isEmpty then pure (ProcessStatus response Status.InsertWithoutValues, sw)
    else
      let columns := request.column_names
      match Insert.values Status.OK request.fields [] with
      | Except.error e => Except.error e
      | Except.ok (none, constant_status) => pure (ProcessStatus response constant_status, sw)
      | Except.ok (some values, _) =>
        let result := sw.call env
          (EngineCall.Insert infinity request.db_name request.table_name columns values)
        pure (ProcessQueryResult response result.1, result.2)

/-- The loop of `Select` and of `Explain` over the select list; `none` when the
handler returns from inside the loop. -/
def Select.output_columns (f64_to_f32 : F64 → F32) (parsed_expr_status : Status) :
    List infinity_thrift_rpc.ParsedExpr → List (Option ParsedExpr) →
    Except Exception (Option (List (Option ParsedExpr)) × Status)
  | [], output_columns => pure (some output_columns, parsed_expr_status)
  | expr :: rest, output_columns =>
    match GetParsedExprFromProto f64_to_f32 parsed_expr_status expr with
    | Except.error e => Except.error e
    | Except.ok r =>
      if !r.2.ok then pure (none, r.2)
      else Select.output_columns f64_to_f32 r.2 rest (output_columns ++ [r.1])

/-- The loop of `Select` and of `Explain` over the KNN expressions: the status
of the first one that fails, or the list with the converted expressions. -/
def Select.knn_exprs (f64_to_f32 : F64 → F32) :
    List infinity_thrift_rpc.KnnExpr → List (Option ParsedExpr) →
    Except Status (List (Option ParsedExpr))
  | [], search_expr_list => Except.ok search_expr_list
  | expr :: rest, search_expr_list =>
    let r := GetKnnExprFromProto f64_to_f32 expr
    if !r.2.ok then Except.error r.2
    else Select.knn_exprs f64_to_f32 rest (search_expr_list ++ [r.1.map ParsedExpr.Knn])

/-- The block "search expr" of `Select` and of `Explain`. -/
def Select.search_expr (f64_to_f32 : F64 → F32) (search_expr : infinity_thrift_rpc.SearchExpr) :
    Except Status SearchExpr :=
  match Select.knn_exprs f64_to_f32 search_expr.knn_exprs [] with
  | Except.error knn_expr_status => Except.error knn_expr_status
  | Except.ok search_expr_list =>
    let search_expr_list := search_expr_list ++
      search_expr.match_exprs.map (fun e => some (ParsedExpr.Match (GetMatchExprFromProto e)))
    let search_expr_list :=
      match search_expr.fusion_expr with
      | some e => search_expr_list ++ [some (ParsedExpr.Fusion (GetFusionExprFromProto e))]
      | none => search_expr_list
    Except.ok { exprs := search_expr_list }

/-- The arguments which `Select` and `Explain` build for the engine. -/
structure Select.Parsed where
  search_expr : Option SearchExpr
  filter : Option ParsedExpr
  output_columns : List (Option ParsedExpr)

/-- The blocks of `Select` and of `Explain` from the loop over the select list
to the filter, which are the same in both: the status with which the handler
returns, or the arguments for the engine. -/
def Select.parse (f64_to_f32 : F64 → F32) (select_list : List infinity_thrift_rpc.ParsedExpr)
    (search_expr : Option infinity_thrift_rpc.SearchExpr)
    (where_expr : Option infinity_thrift_rpc.ParsedExpr) :
    Except Exception (Except Status Select.Parsed) :=
  match Select.output_columns f64_to_f32 Status.OK select_list [] with
  | Except.error e => Except.error e
  | Except.ok (none, parsed_expr_status) => pure (Except.error parsed_expr_status)
  | Except.ok (some output_columns, parsed_expr_status) =>
    let search : Except Status (Option SearchExpr) :=
      match search_expr with
      | none => Except.ok none
      | some se => (Select.search_expr f64_to_f32 se).map some
    match search with
    | Except.error knn_expr_status => pure (Except.error knn_expr_status)
    | Except.ok search_expr =>
      match where_expr with
      | none => pure (Except.ok ⟨search_expr, none, output_columns⟩)
      | some where_expr =>
        match GetParsedExprFromProto f64_to_f32 parsed_expr_status where_expr with
        | Except.error e => Except.error e
        | Except.ok r =>
          if !r.2.ok then pure (Except.error r.2)
          else pure (Except.ok ⟨search_expr, r.1, output_columns⟩)

/-- Models `columns.resize(n)` on the column fields of a response. -/
def resize_columns (columns : List ColumnField) (n : Nat) : List ColumnField :=
  columns.take n ++ List.replicate (n - columns.length) ⟨none, []⟩

/-- The end of `Select`, `Explain`, `ShowVariable`, `ShowColumns` and
`ShowTables`: the data blocks of a successful result are written to the
response, a failure is reported by `ProcessQueryResult`. -/
def Select.respond (env : RpcEnv) (result : QueryResult) (response : SelectResponse) :
    Except Exception SelectResponse :=
  if result.IsOk then
    match result.result_table_ with
    | none => Except.error Exception.UndefinedBehaviour
    | some result_table_ =>
      env.ProcessDataBlocks result { response with
        payload := ({ response.payload with
          column_fields := (resize_columns response.payload.column_fields
            result_table_.ColumnCount) } : SelectPayload) }
  else pure (ProcessQueryResult response result)

/-- Models `Select`. -/
def Select (h : InfinityServiceHandler) (sw : ServerWorld) (env : RpcEnv)
    (response : SelectResponse) (request : infinity_thrift_rpc.SelectRequest) :
    Except Exception (SelectResponse × ServerWorld) :=
  match h.GetInfinityBySessionID request.session_id with
  | (none, infinity_status) => pure (ProcessStatus response infinity_status, sw)
  | (some infinity, _) =>
    match request.select_list with
    | none => pure (ProcessStatus response Status.EmptySelectFields, sw)
    | some select_list =>
      if select_list.isEmpty then pure (ProcessStatus response Status.EmptySelectFields, sw)
      else
        match Select.parse env.f64_to_f32 select_list request.search_expr request.where_expr with
        | Except.error e => Except.error e
        | Except.ok (Except.error status) => pure (ProcessStatus response status, sw)
        | Except.ok (Except.ok p) =>
          let result := sw.call env (EngineCall.Search infinity request.db_name
            request.table_name p.search_expr p.filter p.output_columns)
          (Select.respond env result.1 response).map (fun response => (response, result.2))

/-- Models `Explain`. The explain type goes to the engine as
`GetExplainTypeFromProto` returns it. -/
def Explain (h : InfinityServiceHandler) (sw : ServerWorld) (env : RpcEnv)
    (response : SelectResponse) (request : infinity_thrift_rpc.ExplainRequest) :
    Except Exception (SelectResponse × ServerWorld) :=
  match h.GetInfinityBySessionID request.session_id with
  | (none, infinity_status) => pure (ProcessStatus response infinity_status, sw)
  | (some infinity, _) =>
    match request.select_list with
    | none => pure (ProcessStatus response Status.EmptySelectFields, sw)
    | some select_list =>
      match Select.parse env.f64_to_f32 select_list request.search_expr request.where_expr with
      | Except.error e => Except.error e
      | Except.ok (Except.error status) => pure (ProcessStatus response status, sw)
      | Except.ok (Except.ok p) =>
        let explain_type := GetExplainTypeFromProto request.explain_type
        let result := sw.call env (EngineCall.Explain infinity request.db_name
          request.table_name explain_type p.search_expr p.filter p.output_columns)
        (Select.respond env result.1 response).map (fun response => (response, result.2))

/-- Models `ShowVariable`. -/
def ShowVariable (h : InfinityServiceHandler) (sw : ServerWorld) (env : RpcEnv)
    (response : SelectResponse) (request : infinity_thrift_rpc.ShowVariableRequest) :
    Except Exception (SelectResponse × ServerWorld) :=
  match h.GetInfinityBySessionID request.session_id with
  | (none, infinity_status) => pure (ProcessStatus response infinity_status, sw)
  | (some infinity, _) =>
    let result := sw.call env (EngineCall.ShowVariable infinity request.variable_name)
    (Select.respond env result.1 response).map (fun response => (response, result.2))

/-- The block "filter" of `Delete` and of `Update`, with a status of its own. -/
def Delete.filter (f64_to_f32 : F64 → F32) (where_expr : Option infinity_thrift_rpc.ParsedExpr) :
    Except Exception (Except Status (Option ParsedExpr)) :=
  match where_expr with
  | none => pure (Except.ok none)
  | some where_expr =>
    match GetParsedExprFromProto f64_to_f32 Status.OK where_expr with
    | Except.error e => Except.error e
    | Except.ok r => if !r.2.ok then pure (Except.error r.2) else pure (Except.ok r.1)

/-- Models `Delete`. -/
def Delete (h : InfinityServiceHandler) (sw : ServerWorld) (env : RpcEnv)
    (response : CommonResponse) (request : infinity_thrift_rpc.DeleteRequest) :
    Except Exception (CommonResponse × ServerWorld) :=
  match h.GetInfinityBySessionID request.session_id with
  | (none, infinity_status) => pure (ProcessStatus response infinity_status, sw)
  | (some infinity, _) =>
    match Delete.filter env.f64_to_f32 request.where_expr with
    | Except.error e => Except.error e
    | Except.ok (Except.error parsed_expr_status) =>
      pure (ProcessStatus response parsed_expr_status, sw)
    | Except.ok (Except.ok filter) =>
      let result := sw.call env
        (EngineCall.Delete infinity request.db_name request.table_name filter)
      pure (ProcessQueryResult response result.1, result.2)

/-- The loop of `Update` over the update expressions. -/
def Update.update_expr_array (f64_to_f32 : F64 → F32) :
    List infinity_thrift_rpc.UpdateExpr → List UpdateExpr →
    Except Exception (Except Status (List UpdateExpr))
  | [], update_expr_array => pure (Except.ok update_expr_array)
  | update_expr :: rest, update_expr_array =>
    match GetUpdateExprFromProto f64_to_f32 update_expr with
    | Except.error e => Except.error e
    | Except.ok r =>
      if !r.2.ok then pure (Except.error r.2)
      else Update.update_expr_array f64_to_f32 rest (update_expr_array ++ [r.1])

/-- Models `Update`. -/
def Update (h : InfinityServiceHandler) (sw : ServerWorld) (env : RpcEnv)
    (response : CommonResponse) (request : infinity_thrift_rpc.UpdateRequest) :
    Except Exception (CommonResponse × ServerWorld) :=
  match h.GetInfinityBySessionID request.session_id with
  | (none, infinity_status) => pure (ProcessStatus response infinity_status, sw)
  | (some infinity, _) =>
    match Delete.filter env.f64_to_f32 request.where_expr with
    | Except.error e => Except.error e
    | Except.ok (Except.error parsed_expr_status) =>
      pure (ProcessStatus response parsed_expr_status, sw)
    | Except.ok (Except.ok filter) =>
      let converted : Except Exception (Except Status (Option (List UpdateExpr))) :=
        match request.update_expr_array with
        | none => pure (Except.ok none)
        | some array => (Update.update_expr_array env.f64_to_f32 array []).map (·.map some)
      match converted with
      | Except.error e => Except.error e
      | Except.ok (Except.error update_expr_status) =>
        pure (ProcessStatus response update_expr_status, sw)
      | Except.ok (Except.ok update_expr_array) =>
        let result := sw.call env (EngineCall.Update infinity request.db_name
          request.table_name filter update_expr_array)
        pure (ProcessQueryResult response result.1, result.2)

end InfinityServiceHandler

/-! ## The handlers of the catalog -/

namespace InfinityServiceHandler

/-- The first data block of a successful result; the pointer `result_table_` is
dereferenced without a test. -/
def first_block (result : QueryResult) : Except Exception DataBlock :=
  match result.result_table_ with
  | none => Except.error Exception.UndefinedBehaviour
  | some result_table_ => pure (result_table_.GetDataBlockById 0)

/-- The strings of column `column` in the rows of a data block, in row order. -/
def varchars (data_block : DataBlock) (column : Nat) : List String :=
  (List.range data_block.row_count).map (fun i => (data_block.GetValue column i).GetVarchar)

/-- Models `ListDatabase`. -/
def ListDatabase (h : InfinityServiceHandler) (sw : ServerWorld) (env : RpcEnv)
    (response : ListDatabaseResponse) (request : infinity_thrift_rpc.ListDatabaseRequest) :
    Except Exception (ListDatabaseResponse × ServerWorld) :=
  match h.GetInfinityBySessionID request.session_id with
  | (none, infinity_status) => pure (ProcessStatus response infinity_status, sw)
  | (some infinity, _) =>
    let result := sw.call env (EngineCall.ListDatabases infinity)
    let response := { response with error_code := some result.1.status.code }
    if result.1.IsOk then do
      let data_block ← first_block result.1
      pure ({ response with payload := response.payload ++ varchars data_block 0 }, result.2)
    else pure (ProcessQueryResult response result.1, result.2)

/-- Models `ListTable`. -/
def ListTable (h : InfinityServiceHandler) (sw : ServerWorld) (env : RpcEnv)
    (response : ListTableResponse) (request : infinity_thrift_rpc.ListTableRequest) :
    Except Exception (ListTableResponse × ServerWorld) :=
  match h.GetInfinityBySessionID request.session_id with
  | (none, infinity_status) => pure (ProcessStatus response infinity_status, sw)
  | (some infinity, _) =>
    let result := sw.call env (EngineCall.ListTables infinity request.db_name)
    if result.1.IsOk then do
      let data_block ← first_block result.1
      let response := { response with payload := response.payload ++ varchars data_block 1 }
      pure ({ response with error_code := some result.1.status.code }, result.2)
    else pure (ProcessQueryResult response result.1, result.2)

/-- Models `ShowDatabase`. -/
def ShowDatabase (h : InfinityServiceHandler) (sw : ServerWorld) (env : RpcEnv)
    (response : ShowDatabaseResponse) (request : infinity_thrift_rpc.ShowDatabaseRequest) :
    Except Exception (ShowDatabaseResponse × ServerWorld) :=
  match h.GetInfinityBySessionID request.session_id with
  | (none, infinity_status) => pure (ProcessStatus response infinity_status, sw)
  | (some infinity, _) =>
    let result := sw.call env (EngineCall.ShowDatabase infinity request.db_name)
    if result.1.IsOk then do
      let data_block ← first_block result.1
      if data_block.row_count ≠ 3 then
        UnrecoverableError "ShowDatabase: query result is invalid."
      else
        let payload : ShowDatabasePayload :=
          { database_name := (data_block.GetValue 1 0).GetVarchar,
            store_dir := (data_block.GetValue 1 1).GetVarchar,
            table_count := (data_block.GetValue 1 2).big_int }
        pure ({ response with payload := payload, error_code := some result.1.status.code },
          result.2)
    else pure (ProcessQueryResult response result.1, result.2)

/-- Models `ShowTable`. -/
def ShowTable (h : InfinityServiceHandler) (sw : ServerWorld) (env : RpcEnv)
    (response : ShowTableResponse) (request : infinity_thrift_rpc.ShowTableRequest) :
    Except Exception (ShowTableResponse × ServerWorld) :=
  match h.GetInfinityBySessionID request.session_id with
  | (none, infinity_status) => pure (ProcessStatus response infinity_status, sw)
  | (some infinity, _) =>
    let result := sw.call env (EngineCall.ShowTable infinity request.db_name request.table_name)
    if result.1.IsOk then do
      let data_block ← first_block result.1
      if data_block.row_count ≠ 6 then
        UnrecoverableError "ShowTable: query result is invalid."
      else
        let payload : ShowTablePayload :=
          { database_name := (data_block.GetValue 1 0).GetVarchar,
            table_name := (data_block.GetValue 1 1).GetVarchar,
            store_dir := (data_block.GetValue 1 2).GetVarchar,
            column_count := (data_block.GetValue 1 3).big_int,
            segment_count := (data_block.GetValue 1 4).big_int,
            row_count := (data_block.GetValue 1 5).big_int }
        pure ({ response with payload := payload, error_code := some result.1.status.code },
          result.2)
    else pure (ProcessQueryResult response result.1, result.2)

/-- Models `ShowColumns`. -/
def ShowColumns (h : InfinityServiceHandler) (sw : ServerWorld) (env : RpcEnv)
    (response : SelectResponse) (request : infinity_thrift_rpc.ShowColumnsRequest) :
    Except Exception (SelectResponse × ServerWorld) :=
  match h.GetInfinityBySessionID request.session_id with
  | (none, infinity_status) => pure (ProcessStatus response infinity_status, sw)
  | (some infinity, _) =>
    let result := sw.call env
      (EngineCall.ShowColumns infinity request.db_name request.table_name)
    (Select.respond env result.1 response).map (fun response => (response, result.2))

/-- Models `ShowTables`. -/
def ShowTables (h : InfinityServiceHandler) (sw : ServerWorld) (env : RpcEnv)
    (response : SelectResponse) (request : infinity_thrift_rpc.ShowTablesRequest) :
    Except Exception (SelectResponse × ServerWorld) :=
  match h.GetInfinityBySessionID request.session_id with
  | (none, infinity_status) => pure (ProcessStatus response infinity_status, sw)
  | (some infinity, _) =>
    let result := sw.call env (EngineCall.ShowTables infinity request.db_name)
    (Select.respond env result.1 response).map (fun response => (response, result.2))

/-- Models `GetDatabase`. -/
def GetDatabase (h : InfinityServiceHandler) (sw : ServerWorld) (env : RpcEnv)
    (response : CommonResponse) (request : infinity_thrift_rpc.GetDatabaseRequest) :
    CommonResponse × ServerWorld :=
  match h.GetInfinityBySessionID request.session_id with
  | (none, infinity_status) => (ProcessStatus response infinity_status, sw)
  | (some infinity, _) =>
    let result := sw.call env (EngineCall.GetDatabase infinity request.db_name)
    (ProcessQueryResult response result.1, result.2)

/-- Models `GetTable`. -/
def GetTable (h : InfinityServiceHandler) (sw : ServerWorld) (env : RpcEnv)
    (response : CommonResponse) (request : infinity_thrift_rpc.GetTableRequest) :
    CommonResponse × ServerWorld :=
  match h.GetInfinityBySessionID request.session_id with
  | (none, infinity_status) => (ProcessStatus response infinity_status, sw)
  | (some infinity, _) =>
    let result := sw.call env (EngineCall.GetTable infinity request.db_name request.table_name)
    (ProcessQueryResult response result.1, result.2)

/-- The loop of `CreateIndex` over the wire index infos: `none` when one of them
has an invalid index type. -/
def CreateIndex.index_info_list :
    List infinity_thrift_rpc.IndexInfo → List IndexInfo → Option (List IndexInfo)
  | [], index_info_list_to_use => some index_info_list_to_use
  | index_info :: rest, index_info_list_to_use =>
    let index_type_ := GetIndexTypeFromProto index_info.index_type
    if index_type_ = IndexType.kInvalid then none
    else
      let index_param_list := index_info.index_param_list.map
        (fun index_param => ({ param_name_ := index_param.param_name,
                               param_value_ := index_param.param_value } : InitParameter))
      CreateIndex.index_info_list rest (index_info_list_to_use ++
        [{ index_type_ := index_type_, column_name_ := index_info.column_name,
           index_param_list_ := index_param_list }])

/-- Models `CreateIndex`. -/
def CreateIndex (h : InfinityServiceHandler) (sw : ServerWorld) (env : RpcEnv)
    (response : CommonResponse) (request : infinity_thrift_rpc.CreateIndexRequest) :
    CommonResponse × ServerWorld :=
  let conflict : Option ConflictType :=
    match request.create_option.conflict_type with
    | infinity_thrift_rpc.CreateConflict.Ignore => some ConflictType.kIgnore
    | infinity_thrift_rpc.CreateConflict.Error => some ConflictType.kError
    | infinity_thrift_rpc.CreateConflict.Replace => some ConflictType.kReplace
    | infinity_thrift_rpc.CreateConflict.other _ => none
  match conflict with
  | none => (ProcessStatus response Status.InvalidConflictType, sw)
  | some conflict_type_ =>
    match h.GetInfinityBySessionID request.session_id with
    | (none, infinity_status) => (ProcessStatus response infinity_status, sw)
    | (some infinity, _) =>
      match CreateIndex.index_info_list request.index_info_list [] with
      | none => (ProcessStatus response Status.InvalidIndexType, sw)
      | some index_info_list_to_use =>
        let result := sw.call env (EngineCall.CreateIndex infinity request.db_name
          request.table_name request.index_name index_info_list_to_use conflict_type_)
        (ProcessQueryResult response result.1, result.2)

/-- Models `DropIndex`. -/
def DropIndex (h : InfinityServiceHandler) (sw : ServerWorld) (env : RpcEnv)
    (response : CommonResponse) (request : infinity_thrift_rpc.DropIndexRequest) :
    CommonResponse × ServerWorld :=
  let conflict : Option ConflictType :=
    match request.drop_option.conflict_type with
    | infinity_thrift_rpc.DropConflict.Ignore => some ConflictType.kIgnore
    | infinity_thrift_rpc.DropConflict.Error => some ConflictType.kError
    | infinity_thrift_rpc.DropConflict.other _ => none
  match conflict with
  | none => (ProcessStatus response Status.InvalidConflictType, sw)
  | some conflict_type_ =>
    match h.GetInfinityBySessionID request.session_id with
    | (none, infinity_status) => (ProcessStatus response infinity_status, sw)
    | (some infinity, _) =>
      let result := sw.call env (EngineCall.DropIndex infinity request.db_name
        request.table_name request.index_name conflict_type_)
      (ProcessQueryResult response result.1, result.2)

/-- Models `ListIndex`. -/
def ListIndex (h : InfinityServiceHandler) (sw : ServerWorld) (env : RpcEnv)
    (response : ListIndexResponse) (request : infinity_thrift_rpc.ListIndexRequest) :
    Except Exception (ListIndexResponse × ServerWorld) :=
  match h.GetInfinityBySessionID request.session_id with
  | (none, infinity_status) => pure (ProcessStatus response infinity_status, sw)
  | (some infinity, _) =>
    let result := sw.call env
      (EngineCall.ListTableIndexes infinity request.db_name request.table_name)
    if result.1.IsOk then do
      let data_block ← first_block result.1
      let response := { response with payload := response.payload ++ varchars data_block 0 }
      pure ({ response with error_code := some result.1.status.code }, result.2)
    else pure (ProcessQueryResult response result.1, result.2)

/-- Models `ShowIndex`. -/
def ShowIndex (h : InfinityServiceHandler) (sw : ServerWorld) (env : RpcEnv)
    (response : ShowIndexResponse) (request : infinity_thrift_rpc.ShowIndexRequest) :
    Except Exception (ShowIndexResponse × ServerWorld) :=
  match h.GetInfinityBySessionID request.session_id with
  | (none, infinity_status) => pure (ProcessStatus response infinity_status, sw)
  | (some infinity, _) =>
    let result := sw.call env
      (EngineCall.ShowIndex infinity request.db_name request.table_name request.index_name)
    if result.1.IsOk then do
      let data_block ← first_block result.1
      if data_block.row_count ≠ 9 then
        UnrecoverableError "ShowIndex: query result is invalid."
      else
        let payload : ShowIndexPayload :=
          { db_name := (data_block.GetValue 1 0).GetVarchar,
            table_name := (data_block.GetValue 1 1).GetVarchar,
            index_name := (data_block.GetValue 1 2).GetVarchar,
            index_type := (data_block.GetValue 1 3).GetVarchar,
            index_column_names := (data_block.GetValue 1 4).GetVarchar,
            index_column_ids := (data_block.GetValue 1 5).GetVarchar,
            other_parameters := (data_block.GetValue 1 6).GetVarchar,
            store_dir := (data_block.GetValue 1 7).GetVarchar,
            segment_index_count := (data_block.GetValue 1 8).GetVarchar }
        pure ({ response with payload := payload, error_code := some result.1.status.code },
          result.2)
    else pure (ProcessQueryResult response result.1, result.2)

end InfinityServiceHandler

/-! ## Requests by verb, and the servers -/

/-- A call of the service: the verb with its request. `Connect` has no request;
its argument is the session object which `Infinity::RemoteConnect()` returns
during the call. -/
inductive Request where
  | Connect (infinity : Infinity)
  | Disconnect (request : infinity_thrift_rpc.CommonRequest)
  | CreateDatabase (request : infinity_thrift_rpc.CreateDatabaseRequest)
  | DropDatabase (request : infinity_thrift_rpc.DropDatabaseRequest)
  | CreateTable (request : infinity_thrift_rpc.CreateTableRequest)
  | DropTable (request : infinity_thrift_rpc.DropTableRequest)
  | Insert (request : infinity_thrift_rpc.InsertRequest)
  | Import (request : infinity_thrift_rpc.ImportRequest)
  | UploadFileChunk (request : infinity_thrift_rpc.FileChunk)
  | Select (request : infinity_thrift_rpc.SelectRequest)
  | Explain (request : infinity_thrift_rpc.ExplainRequest)
  | ShowVariable (request : infinity_thrift_rpc.ShowVariableRequest)
  | Delete (request : infinity_thrift_rpc.DeleteRequest)
  | Update (request : infinity_thrift_rpc.UpdateRequest)
  | ListDatabase (request : infinity_thrift_rpc.ListDatabaseRequest)
  | ListTable (request : infinity_thrift_rpc.ListTableRequest)
  | ShowDatabase (request : infinity_thrift_rpc.ShowDatabaseRequest)
  | ShowTable (request : infinity_thrift_rpc.ShowTableRequest)
  | ShowColumns (request : infinity_thrift_rpc.ShowColumnsRequest)
  | ShowTables (request : infinity_thrift_rpc.ShowTablesRequest)
  | GetDatabase (request : infinity_thrift_rpc.GetDatabaseRequest)
  | GetTable (request : infinity_thrift_rpc.GetTableRequest)
  | CreateIndex (request : infinity_thrift_rpc.CreateIndexRequest)
  | DropIndex (request : infinity_thrift_rpc.DropIndexRequest)
  | ListIndex (request : infinity_thrift_rpc.ListIndexRequest)
  | ShowIndex (request : infinity_thrift_rpc.ShowIndexRequest)

/-- The session id of the request of a call. -/
def Request.session_id : Request → Option Int
  | Request.Connect _ => none
  | Request.Disconnect r => some r.session_id
  | Request.CreateDatabase r => some r.session_id
  | Request.DropDatabase r => some r.session_id
  | Request.CreateTable r => some r.session_id
  | Request.DropTable r => some r.session_id
  | Request.Insert r => some r.session_id
  | Request.Import r => some r.session_id
  | Request.UploadFileChunk r => some r.session_id
  | Request.Select r => some r.session_id
  | Request.Explain r => some r.session_id
  | Request.ShowVariable r => some r.session_id
  | Request.Delete r => some r.session_id
  | Request.Update r => some r.session_id
  | Request.ListDatabase r => some r.session_id
  | Request.ListTable r => some r.session_id
  | Request.ShowDatabase r => some r.session_id
  | Request.ShowTable r => some r.session_id
  | Request.ShowColumns r => some r.session_id
  | Request.ShowTables r => some r.session_id
  | Request.GetDatabase r => some r.session_id
  | Request.GetTable r => some r.session_id
  | Request.CreateIndex r => some r.session_id
  | Request.DropIndex r => some r.session_id
  | Request.ListIndex r => some r.session_id
  | Request.ShowIndex r => some r.session_id

/-- The response of a call, by its type. -/
inductive AnyResponse where
  | Common (response : CommonResponse)
  | Upload (response : UploadResponse)
  | Select (response : SelectResponse)
  | ListDatabase (response : ListDatabaseResponse)
  | ListTable (response : ListTableResponse)
  | ListIndex (response : ListIndexResponse)
  | ShowDatabase (response : ShowDatabaseResponse)
  | ShowTable (response : ShowTableResponse)
  | ShowIndex (response : ShowIndexResponse)

def AnyResponse.error_code : AnyResponse → Option ErrorCode
  | AnyResponse.Common r => r.error_code
  | AnyResponse.Upload r => r.error_code
  | AnyResponse.Select r => r.error_code
  | AnyResponse.ListDatabase r => r.error_code
  | AnyResponse.ListTable r => r.error_code
  | AnyResponse.ListIndex r => r.error_code
  | AnyResponse.ShowDatabase r => r.error_code
  | AnyResponse.ShowTable r => r.error_code
  | AnyResponse.ShowIndex r => r.error_code

/-- A default-constructed response, as the generated processor passes it to the
handler: no optional field is set. -/
def Response.init {α : Type} (payload : α) : Response α :=
  { error_code := none, error_msg := none, payload := payload }

/-- One call on a handler: the processor passes a fresh response and the
request to the function of the verb. The result is the response, the handler
and the world after the call; an exception ends the call. -/
def InfinityServiceHandler.handle (h : InfinityServiceHandler) (sw : ServerWorld) (env : RpcEnv) :
    Request → Except Exception (AnyResponse × InfinityServiceHandler × ServerWorld)
  | Request.Connect infinity =>
    let r := h.Connect sw infinity (Response.init ⟨none⟩)
    pure (AnyResponse.Common r.1, r.2.1, r.2.2)
  | Request.Disconnect request =>
    let r := h.Disconnect sw env (Response.init ⟨none⟩) request
    pure (AnyResponse.Common r.1, r.2.1, r.2.2)
  | Request.CreateDatabase request =>
    let r := h.CreateDatabase sw env (Response.init ⟨none⟩) request
    pure (AnyResponse.Common r.1, h, r.2)
  | Request.DropDatabase request =>
    let r := h.DropDatabase sw env (Response.init ⟨none⟩) request
    pure (AnyResponse.Common r.1, h, r.2)
  | Request.CreateTable request =>
    let r := h.CreateTable sw env (Response.init ⟨none⟩) request
    pure (AnyResponse.Common r.1, h, r.2)
  | Request.DropTable request =>
    let r := h.DropTable sw env (Response.init ⟨none⟩) request
    pure (AnyResponse.Common r.1, h, r.2)
  | Request.Insert request =>
    (h.Insert sw env (Response.init ⟨none⟩) request).map
      (fun r => (AnyResponse.Common r.1, h, r.2))
  | Request.Import request =>
    let r := h.Import sw env (Response.init ⟨none⟩) request
    pure (AnyResponse.Common r.1, h, r.2)
  | Request.UploadFileChunk request =>
    let r := InfinityServiceHandler.UploadFileChunk sw env (Response.init ⟨none⟩) request
    pure (AnyResponse.Upload r.1, h, r.2)
  | Request.Select request =>
    (h.Select sw env (Response.init ⟨[], []⟩) request).map
      (fun r => (AnyResponse.Select r.1, h, r.2))
  | Request.Explain request =>
    (h.Explain sw env (Response.init ⟨[], []⟩) request).map
      (fun r => (AnyResponse.Select r.1, h, r.2))
  | Request.ShowVariable request =>
    (h.ShowVariable sw env (Response.init ⟨[], []⟩) request).map
      (fun r => (AnyResponse.Select r.1, h, r.2))
  | Request.Delete request =>
    (h.Delete sw env (Response.init ⟨none⟩) request).map
      (fun r => (AnyResponse.Common r.1, h, r.2))
  | Request.Update request =>
    (h.Update sw env (Response.init ⟨none⟩) request).map
      (fun r => (AnyResponse.Common r.1, h, r.2))
  | Request.ListDatabase request =>
    (h.ListDatabase sw env (Response.init []) request).map
      (fun r => (AnyResponse.ListDatabase r.1, h, r.2))
  | Request.ListTable request =>
    (h.ListTable sw env (Response.init []) request).map
      (fun r => (AnyResponse.ListTable r.1, h, r.2))
  | Request.ShowDatabase request =>
    (h.ShowDatabase sw env (Response.init ⟨"", "", 0⟩) request).map
      (fun r => (AnyResponse.ShowDatabase r.1, h, r.2))
  | Request.ShowTable request =>
    (h.ShowTable sw env (Response.init ⟨"", "", "", 0, 0, 0⟩) request).map
      (fun r => (AnyResponse.ShowTable r.1, h, r.2))
  | Request.ShowColumns request =>
    (h.ShowColumns sw env (Response.init ⟨[], []⟩) request).map
      (fun r => (AnyResponse.Select r.1, h, r.2))
  | Request.ShowTables request =>
    (h.ShowTables sw env (Response.init ⟨[], []⟩) request).map
      (fun r => (AnyResponse.Select r.1, h, r.2))
  | Request.GetDatabase request =>
    let r := h.GetDatabase sw env (Response.init ⟨none⟩) request
    pure (AnyResponse.Common r.1, h, r.2)
  | Request.GetTable request =>
    let r := h.GetTable sw env (Response.init ⟨none⟩) request
    pure (AnyResponse.Common r.1, h, r.2)
  | Request.CreateIndex request =>
    let r := h.CreateIndex sw env (Response.init ⟨none⟩) request
    pure (AnyResponse.Common r.1, h, r.2)
  | Request.DropIndex request =>
    let r := h.DropIndex sw env (Response.init ⟨none⟩) request
    pure (AnyResponse.Common r.1, h, r.2)
  | Request.ListIndex request =>
    (h.ListIndex sw env (Response.init []) request).map
      (fun r => (AnyResponse.ListIndex r.1, h, r.2))
  | Request.ShowIndex request =>
    (h.ShowIndex sw env (Response.init ⟨"", "", "", "", "", "", "", "", ""⟩) request).map
      (fun r => (AnyResponse.ShowIndex r.1, h, r.2))

/-- The three servers of the file. -/
inductive ServerVariant where
  | Threaded
  | Pool
  | NonBlockPool
  deriving DecidableEq, Repr

/-- Models `InfinityServiceCloneFactory::getHandler`, which the servers built
on the processor factory call for each incoming connection: a new handler, with
an empty session map. -/
def InfinityServiceCloneFactory.getHandler : InfinityServiceHandler :=
  { infinity_session_map_ := [] }

/-- A server after `Init`. `ThreadedThriftServer` and `PoolThriftServer` are
built on `InfinityServiceCloneFactory`: `handlers` gives, for each connection,
the handler made for it. `NonBlockPoolThriftServer` is built on one processor
over `service_handler_`, which serves every connection. -/
structure ThriftServer where
  variant : ServerVariant
  service_handler_ : InfinityServiceHandler
  handlers : Nat → InfinityServiceHandler

/-- Models the `Init` functions of the three servers. -/
def ThriftServer.Init (variant : ServerVariant) : ThriftServer :=
  { variant := variant,
    service_handler_ := { infinity_session_map_ := [] },
    handlers := fun _ => InfinityServiceCloneFactory.getHandler }

/-- The handler which serves the requests of connection `conn`. -/
def ThriftServer.handler (s : ThriftServer) (conn : Nat) : InfinityServiceHandler :=
  match s.variant with
  | ServerVariant.NonBlockPool => s.service_handler_
  | _ => s.handlers conn

/-- The server in which the handler of connection `conn` has become `h`. -/
def ThriftServer.set_handler (s : ThriftServer) (conn : Nat) (h : InfinityServiceHandler) :
    ThriftServer :=
  match s.variant with
  | ServerVariant.NonBlockPool => { s with service_handler_ := h }
  | _ => { s with handlers := fun c => if c = conn then h else s.handlers c }

/-- A call arriving on connection `conn`. -/
def ThriftServer.serve (s : ThriftServer) (sw : ServerWorld) (env : RpcEnv) (conn : Nat)
    (request : Request) : Except Exception (AnyResponse × ThriftServer × ServerWorld) :=
  ((s.handler conn).handle sw env request).map
    (fun r => (r.1, s.set_handler conn r.2.1, r.2.2))

/-- A sequence of calls, each on its connection, up to the first exception. -/
def ThriftServer.run (env : RpcEnv) :
    List (Nat × Request) → ThriftServer → ServerWorld → Except Exception (ThriftServer × ServerWorld)
  | [], s, sw => pure (s, sw)
  | (conn, request) :: rest, s, sw =>
    match s.serve sw env conn request with
    | Except.error e => Except.error e
    | Except.ok r => ThriftServer.run env rest r.2.1 r.2.2

/-! ## Sample data of the front end -/

/-- An environment in which every engine call succeeds with an empty table. -/
def sample_rpc_env : RpcEnv :=
  { temp_dir := "/tmp/infinity",
    f64_to_f32 := fun x => ⟨x.bits⟩,
    engine := fun _ => ⟨Status.OK, some ⟨0, fun _ => ⟨0, fun _ _ => ⟨"", 0⟩⟩⟩⟩,
    ProcessDataBlocks := fun result response =>
      pure { response with error_code := some result.status.code } }

def sample_server_world : ServerWorld := { calls := [], fs := { files := [], dirs := [] } }

def sample_infinity : Infinity := { addr := 1, session_id := 7 }

/-- A handler with the single session 7. -/
def sample_handler : InfinityServiceHandler := { infinity_session_map_ := [(7, sample_infinity)] }

/-- A wire value which the `switch` over a create conflict maps: `Ignore`,
`Error` or `Replace`. -/
def infinity_thrift_rpc.CreateConflict.known : infinity_thrift_rpc.CreateConflict → Bool
  | infinity_thrift_rpc.CreateConflict.other _ => false
  | _ => true

/-- A wire value which the `switch` over a drop conflict maps: `Ignore` or
`Error`. -/
def infinity_thrift_rpc.DropConflict.known : infinity_thrift_rpc.DropConflict → Bool
  | infinity_thrift_rpc.DropConflict.other _ => false
  | _ => true

/-- The status of the first wire column definition which does not convert. -/
def first_column_def_failure (column_defs : List infinity_thrift_rpc.ColumnDef) : Option Status :=
  ((column_defs.map GetColumnDefFromProto).find? (fun r => !r.2.ok)).map Prod.snd

/-- The mapping of the create conflict values as the specification states it:
`Ignore`, `Error` and `Replace` go to the internal values of the same name, no
other value is mapped. -/
def spec_create_conflict : infinity_thrift_rpc.CreateConflict → Option ConflictType
  | infinity_thrift_rpc.CreateConflict.Ignore => some ConflictType.kIgnore
  | infinity_thrift_rpc.CreateConflict.Error => some ConflictType.kError
  | infinity_thrift_rpc.CreateConflict.Replace => some ConflictType.kReplace
  | infinity_thrift_rpc.CreateConflict.other _ => none

/-- The mapping of the drop conflict values as the specification states it:
`Ignore` and `Error` go to the internal values of the same name, no other value
is mapped. -/
def spec_drop_conflict : infinity_thrift_rpc.DropConflict → Option ConflictType
  | infinity_thrift_rpc.DropConflict.Ignore => some ConflictType.kIgnore
  | infinity_thrift_rpc.DropConflict.Error => some ConflictType.kError
  | infinity_thrift_rpc.DropConflict.other _ => none

/-- The mapping of the explain types as the specification lists them: each of
the seven values goes to the internal value of the same name. -/
def spec_explain_type : infinity_thrift_rpc.ExplainType → Option ExplainType
  | infinity_thrift_rpc.ExplainType.Analyze => some ExplainType.kAnalyze
  | infinity_thrift_rpc.ExplainType.Ast => some ExplainType.kAst
  | infinity_thrift_rpc.ExplainType.Physical => some ExplainType.kPhysical
  | infinity_thrift_rpc.ExplainType.Pipeline => some ExplainType.kPipeline
  | infinity_thrift_rpc.ExplainType.UnOpt => some ExplainType.kUnOpt
  | infinity_thrift_rpc.ExplainType.Opt => some ExplainType.kOpt
  | infinity_thrift_rpc.ExplainType.Fragment => some ExplainType.kFragment
  | infinity_thrift_rpc.ExplainType.other _ => none

/-! ## The wire types as the specification lists them -/

/-- The element types as the specification lists them: each of the seven
values goes to the internal element type of the same name. -/
def spec_element_type : infinity_thrift_rpc.ElementType → Option EmbeddingDataType
  | infinity_thrift_rpc.ElementType.ElementBit => some EmbeddingDataType.kElemBit
  | infinity_thrift_rpc.ElementType.ElementInt8 => some EmbeddingDataType.kElemInt8
  | infinity_thrift_rpc.ElementType.ElementInt16 => some EmbeddingDataType.kElemInt16
  | infinity_thrift_rpc.ElementType.ElementInt32 => some EmbeddingDataType.kElemInt32
  | infinity_thrift_rpc.ElementType.ElementInt64 => some EmbeddingDataType.kElemInt64
  | infinity_thrift_rpc.ElementType.ElementFloat32 => some EmbeddingDataType.kElemFloat
  | infinity_thrift_rpc.ElementType.ElementFloat64 => some EmbeddingDataType.kElemDouble
  | infinity_thrift_rpc.ElementType.other _ => none

/-- The logic types as the specification lists them: each of the eleven values
goes to the internal logical type of the same name. -/
def spec_logical_type : infinity_thrift_rpc.LogicType → Option LogicalType
  | infinity_thrift_rpc.LogicType.Boolean => some LogicalType.kBoolean
  | infinity_thrift_rpc.LogicType.TinyInt => some LogicalType.kTinyInt
  | infinity_thrift_rpc.LogicType.SmallInt => some LogicalType.kSmallInt
  | infinity_thrift_rpc.LogicType.Integer => some LogicalType.kInteger
  | infinity_thrift_rpc.LogicType.BigInt => some LogicalType.kBigInt
  | infinity_thrift_rpc.LogicType.HugeInt => some LogicalType.kHugeInt
  | infinity_thrift_rpc.LogicType.Decimal => some LogicalType.kDecimal
  | infinity_thrift_rpc.LogicType.Float => some LogicalType.kFloat
  | infinity_thrift_rpc.LogicType.Double => some LogicalType.kDouble
  | infinity_thrift_rpc.LogicType.Embedding => some LogicalType.kEmbedding
  | infinity_thrift_rpc.LogicType.Varchar => some LogicalType.kVarchar
  | infinity_thrift_rpc.LogicType.other _ => none

/-- The wire data types which the specification does not list: a logic type
outside the eleven values, or an embedding whose element type is outside the
seven values. -/
def spec_unknown_data_type (type : infinity_thrift_rpc.DataType) : Prop :=
  spec_logical_type type.logic_type = none ∨
    (type.logic_type = infinity_thrift_rpc.LogicType.Embedding ∧
      spec_element_type type.embedding_type.element_type = none)

instance (type : infinity_thrift_rpc.DataType) : Decidable (spec_unknown_data_type type) := by
  unfold spec_unknown_data_type; infer_instance

/-! ## Uploads of several chunks -/

/-- The bytes of the file at `path`, if there is one. -/
def LocalFileSystem.contents (fs : LocalFileSystem) (path : String) : Option (List Nat) :=
  (fs.files.find? (fun f => f.1 == path)).map Prod.snd

/-- A sequence of `UploadFileChunk` calls, each with a fresh response: the
responses in call order and the world after the last call. -/
def upload_chunks (env : RpcEnv) :
    List infinity_thrift_rpc.FileChunk → ServerWorld → List UploadResponse × ServerWorld
  | [], sw => ([], sw)
  | request :: rest, sw =>
    let r := InfinityServiceHandler.UploadFileChunk sw env (Response.init ⟨none⟩) request
    let rs := upload_chunks env rest r.2
    (r.1 :: rs.1, rs.2)

/-! ## The segment ids of a table index entry -/

/-- The invariant of `index_by_segment_`: the keys ascend strictly and every
entry is stored under its own segment id. -/
def Map.keyed (m : Map SegmentIndexEntry) : Prop :=
  Map.WF m ∧ ∀ p ∈ m, p.2.segment_id = p.1

/-! ## Encoding of result columns -/

/-- Conversion of a `u64` to an `i32`, as in the assignment to
`i32 current_offset`. -/
def toI32 (n : Nat) : Int :=
  if n % 2 ^ 32 < 2 ^ 31 then (n % 2 ^ 32 : Nat) else (n % 2 ^ 32 : Nat) - 2 ^ 32

/-- The `w` bytes of the object representation of an unsigned integer on the
little-endian targets of the build. -/
def le_bytes (w n : Nat) : List Nat := (List.range w).map (fun i => n / 256 ^ i % 256)

/-- The four bytes which `memcpy(dst, &length, sizeof(i32))` copies. -/
def i32_bytes (x : Int) : List Nat := le_bytes 4 (x % 2 ^ 32).toNat

/-- Modelled from the spec: `VarcharT` is defined outside these sources
("Varchar columns ... inlined small-string representations", "the associated
heap"). The fields are those which `HandleVarcharType` reads: the length, the
result of `IsInlined()`, the inline array `short_.data_` and the heap address
`vector_.chunk_id_`, `vector_.chunk_offset_`. -/
structure VarcharT where
  length_ : Nat
  IsInlined : Bool
  short_data_ : List Nat
  chunk_id_ : Nat
  chunk_offset_ : Nat
  deriving DecidableEq, Repr

/-- Modelled from the spec: a `ColumnVector` ("column-vector layout (consumed
read-only ...)") as the encoders see it: its data type, the bytes behind
`data()`, the same memory seen as an array of `VarcharT`, and
`buffer_->fix_heap_mgr_->ReadFromHeap(chunk_id, chunk_offset, length)`, the bytes
which the heap manager writes to the destination. -/
structure ColumnVector where
  data_type : DataType
  data : List Nat
  varchars : List VarcharT
  ReadFromHeap : Nat → Nat → Nat → List Nat

/-- Models `DataTypeToProtoColumnType`. -/
def DataTypeToProtoColumnType (data_type : DataType) :
    Except Exception infinity_thrift_rpc.ColumnType :=
  match data_type.type with
  | LogicalType.kBoolean => pure infinity_thrift_rpc.ColumnType.ColumnBool
  | LogicalType.kTinyInt => pure infinity_thrift_rpc.ColumnType.ColumnInt8
  | LogicalType.kSmallInt => pure infinity_thrift_rpc.ColumnType.ColumnInt16
  | LogicalType.kInteger => pure infinity_thrift_rpc.ColumnType.ColumnInt32
  | LogicalType.kBigInt => pure infinity_thrift_rpc.ColumnType.ColumnInt64
  | LogicalType.kFloat => pure infinity_thrift_rpc.ColumnType.ColumnFloat32
  | LogicalType.kDouble => pure infinity_thrift_rpc.ColumnType.ColumnFloat64
  | LogicalType.kVarchar => pure infinity_thrift_rpc.ColumnType.ColumnVarchar
  | LogicalType.kEmbedding => pure infinity_thrift_rpc.ColumnType.ColumnEmbedding
  | LogicalType.kRowID => pure infinity_thrift_rpc.ColumnType.ColumnRowID
  | _ => UnrecoverableError "Invalid data type"

/-- Models `std::memcpy(dst, src, n)` out of an array: the first `n` bytes of
`src`; reading past its end is undefined. -/
def memcpy_from (src : List Nat) (n : Nat) : Except Exception (List Nat) :=
  if n ≤ src.length then pure (src.take n) else Except.error Exception.UndefinedBehaviour

/-- Models `std::memcpy(dst.data() + offset, src, n)` into the string `dst`:
the bytes from `offset` on are replaced; a destination outside the string is
undefined. -/
def memcpy_to (dst : List Nat) (offset : Int) (src : List Nat) : Except Exception (List Nat) :=
  if 0 ≤ offset ∧ offset + src.length ≤ dst.length then
    pure (dst.take offset.toNat ++ src ++ dst.drop (offset.toNat + src.length))
  else Except.error Exception.UndefinedBehaviour

/-- The first three statements of `HandlePodType`, `HandleEmbeddingType` and
`HandleRowIDType`: `size` is a `SizeT`, `dst` is resized to it and filled from
`column_vector->data()`. `Size` is `DataType::Size`, defined outside these
sources. -/
def copy_column_data (Size : DataType → Nat) (row_count : Nat) (column_vector : ColumnVector) :
    Except Exception (List Nat) :=
  let size := (Size column_vector.data_type * row_count) % 2 ^ 64
  memcpy_from column_vector.data size

/-- Models `HandlePodType`. -/
def HandlePodType (Size : DataType → Nat) (output_column_field : ColumnField) (row_count : Nat)
    (column_vector : ColumnVector) : Except Exception ColumnField := do
  let dst ← copy_column_data Size row_count column_vector
  pure { output_column_field with column_vectors := output_column_field.column_vectors ++ [dst] }

/-- Models `HandleEmbeddingType`. -/
def HandleEmbeddingType (Size : DataType → Nat) (output_column_field : ColumnField)
    (row_count : Nat) (column_vector : ColumnVector) : Except Exception ColumnField := do
  let dst ← copy_column_data Size row_count column_vector
  let column_type ← DataTypeToProtoColumnType column_vector.data_type
  pure { column_vectors := output_column_field.column_vectors ++ [dst],
         column_type := some column_type }

/-- Models `HandleRowIDType`. -/
def HandleRowIDType (Size : DataType → Nat) (output_column_field : ColumnField)
    (row_count : Nat) (column_vector : ColumnVector) : Except Exception ColumnField := do
  let dst ← copy_column_data Size row_count column_vector
  let column_type ← DataTypeToProtoColumnType column_vector.data_type
  pure { column_vectors := output_column_field.column_vectors ++ [dst],
         column_type := some column_type }

/-- The first loop of `HandleVarcharType`: the sum of the lengths of the rows
`index`, ..., `index + n - 1`. Reading a row past the array is undefined. -/
def HandleVarcharType.total (varchars : List VarcharT) : Nat → Nat → Nat → Except Exception Nat
  | 0, _, total_varchar_data_size => pure total_varchar_data_size
  | n + 1, index, total_varchar_data_size =>
    match varchars[index]? with
    | none => Except.error Exception.UndefinedBehaviour
    | some varchar =>
      HandleVarcharType.total varchars n (index + 1)
        ((total_varchar_data_size + varchar.length_) % 2 ^ 64)

/-- The bytes of a row as the second loop of `HandleVarcharType` reads them:
out of `short_.data_` for an inlined value, and else out of a zeroed buffer
which `ReadFromHeap` has filled. -/
def HandleVarcharType.row_bytes (column_vector : ColumnVector) (varchar : VarcharT) :
    Except Exception (List Nat) :=
  if varchar.IsInlined then memcpy_from varchar.short_data_ varchar.length_
  else
    let varchar_ptr := (column_vector.ReadFromHeap varchar.chunk_id_ varchar.chunk_offset_
      varchar.length_ ++ List.replicate (varchar.length_ + 1) 0).take (varchar.length_ + 1)
    memcpy_from varchar_ptr varchar.length_

/-- The second loop of `HandleVarcharType` over the rows `index`, ...,
`index + n - 1`; `current_offset` is an `i32`. -/
def HandleVarcharType.loop (column_vector : ColumnVector) :
    Nat → Nat → Int → List Nat → Except Exception (List Nat)
  | 0, _, _, dst => pure dst
  | n + 1, index, current_offset, dst =>
    match column_vector.varchars[index]? with
    | none => Except.error Exception.UndefinedBehaviour
    | some varchar => do
      let length : Int := toI32 varchar.length_
      let bytes ← HandleVarcharType.row_bytes column_vector varchar
      let dst ← memcpy_to dst current_offset (i32_bytes length)
      let dst ← memcpy_to dst (current_offset + 4) bytes
      HandleVarcharType.loop column_vector n (index + 1)
        (toI32 (toU64 current_offset + 4 + varchar.length_)) dst

/-- Models `HandleVarcharType`. -/
def HandleVarcharType (output_column_field : ColumnField) (row_count : Nat)
    (column_vector : ColumnVector) : Except Exception ColumnField := do
  let total_varchar_data_size ← HandleVarcharType.total column_vector.varchars row_count 0 0
  let all_size := (total_varchar_data_size + row_count * 4) % 2 ^ 64
  let dst := List.replicate all_size 0
  let dst ← HandleVarcharType.loop column_vector row_count 0 0 dst
  let column_type ← DataTypeToProtoColumnType column_vector.data_type
  pure { column_vectors := output_column_field.column_vectors ++ [dst],
         column_type := some column_type }

/-- Models `ProcessColumnFieldType`: the column field after the call and the
returned status. -/
def ProcessColumnFieldType (Size : DataType → Nat) (output_column_field : ColumnField)
    (row_count : Nat) (column_vector : ColumnVector) : Except Exception (ColumnField × Status) :=
  match column_vector.data_type.type with
  | LogicalType.kBoolean | LogicalType.kTinyInt | LogicalType.kSmallInt | LogicalType.kInteger
  | LogicalType.kBigInt | LogicalType.kHugeInt | LogicalType.kFloat | LogicalType.kDouble =>
    (HandlePodType Size output_column_field row_count column_vector).map (·, Status.OK)
  | LogicalType.kVarchar =>
    (HandleVarcharType output_column_field row_count column_vector).map (·, Status.OK)
  | LogicalType.kEmbedding =>
    (HandleEmbeddingType Size output_column_field row_count column_vector).map (·, Status.OK)
  | LogicalType.kRowID =>
    (HandleRowIDType Size output_column_field row_count column_vector).map (·, Status.OK)
  | _ => pure (output_column_field, Status.InvalidDataType)

/-- The string of a row: the first `length_` bytes of the inline array, or the
bytes read from the heap. -/
def VarcharT.string (column_vector : ColumnVector) (varchar : VarcharT) : List Nat :=
  if varchar.IsInlined then varchar.short_data_.take varchar.length_
  else (column_vector.ReadFromHeap varchar.chunk_id_ varchar.chunk_offset_ varchar.length_ ++
    List.replicate varchar.length_ 0).take varchar.length_

/-- The wire form of varchar rows as the specification states it: for each row
in order, the length in four little-endian bytes and then the bytes of the
string. -/
def spec_varchar_buffer (rows : List (List Nat)) : List Nat :=
  (rows.map (fun s => le_bytes 4 s.length ++ s)).flatten

/-- The number which four little-endian bytes stand for. -/
def from_le_bytes : List Nat → Nat
  | [] => 0
  | b :: rest => b + 256 * from_le_bytes rest

/-- Decoding of a varchar buffer: as long as bytes are left, read a length
prefix of four bytes and then that many bytes. `fuel` bounds the number of
rows. -/
def decode_varchars : Nat → List Nat → List (List Nat)
  | 0, _ => []
  | _ + 1, [] => []
  | fuel + 1, b :: buffer =>
    let length := from_le_bytes ((b :: buffer).take 4)
    ((b :: buffer).drop 4).take length ::
      decode_varchars fuel (((b :: buffer).drop 4).drop length)

/-- A varchar column with the inlined row "ab" and the heap-stored row "xyz". -/
def sample_varchar_column : ColumnVector :=
  { data_type := ⟨LogicalType.kVarchar, none⟩,
    data := [],
    varchars := [⟨2, true, [97, 98, 0, 0], 0, 0⟩, ⟨3, false, [], 1, 8⟩],
    ReadFromHeap := fun chunk_id chunk_offset length =>
      if chunk_id = 1 ∧ chunk_offset = 8 then [120, 121, 122].take length else [] }

/-- A varchar column of 257 heap-stored rows of 8388607 bytes each (the length
fits 23 bits); the heap manager writes nothing, so every string is zeroes. -/
def wide_varchar_column : ColumnVector :=
  { data_type := ⟨LogicalType.kVarchar, none⟩,
    data := [],
    varchars := List.replicate 257 ⟨8388607, false, [], 0, 0⟩,
    ReadFromHeap := fun _ _ _ => [] }

/-! ## The mutex `rw_locker_` of a `TableIndexEntry`

`GetOrCreateSegment`, `PopulateEntirely` and `CreateIndexPrepare` once more,
each returning, besides the result of the functional model above, the order in
which it locks and unlocks `rw_locker_` and touches the members
`index_by_segment_` and `last_segment_`. -/

/-- The members of a `TableIndexEntry` which change after its construction. -/
inductive GuardedMember where
  | index_by_segment_ | last_segment_ | commit_ts_
  deriving DecidableEq, Repr

/-- A step of a member function as far as the mutex sees it: the construction
of a `std::shared_lock` or `std::unique_lock` on `rw_locker_`, the end of the
lock's scope, and a read or a modification of a member. -/
inductive SyncStep where
  | lock_shared
  | lock_unique
  | unlock
  | read (member : GuardedMember)
  | write (member : GuardedMember)
  deriving DecidableEq, Repr

/-- Models `TableIndexEntry::GetOrCreateSegment` with its steps on the mutex:
the `std::unique_lock` is constructed before `find` and lives to the `return`;
`emplace` happens when the segment is not found. -/
def TableIndexEntry.GetOrCreateSegment.locking (e : TableIndexEntry) (w : World)
    (segment_id : SegmentID) :
    ((Bool × SegmentIndexEntry) × TableIndexEntry × World) × List SyncStep :=
  match Map.find e.index_by_segment_ segment_id with
  | none =>
    let r := SegmentIndexEntry.NewIndexEntry w segment_id
    (((true, r.1),
      { e with index_by_segment_ := Map.emplace e.index_by_segment_ segment_id r.1 }, r.2),
     [SyncStep.lock_unique, SyncStep.read GuardedMember.index_by_segment_,
      SyncStep.write GuardedMember.index_by_segment_, SyncStep.unlock])
  | some segment_index_entry =>
    (((false, segment_index_entry), e, w),
     [SyncStep.lock_unique, SyncStep.read GuardedMember.index_by_segment_, SyncStep.unlock])

/-- Models `TableIndexEntry::PopulateEntirely` with its steps on the mutex: no
lock is constructed; `emplace` happens for a full-text index. -/
def TableIndexEntry.PopulateEntirely.locking (e : TableIndexEntry) (w : World)
    (segment_entry : SegmentEntry) :
    Except Exception ((Option SegmentIndexEntry × TableIndexEntry × World) × List SyncStep) :=
  match e.index_base_ with
  | none => Except.error Exception.UndefinedBehaviour
  | some index_base =>
    if index_base.index_type_ ≠ IndexType.kFullText then Except.ok ((none, e, w), [])
    else
      let segment_id := segment_entry.segment_id
      let r := SegmentIndexEntry.NewIndexEntry w segment_id
      let w1 := r.2.emit (Event.PopulateEntirely r.1 segment_entry.segment_id)
      Except.ok ((some r.1,
        { e with index_by_segment_ := Map.emplace e.index_by_segment_ segment_id r.1 }, w1),
        [SyncStep.write GuardedMember.index_by_segment_])

/-- The loop of `CreateIndexPrepare` with its steps on the mutex: per segment
one `emplace`, and the assignment to `last_segment_` for the unsealed segment;
`steps` are the steps made so far. -/
def CreateIndexPrepare.loop_locking (unsealed_id : SegmentID)
    (prepare is_replay check_ts : Bool) :
    List SegmentEntry → TableIndexEntry → World → List SegmentIndexEntry → List SyncStep →
      (List SegmentIndexEntry × TableIndexEntry × World) × List SyncStep
  | [], e, w, segment_index_entries, steps => ((segment_index_entries, e, w), steps)
  | segment_entry :: rest, e, w, segment_index_entries, steps =>
    let segment_id := segment_entry.segment_id
    let r := SegmentIndexEntry.NewIndexEntry w segment_id
    let w1 :=
      if !is_replay then
        r.2.emit (Event.CreateIndexPrepare r.1 segment_entry.segment_id prepare check_ts)
      else r.2
    let e1 := { e with index_by_segment_ := Map.emplace e.index_by_segment_ segment_id r.1 }
    let steps := steps ++ [SyncStep.write GuardedMember.index_by_segment_]
    let e2 := if unsealed_id = segment_id then { e1 with last_segment_ := some r.1 } else e1
    let steps :=
      if unsealed_id = segment_id then steps ++ [SyncStep.write GuardedMember.last_segment_]
      else steps
    CreateIndexPrepare.loop_locking unsealed_id prepare is_replay check_ts rest e2 w1
      (segment_index_entries ++ [r.1]) steps

/-- Models `TableIndexEntry::CreateIndexPrepare` with its steps on the mutex: no
lock is constructed. -/
def TableIndexEntry.CreateIndexPrepare.locking (e : TableIndexEntry) (w : World)
    (unsealed_id : SegmentID) (segments : List SegmentEntry)
    (prepare is_replay check_ts : Bool) :
    ((List SegmentIndexEntry × Status) × TableIndexEntry × World) × List SyncStep :=
  let r := CreateIndexPrepare.loop_locking unsealed_id prepare is_replay check_ts segments e w
    [] []
  (((r.1.1, Status.OK), r.1.2.1, r.1.2.2), r.2)

/-- How the running function holds the mutex. -/
inductive LockState where
  | unlocked | shared | exclusive
  deriving DecidableEq, Repr

/-- The discipline of a reader-writer mutex checked along the steps of a
function: every read happens with the mutex held (shared or exclusive) and
every modification with the mutex held exclusively. -/
def guarded_from : LockState → List SyncStep → Bool
  | _, [] => true
  | _, SyncStep.lock_shared :: rest => guarded_from LockState.shared rest
  | _, SyncStep.lock_unique :: rest => guarded_from LockState.exclusive rest
  | _, SyncStep.unlock :: rest => guarded_from LockState.unlocked rest
  | state, SyncStep.read _ :: rest => state != LockState.unlocked && guarded_from state rest
  | state, SyncStep.write _ :: rest => state == LockState.exclusive && guarded_from state rest

/-- A function keeps the discipline when it is entered without the mutex. -/
def guarded (steps : List SyncStep) : Bool := guarded_from LockState.unlocked steps

/-- A full-text table index entry without segments. -/
def sample_fulltext_entry : TableIndexEntry :=
  ⟨7, 3, 0, false, some sample_fulltext_base, some "/tbl/ft", none, [], none⟩

/-! ## The expression trees of `Update` on the heap -/

/-- The objects which `Update` reaches through its local pointers: the tree
behind `filter`, the vector behind `update_expr_array`, and the `UpdateExpr`
which `GetUpdateExprFromProto` returns for the entry `index` of the request. -/
inductive HeapObject where
  | filter
  | update_expr_array
  | update_expr (index : Nat)
  deriving DecidableEq, Repr

/-- An allocation which `Update` receives or makes, and a `delete`. -/
inductive HeapEvent where
  | new (object : HeapObject)
  | delete (object : HeapObject)
  deriving DecidableEq, Repr

/-- The loop of `Update` over the update expressions as the heap sees it, from
the entry `index` of the request on; the earlier entries are in the vector.
`GetUpdateExprFromProto` returns a new `UpdateExpr` in either case. On a
failure the branch deletes the entries of the vector, the vector and then
`parsed_expr`, and the function returns (`false`). -/
def InfinityServiceHandler.Update.heap_loop (f64_to_f32 : F64 → F32) :
    List infinity_thrift_rpc.UpdateExpr → Nat → Except Exception (List HeapEvent × Bool)
  | [], _ => pure ([], true)
  | update_expr :: rest, index =>
    match GetUpdateExprFromProto f64_to_f32 update_expr with
    | Except.error e => Except.error e
    | Except.ok r =>
      if !r.2.ok then
        pure ([HeapEvent.new (HeapObject.update_expr index)] ++
          (List.range index).map (fun i => HeapEvent.delete (HeapObject.update_expr i)) ++
          [HeapEvent.delete HeapObject.update_expr_array,
           HeapEvent.delete (HeapObject.update_expr index)], false)
      else
        match InfinityServiceHandler.Update.heap_loop f64_to_f32 rest (index + 1) with
        | Except.error e => Except.error e
        | Except.ok r2 => pure (HeapEvent.new (HeapObject.update_expr index) :: r2.1, r2.2)

/-- The allocations and deletions of `Update` up to its `return` on a failure,
or up to the call of the engine, which takes the pointers over. The branch for
a failed `where_expr` deletes nothing. -/
def InfinityServiceHandler.Update.heap (h : InfinityServiceHandler) (env : RpcEnv)
    (request : infinity_thrift_rpc.UpdateRequest) : Except Exception (List HeapEvent) :=
  match h.GetInfinityBySessionID request.session_id with
  | (none, _) => pure []
  | (some _, _) =>
    let filter : Except Exception (List HeapEvent × Bool) :=
      match request.where_expr with
      | none => pure ([], true)
      | some where_expr =>
        match GetParsedExprFromProto env.f64_to_f32 Status.OK where_expr with
        | Except.error e => Except.error e
        | Except.ok r =>
          pure ((match r.1 with
            | some _ => [HeapEvent.new HeapObject.filter]
            | none => []), r.2.ok)
    match filter with
    | Except.error e => Except.error e
    | Except.ok (events, false) => pure events
    | Except.ok (events, true) =>
      match request.update_expr_array with
      | none => pure events
      | some array =>
        match InfinityServiceHandler.Update.heap_loop env.f64_to_f32 array 0 with
        | Except.error e => Except.error e
        | Except.ok r => pure (events ++ [HeapEvent.new HeapObject.update_expr_array] ++ r.1)

/-- The objects allocated and not deleted, in the order of their allocation. -/
def live : List HeapEvent → List HeapObject
  | [] => []
  | HeapEvent.new object :: rest =>
    if HeapEvent.delete object ∈ rest then live rest else object :: live rest
  | HeapEvent.delete _ :: rest => live rest

/-- An `Update` request of session 7 whose `where_expr` is the column `c` and
whose only update expression has a value with no field set. -/
def sample_update_request : infinity_thrift_rpc.UpdateRequest :=
  { db_name := "db",
    table_name := "t",
    where_expr := some (infinity_thrift_rpc.ParsedExpr.mk (some ⟨["c"], false⟩) none
      infinity_thrift_rpc.FunctionExprOpt.unset none none none),
    update_expr_array := some [⟨"c", infinity_thrift_rpc.ParsedExpr.mk none none
      infinity_thrift_rpc.FunctionExprOpt.unset none none none⟩],
    session_id := 7 }

/-- The constraints as the specification lists them: each of the four values
goes to the internal constraint of the same name. -/
def spec_constraint_type : infinity_thrift_rpc.Constraint → Option ConstraintType
  | infinity_thrift_rpc.Constraint.NotNull => some ConstraintType.kNotNull
  | infinity_thrift_rpc.Constraint.Null => some ConstraintType.kNull
  | infinity_thrift_rpc.Constraint.PrimaryKey => some ConstraintType.kPrimaryKey
  | infinity_thrift_rpc.Constraint.Unique => some ConstraintType.kUnique
  | infinity_thrift_rpc.Constraint.other _ => none

/-- The body of the loop of `ProcessColumns` for the column `col_index`;
`column_vectors` is `data_block->column_vectors` and `columns` the vector of
the output fields. The column type is set from `DataTypeToProtoColumnType`,
which throws for a type without a wire column type, before the column is
encoded. An index past either vector is undefined. The result is `columns`
after the body and the status of `ProcessColumnFieldType`. -/
def ProcessColumns.body (Size : DataType → Nat) (row_count : Nat)
    (column_vectors : List ColumnVector) (col_index : Nat) (columns : List ColumnField) :
    Except Exception (List ColumnField × Status) :=
  match column_vectors[col_index]?, columns[col_index]? with
  | some result_column_vector, some output_column_field => do
    let column_type ← DataTypeToProtoColumnType result_column_vector.data_type
    let r ← ProcessColumnFieldType Size { output_column_field with column_type := some column_type }
      row_count result_column_vector
    pure (columns.set col_index r.1, r.2)
  | _, _ => Except.error Exception.UndefinedBehaviour

/-- The loop of `ProcessColumns` over the columns `col_index`, ...,
`col_index + n - 1`; it returns at the first status which is not OK. -/
def ProcessColumns.loop (Size : DataType → Nat) (row_count : Nat)
    (column_vectors : List ColumnVector) :
    Nat → Nat → List ColumnField → Except Exception (List ColumnField × Status)
  | 0, _, columns => pure (columns, Status.OK)
  | n + 1, col_index, columns =>
    match ProcessColumns.body Size row_count column_vectors col_index columns with
    | Except.error e => Except.error e
    | Except.ok r =>
      if !r.2.ok then pure r
      else ProcessColumns.loop Size row_count column_vectors n (col_index + 1) r.1

/-- Models `ProcessColumns`, the encoder of one data block: `row_count` is
`data_block->row_count()` and `column_vectors` is `data_block->column_vectors`.
The result is the vector `columns` after the call and the returned status. -/
def ProcessColumns (Size : DataType → Nat) (row_count : Nat) (column_vectors : List ColumnVector)
    (column_count : Nat) (columns : List ColumnField) :
    Except Exception (List ColumnField × Status) :=
  ProcessColumns.loop Size row_count column_vectors column_count 0 columns

theorem getD_mono_of_sorted {xs : List SegmentID} (hs : xs.Sorted (· ≤ ·)) {i j : Nat}
    (hij : i ≤ j) (hj : j < xs.length) : xs.getD i 0 ≤ xs.getD j 0 := by
  have hi : i < xs.length := lt_of_le_of_lt hij hj
  rw [List.getD_eq_getElem xs 0 hi, List.getD_eq_getElem xs 0 hj]
  rcases Nat.eq_or_lt_of_le hij with h | h
  · subst h; exact le_refl _
  · exact (List.pairwise_iff_getElem.mp hs) i j hi hj h

theorem lower_bound_loop_spec {xs : List SegmentID} (hs : xs.Sorted (· ≤ ·)) (value : SegmentID) :
    ∀ (fuel first count : Nat), count ≤ fuel → first + count ≤ xs.length →
      (∀ i, i < first → xs.getD i 0 < value) →
      (∀ i, first + count ≤ i → i < xs.length → value ≤ xs.getD i 0) →
      lower_bound_loop xs value fuel first count ≤ xs.length ∧
      (∀ i, i < lower_bound_loop xs value fuel first count → xs.getD i 0 < value) ∧
      (∀ i, lower_bound_loop xs value fuel first count ≤ i → i < xs.length →
        value ≤ xs.getD i 0) := by
  intro fuel
  induction fuel with
  | zero =>
    intro first count hc hlen hlo hhi
    have h0 : count = 0 := Nat.le_zero.mp hc
    subst h0
    simp only [lower_bound_loop]
    exact ⟨by omega, hlo, fun i hi hl => hhi i (by omega) hl⟩
  | succ fuel ih =>
    intro first count hc hlen hlo hhi
    simp only [lower_bound_loop]
    by_cases hpos : 0 < count
    · rw [if_pos hpos]
      have hstep : count / 2 < count := Nat.div_lt_self hpos (by decide)
      by_cases hlt : xs.getD (first + count / 2) 0 < value
      · rw [if_pos hlt]
        apply ih
        · omega
        · omega
        · intro i hi
          have hle : xs.getD i 0 ≤ xs.getD (first + count / 2) 0 :=
            getD_mono_of_sorted hs (by omega) (by omega)
          exact lt_of_le_of_lt hle hlt
        · intro i hi hl
          exact hhi i (by omega) hl
      · rw [if_neg hlt]
        apply ih
        · omega
        · omega
        · exact hlo
        · intro i hi hl
          have hle : xs.getD (first + count / 2) 0 ≤ xs.getD i 0 :=
            getD_mono_of_sorted hs hi hl
          exact le_trans (Nat.le_of_not_lt hlt) hle
    · rw [if_neg hpos]
      have h0 : count = 0 := by omega
      subst h0
      exact ⟨by omega, hlo, fun i hi hl => hhi i (by omega) hl⟩

/-- On a sorted range `std::binary_search` decides membership. -/
theorem binary_search_iff_mem {xs : List SegmentID} (hs : xs.Sorted (· ≤ ·)) (value : SegmentID) :
    binary_search xs value = true ↔ value ∈ xs := by
  obtain ⟨hlen, hlo, hhi⟩ := lower_bound_loop_spec hs value xs.length 0 xs.length
    (le_refl _) (by omega) (fun i hi => absurd hi (Nat.not_lt_zero i))
    (fun i hi hl => absurd hl (by omega))
  have hdef : lower_bound xs value = lower_bound_loop xs value xs.length 0 xs.length := rfl
  rw [← hdef] at hlen hlo hhi
  simp only [binary_search, Bool.and_eq_true, Bool.not_eq_true', decide_eq_true_eq,
    decide_eq_false_iff_not]
  constructor
  · rintro ⟨hne, hnl⟩
    have hr : lower_bound xs value < xs.length := lt_of_le_of_ne hlen hne
    have h1 : value ≤ xs.getD (lower_bound xs value) 0 := hhi _ (le_refl _) hr
    have h2 : xs.getD (lower_bound xs value) 0 = value := le_antisymm (Nat.le_of_not_lt hnl) h1
    rw [List.getD_eq_getElem xs 0 hr] at h2
    rw [← h2]
    exact List.getElem_mem hr
  · intro hmem
    obtain ⟨i, hi, hget⟩ := List.getElem_of_mem hmem
    have hgd : xs.getD i 0 = value := by rw [List.getD_eq_getElem xs 0 hi]; exact hget
    have hri : lower_bound xs value ≤ i := by
      by_contra hcon
      have hlt := hlo i (Nat.lt_of_not_le hcon)
      rw [hgd] at hlt
      exact Nat.lt_irrefl _ hlt
    refine ⟨Nat.ne_of_lt (Nat.lt_of_le_of_lt hri hi), ?_⟩
    have hle : xs.getD (lower_bound xs value) 0 ≤ xs.getD i 0 := getD_mono_of_sorted hs hri hi
    rw [hgd] at hle
    exact Nat.not_lt.mpr hle

/-! ## Facts about maps -/

theorem Map.find_filter_key {V : Type} (p : SegmentID → Bool) (m : Map V) (k : SegmentID) :
    Map.find (m.filter (fun q => p q.1)) k = if p k then Map.find m k else none := by
  induction m with
  | nil => simp [Map.find]
  | cons hd tl ih =>
    obtain ⟨k1, v1⟩ := hd
    by_cases hp : p k1 = true
    · rw [List.filter_cons_of_pos (by simpa using hp)]
      by_cases hk : k1 = k
      · subst hk; simp [Map.find, hp]
      · simp only [Map.find, if_neg hk]; exact ih
    · rw [List.filter_cons_of_neg (by simpa using hp)]
      by_cases hk : k1 = k
      · subst hk; rw [ih]; simp [hp]
      · simp only [Map.find, if_neg hk]; exact ih

theorem Map.mem_keys_iff {V : Type} (m : Map V) (k : SegmentID) :
    k ∈ Map.keys m ↔ ∃ v, (k, v) ∈ m := by
  simp [Map.keys]

/-! ## `PickCleanupBySegments` -/

theorem PickCleanupBySegments.loop_fst (S : List SegmentID) :
    ∀ (m : Map SegmentIndexEntry) (scanner : CleanupScanner),
      (PickCleanupBySegments.loop S m scanner).1 = m.filter (fun p => !binary_search S p.1) := by
  intro m
  induction m with
  | nil => intro scanner; rfl
  | cons hd tl ih =>
    intro scanner
    obtain ⟨k, v⟩ := hd
    by_cases hb : binary_search S k = true
    · simp [PickCleanupBySegments.loop, hb, ih]
    · simp [PickCleanupBySegments.loop, hb, ih]

theorem PickCleanupBySegments.loop_snd (S : List SegmentID) :
    ∀ (m : Map SegmentIndexEntry) (scanner : CleanupScanner),
      (PickCleanupBySegments.loop S m scanner).2.entries =
        scanner.entries ++ (m.filter (fun p => binary_search S p.1)).map Prod.snd := by
  intro m
  induction m with
  | nil => intro scanner; simp [PickCleanupBySegments.loop]
  | cons hd tl ih =>
    intro scanner
    obtain ⟨k, v⟩ := hd
    by_cases hb : binary_search S k = true
    · simp [PickCleanupBySegments.loop, hb, ih, CleanupScanner.AddEntry]
    · simp [PickCleanupBySegments.loop, hb, ih]

/-- C1: for a sorted id list `S`, `PickCleanupBySegments(S, scanner)` keeps
exactly the entries whose key is not in `S` (same order, same entry), hands
exactly the entries whose key is in `S` to the scanner, and so the set of keys
it removes is `S ∩ keys(index_by_segment_)`; keys outside `S` still map to the
same entry and nothing else of the table index entry changes. -/
theorem PickCleanupBySegments_removes_exactly (e : TableIndexEntry) (S : List SegmentID)
    (scanner : CleanupScanner) (hS : S.Sorted (· ≤ ·)) :
    (e.PickCleanupBySegments S scanner).1 =
        { e with index_by_segment_ := e.index_by_segment_.filter (fun p => decide (p.1 ∉ S)) } ∧
      (e.PickCleanupBySegments S scanner).2.entries =
        scanner.entries ++
          (e.index_by_segment_.filter (fun p => decide (p.1 ∈ S))).map Prod.snd ∧
      (∀ k, (k ∈ Map.keys e.index_by_segment_ ∧
            k ∉ Map.keys (e.PickCleanupBySegments S scanner).1.index_by_segment_) ↔
          (k ∈ S ∧ k ∈ Map.keys e.index_by_segment_)) ∧
      (∀ k, k ∉ S →
        Map.find (e.PickCleanupBySegments S scanner).1.index_by_segment_ k =
          Map.find e.index_by_segment_ k) ∧
      (∀ k v, k ∈ S → (k, v) ∈ e.index_by_segment_ →
        v ∈ (e.PickCleanupBySegments S scanner).2.entries) := by
  have hbs : ∀ k, binary_search S k = decide (k ∈ S) := by
    intro k
    by_cases hk : k ∈ S
    · rw [(binary_search_iff_mem hS k).mpr hk]; simp [hk]
    · have : binary_search S k ≠ true := fun h => hk ((binary_search_iff_mem hS k).mp h)
      simp [hk, this]
  have hmap : (e.PickCleanupBySegments S scanner).1.index_by_segment_ =
      e.index_by_segment_.filter (fun p => decide (p.1 ∉ S)) := by
    simp only [TableIndexEntry.PickCleanupBySegments, PickCleanupBySegments.loop_fst, hbs]
    congr 1
    funext p
    simp
  have hsc : (e.PickCleanupBySegments S scanner).2.entries =
      scanner.entries ++ (e.index_by_segment_.filter (fun p => decide (p.1 ∈ S))).map Prod.snd := by
    simp only [TableIndexEntry.PickCleanupBySegments, PickCleanupBySegments.loop_snd, hbs]
  refine ⟨?_, hsc, ?_, ?_, ?_⟩
  · have h1 : (e.PickCleanupBySegments S scanner).1 =
        { e with index_by_segment_ := (e.PickCleanupBySegments S scanner).1.index_by_segment_ } := rfl
    rw [h1, hmap]
  · intro k
    rw [hmap]
    simp only [Map.mem_keys_iff, List.mem_filter, decide_eq_true_eq]
    constructor
    · rintro ⟨⟨v, hv⟩, hnot⟩
      refine ⟨?_, ⟨v, hv⟩⟩
      by_contra hk
      exact hnot ⟨v, hv, hk⟩
    · rintro ⟨hk, ⟨v, hv⟩⟩
      exact ⟨⟨v, hv⟩, fun ⟨_, _, hnk⟩ => hnk hk⟩
  · intro k hk
    rw [hmap, Map.find_filter_key (fun k => decide (k ∉ S))]
    simp [hk]
  · intro k v hk hv
    rw [hsc]
    apply List.mem_append_right
    exact List.mem_map.mpr ⟨(k, v), List.mem_filter.mpr ⟨hv, by simpa using hk⟩, rfl⟩

/-- C1 at a concrete entry: of the keys 1, 2, 5 the list `[2, 3, 5]` removes 2
and 5 and leaves key 1 in place. -/
theorem PickCleanupBySegments_removes_exactly_witness :
    [2, 3, 5].Sorted (· ≤ ·) ∧
      (TableIndexEntry.PickCleanupBySegments
          ⟨7, 3, 4, false, none, none, none, [(1, ⟨0, 1⟩), (2, ⟨1, 2⟩), (5, ⟨2, 5⟩)], none⟩
          [2, 3, 5] ⟨[]⟩).1 =
        ⟨7, 3, 4, false, none, none, none, [(1, ⟨0, 1⟩)], none⟩ :=
  ⟨by decide,
    (PickCleanupBySegments_removes_exactly
      ⟨7, 3, 4, false, none, none, none, [(1, ⟨0, 1⟩), (2, ⟨1, 2⟩), (5, ⟨2, 5⟩)], none⟩
      [2, 3, 5] ⟨[]⟩ (by decide)).1.trans (by decide)⟩

/-! ## `CommitCreateIndex` and the commit timestamp -/

theorem CreateIndexPrepare.loop_commit_ts (u : SegmentID) (prepare is_replay check_ts : Bool) :
    ∀ (segments : List SegmentEntry) (e : TableIndexEntry) (w : World)
      (acc : List SegmentIndexEntry),
      (CreateIndexPrepare.loop u prepare is_replay check_ts segments e w acc).2.1.commit_ts_ =
        e.commit_ts_ := by
  intro segments
  induction segments with
  | nil => intro e w acc; rfl
  | cons hd tl ih =>
    intro e w acc
    simp only [CreateIndexPrepare.loop]
    rw [ih]
    split <;> rfl

theorem CommitCreateIndex_eq (e : TableIndexEntry) (w : World) (store : TxnIndexStore)
    (ts : TxnTimeStamp) (is_replay : Bool) (ib : IndexBase) (hib : e.index_base_ = some ib) :
    e.CommitCreateIndex w store ts is_replay =
      Except.ok
        ({ e with commit_ts_ := if e.commit_ts_ = 0 then ts else e.commit_ts_ },
          { CommitCreateIndex.loop ts is_replay store.index_entry_map_ w with
            trace := (CommitCreateIndex.loop ts is_replay store.index_entry_map_ w).trace ++
              (if ib.index_type_ = IndexType.kFullText then [Event.UpdateFulltextSegmentTs ts]
               else []) }) := by
  obtain ⟨a1, a2, a3, a4, a5, a6, a7, a8, a9⟩ := e
  simp only at hib
  subst hib
  by_cases hc : a3 = 0
  · by_cases hf : ib.index_type_ = IndexType.kFullText
    · simp [TableIndexEntry.CommitCreateIndex, TableIndexEntry.Committed, hc, hf, World.emit]
    · simp [TableIndexEntry.CommitCreateIndex, TableIndexEntry.Committed, hc, hf]
  · by_cases hf : ib.index_type_ = IndexType.kFullText
    · simp [TableIndexEntry.CommitCreateIndex, TableIndexEntry.Committed, hc, hf, World.emit]
    · simp [TableIndexEntry.CommitCreateIndex, TableIndexEntry.Committed, hc, hf]

theorem CommitCreateIndex_commit_ts (e : TableIndexEntry) (w : World) (store : TxnIndexStore)
    (ts : TxnTimeStamp) (is_replay : Bool) (e1 : TableIndexEntry) (w1 : World)
    (h : e.CommitCreateIndex w store ts is_replay = Except.ok (e1, w1)) :
    e1.commit_ts_ = if e.commit_ts_ = 0 then ts else e.commit_ts_ := by
  cases hib : e.index_base_ with
  | none =>
    by_cases hc : e.commit_ts_ = 0 <;>
      simp [TableIndexEntry.CommitCreateIndex, TableIndexEntry.Committed, hc, hib] at h
  | some ib =>
    rw [CommitCreateIndex_eq e w store ts is_replay ib hib] at h
    injection h with h
    injection h with h1 h2
    rw [← h1]

theorem Op.apply_commit_ts_le (op : Op) (hop : op.isUpdateEntryReplay = false)
    (e : TableIndexEntry) (w : World) (e1 : TableIndexEntry) (w1 : World)
    (h : op.apply e w = Except.ok (e1, w1)) : e.commit_ts_ ≤ e1.commit_ts_ := by
  cases op with
  | GetOrCreateSegment segment_id =>
    simp only [Op.apply, TableIndexEntry.GetOrCreateSegment] at h
    injection h with h
    cases hf : Map.find e.index_by_segment_ segment_id <;> rw [hf] at h <;>
      injection h with h1 h2 <;> rw [← h1]
  | CommitCreateIndex store ts is_replay =>
    have := CommitCreateIndex_commit_ts e w store ts is_replay e1 w1 h
    rw [this]
    split
    · rename_i h0; rw [h0]; exact Nat.zero_le _
    · exact le_refl _
  | RollbackCreateIndex store =>
    simp only [Op.apply, TableIndexEntry.RollbackCreateIndex] at h
    split at h
    · cases h
    · injection h with h
      injection h with h1 h2
      rw [← h1]
  | PopulateEntirely segment_entry =>
    simp only [Op.apply, TableIndexEntry.PopulateEntirely] at h
    cases hib : e.index_base_ with
    | none => rw [hib] at h; cases h
    | some ib =>
      rw [hib] at h
      by_cases hf : ib.index_type_ = IndexType.kFullText
      · simp only [hf, ne_eq, not_true_eq_false, if_false] at h
        injection h with h
        injection h with h1 h2
        rw [← h1]
      · simp only [ne_eq, hf, not_false_eq_true, if_true] at h
        injection h with h
        injection h with h1 h2
        rw [← h1]
  | CreateIndexPrepare u segments prepare is_replay check_ts =>
    simp only [Op.apply, TableIndexEntry.CreateIndexPrepare] at h
    injection h with h
    injection h with h1 h2
    rw [← h1, CreateIndexPrepare.loop_commit_ts]
  | PickCleanupBySegments ids =>
    simp only [Op.apply, TableIndexEntry.PickCleanupBySegments] at h
    injection h with h
    injection h with h1 h2
    rw [← h1]
  | UpdateEntryReplay txn_id begin_ts commit_ts => cases hop

theorem runOps_commit_ts_le :
    ∀ (ops : List Op), (∀ op ∈ ops, op.isUpdateEntryReplay = false) →
      ∀ (e : TableIndexEntry) (w : World) (e2 : TableIndexEntry) (w2 : World),
        runOps ops e w = Except.ok (e2, w2) → e.commit_ts_ ≤ e2.commit_ts_ := by
  intro ops
  induction ops with
  | nil =>
    intro _ e w e2 w2 h
    simp only [runOps] at h
    injection h with h
    injection h with h1 h2
    rw [h1]
  | cons op rest ih =>
    intro hops e w e2 w2 h
    simp only [runOps] at h
    cases hap : op.apply e w with
    | error ex => rw [hap] at h; cases h
    | ok r =>
      rw [hap] at h
      obtain ⟨e1, w1⟩ := r
      have h1 := Op.apply_commit_ts_le op (hops op (List.mem_cons_self _ _)) e w e1 w1 hap
      have h2 := ih (fun o ho => hops o (List.mem_cons_of_mem _ ho)) e1 w1 e2 w2 h
      exact le_trans h1 h2

/-- C2, as stated, fails: on an entry already committed at 5,
`CommitCreateIndex(store, 10, false)` returns with `commit_ts_` still 5; and
after an uncommitted entry was committed at 10, `UpdateEntryReplay(7, 3, 4)`
lowers `commit_ts_` to 4. -/
theorem CommitCreateIndex_commit_ts_ge_counterexample :
    ((sample_entry 5 []).CommitCreateIndex ⟨0, []⟩ ⟨[]⟩ 10 false =
        Except.ok (sample_entry 5 [], ⟨0, []⟩) ∧
      ¬ (10 ≤ (sample_entry 5 []).commit_ts_)) ∧
    ((sample_entry 0 []).CommitCreateIndex ⟨0, []⟩ ⟨[]⟩ 10 false =
        Except.ok (sample_entry 10 [], ⟨0, []⟩) ∧
      runOps [Op.UpdateEntryReplay 7 3 4] (sample_entry 10 []) ⟨0, []⟩ =
        Except.ok (sample_entry 4 [], ⟨0, []⟩) ∧
      ¬ (10 ≤ (sample_entry 4 []).commit_ts_)) :=
  ⟨⟨rfl, by decide⟩, ⟨rfl, rfl, by decide⟩⟩

/-- C2 (amended): on an entry with an index base `CommitCreateIndex(store, ts,
is_replay)` returns; `commit_ts_` becomes `ts` if the entry was uncommitted
(`commit_ts_ = 0`) and keeps its value otherwise. If the entry was uncommitted
or already had `commit_ts_ >= ts`, then `commit_ts_ >= ts` holds on return and
after every later sequence of `GetOrCreateSegment`, `CommitCreateIndex`,
`RollbackCreateIndex`, `PopulateEntirely`, `CreateIndexPrepare` and
`PickCleanupBySegments` calls (no `UpdateEntryReplay`) that returns. -/
theorem CommitCreateIndex_commit_ts_ge (e : TableIndexEntry) (w : World) (store : TxnIndexStore)
    (ts : TxnTimeStamp) (is_replay : Bool) (ib : IndexBase) (hib : e.index_base_ = some ib) :
    ∃ e1 w1, e.CommitCreateIndex w store ts is_replay = Except.ok (e1, w1) ∧
      e1.commit_ts_ = (if e.commit_ts_ = 0 then ts else e.commit_ts_) ∧
      (e.commit_ts_ = 0 ∨ ts ≤ e.commit_ts_ →
        ts ≤ e1.commit_ts_ ∧
        ∀ (ops : List Op), (∀ op ∈ ops, op.isUpdateEntryReplay = false) →
          ∀ e2 w2, runOps ops e1 w1 = Except.ok (e2, w2) → ts ≤ e2.commit_ts_) := by
  refine ⟨_, _, CommitCreateIndex_eq e w store ts is_replay ib hib, rfl, ?_⟩
  intro hpre
  have h1 : ts ≤ (if e.commit_ts_ = 0 then ts else e.commit_ts_) := by
    rcases hpre with h0 | hle
    · rw [if_pos h0]
    · split
      · exact le_refl _
      · exact hle
  refine ⟨h1, ?_⟩
  intro ops hops e2 w2 hrun
  exact le_trans h1 (runOps_commit_ts_le ops hops _ _ e2 w2 hrun)

/-- C2 (amended) at a concrete uncommitted entry committed at 10. -/
theorem CommitCreateIndex_commit_ts_ge_witness :
    (sample_entry 0 []).index_base_ = some sample_index_base ∧
    ∃ e1 w1, (sample_entry 0 []).CommitCreateIndex ⟨1, []⟩ ⟨[(4, ⟨0, 4⟩)]⟩ 10 false =
        Except.ok (e1, w1) ∧
      e1.commit_ts_ = (if (sample_entry 0 []).commit_ts_ = 0 then 10
        else (sample_entry 0 []).commit_ts_) ∧
      ((sample_entry 0 []).commit_ts_ = 0 ∨ 10 ≤ (sample_entry 0 []).commit_ts_ →
        10 ≤ e1.commit_ts_ ∧
        ∀ (ops : List Op), (∀ op ∈ ops, op.isUpdateEntryReplay = false) →
          ∀ e2 w2, runOps ops e1 w1 = Except.ok (e2, w2) → 10 ≤ e2.commit_ts_) :=
  ⟨rfl, CommitCreateIndex_commit_ts_ge (sample_entry 0 []) ⟨1, []⟩ ⟨[(4, ⟨0, 4⟩)]⟩ 10 false
    sample_index_base rfl⟩

/-! ## `CommitCreateIndex`: the calls it makes -/

theorem CommitCreateIndex.loop_eq (ts : TxnTimeStamp) (is_replay : Bool) :
    ∀ (store : List (SegmentID × SegmentIndexEntry)) (w : World),
      CommitCreateIndex.loop ts is_replay store w =
        { w with trace := w.trace ++ store.flatMap (fun p =>
            (if is_replay then [] else [Event.SaveIndexFile p.2]) ++ [Event.Commit p.2 ts]) } := by
  intro store
  induction store with
  | nil => intro w; simp [CommitCreateIndex.loop]
  | cons hd tl ih =>
    intro w
    obtain ⟨k, v⟩ := hd
    cases is_replay <;> simp [CommitCreateIndex.loop, ih, World.emit]

/-- C3: on an entry with an index base, `CommitCreateIndex(store, ts,
is_replay)` returns; for every entry of the store, in iteration order, it calls
`SaveIndexFile` (only when `is_replay` is false) and then `Commit(ts)`, and
makes such calls on no other entry; its own `commit_ts_` becomes `ts` if it
was uncommitted (`commit_ts_ = 0`) and is unchanged otherwise, no other field
changes; `UpdateFulltextSegmentTs(ts)` is called, last, if and only if the
index type is `kFullText`. -/
theorem CommitCreateIndex_effects (e : TableIndexEntry) (w : World) (store : TxnIndexStore)
    (ts : TxnTimeStamp) (is_replay : Bool) (ib : IndexBase) (hib : e.index_base_ = some ib) :
    ∃ evs : List Event,
      e.CommitCreateIndex w store ts is_replay =
        Except.ok ({ e with commit_ts_ := if e.commit_ts_ = 0 then ts else e.commit_ts_ },
          { w with trace := w.trace ++ evs }) ∧
      evs = store.index_entry_map_.flatMap (fun p =>
            (if is_replay then [] else [Event.SaveIndexFile p.2]) ++ [Event.Commit p.2 ts]) ++
          (if ib.index_type_ = IndexType.kFullText then [Event.UpdateFulltextSegmentTs ts]
           else []) ∧
      (∀ p ∈ store.index_entry_map_, Event.Commit p.2 ts ∈ evs) ∧
      (∀ p ∈ store.index_entry_map_, (Event.SaveIndexFile p.2 ∈ evs ↔ is_replay = false)) ∧
      (∀ x t, Event.Commit x t ∈ evs → t = ts ∧ ∃ p ∈ store.index_entry_map_, p.2 = x) ∧
      (∀ x, Event.SaveIndexFile x ∈ evs →
        is_replay = false ∧ ∃ p ∈ store.index_entry_map_, p.2 = x) ∧
      (∀ t, Event.UpdateFulltextSegmentTs t ∈ evs ↔
        (t = ts ∧ ib.index_type_ = IndexType.kFullText)) := by
  refine ⟨_, ?_, rfl, ?_, ?_, ?_, ?_, ?_⟩
  · rw [CommitCreateIndex_eq e w store ts is_replay ib hib, CommitCreateIndex.loop_eq]
    simp
  · intro p hp
    apply List.mem_append_left
    exact List.mem_flatMap.mpr ⟨p, hp, by simp⟩
  · intro p hp
    constructor
    · intro hmem
      rcases List.mem_append.mp hmem with h | h
      · obtain ⟨q, _, hq⟩ := List.mem_flatMap.mp h
        cases is_replay
        · rfl
        · simp at hq
      · split at h <;> simp at h
    · intro hr
      apply List.mem_append_left
      exact List.mem_flatMap.mpr ⟨p, hp, by simp [hr]⟩
  · intro x t hmem
    rcases List.mem_append.mp hmem with h | h
    · obtain ⟨q, hq1, hq⟩ := List.mem_flatMap.mp h
      cases is_replay
      · simp at hq
        exact ⟨hq.2, q, hq1, hq.1.symm⟩
      · simp at hq
        exact ⟨hq.2, q, hq1, hq.1.symm⟩
    · split at h <;> simp at h
  · intro x hmem
    rcases List.mem_append.mp hmem with h | h
    · obtain ⟨q, hq1, hq⟩ := List.mem_flatMap.mp h
      cases is_replay
      · simp at hq
        exact ⟨rfl, q, hq1, hq.symm⟩
      · simp at hq
    · split at h <;> simp at h
  · intro t
    constructor
    · intro hmem
      rcases List.mem_append.mp hmem with h | h
      · obtain ⟨q, _, hq⟩ := List.mem_flatMap.mp h
        cases is_replay <;> simp at hq
      · split at h
        · rename_i hf
          simp at h
          exact ⟨h, hf⟩
        · simp at h
    · rintro ⟨ht, hf⟩
      apply List.mem_append_right
      simp [hf, ht]

/-- C3 at a concrete full-text entry: one store entry, not replaying. -/
theorem CommitCreateIndex_effects_witness :
    ∃ evs : List Event,
      TableIndexEntry.CommitCreateIndex
          ⟨7, 3, 0, false, some sample_fulltext_base, some "/tbl/ft", none, [(4, ⟨0, 4⟩)], none⟩
          ⟨1, []⟩ ⟨[(4, ⟨0, 4⟩)]⟩ 10 false =
        Except.ok
          (⟨7, 3, 10, false, some sample_fulltext_base, some "/tbl/ft", none, [(4, ⟨0, 4⟩)],
              none⟩,
            ⟨1, evs⟩) ∧
      evs = [Event.SaveIndexFile ⟨0, 4⟩, Event.Commit ⟨0, 4⟩ 10,
        Event.UpdateFulltextSegmentTs 10] := by
  obtain ⟨evs, h1, h2, _⟩ := CommitCreateIndex_effects
    ⟨7, 3, 0, false, some sample_fulltext_base, some "/tbl/ft", none, [(4, ⟨0, 4⟩)], none⟩
    ⟨1, []⟩ ⟨[(4, ⟨0, 4⟩)]⟩ 10 false sample_fulltext_base rfl
  exact ⟨evs, h1, h2⟩

/-! ## `RollbackCreateIndex` -/

theorem Map.erase_count_eq_zero_iff {V : Type} (m : Map V) (k : SegmentID) :
    (Map.erase m k).2 = 0 ↔ k ∉ Map.keys m := by
  simp only [Map.erase, List.length_eq_zero, List.filter_eq_nil_iff, Map.keys, List.mem_map,
    not_exists, not_and]
  constructor
  · intro h q hq hk
    exact h q hq (by simpa using hk)
  · intro h q hq hk
    exact h q hq (by simpa using hk)

theorem Map.mem_keys_erase {V : Type} (m : Map V) (k j : SegmentID) :
    j ∈ Map.keys (Map.erase m k).1 ↔ j ∈ Map.keys m ∧ j ≠ k := by
  simp only [Map.erase, Map.keys, List.mem_map, List.mem_filter]
  constructor
  · rintro ⟨q, ⟨hq, hne⟩, rfl⟩
    exact ⟨⟨q, hq, rfl⟩, by simpa using hne⟩
  · rintro ⟨⟨q, hq, rfl⟩, hne⟩
    exact ⟨q, ⟨hq, by simpa using hne⟩, rfl⟩

theorem RollbackCreateIndex.loop_ok :
    ∀ (store : List (SegmentID × SegmentIndexEntry)) (m : Map SegmentIndexEntry) (w : World),
      (store.map Prod.fst).Nodup → (∀ p ∈ store, p.1 ∈ Map.keys m) →
      RollbackCreateIndex.loop store m w =
        Except.ok (m.filter (fun q => decide (q.1 ∉ store.map Prod.fst)),
          { w with trace := w.trace ++ store.map (fun p => Event.Cleanup p.2) }) := by
  intro store
  induction store with
  | nil => intro m w _ _; simp [RollbackCreateIndex.loop]
  | cons hd tl ih =>
    intro m w hnd hall
    obtain ⟨k, v⟩ := hd
    have hk : k ∈ Map.keys m := hall (k, v) (List.mem_cons_self _ _)
    have hcount : ¬ (Map.erase m k).2 = 0 := fun h => (Map.erase_count_eq_zero_iff m k).mp h hk
    rw [List.map_cons, List.nodup_cons] at hnd
    simp only [RollbackCreateIndex.loop, if_neg hcount]
    rw [ih (Map.erase m k).1 (w.emit (Event.Cleanup v)) hnd.2]
    · simp only [Map.erase, List.filter_filter, World.emit, List.map_cons, List.append_assoc,
        List.singleton_append]
      congr 2
      apply List.filter_congr
      intro q _
      by_cases hqk : q.1 = k <;> by_cases hqt : q.1 ∈ List.map Prod.fst tl <;> simp [hqk, hqt]
    · intro p hp
      rw [Map.mem_keys_erase]
      refine ⟨hall p (List.mem_cons_of_mem _ hp), ?_⟩
      intro hpk
      have hmem : p.1 ∈ List.map Prod.fst tl := List.mem_map_of_mem Prod.fst hp
      rw [hpk] at hmem
      exact hnd.1 hmem

theorem RollbackCreateIndex.loop_error :
    ∀ (store : List (SegmentID × SegmentIndexEntry)) (m : Map SegmentIndexEntry) (w : World),
      (∃ p ∈ store, p.1 ∉ Map.keys m) →
      RollbackCreateIndex.loop store m w =
        Except.error (Exception.Unrecoverable "Failed to erase segment index entry") := by
  intro store
  induction store with
  | nil => intro m w h; obtain ⟨p, hp, _⟩ := h; cases hp
  | cons hd tl ih =>
    intro m w h
    obtain ⟨k, v⟩ := hd
    by_cases hcount : (Map.erase m k).2 = 0
    · simp only [RollbackCreateIndex.loop, if_pos hcount]; rfl
    · simp only [RollbackCreateIndex.loop, if_neg hcount]
      apply ih
      obtain ⟨p, hp, hpm⟩ := h
      rcases List.mem_cons.mp hp with rfl | hp
      · exact absurd ((Map.erase_count_eq_zero_iff m _).mpr hpm) hcount
      · exact ⟨p, hp, fun hc => hpm ((Map.mem_keys_erase m k p.1).mp hc).1⟩

/-- C4: for a store whose segment ids are pairwise distinct (it is a map keyed
by segment id), `RollbackCreateIndex` returns if and only if every id of the
store is a key of `index_by_segment_`. When it returns, `Cleanup` has been
called on every store entry, in iteration order, the keys of
`index_by_segment_` are the old keys that are not store ids, every other key
maps to the same entry and no other field changed. When some store id is not a
key it throws the unrecoverable error. -/
theorem RollbackCreateIndex_iff (e : TableIndexEntry) (w : World) (store : TxnIndexStore)
    (hnd : (store.index_entry_map_.map Prod.fst).Nodup) :
    ((∃ r, e.RollbackCreateIndex w store = Except.ok r) ↔
        ∀ p ∈ store.index_entry_map_, p.1 ∈ Map.keys e.index_by_segment_) ∧
      (∀ e1 w1, e.RollbackCreateIndex w store = Except.ok (e1, w1) →
        e1 = { e with index_by_segment_ := (e.index_by_segment_.filter
                (fun q => decide (q.1 ∉ store.index_entry_map_.map Prod.fst))) } ∧
          w1 = { w with trace := (w.trace ++
                store.index_entry_map_.map (fun p => Event.Cleanup p.2)) } ∧
          (∀ k, k ∈ Map.keys e1.index_by_segment_ ↔
            (k ∈ Map.keys e.index_by_segment_ ∧ k ∉ store.index_entry_map_.map Prod.fst)) ∧
          (∀ k, k ∉ store.index_entry_map_.map Prod.fst →
            Map.find e1.index_by_segment_ k = Map.find e.index_by_segment_ k)) ∧
      ((∃ p ∈ store.index_entry_map_, p.1 ∉ Map.keys e.index_by_segment_) →
        e.RollbackCreateIndex w store =
          Except.error (Exception.Unrecoverable "Failed to erase segment index entry")) := by
  have hfail : (∃ p ∈ store.index_entry_map_, p.1 ∉ Map.keys e.index_by_segment_) →
      e.RollbackCreateIndex w store =
        Except.error (Exception.Unrecoverable "Failed to erase segment index entry") := by
    intro h
    simp only [TableIndexEntry.RollbackCreateIndex,
      RollbackCreateIndex.loop_error store.index_entry_map_ e.index_by_segment_ w h]
  have hsucc : (∀ p ∈ store.index_entry_map_, p.1 ∈ Map.keys e.index_by_segment_) →
      e.RollbackCreateIndex w store =
        Except.ok ({ e with index_by_segment_ := (e.index_by_segment_.filter
            (fun q => decide (q.1 ∉ store.index_entry_map_.map Prod.fst))) },
          { w with trace := (w.trace ++
            store.index_entry_map_.map (fun p => Event.Cleanup p.2)) }) := by
    intro h
    simp only [TableIndexEntry.RollbackCreateIndex,
      RollbackCreateIndex.loop_ok store.index_entry_map_ e.index_by_segment_ w hnd h]
  have hall : ∀ r, e.RollbackCreateIndex w store = Except.ok r →
      ∀ p ∈ store.index_entry_map_, p.1 ∈ Map.keys e.index_by_segment_ := by
    intro r hr
    by_contra hcon
    push_neg at hcon
    rw [hfail hcon] at hr
    cases hr
  refine ⟨⟨fun ⟨r, hr⟩ => hall r hr, fun h => ⟨_, hsucc h⟩⟩, ?_, hfail⟩
  intro e1 w1 hr
  rw [hsucc (hall _ hr)] at hr
  injection hr with hr
  injection hr with h1 h2
  subst h1
  subst h2
  refine ⟨rfl, rfl, ?_, ?_⟩
  · intro k
    simp only [Map.keys, List.mem_map, List.mem_filter, decide_eq_true_eq]
    constructor
    · rintro ⟨q, ⟨hq, hn⟩, rfl⟩
      exact ⟨⟨q, hq, rfl⟩, hn⟩
    · rintro ⟨⟨q, hq, rfl⟩, hn⟩
      exact ⟨q, ⟨hq, hn⟩, rfl⟩
  · intro k hk
    show Map.find (e.index_by_segment_.filter
      (fun q => decide (q.1 ∉ store.index_entry_map_.map Prod.fst))) k = _
    rw [Map.find_filter_key (fun j => decide (j ∉ store.index_entry_map_.map Prod.fst))]
    simp [hk]

/-- C4 at a concrete entry: rolling back segment 2 of the keys 1, 2 succeeds,
rolling back the unknown segment 9 throws. -/
theorem RollbackCreateIndex_iff_witness :
    (sample_entry 0 [(1, ⟨0, 1⟩), (2, ⟨1, 2⟩)]).RollbackCreateIndex ⟨2, []⟩ ⟨[(2, ⟨1, 2⟩)]⟩ =
        Except.ok (sample_entry 0 [(1, ⟨0, 1⟩)], ⟨2, [Event.Cleanup ⟨1, 2⟩]⟩) ∧
      (sample_entry 0 [(1, ⟨0, 1⟩), (2, ⟨1, 2⟩)]).RollbackCreateIndex ⟨2, []⟩ ⟨[(9, ⟨5, 9⟩)]⟩ =
        Except.error (Exception.Unrecoverable "Failed to erase segment index entry") :=
  ⟨rfl,
    (RollbackCreateIndex_iff (sample_entry 0 [(1, ⟨0, 1⟩), (2, ⟨1, 2⟩)]) ⟨2, []⟩
      ⟨[(9, ⟨5, 9⟩)]⟩ (by decide)).2.2 ⟨(9, ⟨5, 9⟩), by decide, by decide⟩⟩

/-! ## `GetOrCreateSegment` -/

theorem Map.find_eq_none_iff {V : Type} (m : Map V) (k : SegmentID) :
    Map.find m k = none ↔ k ∉ Map.keys m := by
  induction m with
  | nil => simp [Map.find, Map.keys]
  | cons hd tl ih =>
    obtain ⟨k1, v1⟩ := hd
    by_cases hk : k1 = k
    · subst hk; simp [Map.find, Map.keys]
    · have hk2 : ¬ k = k1 := fun h => hk h.symm
      simp only [Map.find, if_neg hk, ih, Map.keys, List.map_cons, List.mem_cons, hk2, false_or]

theorem Map.find_emplace_self {V : Type} (m : Map V) (k : SegmentID) (v : V)
    (h : Map.find m k = none) : Map.find (Map.emplace m k v) k = some v := by
  induction m with
  | nil => simp [Map.emplace, Map.find]
  | cons hd tl ih =>
    obtain ⟨k1, v1⟩ := hd
    by_cases hk : k1 = k
    · subst hk; simp [Map.find] at h
    · simp only [Map.find, if_neg hk] at h
      have hk2 : ¬ k = k1 := fun h => hk h.symm
      by_cases hlt : k < k1
      · simp [Map.emplace, hlt, Map.find]
      · simp only [Map.emplace, if_neg hlt, if_neg hk2, Map.find, if_neg hk]
        exact ih h

theorem Map.find_emplace_of_ne {V : Type} (m : Map V) (k j : SegmentID) (v : V) (hj : j ≠ k) :
    Map.find (Map.emplace m k v) j = Map.find m j := by
  have hkj : ¬ k = j := fun h => hj h.symm
  induction m with
  | nil => simp [Map.emplace, Map.find, hkj]
  | cons hd tl ih =>
    obtain ⟨k1, v1⟩ := hd
    by_cases hlt : k < k1
    · simp [Map.emplace, hlt, Map.find, hkj]
    · by_cases hk : k = k1
      · simp [Map.emplace, hk]
      · simp only [Map.emplace, if_neg hlt, if_neg hk, Map.find, ih]

/-- C5: `GetOrCreateSegment(s, txn)` returns `created = true` exactly when `s`
was not a key of `index_by_segment_`; afterwards `s` maps to the returned
entry and every other key maps to what it mapped to before; when `s` was a key
the returned entry is the stored one and nothing changes; a second call with
the same `s` returns the same entry with `created = false` and changes
nothing. -/
theorem GetOrCreateSegment_spec (e : TableIndexEntry) (w : World) (s : SegmentID) :
    ((e.GetOrCreateSegment w s).1.1 = true ↔ s ∉ Map.keys e.index_by_segment_) ∧
      Map.find (e.GetOrCreateSegment w s).2.1.index_by_segment_ s =
        some (e.GetOrCreateSegment w s).1.2 ∧
      (∀ j, j ≠ s →
        Map.find (e.GetOrCreateSegment w s).2.1.index_by_segment_ j =
          Map.find e.index_by_segment_ j) ∧
      (s ∈ Map.keys e.index_by_segment_ →
        Map.find e.index_by_segment_ s = some (e.GetOrCreateSegment w s).1.2 ∧
          (e.GetOrCreateSegment w s).2 = (e, w)) ∧
      (e.GetOrCreateSegment w s).2.1.GetOrCreateSegment (e.GetOrCreateSegment w s).2.2 s =
        ((false, (e.GetOrCreateSegment w s).1.2), (e.GetOrCreateSegment w s).2) := by
  cases hf : Map.find e.index_by_segment_ s with
  | none =>
    have hnk : s ∉ Map.keys e.index_by_segment_ := (Map.find_eq_none_iff _ _).mp hf
    have hself := Map.find_emplace_self e.index_by_segment_ s
      (SegmentIndexEntry.NewIndexEntry w s).1 hf
    have hcall : e.GetOrCreateSegment w s =
        ((true, (SegmentIndexEntry.NewIndexEntry w s).1),
          { e with index_by_segment_ :=
              Map.emplace e.index_by_segment_ s (SegmentIndexEntry.NewIndexEntry w s).1 },
          (SegmentIndexEntry.NewIndexEntry w s).2) := by
      simp only [TableIndexEntry.GetOrCreateSegment, hf]
    rw [hcall]
    refine ⟨⟨fun _ => hnk, fun _ => rfl⟩, hself, ?_, fun h => absurd h hnk, ?_⟩
    · intro j hj
      exact Map.find_emplace_of_ne _ _ _ _ hj
    · simp only [TableIndexEntry.GetOrCreateSegment, hself]
  | some entry =>
    have hk : s ∈ Map.keys e.index_by_segment_ := by
      by_contra hcon
      rw [(Map.find_eq_none_iff _ _).mpr hcon] at hf
      cases hf
    have hcall : e.GetOrCreateSegment w s = ((false, entry), e, w) := by
      simp only [TableIndexEntry.GetOrCreateSegment, hf]
    rw [hcall]
    refine ⟨⟨fun h => Bool.noConfusion h, fun h => absurd hk h⟩, hf, fun _ _ => rfl,
      fun _ => ⟨rfl, rfl⟩, ?_⟩
    exact hcall

/-! ## Serialization -/

theorem Members.set_of_get_none (ms : Members) (key : String) (v : Json)
    (h : Members.get ms key = none) : Members.set ms key v = ms ++ [(key, v)] := by
  induction ms with
  | nil => rfl
  | cons hd tl ih =>
    obtain ⟨k, x⟩ := hd
    by_cases hk : k = key
    · simp [Members.get, hk] at h
    · simp only [Members.get, if_neg hk] at h
      simp only [Members.set, if_neg hk, ih h, List.cons_append]

theorem Members.get_append_last (ms : Members) (key : String) (v : Json)
    (h : Members.get ms key = none) : Members.get (ms ++ [(key, v)]) key = some v := by
  induction ms with
  | nil => simp [Members.get]
  | cons hd tl ih =>
    obtain ⟨k, x⟩ := hd
    by_cases hk : k = key
    · simp [Members.get, hk] at h
    · simp only [Members.get, if_neg hk] at h
      rw [List.cons_append]
      simp only [Members.get, if_neg hk]
      exact ih h

theorem Members.set_append_last (ms : Members) (key : String) (v v2 : Json)
    (h : Members.get ms key = none) :
    Members.set (ms ++ [(key, v)]) key v2 = ms ++ [(key, v2)] := by
  induction ms with
  | nil => simp [Members.set]
  | cons hd tl ih =>
    obtain ⟨k, x⟩ := hd
    by_cases hk : k = key
    · simp [Members.get, hk] at h
    · simp only [Members.get, if_neg hk] at h
      rw [List.cons_append, List.cons_append]
      simp only [Members.set, if_neg hk]
      rw [ih h]

theorem Members.emplace_back_array (key : String) (ms : Members)
    (h : Members.get ms key = none) (xs : List Json) (x : Json) :
    Members.emplace_back (ms ++ [(key, Json.arr xs)]) key x =
      ms ++ [(key, Json.arr (xs ++ [x]))] := by
  unfold Members.emplace_back
  rw [Members.get_append_last ms key _ h, Members.set_append_last ms key _ _ h]
  rfl

theorem Members.emplace_back_absent (key : String) (ms : Members)
    (h : Members.get ms key = none) (x : Json) :
    Members.emplace_back ms key x = ms ++ [(key, Json.arr [x])] := by
  unfold Members.emplace_back
  rw [h, Members.set_of_get_none ms key _ h]
  rfl

theorem Members.foldl_emplace_back_array {α : Type} (f : α → Json) (key : String) (ms : Members)
    (h : Members.get ms key = none) :
    ∀ (cands : List α) (xs : List Json),
      cands.foldl (fun json c => Members.emplace_back json key (f c)) (ms ++ [(key, Json.arr xs)]) =
        ms ++ [(key, Json.arr (xs ++ cands.map f))] := by
  intro cands
  induction cands with
  | nil => intro xs; simp
  | cons c tl ih =>
    intro xs
    rw [List.foldl_cons, Members.emplace_back_array key ms h, ih]
    simp

theorem Members.foldl_emplace_back_cons {α : Type} (f : α → Json) (key : String) (ms : Members)
    (h : Members.get ms key = none) (c : α) (tl : List α) :
    (c :: tl).foldl (fun json c => Members.emplace_back json key (f c)) ms =
      ms ++ [(key, Json.arr ((c :: tl).map f))] := by
  rw [List.foldl_cons, Members.emplace_back_absent key ms h,
    Members.foldl_emplace_back_array f key ms h]
  simp

theorem Serialize_deleted (env : Env) (e : TableIndexEntry) (ts : TxnTimeStamp)
    (hd : e.deleted_ = true) :
    e.Serialize env ts =
      Except.ok (Json.obj [("txn_id", Json.num e.txn_id_), ("begin_ts", Json.num e.begin_ts_),
        ("commit_ts", Json.num e.commit_ts_), ("deleted", Json.bool true)]) := by
  simp +decide [TableIndexEntry.Serialize, hd, Members.set]

theorem Serialize_live (env : Env) (e : TableIndexEntry) (ts : TxnTimeStamp) (d : String)
    (ib : IndexBase) (hd : e.deleted_ = false) (hdir : e.index_dir_ = some d)
    (hib : e.index_base_ = some ib) :
    e.Serialize env ts =
      Except.ok (Json.obj ([("txn_id", Json.num e.txn_id_), ("begin_ts", Json.num e.begin_ts_),
          ("commit_ts", Json.num e.commit_ts_), ("deleted", Json.bool false),
          ("index_dir", Json.str d), ("index_base", env.IndexBase_Serialize ib)] ++
        (if e.index_by_segment_ = [] then []
         else [("segment_indexes",
            Json.arr (e.index_by_segment_.map (fun p => env.SegmentIndexEntry_Serialize p.2)))]))) := by
  have hget : Members.get [("txn_id", Json.num e.txn_id_), ("begin_ts", Json.num e.begin_ts_),
      ("commit_ts", Json.num e.commit_ts_), ("deleted", Json.bool false),
      ("index_dir", Json.str d), ("index_base", env.IndexBase_Serialize ib)]
      "segment_indexes" = none := by
    simp +decide [Members.get]
  have hset : Members.set (Members.set (Members.set (Members.set (Members.set (Members.set []
      "txn_id" (Json.num e.txn_id_)) "begin_ts" (Json.num e.begin_ts_))
      "commit_ts" (Json.num e.commit_ts_)) "deleted" (Json.bool false))
      "index_dir" (Json.str d)) "index_base" (env.IndexBase_Serialize ib) =
      [("txn_id", Json.num e.txn_id_), ("begin_ts", Json.num e.begin_ts_),
      ("commit_ts", Json.num e.commit_ts_), ("deleted", Json.bool false),
      ("index_dir", Json.str d), ("index_base", env.IndexBase_Serialize ib)] := by
    simp +decide [Members.set]
  unfold TableIndexEntry.Serialize
  simp only [hd, hdir, hib, Bool.false_eq_true, if_false, hset]
  cases hm : e.index_by_segment_ with
  | nil => simp
  | cons p tl =>
    rw [List.map_cons, Members.foldl_emplace_back_cons env.SegmentIndexEntry_Serialize
      "segment_indexes" _ hget]
    simp [List.map_map, Function.comp_def]

/-- C7: `Serialize` of a deleted entry is the document with exactly the keys
`txn_id`, `begin_ts`, `commit_ts`, `deleted`; of a live entry (with its index
directory and index base) it is a document with these keys, `index_dir`,
`index_base` and, only when `index_by_segment_` is not empty, `segment_indexes`,
an array with one element per map entry in the iteration order of the map
(ascending segment id for a map whose entries are stored under their own id);
the result does not depend on `max_commit_ts`. -/
theorem Serialize_document (env : Env) (e : TableIndexEntry) (ts : TxnTimeStamp) :
    (e.deleted_ = true →
        e.Serialize env ts =
          Except.ok (Json.obj [("txn_id", Json.num e.txn_id_), ("begin_ts", Json.num e.begin_ts_),
            ("commit_ts", Json.num e.commit_ts_), ("deleted", Json.bool true)])) ∧
      (∀ d ib, e.deleted_ = false → e.index_dir_ = some d → e.index_base_ = some ib →
        ∃ doc, e.Serialize env ts = Except.ok (Json.obj doc) ∧
          doc.map Prod.fst =
            ["txn_id", "begin_ts", "commit_ts", "deleted", "index_dir", "index_base"] ++
              (if e.index_by_segment_ = [] then [] else ["segment_indexes"]) ∧
          Members.get doc "txn_id" = some (Json.num e.txn_id_) ∧
          Members.get doc "begin_ts" = some (Json.num e.begin_ts_) ∧
          Members.get doc "commit_ts" = some (Json.num e.commit_ts_) ∧
          Members.get doc "deleted" = some (Json.bool false) ∧
          Members.get doc "index_dir" = some (Json.str d) ∧
          Members.get doc "index_base" = some (env.IndexBase_Serialize ib) ∧
          (e.index_by_segment_ = [] → Members.get doc "segment_indexes" = none) ∧
          (e.index_by_segment_ ≠ [] →
            Members.get doc "segment_indexes" =
              some (Json.arr
                (e.index_by_segment_.map (fun p => env.SegmentIndexEntry_Serialize p.2))))) ∧
      (Map.WF e.index_by_segment_ → (∀ p ∈ e.index_by_segment_, p.2.segment_id = p.1) →
        (e.index_by_segment_.map (fun p => p.2.segment_id)).Sorted (· < ·)) ∧
      (∀ ts2, e.Serialize env ts2 = e.Serialize env ts) := by
  refine ⟨Serialize_deleted env e ts, ?_, ?_, fun _ => rfl⟩
  · intro d ib hd hdir hib
    refine ⟨_, Serialize_live env e ts d ib hd hdir hib, ?_⟩
    by_cases hm : e.index_by_segment_ = []
    · simp +decide [hm, Members.get]
    · simp +decide [hm, Members.get]
  · intro hwf hkeyed
    have hmap : e.index_by_segment_.map (fun p => p.2.segment_id) =
        Map.keys e.index_by_segment_ := by
      unfold Map.keys
      exact List.map_congr_left hkeyed
    rw [hmap]
    exact hwf

/-- C7 at a concrete live entry with the segments 1 and 2. -/
theorem Serialize_document_witness :
    ∃ doc, (sample_entry 4 [(1, ⟨0, 1⟩), (2, ⟨1, 2⟩)]).Serialize sample_env 9 =
        Except.ok (Json.obj doc) ∧
      doc.map Prod.fst =
        ["txn_id", "begin_ts", "commit_ts", "deleted", "index_dir", "index_base",
          "segment_indexes"] ∧
      Members.get doc "segment_indexes" = some (Json.arr [Json.num 1, Json.num 2]) := by
  obtain ⟨doc, h1, h2, _, _, _, _, _, _, _, h3⟩ :=
    (Serialize_document sample_env (sample_entry 4 [(1, ⟨0, 1⟩), (2, ⟨1, 2⟩)]) 9).2.1
      "/tbl/idx" sample_index_base rfl rfl rfl
  exact ⟨doc, h1, h2, h3 (by decide)⟩

/-! ## Deserialization -/

theorem Map.mem_keys_emplace {V : Type} (m : Map V) (k j : SegmentID) (v : V) :
    j ∈ Map.keys (Map.emplace m k v) ↔ j = k ∨ j ∈ Map.keys m := by
  induction m with
  | nil => simp [Map.emplace, Map.keys]
  | cons hd tl ih =>
    obtain ⟨k1, v1⟩ := hd
    by_cases hlt : k < k1
    · simp [Map.emplace, hlt, Map.keys]
    · by_cases hk : k = k1
      · subst hk; simp [Map.emplace, Map.keys]
      · simp only [Map.emplace, if_neg hlt, if_neg hk]
        simp only [Map.keys, List.map_cons, List.mem_cons] at ih ⊢
        rw [ih]
        tauto

theorem Map.mem_keys_foldl_emplace {α V : Type} (f : α → V) (id : V → SegmentID) (j : SegmentID) :
    ∀ (xs : List α) (m : Map V),
      j ∈ Map.keys (xs.foldl (fun m x => Map.emplace m (id (f x)) (f x)) m) ↔
        j ∈ Map.keys m ∨ ∃ x ∈ xs, id (f x) = j := by
  intro xs
  induction xs with
  | nil => intro m; simp
  | cons x tl ih =>
    intro m
    rw [List.foldl_cons, ih, Map.mem_keys_emplace]
    simp only [List.mem_cons, exists_eq_or_imp]
    constructor
    · rintro ((h | h) | h)
      · exact Or.inr (Or.inl h.symm)
      · exact Or.inl h
      · exact Or.inr (Or.inr h)
    · rintro (h | h | h)
      · exact Or.inl (Or.inr h)
      · exact Or.inl (Or.inl h.symm)
      · exact Or.inr h

theorem Deserialize_deleted_doc (env : Env) (txn_id begin_ts commit_ts : Nat) :
    TableIndexEntry.Deserialize env
        (Json.obj [("txn_id", Json.num txn_id), ("begin_ts", Json.num begin_ts),
          ("commit_ts", Json.num commit_ts), ("deleted", Json.bool true)]) =
      Except.ok ⟨txn_id, begin_ts, commit_ts, true, none, none, none, [], none⟩ := by
  simp +decide [TableIndexEntry.Deserialize, Members.getNat, Members.getBool, Members.get,
    TableIndexEntry.ReplayTableIndexEntry, TableIndexEntry.construct]

theorem Deserialize_live_doc_nil (env : Env) (txn_id begin_ts commit_ts : Nat) (d : String)
    (ibj : Json) :
    TableIndexEntry.Deserialize env
        (Json.obj [("txn_id", Json.num txn_id), ("begin_ts", Json.num begin_ts),
          ("commit_ts", Json.num commit_ts), ("deleted", Json.bool false),
          ("index_dir", Json.str d), ("index_base", ibj)]) =
      Except.ok ⟨txn_id, begin_ts, commit_ts, false, some (env.IndexBase_Deserialize ibj), some d,
        env.GetColumnDef (env.IndexBase_Deserialize ibj), [], none⟩ := by
  simp +decide [TableIndexEntry.Deserialize, Members.getNat, Members.getBool,
    Members.getStr, Members.get, Members.contains,
    TableIndexEntry.ReplayTableIndexEntry, TableIndexEntry.construct]

theorem Deserialize_live_doc_segments (env : Env) (txn_id begin_ts commit_ts : Nat) (d : String)
    (ibj : Json) (segs : List Json) :
    TableIndexEntry.Deserialize env
        (Json.obj [("txn_id", Json.num txn_id), ("begin_ts", Json.num begin_ts),
          ("commit_ts", Json.num commit_ts), ("deleted", Json.bool false),
          ("index_dir", Json.str d), ("index_base", ibj),
          ("segment_indexes", Json.arr segs)]) =
      Except.ok ⟨txn_id, begin_ts, commit_ts, false, some (env.IndexBase_Deserialize ibj), some d,
        env.GetColumnDef (env.IndexBase_Deserialize ibj),
        segs.foldl (fun m j => Map.emplace m (env.SegmentIndexEntry_Deserialize j).segment_id
          (env.SegmentIndexEntry_Deserialize j)) [], none⟩ := by
  simp +decide [TableIndexEntry.Deserialize, Members.getNat, Members.getBool,
    Members.getStr, Members.get, Members.contains, Json.elements,
    TableIndexEntry.ReplayTableIndexEntry, TableIndexEntry.construct]

/-- C6: let `e` be a table index entry whose segment index entries are stored
under their own segment id and, if it is live, has an index directory and an
index base, and let the serialization of its index base and of the segment id
of its segment index entries round-trip. Then `Serialize` returns a document
and `Deserialize` of it returns an entry with the same `deleted_`, `txn_id_`,
`begin_ts_` and `commit_ts_` (exactly the serialized one); a live entry also
gets the same `index_dir_`, the same index base and the same set of keys of
`index_by_segment_`; a deleted entry has no segments. -/
theorem Deserialize_Serialize (env : Env) (e : TableIndexEntry) (ts : TxnTimeStamp)
    (hlive : e.deleted_ = false → ∃ d ib, e.index_dir_ = some d ∧ e.index_base_ = some ib)
    (hbase : ∀ ib, e.index_base_ = some ib →
      env.IndexBase_Deserialize (env.IndexBase_Serialize ib) = ib)
    (hseg : ∀ p ∈ e.index_by_segment_,
      (env.SegmentIndexEntry_Deserialize (env.SegmentIndexEntry_Serialize p.2)).segment_id =
        p.2.segment_id)
    (hkeyed : ∀ p ∈ e.index_by_segment_, p.2.segment_id = p.1) :
    ∃ doc e1, e.Serialize env ts = Except.ok doc ∧
      TableIndexEntry.Deserialize env doc = Except.ok e1 ∧
      e1.deleted_ = e.deleted_ ∧ e1.txn_id_ = e.txn_id_ ∧ e1.begin_ts_ = e.begin_ts_ ∧
      e1.commit_ts_ = e.commit_ts_ ∧
      (e.deleted_ = false →
        e1.index_dir_ = e.index_dir_ ∧ e1.index_base_ = e.index_base_ ∧
          ∀ k, k ∈ Map.keys e1.index_by_segment_ ↔ k ∈ Map.keys e.index_by_segment_) ∧
      (e.deleted_ = true → e1.index_by_segment_ = []) := by
  by_cases hd : e.deleted_ = true
  · refine ⟨_, _, Serialize_deleted env e ts hd, Deserialize_deleted_doc env _ _ _, hd.symm, rfl,
      rfl, rfl, ?_, fun _ => rfl⟩
    intro hf
    rw [hd] at hf
    cases hf
  · have hd2 : e.deleted_ = false := by simpa using hd
    obtain ⟨d, ib, hdir, hib⟩ := hlive hd2
    have hser := Serialize_live env e ts d ib hd2 hdir hib
    have hb : some (env.IndexBase_Deserialize (env.IndexBase_Serialize ib)) = e.index_base_ := by
      rw [hbase ib hib, hib]
    cases hm : e.index_by_segment_ with
    | nil =>
      rw [hm] at hser
      simp only [if_true, List.append_nil] at hser
      exact ⟨_, _, hser, Deserialize_live_doc_nil env _ _ _ d _, hd2.symm, rfl, rfl, rfl,
        fun _ => ⟨hdir.symm, hb, fun k => Iff.rfl⟩, fun ht => absurd ht hd⟩
    | cons p0 tl =>
      rw [hm] at hser hseg hkeyed
      simp only [reduceCtorEq, if_false, List.cons_append, List.nil_append] at hser
      refine ⟨_, _, hser, Deserialize_live_doc_segments env _ _ _ d _ _, hd2.symm, rfl, rfl, rfl,
        fun _ => ⟨hdir.symm, hb, ?_⟩, fun ht => absurd ht hd⟩
      intro k
      show k ∈ Map.keys (List.foldl _ [] _) ↔ _
      rw [List.foldl_map]
      rw [Map.mem_keys_foldl_emplace
        (fun p : SegmentID × SegmentIndexEntry =>
          env.SegmentIndexEntry_Deserialize (env.SegmentIndexEntry_Serialize p.2))
        SegmentIndexEntry.segment_id k (p0 :: tl) []]
      simp only [Map.keys, List.map_nil, List.not_mem_nil, false_or, List.mem_map]
      constructor
      · rintro ⟨p, hp, hk⟩
        exact ⟨p, hp, by rw [← hk, hseg p hp, hkeyed p hp]⟩
      · rintro ⟨p, hp, hk⟩
        exact ⟨p, hp, by rw [hseg p hp, hkeyed p hp, hk]⟩

/-- C6 at a concrete live entry with the segments 1 and 2. -/
theorem Deserialize_Serialize_witness :
    ∃ doc e1, (sample_entry 4 [(1, ⟨0, 1⟩), (2, ⟨1, 2⟩)]).Serialize sample_env 9 = Except.ok doc ∧
      TableIndexEntry.Deserialize sample_env doc = Except.ok e1 ∧
      e1.deleted_ = false ∧ e1.txn_id_ = 7 ∧ e1.begin_ts_ = 3 ∧ e1.commit_ts_ = 4 := by
  obtain ⟨doc, e1, h1, h2, h3, h4, h5, h6, _⟩ :=
    Deserialize_Serialize sample_env (sample_entry 4 [(1, ⟨0, 1⟩), (2, ⟨1, 2⟩)]) 9
      (fun _ => ⟨"/tbl/idx", sample_index_base, rfl, rfl⟩)
      (fun ib hib => by cases hib; rfl)
      (by decide) (by decide)
  exact ⟨doc, e1, h1, h2, h3, h4, h5, h6⟩

/-! ## `NewTableIndexEntry` -/

/-- C8: a non-delete `NewTableIndexEntry` returns an entry only for an index
base whose `column_names_` has exactly one element, and then it returns the
new uncommitted live entry; for an index base with any other number of column
names it raises the recoverable `SyntaxError`. -/
theorem NewTableIndexEntry_single_column (env : Env) (index_base : Option IndexBase)
    (table_entry_dir : String) (txn_id : TransactionID) (begin_ts : TxnTimeStamp) :
    ((∃ e, TableIndexEntry.NewTableIndexEntry env index_base false table_entry_dir txn_id
          begin_ts = Except.ok e) ↔
        ∃ ib, index_base = some ib ∧ ib.column_names_.length = 1) ∧
      (∀ ib, index_base = some ib → ib.column_names_.length ≠ 1 →
        TableIndexEntry.NewTableIndexEntry env index_base false table_entry_dir txn_id begin_ts =
          Except.error (Exception.Recoverable
            (Status.SyntaxError "Currently, composite index doesn't supported."))) ∧
      (∀ ib, index_base = some ib → ib.column_names_.length = 1 →
        TableIndexEntry.NewTableIndexEntry env index_base false table_entry_dir txn_id begin_ts =
          Except.ok ⟨txn_id, begin_ts, 0, false, some ib,
            some (env.DetermineIndexDir table_entry_dir ib.index_name_), env.GetColumnDef ib, [],
            none⟩) := by
  cases index_base with
  | none =>
    refine ⟨⟨?_, ?_⟩, ?_, ?_⟩
    · rintro ⟨e, he⟩
      simp [TableIndexEntry.NewTableIndexEntry] at he
    · rintro ⟨ib, h, _⟩
      cases h
    · intro ib h
      cases h
    · intro ib h
      cases h
  | some ib0 =>
    have hbad : ib0.column_names_.length ≠ 1 →
        TableIndexEntry.NewTableIndexEntry env (some ib0) false table_entry_dir txn_id begin_ts =
          Except.error (Exception.Recoverable
            (Status.SyntaxError "Currently, composite index doesn't supported.")) := by
      intro h
      simp [TableIndexEntry.NewTableIndexEntry, TableIndexEntry.construct, h, RecoverableError]
    have hgood : ib0.column_names_.length = 1 →
        TableIndexEntry.NewTableIndexEntry env (some ib0) false table_entry_dir txn_id begin_ts =
          Except.ok ⟨txn_id, begin_ts, 0, false, some ib0,
            some (env.DetermineIndexDir table_entry_dir ib0.index_name_), env.GetColumnDef ib0, [],
            none⟩ := by
      intro h
      simp [TableIndexEntry.NewTableIndexEntry, TableIndexEntry.construct, h]
    refine ⟨⟨?_, ?_⟩, ?_, ?_⟩
    · rintro ⟨e, he⟩
      refine ⟨ib0, rfl, ?_⟩
      by_contra hne
      rw [hbad hne] at he
      cases he
    · rintro ⟨ib, h, hlen⟩
      cases h
      exact ⟨_, hgood hlen⟩
    · intro ib h hlen
      cases h
      exact hbad hlen
    · intro ib h hlen
      cases h
      exact hgood hlen

/-- C8 at a concrete request: an index on the two columns `a`, `b` is rejected. -/
theorem NewTableIndexEntry_single_column_witness :
    TableIndexEntry.NewTableIndexEntry sample_env (some ⟨IndexType.kHnsw, "idx", ["a", "b"]⟩)
        false "/tbl" 7 3 =
      Except.error (Exception.Recoverable
        (Status.SyntaxError "Currently, composite index doesn't supported.")) :=
  (NewTableIndexEntry_single_column sample_env (some ⟨IndexType.kHnsw, "idx", ["a", "b"]⟩)
    "/tbl" 7 3).2.1 ⟨IndexType.kHnsw, "idx", ["a", "b"]⟩ rfl (by decide)

/-! ## `CreateFileWorker` -/

theorem CreateFileWorker.part_loop_eq (mk : Nat → IndexFileWorker) :
    ∀ (n i : Nat) (pre : List (Option IndexFileWorker)), pre.length = i →
      CreateFileWorker.part_loop mk n i (pre ++ List.replicate n none) =
        pre ++ (List.range n).map (fun j => some (mk (i + j))) := by
  intro n
  induction n with
  | zero => intro i pre _; simp [CreateFileWorker.part_loop]
  | succ n ih =>
    intro i pre hlen
    have hset : (pre ++ List.replicate (n + 1) none).set i (some (mk i)) =
        (pre ++ [some (mk i)]) ++ List.replicate n none := by
      rw [List.replicate_succ, ← hlen, List.set_append_right _ _ (le_refl _)]
      simp
    simp only [CreateFileWorker.part_loop, hset]
    rw [ih (i + 1) (pre ++ [some (mk i)]) (by simp [hlen])]
    rw [List.range_succ_eq_map, List.map_cons, List.map_map, List.append_assoc]
    simp only [List.singleton_append, Nat.add_zero, Function.comp_def]
    congr 2
    apply List.map_congr_left
    intro j _
    congr 2
    omega

theorem ceil_div_spec (rc pc : Nat) (hpc : 1 ≤ pc) :
    rc ≤ (rc + pc - 1) / pc * pc ∧ ∀ n, rc ≤ n * pc → (rc + pc - 1) / pc ≤ n := by
  constructor
  · by_contra hcon
    have h1 : ((rc + pc - 1) / pc + 1) * pc ≤ rc + pc - 1 := by
      rw [Nat.succ_mul]
      omega
    have h2 := (Nat.le_div_iff_mul_le (by omega : 0 < pc)).mpr h1
    omega
  · intro n hn
    have h1 : rc + pc - 1 < (n + 1) * pc := by
      rw [Nat.succ_mul]
      omega
    have h2 := (Nat.div_lt_iff_lt_mul (by omega : 0 < pc)).mpr h1
    omega

theorem CreateFileWorker_secondary (env : Env) (bits : Nat) (e : TableIndexEntry)
    (param : CreateIndexParam) (segment_id : SegmentID) (rc pc : Nat)
    (hty : param.index_base_.index_type_ = IndexType.kSecondary)
    (hkind : param.kind = CreateIndexParamKind.Secondary rc pc)
    (hpc : 1 ≤ pc) (hsum : rc + pc < 2 ^ 32) (hbits : 32 ≤ bits) :
    e.CreateFileWorker env bits param segment_id =
      Except.ok
        (some (IndexFileWorker.Secondary e.index_dir_ (env.IndexFileName segment_id)
            param.index_base_ param.column_def_ 0 rc pc) ::
          (List.range ((rc + pc - 1) / pc)).map (fun j =>
            some (IndexFileWorker.Secondary e.index_dir_
              (env.IndexFileName segment_id ++ "_part" ++ toString (1 + j))
              param.index_base_ param.column_def_ (1 + j) rc pc))) := by
  have hpow : 2 ^ 32 ≤ 2 ^ bits := Nat.pow_le_pow_right (by decide) hbits
  have hq : (rc + pc - 1) / pc ≤ rc + pc - 1 := Nat.div_le_self _ _
  have h1 : (rc + pc - 1) % 2 ^ bits = rc + pc - 1 := Nat.mod_eq_of_lt (by omega)
  have h2 : (rc + pc - 1) / pc % 2 ^ 32 = (rc + pc - 1) / pc := Nat.mod_eq_of_lt (by omega)
  have h3 : ((rc + pc - 1) / pc + 1) % 2 ^ 32 = (rc + pc - 1) / pc + 1 :=
    Nat.mod_eq_of_lt (by omega)
  have hpc0 : ¬ pc = 0 := by omega
  have hres : resize (resize [] 1) ((rc + pc - 1) / pc + 1) =
      [none] ++ List.replicate ((rc + pc - 1) / pc) none := by
    simp [resize, List.replicate]
  unfold TableIndexEntry.CreateFileWorker
  simp only [hty, hkind, reduceCtorEq, if_false, hpc0, h1, h2, h3, hres]
  simp only [List.singleton_append, List.length_cons, Nat.add_one_ne_zero, if_false,
    List.set_cons_zero]
  have hloop := CreateFileWorker.part_loop_eq
    (fun i => IndexFileWorker.Secondary e.index_dir_
      (env.IndexFileName segment_id ++ "_part" ++ toString i) param.index_base_
      param.column_def_ i rc pc)
    ((rc + pc - 1) / pc) 1
    [some (IndexFileWorker.Secondary e.index_dir_ (env.IndexFileName segment_id)
      param.index_base_ param.column_def_ 0 rc pc)] rfl
  simp only [List.singleton_append] at hloop
  rw [hloop]
  rfl

/-- C9, as stated, fails for large row counts: with 32-bit arithmetic, a
Secondary index with `row_count = 4294967295` and `part_capacity = 2` gets one
file worker, and with 64-bit arithmetic so does `row_count = 4294967296` with
`part_capacity = 1`, although `ceil(row_count / part_capacity)` is not 0. -/
theorem CreateFileWorker_count_counterexample :
    (∃ ws, TableIndexEntry.CreateFileWorker sample_env 32 (sample_entry 0 [])
          (sample_secondary_param 4294967295 2) 3 = Except.ok ws ∧
        ws.length = 1 ∧ ¬ ∃ N, ws.length = 1 + N ∧ 4294967295 ≤ N * 2) ∧
      (∃ ws, TableIndexEntry.CreateFileWorker sample_env 64 (sample_entry 0 [])
          (sample_secondary_param 4294967296 1) 3 = Except.ok ws ∧
        ws.length = 1 ∧ ¬ ∃ N, ws.length = 1 + N ∧ 4294967296 ≤ N * 1) := by
  refine ⟨⟨[some (IndexFileWorker.Secondary (some "/tbl/idx") "3"
      ⟨IndexType.kSecondary, "sec", ["c"]⟩ ⟨"c", none⟩ 0 4294967295 2)], rfl, rfl, ?_⟩,
    ⟨[some (IndexFileWorker.Secondary (some "/tbl/idx") "3"
      ⟨IndexType.kSecondary, "sec", ["c"]⟩ ⟨"c", none⟩ 0 4294967296 1)], rfl, rfl, ?_⟩⟩
  · rintro ⟨N, h1, h2⟩
    change 1 = 1 + N at h1
    omega
  · rintro ⟨N, h1, h2⟩
    change 1 = 1 + N at h1
    omega

/-- C9 (amended): `CreateFileWorker` returns no worker for `kFullText`; one
worker, named by `IndexFileName(segment_id)`, for `kIVFFlat` on a float32
column and for `kHnsw` (the parameter object being of the class that belongs to
the index type); it throws the unrecoverable error for `kIVFFlat` on a column
of any other element type; and for `kSecondary` with `part_capacity >= 1` and
`row_count + part_capacity < 2^32` it returns `1 + N` workers, where `N` is the
least number with `row_count <= N * part_capacity`, worker 0 named by the
segment file name and worker `i` (`1 <= i <= N`) named `<base>_part<i>`. -/
theorem CreateFileWorker_count (env : Env) (bits : Nat) (e : TableIndexEntry)
    (param : CreateIndexParam) (segment_id : SegmentID) (hbits : 32 ≤ bits) :
    (param.index_base_.index_type_ = IndexType.kFullText →
        e.CreateFileWorker env bits param segment_id = Except.ok []) ∧
      (∀ rc, param.index_base_.index_type_ = IndexType.kIVFFlat →
        param.column_def_.elem_type = some EmbeddingDataType.kElemFloat →
        param.kind = CreateIndexParamKind.AnnIVFFlat rc →
        e.CreateFileWorker env bits param segment_id =
          Except.ok [some (IndexFileWorker.AnnIVFFlat_f32 e.index_dir_
            (env.IndexFileName segment_id) param.index_base_ param.column_def_ rc)]) ∧
      (∀ t, param.index_base_.index_type_ = IndexType.kIVFFlat →
        param.column_def_.elem_type = some t → t ≠ EmbeddingDataType.kElemFloat →
        e.CreateFileWorker env bits param segment_id =
          Except.error
            (Exception.Unrecoverable "Create IVF Flat index: Unsupported element type.")) ∧
      (∀ m, param.index_base_.index_type_ = IndexType.kHnsw →
        param.kind = CreateIndexParamKind.Hnsw m →
        e.CreateFileWorker env bits param segment_id =
          Except.ok [some (IndexFileWorker.Hnsw e.index_dir_ (env.IndexFileName segment_id)
            param.index_base_ param.column_def_ m)]) ∧
      (∀ rc pc, param.index_base_.index_type_ = IndexType.kSecondary →
        param.kind = CreateIndexParamKind.Secondary rc pc → 1 ≤ pc → rc + pc < 2 ^ 32 →
        ∃ N ws, e.CreateFileWorker env bits param segment_id = Except.ok ws ∧
          ws.length = 1 + N ∧ rc ≤ N * pc ∧ (∀ n, rc ≤ n * pc → N ≤ n) ∧
          ws[0]? = some (some (IndexFileWorker.Secondary e.index_dir_
            (env.IndexFileName segment_id) param.index_base_ param.column_def_ 0 rc pc)) ∧
          ∀ i, 1 ≤ i → i ≤ N →
            ws[i]? = some (some (IndexFileWorker.Secondary e.index_dir_
              (env.IndexFileName segment_id ++ "_part" ++ toString i) param.index_base_
              param.column_def_ i rc pc))) := by
  refine ⟨?_, ?_, ?_, ?_, ?_⟩
  · intro hty
    simp [TableIndexEntry.CreateFileWorker, hty]
  · intro rc hty hel hkind
    simp [TableIndexEntry.CreateFileWorker, hty, hel, hkind, resize, CreateFileWorker.finish]
  · intro t hty hel hne
    unfold TableIndexEntry.CreateFileWorker
    simp only [hty, reduceCtorEq, if_false, hel]
    cases t <;> first | exact absurd rfl hne | rfl
  · intro m hty hkind
    simp [TableIndexEntry.CreateFileWorker, hty, hkind, resize, CreateFileWorker.finish]
  · intro rc pc hty hkind hpc hsum
    obtain ⟨hc1, hc2⟩ := ceil_div_spec rc pc hpc
    refine ⟨(rc + pc - 1) / pc, _,
      CreateFileWorker_secondary env bits e param segment_id rc pc hty hkind hpc hsum hbits,
      ?_, hc1, hc2, List.getElem?_cons_zero, ?_⟩
    · simp [Nat.add_comm]
    · intro i hi1 hiN
      obtain ⟨j, rfl⟩ : ∃ j, i = 1 + j := ⟨i - 1, by omega⟩
      rw [Nat.add_comm 1 j, List.getElem?_cons_succ, List.getElem?_map,
        List.getElem?_range (by omega)]
      simp [Nat.add_comm]

/-- C9 (amended) at a concrete Secondary parameter: 5 rows in parts of 2 give
1 + 3 workers, the last one named `3_part3`. -/
theorem CreateFileWorker_count_witness :
    32 ≤ 32 ∧
      ∃ N ws, TableIndexEntry.CreateFileWorker sample_env 32 (sample_entry 0 [])
          (sample_secondary_param 5 2) 3 = Except.ok ws ∧
        ws.length = 1 + N ∧ 5 ≤ N * 2 ∧ (∀ n, 5 ≤ n * 2 → N ≤ n) ∧
        ws[0]? = some (some (IndexFileWorker.Secondary (some "/tbl/idx") "3"
          ⟨IndexType.kSecondary, "sec", ["c"]⟩ ⟨"c", none⟩ 0 5 2)) ∧
        ∀ i, 1 ≤ i → i ≤ N →
          ws[i]? = some (some (IndexFileWorker.Secondary (some "/tbl/idx")
            ("3" ++ "_part" ++ toString i) ⟨IndexType.kSecondary, "sec", ["c"]⟩ ⟨"c", none⟩ i
            5 2)) :=
  ⟨le_refl _,
    (CreateFileWorker_count sample_env 32 (sample_entry 0 []) (sample_secondary_param 5 2) 3
      (le_refl _)).2.2.2.2 5 2 rfl rfl (by decide) (by decide)⟩

/-! ## `CreateIndexPrepare` -/

theorem CreateIndexPrepare.loop_last_unchanged (u : SegmentID)
    (prepare is_replay check_ts : Bool) :
    ∀ (segments : List SegmentEntry) (e : TableIndexEntry) (w : World)
      (acc : List SegmentIndexEntry),
      u ∉ segments.map SegmentEntry.segment_id →
      (CreateIndexPrepare.loop u prepare is_replay check_ts segments e w acc).2.1.last_segment_ =
        e.last_segment_ := by
  intro segments
  induction segments with
  | nil => intro e w acc _; rfl
  | cons s tl ih =>
    intro e w acc hu
    rw [List.map_cons, List.mem_cons, not_or] at hu
    simp only [CreateIndexPrepare.loop]
    rw [ih _ _ _ hu.2, if_neg hu.1]

theorem CreateIndexPrepare.loop_spec (u : SegmentID) (prepare is_replay check_ts : Bool) :
    ∀ (segments : List SegmentEntry) (e : TableIndexEntry) (w : World)
      (acc : List SegmentIndexEntry),
      (segments.map SegmentEntry.segment_id).Nodup →
      (∀ s ∈ segments, s.segment_id ∉ Map.keys e.index_by_segment_) →
      (∀ x ∈ acc, Map.find e.index_by_segment_ x.segment_id = some x) →
      (∀ x ∈ (CreateIndexPrepare.loop u prepare is_replay check_ts segments e w acc).1,
        Map.find
          (CreateIndexPrepare.loop u prepare is_replay check_ts segments e w acc).2.1.index_by_segment_
          x.segment_id = some x) ∧
      ((u ∈ segments.map SegmentEntry.segment_id ∨
          ∃ x, e.last_segment_ = some x ∧ Map.find e.index_by_segment_ u = some x) →
        ∃ x,
          (CreateIndexPrepare.loop u prepare is_replay check_ts segments e w acc).2.1.last_segment_ =
            some x ∧
          Map.find
            (CreateIndexPrepare.loop u prepare is_replay check_ts segments e w
              acc).2.1.index_by_segment_ u = some x) := by
  intro segments
  induction segments with
  | nil =>
    intro e w acc _ _ hacc
    refine ⟨hacc, ?_⟩
    rintro (h | h)
    · cases h
    · exact h
  | cons s tl ih =>
    intro e w acc hnd hfresh hacc
    rw [List.map_cons, List.nodup_cons] at hnd
    have hs : s.segment_id ∉ Map.keys e.index_by_segment_ := hfresh s (List.mem_cons_self _ _)
    have hnone : Map.find e.index_by_segment_ s.segment_id = none :=
      (Map.find_eq_none_iff _ _).mpr hs
    have hself := Map.find_emplace_self e.index_by_segment_ s.segment_id
      (SegmentIndexEntry.NewIndexEntry w s.segment_id).1 hnone
    have hother : ∀ j, j ≠ s.segment_id →
        Map.find (Map.emplace e.index_by_segment_ s.segment_id
          (SegmentIndexEntry.NewIndexEntry w s.segment_id).1) j = Map.find e.index_by_segment_ j :=
      fun j hj => Map.find_emplace_of_ne _ _ _ _ hj
    have hfresh2 : ∀ t ∈ tl, t.segment_id ∉ Map.keys
        (Map.emplace e.index_by_segment_ s.segment_id
          (SegmentIndexEntry.NewIndexEntry w s.segment_id).1) := by
      intro t ht hmem
      rcases (Map.mem_keys_emplace _ _ _ _).mp hmem with h | h
      · exact hnd.1 (h ▸ List.mem_map_of_mem SegmentEntry.segment_id ht)
      · exact hfresh t (List.mem_cons_of_mem _ ht) h
    have hacc2 : ∀ x ∈ acc ++ [(SegmentIndexEntry.NewIndexEntry w s.segment_id).1],
        Map.find (Map.emplace e.index_by_segment_ s.segment_id
          (SegmentIndexEntry.NewIndexEntry w s.segment_id).1) x.segment_id = some x := by
      intro x hx
      rcases List.mem_append.mp hx with h | h
      · have hx1 := hacc x h
        have hne : x.segment_id ≠ s.segment_id := by
          intro heq
          rw [heq, hnone] at hx1
          cases hx1
        rw [hother _ hne]
        exact hx1
      · rw [List.mem_singleton] at h
        subst h
        exact hself
    simp only [CreateIndexPrepare.loop]
    by_cases hu : u = s.segment_id
    · rw [if_pos hu]
      obtain ⟨ih1, ih2⟩ := ih
        { e with
          index_by_segment_ := (Map.emplace e.index_by_segment_ s.segment_id
            (SegmentIndexEntry.NewIndexEntry w s.segment_id).1),
          last_segment_ := (some (SegmentIndexEntry.NewIndexEntry w s.segment_id).1) }
        (if !is_replay then
          (SegmentIndexEntry.NewIndexEntry w s.segment_id).2.emit
            (Event.CreateIndexPrepare (SegmentIndexEntry.NewIndexEntry w s.segment_id).1
              s.segment_id prepare check_ts)
         else (SegmentIndexEntry.NewIndexEntry w s.segment_id).2)
        (acc ++ [(SegmentIndexEntry.NewIndexEntry w s.segment_id).1]) hnd.2 hfresh2 hacc2
      refine ⟨ih1, fun _ => ih2 (Or.inr ⟨(SegmentIndexEntry.NewIndexEntry w s.segment_id).1, rfl,
        ?_⟩)⟩
      rw [hu]
      exact hself
    · rw [if_neg hu]
      obtain ⟨ih1, ih2⟩ := ih
        { e with
          index_by_segment_ := (Map.emplace e.index_by_segment_ s.segment_id
            (SegmentIndexEntry.NewIndexEntry w s.segment_id).1) }
        (if !is_replay then
          (SegmentIndexEntry.NewIndexEntry w s.segment_id).2.emit
            (Event.CreateIndexPrepare (SegmentIndexEntry.NewIndexEntry w s.segment_id).1
              s.segment_id prepare check_ts)
         else (SegmentIndexEntry.NewIndexEntry w s.segment_id).2)
        (acc ++ [(SegmentIndexEntry.NewIndexEntry w s.segment_id).1]) hnd.2 hfresh2 hacc2
      refine ⟨ih1, fun hpre => ih2 ?_⟩
      rcases hpre with h | ⟨x, hx1, hx2⟩
      · rw [List.map_cons, List.mem_cons] at h
        rcases h with h | h
        · exact absurd h hu
        · exact Or.inl h
      · exact Or.inr ⟨x, hx1, (hother _ hu).trans hx2⟩

/-- C10, as stated, fails when the unsealed segment id is already a key: with
`index_by_segment_ = {1 -> entry at address 0}` and a block index holding
segment 1, `CreateIndexPrepare` returns and sets `last_segment_` to the new
entry at address 1, while key 1 still maps to the entry at address 0. -/
theorem CreateIndexPrepare_last_segment_counterexample :
    ((sample_entry 0 [(1, ⟨0, 1⟩)]).CreateIndexPrepare ⟨1, []⟩ 1 [⟨1, 10, 100⟩] true false
          true).2.1.last_segment_ = some ⟨1, 1⟩ ∧
      ((sample_entry 0 [(1, ⟨0, 1⟩)]).CreateIndexPrepare ⟨1, []⟩ 1 [⟨1, 10, 100⟩] true false
          true).1.1 = [⟨1, 1⟩] ∧
      Map.find ((sample_entry 0 [(1, ⟨0, 1⟩)]).CreateIndexPrepare ⟨1, []⟩ 1 [⟨1, 10, 100⟩] true
          false true).2.1.index_by_segment_ 1 = some ⟨0, 1⟩ := by
  decide

/-- C10 (amended): when the segment ids of `block_index` are pairwise distinct
and none of them is already a key of `index_by_segment_`, then after
`CreateIndexPrepare` every segment entry of the result vector is the entry
stored in `index_by_segment_` under its own segment id and, if some segment of
`block_index` has the unsealed id `u`, `last_segment_` is the entry stored
under key `u`; when no segment of `block_index` has id `u`, `last_segment_`
is unchanged (whatever the keys are). The returned status is OK. -/
theorem CreateIndexPrepare_last_segment (e : TableIndexEntry) (w : World) (u : SegmentID)
    (segments : List SegmentEntry) (prepare is_replay check_ts : Bool)
    (hnd : (segments.map SegmentEntry.segment_id).Nodup)
    (hfresh : ∀ s ∈ segments, s.segment_id ∉ Map.keys e.index_by_segment_) :
    (u ∈ segments.map SegmentEntry.segment_id →
        ∃ x, (e.CreateIndexPrepare w u segments prepare is_replay check_ts).2.1.last_segment_ =
            some x ∧
          Map.find
            (e.CreateIndexPrepare w u segments prepare is_replay check_ts).2.1.index_by_segment_
            u = some x) ∧
      (∀ x ∈ (e.CreateIndexPrepare w u segments prepare is_replay check_ts).1.1,
        Map.find
          (e.CreateIndexPrepare w u segments prepare is_replay check_ts).2.1.index_by_segment_
          x.segment_id = some x) ∧
      (u ∉ segments.map SegmentEntry.segment_id →
        (e.CreateIndexPrepare w u segments prepare is_replay check_ts).2.1.last_segment_ =
          e.last_segment_) ∧
      (e.CreateIndexPrepare w u segments prepare is_replay check_ts).1.2 = Status.OK := by
  obtain ⟨h1, h2⟩ := CreateIndexPrepare.loop_spec u prepare is_replay check_ts segments e w []
    hnd hfresh (fun x hx => by cases hx)
  exact ⟨fun hu => h2 (Or.inl hu), h1,
    CreateIndexPrepare.loop_last_unchanged u prepare is_replay check_ts segments e w [], rfl⟩

/-- C10 (amended) at a concrete entry: segments 2 and 3 are prepared on an
entry that holds segment 1; the unsealed segment is 3. -/
theorem CreateIndexPrepare_last_segment_witness :
    ∃ x, ((sample_entry 0 [(1, ⟨0, 1⟩)]).CreateIndexPrepare ⟨1, []⟩ 3
          [⟨2, 10, 100⟩, ⟨3, 5, 100⟩] true false true).2.1.last_segment_ = some x ∧
      Map.find ((sample_entry 0 [(1, ⟨0, 1⟩)]).CreateIndexPrepare ⟨1, []⟩ 3
          [⟨2, 10, 100⟩, ⟨3, 5, 100⟩] true false true).2.1.index_by_segment_ 3 = some x :=
  (CreateIndexPrepare_last_segment (sample_entry 0 [(1, ⟨0, 1⟩)]) ⟨1, []⟩ 3
    [⟨2, 10, 100⟩, ⟨3, 5, 100⟩] true false true (by decide) (by decide)).1 (by decide)

/-! ## `CreateIndexDo` -/

theorem exists_first_failure {α : Type} (P : α → Bool) :
    ∀ (l : List α), ¬ (∀ q ∈ l, P q = true) →
      ∃ pre p post, l = pre ++ p :: post ∧ (∀ q ∈ pre, P q = true) ∧ P p = false := by
  intro l
  induction l with
  | nil => intro h; exact absurd (fun q hq => absurd hq (List.not_mem_nil q)) h
  | cons a tl ih =>
    intro h
    by_cases ha : P a = true
    · have htl : ¬ (∀ q ∈ tl, P q = true) := by
        intro hall
        apply h
        intro q hq
        rcases List.mem_cons.mp hq with rfl | hq
        · exact ha
        · exact hall q hq
      obtain ⟨pre, p, post, hl, hpre, hp⟩ := ih htl
      refine ⟨a :: pre, p, post, by rw [hl]; rfl, ?_, hp⟩
      intro q hq
      rcases List.mem_cons.mp hq with rfl | hq
      · exact ha
      · exact hpre q hq
    · exact ⟨[], a, tl, rfl, fun q hq => absurd hq (List.not_mem_nil q), by simpa using ha⟩

theorem CreateIndexDo.loop_all_ok (segDo : SegmentIndexEntry → Nat → Status) (idxes : Map Nat) :
    ∀ (m : Map SegmentIndexEntry) (w : World),
      (∀ p ∈ m, (Map.find idxes p.1).isSome = true) →
      (∀ p ∈ m, (segDo p.2 ((Map.find idxes p.1).getD 0)).ok = true) →
      CreateIndexDo.loop segDo idxes m w =
        Except.ok (Status.OK,
          { w with trace := w.trace ++
              m.map (fun p => Event.CreateIndexDo p.2 ((Map.find idxes p.1).getD 0)) }) := by
  intro m
  induction m with
  | nil => intro w _ _; simp [CreateIndexDo.loop]
  | cons hd tl ih =>
    intro w hidx hok
    obtain ⟨k, v⟩ := hd
    have h1 := hidx (k, v) (List.mem_cons_self _ _)
    have h2 := hok (k, v) (List.mem_cons_self _ _)
    obtain ⟨c, hc⟩ := Option.isSome_iff_exists.mp h1
    simp only at hc h2
    rw [hc] at h2
    simp only [Option.getD_some] at h2
    simp only [CreateIndexDo.loop, hc, h2, Bool.not_true, Bool.false_eq_true, if_false]
    rw [ih _ (fun p hp => hidx p (List.mem_cons_of_mem _ hp))
      (fun p hp => hok p (List.mem_cons_of_mem _ hp))]
    simp [World.emit, hc]

theorem CreateIndexDo.loop_first_failure (segDo : SegmentIndexEntry → Nat → Status)
    (idxes : Map Nat) :
    ∀ (pre : Map SegmentIndexEntry) (p : SegmentID × SegmentIndexEntry)
      (post : Map SegmentIndexEntry) (w : World),
      (∀ q ∈ pre ++ p :: post, (Map.find idxes q.1).isSome = true) →
      (∀ q ∈ pre, (segDo q.2 ((Map.find idxes q.1).getD 0)).ok = true) →
      (segDo p.2 ((Map.find idxes p.1).getD 0)).ok = false →
      CreateIndexDo.loop segDo idxes (pre ++ p :: post) w =
        Except.ok (segDo p.2 ((Map.find idxes p.1).getD 0),
          { w with trace := w.trace ++
              (pre ++ [p]).map (fun q => Event.CreateIndexDo q.2 ((Map.find idxes q.1).getD 0)) }) := by
  intro pre
  induction pre with
  | nil =>
    intro p post w hidx _ hp
    obtain ⟨k, v⟩ := p
    have h1 := hidx (k, v) (List.mem_cons_self _ _)
    obtain ⟨c, hc⟩ := Option.isSome_iff_exists.mp h1
    simp only at hc hp
    rw [hc] at hp
    simp only [Option.getD_some] at hp
    simp [CreateIndexDo.loop, hc, hp, World.emit]
  | cons hd tl ih =>
    intro p post w hidx hpre hp
    obtain ⟨k, v⟩ := hd
    have h1 := hidx (k, v) (List.mem_cons_self _ _)
    have h2 := hpre (k, v) (List.mem_cons_self _ _)
    obtain ⟨c, hc⟩ := Option.isSome_iff_exists.mp h1
    simp only at hc h2
    rw [hc] at h2
    simp only [Option.getD_some] at h2
    rw [List.cons_append]
    simp only [CreateIndexDo.loop, hc, h2, Bool.not_true, Bool.false_eq_true, if_false]
    rw [ih p post _ (fun q hq => hidx q (List.mem_cons_of_mem _ hq))
      (fun q hq => hpre q (List.mem_cons_of_mem _ hq)) hp]
    simp [World.emit, hc]

theorem Map.WF_split {V : Type} (pre post : Map V) (p : SegmentID × V)
    (hwf : Map.WF (pre ++ p :: post)) :
    (∀ q ∈ pre, q.1 < p.1) ∧ (∀ q ∈ post, p.1 < q.1) := by
  unfold Map.WF Map.keys at hwf
  rw [List.map_append, List.map_cons, List.pairwise_append] at hwf
  obtain ⟨_, h2, h3⟩ := hwf
  rw [List.pairwise_cons] at h2
  constructor
  · intro q hq
    exact h3 q.1 (List.mem_map_of_mem Prod.fst hq) p.1 (List.mem_cons_self _ _)
  · intro q hq
    exact h2.1 q.1 (List.mem_map_of_mem Prod.fst hq)

/-- C11: on a single-column table index entry whose map keys all have a
progress counter, `CreateIndexDo` returns a status. The status is OK exactly
when the per-segment `CreateIndexDo` of every entry returns OK, and then every
entry was processed in ascending segment id order. Otherwise the map splits
into the entries before the first failing one (all OK, smaller ids), the
failing entry and the rest (larger ids): the returned status is the one of the
failing entry, no failing entry has a smaller id, and exactly the entries up to
the failing one were processed. -/
theorem CreateIndexDo_first_failure (segDo : SegmentIndexEntry → Nat → Status)
    (e : TableIndexEntry) (w : World) (idxes : Map Nat) (ib : IndexBase)
    (hib : e.index_base_ = some ib) (hcol : ib.column_names_.length = 1)
    (hidx : ∀ p ∈ e.index_by_segment_, (Map.find idxes p.1).isSome = true)
    (hwf : Map.WF e.index_by_segment_) :
    ∃ status w1, e.CreateIndexDo segDo w idxes = Except.ok (status, w1) ∧
      (status.ok = true ↔
        ∀ p ∈ e.index_by_segment_, (segDo p.2 ((Map.find idxes p.1).getD 0)).ok = true) ∧
      ((∀ p ∈ e.index_by_segment_, (segDo p.2 ((Map.find idxes p.1).getD 0)).ok = true) →
        status = Status.OK ∧
        w1.trace = w.trace ++ e.index_by_segment_.map
          (fun p => Event.CreateIndexDo p.2 ((Map.find idxes p.1).getD 0))) ∧
      (¬ (∀ p ∈ e.index_by_segment_, (segDo p.2 ((Map.find idxes p.1).getD 0)).ok = true) →
        ∃ pre p post, e.index_by_segment_ = pre ++ p :: post ∧
          (∀ q ∈ pre, (segDo q.2 ((Map.find idxes q.1).getD 0)).ok = true ∧ q.1 < p.1) ∧
          (segDo p.2 ((Map.find idxes p.1).getD 0)).ok = false ∧
          status = segDo p.2 ((Map.find idxes p.1).getD 0) ∧
          (∀ q ∈ post, p.1 < q.1) ∧
          (∀ q ∈ e.index_by_segment_,
            (segDo q.2 ((Map.find idxes q.1).getD 0)).ok = false → p.1 ≤ q.1) ∧
          w1.trace = w.trace ++ (pre ++ [p]).map
            (fun q => Event.CreateIndexDo q.2 ((Map.find idxes q.1).getD 0))) := by
  have hdef : e.CreateIndexDo segDo w idxes =
      CreateIndexDo.loop segDo idxes e.index_by_segment_ w := by
    simp [TableIndexEntry.CreateIndexDo, hib, hcol]
  by_cases hall : ∀ p ∈ e.index_by_segment_,
      (segDo p.2 ((Map.find idxes p.1).getD 0)).ok = true
  · refine ⟨_, _, hdef.trans (CreateIndexDo.loop_all_ok segDo idxes _ w hidx hall), ?_, ?_, ?_⟩
    · exact ⟨fun _ => hall, fun _ => rfl⟩
    · intro _
      exact ⟨rfl, rfl⟩
    · intro hn
      exact absurd hall hn
  · obtain ⟨pre, p, post, hl, hpre, hp⟩ := exists_first_failure
      (fun p : SegmentID × SegmentIndexEntry => (segDo p.2 ((Map.find idxes p.1).getD 0)).ok)
      e.index_by_segment_ hall
    rw [hl] at hidx hwf
    obtain ⟨hlt, hgt⟩ := Map.WF_split pre post p hwf
    have hrun := CreateIndexDo.loop_first_failure segDo idxes pre p post w hidx hpre hp
    rw [← hl] at hrun
    refine ⟨_, _, hdef.trans hrun, ?_, ?_, ?_⟩
    · constructor
      · intro hok
        rw [hp] at hok
        cases hok
      · intro h
        exact absurd h hall
    · intro h
      exact absurd h hall
    · intro _
      refine ⟨pre, p, post, hl, fun q hq => ⟨hpre q hq, hlt q hq⟩, hp, rfl, hgt, ?_, rfl⟩
      intro q hq hqf
      rw [hl] at hq
      rcases List.mem_append.mp hq with h | h
      · rw [hpre q h] at hqf
        cases hqf
      · rcases List.mem_cons.mp h with rfl | h
        · exact le_refl _
        · exact le_of_lt (hgt q h)

/-- C11 at a concrete entry with the segments 1, 2, 3 where the build of
segment 2 fails: the status of segment 2 is returned and segment 3 is not
processed. -/
theorem CreateIndexDo_first_failure_witness :
    ∃ status w1,
      (sample_entry 0 [(1, ⟨0, 1⟩), (2, ⟨1, 2⟩), (3, ⟨2, 3⟩)]).CreateIndexDo
          (fun s _ => if s.segment_id = 2 then Status.NotSupport "segment 2" else Status.OK)
          ⟨3, []⟩ [(1, 0), (2, 0), (3, 0)] = Except.ok (status, w1) ∧
        status = Status.NotSupport "segment 2" ∧
        w1.trace = [Event.CreateIndexDo ⟨0, 1⟩ 0, Event.CreateIndexDo ⟨1, 2⟩ 0] := by
  obtain ⟨status, w1, h1, -, -, -⟩ := CreateIndexDo_first_failure
    (fun s _ => if s.segment_id = 2 then Status.NotSupport "segment 2" else Status.OK)
    (sample_entry 0 [(1, ⟨0, 1⟩), (2, ⟨1, 2⟩), (3, ⟨2, 3⟩)]) ⟨3, []⟩ [(1, 0), (2, 0), (3, 0)]
    sample_index_base rfl (by decide) (by decide) (by decide)
  refine ⟨status, w1, h1, ?_, ?_⟩
  · have h2 : (sample_entry 0 [(1, ⟨0, 1⟩), (2, ⟨1, 2⟩), (3, ⟨2, 3⟩)]).CreateIndexDo
        (fun s _ => if s.segment_id = 2 then Status.NotSupport "segment 2" else Status.OK)
        ⟨3, []⟩ [(1, 0), (2, 0), (3, 0)] =
        Except.ok (Status.NotSupport "segment 2",
          ⟨3, [Event.CreateIndexDo ⟨0, 1⟩ 0, Event.CreateIndexDo ⟨1, 2⟩ 0]⟩) := rfl
    rw [h2] at h1
    injection h1 with h1
    injection h1 with h3 h4
    exact h3.symm
  · have h2 : (sample_entry 0 [(1, ⟨0, 1⟩), (2, ⟨1, 2⟩), (3, ⟨2, 3⟩)]).CreateIndexDo
        (fun s _ => if s.segment_id = 2 then Status.NotSupport "segment 2" else Status.OK)
        ⟨3, []⟩ [(1, 0), (2, 0), (3, 0)] =
        Except.ok (Status.NotSupport "segment 2",
          ⟨3, [Event.CreateIndexDo ⟨0, 1⟩ 0, Event.CreateIndexDo ⟨1, 2⟩ 0]⟩) := rfl
    rw [h2] at h1
    injection h1 with h1
    injection h1 with h3 h4
    rw [← h4]

/-! ## `Cleanup` -/

theorem Cleanup.loop_files_eq (owned : SegmentIndexEntry → List String) :
    ∀ (m : Map SegmentIndexEntry) (w : World) (fs : LocalFileSystem),
      Cleanup.loop owned m w fs =
        ({ w with trace := w.trace ++ m.map (fun p => Event.Cleanup p.2) },
          { fs with files :=
              fs.files.filter (fun f => decide (f.1 ∉ m.flatMap (fun p => owned p.2))) }) := by
  intro m
  induction m with
  | nil => intro w fs; simp [Cleanup.loop]
  | cons hd tl ih =>
    intro w fs
    obtain ⟨k, v⟩ := hd
    simp only [Cleanup.loop, SegmentIndexEntry.Cleanup, ih, World.emit, List.map_cons,
      List.append_assoc, List.singleton_append, List.filter_filter, List.flatMap_cons,
      List.mem_append, not_or]
    congr 2
    apply List.filter_congr
    intro f _
    by_cases h1 : f.1 ∈ owned v <;>
      by_cases h2 : f.1 ∈ tl.flatMap (fun p => owned p.2) <;> simp [h1, h2]

theorem Cleanup.loop_fixed (owned : SegmentIndexEntry → List String)
    (m : Map SegmentIndexEntry) (w : World) (fs : LocalFileSystem)
    (h : ∀ f ∈ fs.files, f.1 ∉ m.flatMap (fun p => owned p.2)) :
    (Cleanup.loop owned m w fs).2 = fs := by
  rw [Cleanup.loop_files_eq]
  have hf : fs.files.filter (fun f => decide (f.1 ∉ m.flatMap (fun p => owned p.2))) =
      fs.files := by
    rw [List.filter_eq_self]
    intro f hf
    simpa using h f hf
  simp only [hf]

theorem LocalFileSystem.Exists_DeleteDirectory (fs : LocalFileSystem) (d : String) :
    (fs.DeleteDirectory d).Exists d = false := by
  simp only [LocalFileSystem.Exists, LocalFileSystem.DeleteDirectory, Bool.or_eq_false_iff,
    decide_eq_false_iff_not, List.mem_filter, List.mem_map, not_and, not_exists,
    LocalFileSystem.within]
  constructor
  · intro _
    simp
  · rintro f ⟨_, hf2⟩ hfd
    rw [hfd] at hf2
    simp at hf2

theorem Cleanup_again (owned : SegmentIndexEntry → List String) (e : TableIndexEntry)
    (d : String) (fs1 : LocalFileSystem) (hd : e.deleted_ = false) (hdir : e.index_dir_ = some d)
    (hsub : ∀ f ∈ fs1.files, f.1 ∉ e.index_by_segment_.flatMap (fun p => owned p.2))
    (hnot : fs1.Exists d = false) (w2 : World) :
    e.Cleanup owned w2 fs1 =
      Except.ok ((Cleanup.loop owned e.index_by_segment_ w2 fs1).1, fs1) := by
  have hfix := Cleanup.loop_fixed owned e.index_by_segment_ w2 fs1 hsub
  have hpair : Cleanup.loop owned e.index_by_segment_ w2 fs1 =
      ((Cleanup.loop owned e.index_by_segment_ w2 fs1).1, fs1) :=
    Prod.ext rfl hfix
  simp only [TableIndexEntry.Cleanup, hd, Bool.false_eq_true, if_false, hdir]
  rw [hfix, hnot]
  simp only [Bool.not_false, if_true]
  exact congrArg Except.ok hpair

/-- C12: `Cleanup` of a deleted entry returns at once: trace and file system
are unchanged. `Cleanup` of a live entry (with its index directory) calls
`Cleanup` on every entry of `index_by_segment_`, in map order, and then deletes
the directory `index_dir_` if it exists, so the directory does not exist
afterwards; a second `Cleanup` on the resulting file system returns the same
file system. -/
theorem Cleanup_spec (owned : SegmentIndexEntry → List String) (e : TableIndexEntry)
    (w : World) (fs : LocalFileSystem) :
    (e.deleted_ = true → e.Cleanup owned w fs = Except.ok (w, fs)) ∧
      (∀ d, e.deleted_ = false → e.index_dir_ = some d →
        ∃ w1 fs1, e.Cleanup owned w fs = Except.ok (w1, fs1) ∧
          w1.trace = w.trace ++ e.index_by_segment_.map (fun p => Event.Cleanup p.2) ∧
          fs1 = (if (Cleanup.loop owned e.index_by_segment_ w fs).2.Exists d then
              (Cleanup.loop owned e.index_by_segment_ w fs).2.DeleteDirectory d
            else (Cleanup.loop owned e.index_by_segment_ w fs).2) ∧
          fs1.Exists d = false ∧
          ∀ w2, ∃ w3, e.Cleanup owned w2 fs1 = Except.ok (w3, fs1)) := by
  constructor
  · intro hd
    simp [TableIndexEntry.Cleanup, hd]
  · intro d hd hdir
    have hrun : ∀ (w0 : World) (fs0 : LocalFileSystem),
        e.Cleanup owned w0 fs0 =
          Except.ok ((Cleanup.loop owned e.index_by_segment_ w0 fs0).1,
            if (Cleanup.loop owned e.index_by_segment_ w0 fs0).2.Exists d then
              (Cleanup.loop owned e.index_by_segment_ w0 fs0).2.DeleteDirectory d
            else (Cleanup.loop owned e.index_by_segment_ w0 fs0).2) := by
      intro w0 fs0
      by_cases hex : (Cleanup.loop owned e.index_by_segment_ w0 fs0).2.Exists d = true
      · simp [TableIndexEntry.Cleanup, hd, hdir, hex]
      · simp [TableIndexEntry.Cleanup, hd, hdir, hex]
    have hnot : (if (Cleanup.loop owned e.index_by_segment_ w fs).2.Exists d then
          (Cleanup.loop owned e.index_by_segment_ w fs).2.DeleteDirectory d
        else (Cleanup.loop owned e.index_by_segment_ w fs).2).Exists d = false := by
      by_cases hex : (Cleanup.loop owned e.index_by_segment_ w fs).2.Exists d = true
      · rw [if_pos hex]
        exact LocalFileSystem.Exists_DeleteDirectory _ d
      · rw [if_neg hex]
        simpa using hex
    refine ⟨_, _, hrun w fs, ?_, rfl, hnot, ?_⟩
    · rw [Cleanup.loop_files_eq]
    · intro w2
      have hsub : ∀ f ∈ (if (Cleanup.loop owned e.index_by_segment_ w fs).2.Exists d then
            (Cleanup.loop owned e.index_by_segment_ w fs).2.DeleteDirectory d
          else (Cleanup.loop owned e.index_by_segment_ w fs).2).files,
          f.1 ∉ e.index_by_segment_.flatMap (fun p => owned p.2) := by
        intro f hf
        have hmem : f ∈ (Cleanup.loop owned e.index_by_segment_ w fs).2.files := by
          split at hf
          · exact (List.mem_filter.mp hf).1
          · exact hf
        rw [Cleanup.loop_files_eq] at hmem
        simpa using (List.mem_filter.mp hmem).2
      exact ⟨_, Cleanup_again owned e d _ hd hdir hsub hnot w2⟩

/-- C12 at a concrete live entry: the segment file and the index directory
are removed, a file of another index stays. -/
theorem Cleanup_spec_witness :
    ∃ w1 fs1,
      (sample_entry 4 [(1, ⟨0, 1⟩)]).Cleanup (fun s => ["/tbl/idx/" ++ toString s.segment_id])
          ⟨1, []⟩ ⟨[("/tbl/idx/1", [7]), ("/tbl/other/1", [8])], ["/tbl", "/tbl/idx"]⟩ =
        Except.ok (w1, fs1) ∧
      w1.trace = [Event.Cleanup ⟨0, 1⟩] ∧ fs1.Exists "/tbl/idx" = false := by
  obtain ⟨w1, fs1, h1, h2, -, h3, -⟩ :=
    (Cleanup_spec (fun s => ["/tbl/idx/" ++ toString s.segment_id]) (sample_entry 4 [(1, ⟨0, 1⟩)])
      ⟨1, []⟩ ⟨[("/tbl/idx/1", [7]), ("/tbl/other/1", [8])], ["/tbl", "/tbl/idx"]⟩).2
      "/tbl/idx" rfl rfl
  exact ⟨w1, fs1, h1, h2, h3⟩

/-! ## `PostingWriter::Dump` and `PostingWriter::Load` -/

/-- C13, as stated, fails for a writer without a position list: `Dump` after 2
written bytes of a 3-byte doc list records `doc_start_ = 2` and leaves
`pos_start_` and `pos_end_` at their old value 0, so `doc_start_ <= pos_start_`
fails and `pos_end_` is not the total of 6 written bytes. -/
theorem Dump_offsets_counterexample :
    PostingWriter.Dump sample_encoders ⟨⟨0, false⟩, none, [5, 6, 7]⟩ ⟨[1, 1]⟩ ⟨0, 0, 0⟩ false =
        (⟨[1, 1, 3, 5, 6, 7]⟩, ⟨2, 0, 0⟩) ∧
      ¬ ((2 : Nat) ≤ 0) ∧ (0 : Nat) ≠ FileWriter.TotalWrittenBytes ⟨[1, 1, 3, 5, 6, 7]⟩ := by
  decide

/-- C13 (amended): `Dump` writes the doc list and then, if the writer has a
position list, the position list, and sets `doc_start_` to the number of bytes
written before the dump. For a writer with a position list it also sets
`pos_start_` to the bytes written after the doc list and `pos_end_` to the bytes
written at the end, so `doc_start_ <= pos_start_ <= pos_end_` and `pos_end_` is
the total written when `Dump` returns. For a writer without a position list
`pos_start_` and `pos_end_` keep the values the term meta had. -/
theorem Dump_offsets {D P : Type} (enc : Encoders D P) (pw : PostingWriter D P)
    (file_writer : FileWriter) (term_meta : TermMeta) (spill : Bool) :
    (pw.Dump enc file_writer term_meta spill).2.doc_start_ = file_writer.TotalWrittenBytes ∧
      (∀ p, pw.position_list_encoder_ = some p →
        (pw.Dump enc file_writer term_meta spill).1.written =
            file_writer.written ++ enc.doc_Dump pw.doc_list_encoder_ spill ++ enc.pos_Dump p spill ∧
          (pw.Dump enc file_writer term_meta spill).2.pos_start_ =
            file_writer.TotalWrittenBytes + (enc.doc_Dump pw.doc_list_encoder_ spill).length ∧
          (pw.Dump enc file_writer term_meta spill).2.pos_end_ =
            file_writer.TotalWrittenBytes + (enc.doc_Dump pw.doc_list_encoder_ spill).length +
              (enc.pos_Dump p spill).length ∧
          (pw.Dump enc file_writer term_meta spill).2.doc_start_ ≤
            (pw.Dump enc file_writer term_meta spill).2.pos_start_ ∧
          (pw.Dump enc file_writer term_meta spill).2.pos_start_ ≤
            (pw.Dump enc file_writer term_meta spill).2.pos_end_ ∧
          (pw.Dump enc file_writer term_meta spill).2.pos_end_ =
            (pw.Dump enc file_writer term_meta spill).1.TotalWrittenBytes) ∧
      (pw.position_list_encoder_ = none →
        (pw.Dump enc file_writer term_meta spill).1.written =
            file_writer.written ++ enc.doc_Dump pw.doc_list_encoder_ spill ∧
          (pw.Dump enc file_writer term_meta spill).2.pos_start_ = term_meta.pos_start_ ∧
          (pw.Dump enc file_writer term_meta spill).2.pos_end_ = term_meta.pos_end_) := by
  refine ⟨?_, ?_, ?_⟩
  · cases hp : pw.position_list_encoder_ <;> simp [PostingWriter.Dump, hp]
  · intro p hp
    simp only [PostingWriter.Dump, hp, FileWriter.TotalWrittenBytes, List.length_append]
    refine ⟨trivial, trivial, trivial, ?_, ?_, trivial⟩
    · omega
    · omega
  · intro hp
    simp [PostingWriter.Dump, hp]

/-- C13 (amended) at a concrete writer with a position list. -/
theorem Dump_offsets_witness :
    PostingWriter.Dump sample_encoders ⟨⟨0, true⟩, some [9], [5, 6, 7]⟩ ⟨[1, 1]⟩ ⟨0, 0, 0⟩ false =
        (⟨[1, 1, 3, 5, 6, 7, 1, 9]⟩, ⟨2, 6, 8⟩) ∧
      (PostingWriter.Dump sample_encoders ⟨⟨0, true⟩, some [9], [5, 6, 7]⟩ ⟨[1, 1]⟩ ⟨0, 0, 0⟩
          false).2.pos_end_ =
        (PostingWriter.Dump sample_encoders ⟨⟨0, true⟩, some [9], [5, 6, 7]⟩ ⟨[1, 1]⟩ ⟨0, 0, 0⟩
          false).1.TotalWrittenBytes :=
  ⟨by decide,
    ((Dump_offsets sample_encoders ⟨⟨0, true⟩, some [9], [5, 6, 7]⟩ ⟨[1, 1]⟩ ⟨0, 0, 0⟩ false).2.1
      [9] rfl).2.2.2.2.2⟩

/-- C14: let each encoder's `Load` invert its own `Dump` and let `w0` be a
posting writer whose position list encoder is present exactly when its posting
option has a position list (as the constructor builds it). After `EndSegment`,
`Dump` appends a byte string to the file, and `Load` of exactly these bytes into
a new `PostingWriter` with the same posting option reads the doc list and then,
under the same presence condition, the position list, consumes all the bytes
and leaves encoders equal to those of the dumped writer. -/
theorem Load_Dump {D P : Type} (enc : Encoders D P)
    (hdoc : ∀ d0 d spill rest,
      enc.doc_Load d0 ⟨enc.doc_Dump d spill ++ rest⟩ = (d, ⟨rest⟩))
    (hpos : ∀ p0 p spill rest,
      enc.pos_Load p0 ⟨enc.pos_Dump p spill ++ rest⟩ = (p, ⟨rest⟩))
    (w0 : PostingWriter D P)
    (hinv : w0.position_list_encoder_.isSome = w0.posting_option_.HasPositionList)
    (file_writer : FileWriter) (term_meta : TermMeta) (spill : Bool) :
    ∃ bytes,
      ((w0.EndSegment enc).Dump enc file_writer term_meta spill).1.written =
          file_writer.written ++ bytes ∧
        (PostingWriter.new enc w0.posting_option_).Load enc ⟨bytes⟩ =
          (w0.EndSegment enc, ⟨[]⟩) := by
  obtain ⟨opt, pos, doc⟩ := w0
  cases pos with
  | none =>
    simp only [Option.isSome_none] at hinv
    refine ⟨enc.doc_Dump (enc.doc_Flush doc) spill, ?_, ?_⟩
    · simp [PostingWriter.Dump, PostingWriter.EndSegment]
    · have h := hdoc (enc.new_DocListEncoder opt) (enc.doc_Flush doc) spill []
      rw [List.append_nil] at h
      simp [PostingWriter.Load, PostingWriter.new, ← hinv, h, PostingWriter.EndSegment]
  | some p =>
    simp only [Option.isSome_some] at hinv
    refine ⟨enc.doc_Dump (enc.doc_Flush doc) spill ++ enc.pos_Dump (enc.pos_Flush p) spill,
      ?_, ?_⟩
    · simp [PostingWriter.Dump, PostingWriter.EndSegment]
    · have h := hdoc (enc.new_DocListEncoder opt) (enc.doc_Flush doc) spill
        (enc.pos_Dump (enc.pos_Flush p) spill)
      have h2 := hpos (enc.new_PositionListEncoder opt) (enc.pos_Flush p) spill []
      rw [List.append_nil] at h2
      simp [PostingWriter.Load, PostingWriter.new, ← hinv, h, h2, PostingWriter.EndSegment]

/-- C14 at the sample encoders (a length byte followed by the bytes) and a
writer with a position list. -/
theorem Load_Dump_witness :
    ∃ bytes,
      ((PostingWriter.EndSegment sample_encoders ⟨⟨0, true⟩, some [9], [5, 6, 7]⟩).Dump
          sample_encoders ⟨[1, 1]⟩ ⟨0, 0, 0⟩ false).1.written = [1, 1] ++ bytes ∧
        (PostingWriter.new sample_encoders ⟨0, true⟩).Load sample_encoders ⟨bytes⟩ =
          (PostingWriter.EndSegment sample_encoders ⟨⟨0, true⟩, some [9], [5, 6, 7]⟩, ⟨[]⟩) :=
  Load_Dump sample_encoders
    (fun _ d _ rest => by simp [sample_encoders])
    (fun _ p _ rest => by simp [sample_encoders])
    ⟨⟨0, true⟩, some [9], [5, 6, 7]⟩ rfl ⟨[1, 1]⟩ ⟨0, 0, 0⟩ false


/-! ## Sessions: `Connect` and `Disconnect` -/

theorem toU64_toI64 (n : Nat) : toU64 (toI64 n) = n % 2 ^ 64 := by
  unfold toU64 toI64
  have hlt : n % 2 ^ 64 < 2 ^ 64 := Nat.mod_lt _ (by norm_num)
  generalize n % 2 ^ 64 = m at hlt
  norm_num at hlt ⊢
  split <;> omega

theorem toU64_toI64_GetSessionId (infinity : Infinity) :
    toU64 (toI64 infinity.GetSessionId) = infinity.GetSessionId := by
  rw [toU64_toI64]
  unfold Infinity.GetSessionId
  exact Nat.mod_mod _ _

theorem Map.find_erase {V : Type} (m : Map V) (k j : SegmentID) :
    Map.find (Map.erase m k).1 j = if j = k then none else Map.find m j := by
  have h := Map.find_filter_key (fun q => q != k) m j
  simp only [Map.erase]
  rw [h]
  by_cases hjk : j = k
  · simp [hjk]
  · simp [hjk]

theorem Map.find_ne_none_of_mem {V : Type} (m : Map V) (k : SegmentID) (h : k ∈ Map.keys m) :
    ∃ v, Map.find m k = some v := by
  cases hf : Map.find m k with
  | none => exact absurd h ((Map.find_eq_none_iff m k).1 hf)
  | some v => exact ⟨v, rfl⟩

theorem Map.erase_eq_self {V : Type} (m : Map V) (k : SegmentID) (h : k ∉ Map.keys m) :
    (Map.erase m k).1 = m := by
  simp only [Map.erase, List.filter_eq_self]
  intro q hq
  have : q.1 ≠ k := fun e => h (by rw [← e]; exact List.mem_map_of_mem _ hq)
  simpa using this

/-- The outcome of `Disconnect` with a session id that is registered. -/
theorem Disconnect_found (h : InfinityServiceHandler) (sw : ServerWorld) (env : RpcEnv)
    (response : CommonResponse) (s : Int) (i : Infinity)
    (hf : Map.find h.infinity_session_map_ (toU64 s) = some i) :
    h.Disconnect sw env response ⟨s⟩ =
      ({ response with error_code := some ErrorCode.kOk },
       { h with infinity_session_map_ := (Map.erase h.infinity_session_map_ (toU64 s)).1 },
       { sw with calls := sw.calls ++ [EngineCall.RemoteDisconnect i] }) := by
  simp only [InfinityServiceHandler.Disconnect, InfinityServiceHandler.GetAndRemoveSessionID, hf,
    ServerWorld.call]
  rfl

/-- The outcome of `Disconnect` with a session id that is not registered. -/
theorem Disconnect_not_found (h : InfinityServiceHandler) (sw : ServerWorld) (env : RpcEnv)
    (response : CommonResponse) (s : Int)
    (hf : Map.find h.infinity_session_map_ (toU64 s) = none) :
    h.Disconnect sw env response ⟨s⟩ =
      ({ response with error_code := some ErrorCode.kSessionNotFound, error_msg := some "" },
       h, sw) := by
  simp only [InfinityServiceHandler.Disconnect, InfinityServiceHandler.GetAndRemoveSessionID, hf]
  rfl

/-- C16: the session id `s` which `Connect` returns is registered in the session
map; and on every handler in which `s` is registered, a first `Disconnect` with
`s` answers with the code `kOk` and removes exactly the key of `s` (every other
key stays, with its session), while a second `Disconnect` with `s` answers with
`kSessionNotFound` and leaves the map as it is. -/
theorem Connect_Disconnect (h : InfinityServiceHandler) (sw : ServerWorld)
    (infinity : Infinity) (response : CommonResponse) :
    let c := h.Connect sw infinity response
    let s := toI64 infinity.GetSessionId
    c.1.payload.session_id = some s ∧ c.1.error_code = some ErrorCode.kOk ∧
    toU64 s ∈ Map.keys c.2.1.infinity_session_map_ ∧
    ∀ (h1 : InfinityServiceHandler) (sw1 : ServerWorld) (env : RpcEnv)
      (response1 response2 : CommonResponse),
      toU64 s ∈ Map.keys h1.infinity_session_map_ →
      let d1 := h1.Disconnect sw1 env response1 ⟨s⟩
      let d2 := d1.2.1.Disconnect d1.2.2 env response2 ⟨s⟩
      d1.1.error_code = some ErrorCode.kOk ∧
      (∀ k, k ∈ Map.keys d1.2.1.infinity_session_map_ ↔
        k ∈ Map.keys h1.infinity_session_map_ ∧ k ≠ toU64 s) ∧
      (∀ k, k ≠ toU64 s →
        Map.find d1.2.1.infinity_session_map_ k = Map.find h1.infinity_session_map_ k) ∧
      d2.1.error_code = some ErrorCode.kSessionNotFound ∧
      d2.2.1.infinity_session_map_ = d1.2.1.infinity_session_map_ := by
  intro c s
  refine ⟨rfl, rfl, ?_, ?_⟩
  · show toU64 (toI64 infinity.GetSessionId) ∈
      Map.keys (Map.emplace h.infinity_session_map_ infinity.GetSessionId infinity)
    rw [toU64_toI64_GetSessionId, Map.mem_keys_emplace]
    exact Or.inl rfl
  · intro h1 sw1 env response1 response2 hreg d1 d2
    obtain ⟨i, hi⟩ := Map.find_ne_none_of_mem _ _ hreg
    have hd1 := Disconnect_found h1 sw1 env response1 s i hi
    have hgone : Map.find (Map.erase h1.infinity_session_map_ (toU64 s)).1 (toU64 s) = none := by
      rw [Map.find_erase]; simp
    have hd2 : d2 = _ := Disconnect_not_found d1.2.1 d1.2.2 env response2 s (by
      show Map.find (h1.Disconnect sw1 env response1 ⟨s⟩).2.1.infinity_session_map_ _ = none
      rw [hd1]; exact hgone)
    refine ⟨?_, ?_, ?_, ?_, ?_⟩
    · show (h1.Disconnect sw1 env response1 ⟨s⟩).1.error_code = _
      rw [hd1]
    · intro k
      show k ∈ Map.keys (h1.Disconnect sw1 env response1 ⟨s⟩).2.1.infinity_session_map_ ↔ _
      rw [hd1]
      exact Map.mem_keys_erase _ _ _
    · intro k hk
      show Map.find (h1.Disconnect sw1 env response1 ⟨s⟩).2.1.infinity_session_map_ k = _
      rw [hd1]
      show Map.find (Map.erase h1.infinity_session_map_ (toU64 s)).1 k = _
      rw [Map.find_erase, if_neg hk]
    · rw [hd2]
    · rw [hd2]

/-- C16 on the handler with session 7: session 9 connects and disconnects
twice. -/
theorem Connect_Disconnect_witness :
    let c := sample_handler.Connect sample_server_world ⟨2, 9⟩ (Response.init ⟨none⟩)
    let d1 := c.2.1.Disconnect c.2.2 sample_rpc_env (Response.init ⟨none⟩) ⟨9⟩
    let d2 := d1.2.1.Disconnect d1.2.2 sample_rpc_env (Response.init ⟨none⟩) ⟨9⟩
    c.1.payload.session_id = some 9 ∧
    (9 : Nat) ∈ Map.keys c.2.1.infinity_session_map_ ∧
    d1.1.error_code = some ErrorCode.kOk ∧
    d1.2.1.infinity_session_map_ = [(7, sample_infinity)] ∧
    d2.1.error_code = some ErrorCode.kSessionNotFound ∧
    d2.2.1.infinity_session_map_ = [(7, sample_infinity)] := by
  have hc := Connect_Disconnect sample_handler sample_server_world ⟨2, 9⟩ (Response.init ⟨none⟩)
  have hreg := hc.2.2.1
  have hd := hc.2.2.2 (sample_handler.Connect sample_server_world ⟨2, 9⟩ (Response.init ⟨none⟩)).2.1
    (sample_handler.Connect sample_server_world ⟨2, 9⟩ (Response.init ⟨none⟩)).2.2
    sample_rpc_env (Response.init ⟨none⟩) (Response.init ⟨none⟩) hreg
  exact ⟨by decide, by decide, hd.1, by decide, hd.2.2.2.1, by decide⟩

/-! ## Requests of an unknown session -/

theorem GetInfinityBySessionID_none (h : InfinityServiceHandler) (session_id : Int)
    (hf : Map.find h.infinity_session_map_ (toU64 session_id) = none) :
    h.GetInfinityBySessionID session_id = (none, Status.SessionNotFound session_id) := by
  simp only [InfinityServiceHandler.GetInfinityBySessionID, hf]

theorem GetInfinityBySessionID_some (h : InfinityServiceHandler) (session_id : Int) (i : Infinity)
    (hf : Map.find h.infinity_session_map_ (toU64 session_id) = some i) :
    h.GetInfinityBySessionID session_id = (some i, Status.OK) := by
  simp only [InfinityServiceHandler.GetInfinityBySessionID, hf]

theorem ProcessStatus_error_code {α : Type} (response : Response α) (status : Status) :
    (ProcessStatus response status).error_code = some status.code := by
  unfold ProcessStatus
  split <;> rfl

theorem ProcessQueryResult_error_code {α : Type} (response : Response α) (result : QueryResult) :
    (ProcessQueryResult response result).error_code = some result.status.code := by
  unfold ProcessQueryResult
  split <;> rfl

theorem CreateTable.column_defs_eq (l : List infinity_thrift_rpc.ColumnDef) :
    ∀ acc : List (Option TableColumnDef),
      InfinityServiceHandler.CreateTable.column_defs l acc =
        match first_column_def_failure l with
        | some status => Except.error status
        | none => Except.ok (acc ++ l.map (fun d => (GetColumnDefFromProto d).1)) := by
  induction l with
  | nil => intro acc; simp [InfinityServiceHandler.CreateTable.column_defs, first_column_def_failure]
  | cons d tl ih =>
    intro acc
    unfold InfinityServiceHandler.CreateTable.column_defs
    by_cases hok : (GetColumnDefFromProto d).2.ok = true
    · have hfail : first_column_def_failure (d :: tl) = first_column_def_failure tl := by
        simp [first_column_def_failure, List.find?, hok]
      simp only [hok, Bool.not_true, Bool.false_eq_true, if_false, hfail, ih]
      cases first_column_def_failure tl with
      | none => simp
      | some st => rfl
    · have hok2 : (GetColumnDefFromProto d).2.ok = false := by simpa using hok
      have hfail : first_column_def_failure (d :: tl) = some (GetColumnDefFromProto d).2 := by
        simp [first_column_def_failure, List.find?, hok2]
      simp [hok2, hfail]

/-- C15, as stated, fails on two verbs. Session 5 is not in the map of the
sample handler; `CreateDatabase` with an unknown conflict type answers with
`kInvalidConflictType`, and `UploadFileChunk` answers with `kOk` and writes the
file. -/
theorem handle_unknown_session_counterexample :
    toU64 5 ∉ Map.keys sample_handler.infinity_session_map_ ∧
    (sample_handler.handle sample_server_world sample_rpc_env
      (Request.CreateDatabase ⟨"db", 5, ⟨infinity_thrift_rpc.CreateConflict.other 9, []⟩⟩)).map
        (fun r => r.1.error_code) = Except.ok (some ErrorCode.kInvalidConflictType) ∧
    (sample_handler.handle sample_server_world sample_rpc_env
      (Request.UploadFileChunk ⟨"db", "t", "f", 0, [1, 2], 5, 2⟩)).map
        (fun r => (r.1.error_code, r.2.2.fs.files)) =
      Except.ok (some ErrorCode.kOk, [("/tmp/infinity_db_t_f", [1, 2])]) := by
  exact ⟨by decide, rfl, rfl⟩

/-- C15, amended: for every verb other than `Connect` and `UploadFileChunk` and
every request whose session id is not a key of the session map, the call
returns, no engine operation and no file write is performed (the world and the
handler are as before), and the response carries `kSessionNotFound`, except
that `CreateDatabase`, `DropDatabase`, `CreateIndex` and `DropIndex` with an
unknown conflict type carry `kInvalidConflictType`, and `CreateTable` carries
the status of its first column definition that does not convert, if there is
one, and else `kInvalidConflictType` for an unknown conflict type. -/
theorem handle_unknown_session (h : InfinityServiceHandler) (sw : ServerWorld) (env : RpcEnv)
    (request : Request) (session_id : Int) :
    request.session_id = some session_id →
    toU64 session_id ∉ Map.keys h.infinity_session_map_ →
    (∀ r, request ≠ Request.UploadFileChunk r) →
    ∃ response, h.handle sw env request = Except.ok (response, h, sw) ∧
      response.error_code = some
        (match request with
         | Request.CreateDatabase r =>
           if r.create_option.conflict_type.known then ErrorCode.kSessionNotFound
           else ErrorCode.kInvalidConflictType
         | Request.DropDatabase r =>
           if r.drop_option.conflict_type.known then ErrorCode.kSessionNotFound
           else ErrorCode.kInvalidConflictType
         | Request.CreateIndex r =>
           if r.create_option.conflict_type.known then ErrorCode.kSessionNotFound
           else ErrorCode.kInvalidConflictType
         | Request.DropIndex r =>
           if r.drop_option.conflict_type.known then ErrorCode.kSessionNotFound
           else ErrorCode.kInvalidConflictType
         | Request.CreateTable r =>
           match first_column_def_failure r.column_defs with
           | some status => status.code
           | none =>
             if r.create_option.conflict_type.known then ErrorCode.kSessionNotFound
             else ErrorCode.kInvalidConflictType
         | _ => ErrorCode.kSessionNotFound) := by
  intro hsid hkey hverb
  have hf := (Map.find_eq_none_iff _ _).2 hkey
  cases request with
  | Connect i => cases hsid
  | UploadFileChunk r => exact absurd rfl (hverb r)
  | Disconnect r =>
    obtain ⟨s⟩ := r
    cases hsid
    exact ⟨_, (by
        simp only [InfinityServiceHandler.handle]
        rw [Disconnect_not_found h sw env _ s hf]
        rfl), (by
        rfl)⟩
  | CreateDatabase r =>
    cases hsid
    have hl := GetInfinityBySessionID_none h r.session_id hf
    obtain ⟨db, sid, ⟨c, props⟩⟩ := r
    cases c
    all_goals
      exact ⟨_, (by
          simp only [InfinityServiceHandler.handle, InfinityServiceHandler.CreateDatabase, hl]
          rfl), (by
          simp [AnyResponse.error_code, ProcessStatus_error_code, infinity_thrift_rpc.CreateConflict.known,
          Status.SessionNotFound, Status.InvalidConflictType])⟩
  | DropDatabase r =>
    cases hsid
    have hl := GetInfinityBySessionID_none h r.session_id hf
    obtain ⟨db, sid, ⟨c⟩⟩ := r
    cases c
    all_goals
      exact ⟨_, (by
          simp only [InfinityServiceHandler.handle, InfinityServiceHandler.DropDatabase, hl]
          rfl), (by
          simp [AnyResponse.error_code, ProcessStatus_error_code, infinity_thrift_rpc.DropConflict.known,
          Status.SessionNotFound, Status.InvalidConflictType])⟩
  | CreateIndex r =>
    cases hsid
    have hl := GetInfinityBySessionID_none h r.session_id hf
    obtain ⟨db, t, ix, infos, sid, ⟨c, props⟩⟩ := r
    cases c
    all_goals
      exact ⟨_, (by
          simp only [InfinityServiceHandler.handle, InfinityServiceHandler.CreateIndex, hl]
          rfl), (by
          simp [AnyResponse.error_code, ProcessStatus_error_code, infinity_thrift_rpc.CreateConflict.known,
          Status.SessionNotFound, Status.InvalidConflictType])⟩
  | DropIndex r =>
    cases hsid
    have hl := GetInfinityBySessionID_none h r.session_id hf
    obtain ⟨db, t, ix, sid, ⟨c⟩⟩ := r
    cases c
    all_goals
      exact ⟨_, (by
          simp only [InfinityServiceHandler.handle, InfinityServiceHandler.DropIndex, hl]
          rfl), (by
          simp [AnyResponse.error_code, ProcessStatus_error_code, infinity_thrift_rpc.DropConflict.known,
          Status.SessionNotFound, Status.InvalidConflictType])⟩
  | CreateTable r =>
    cases hsid
    have hl := GetInfinityBySessionID_none h r.session_id hf
    obtain ⟨db, t, cols, sid, ⟨c, props⟩⟩ := r
    have hcols := CreateTable.column_defs_eq cols []
    cases hfail : first_column_def_failure cols with
    | some status =>
      rw [hfail] at hcols
      exact ⟨_, (by
          simp only [InfinityServiceHandler.handle, InfinityServiceHandler.CreateTable, hcols]
          rfl), (by
          simp [AnyResponse.error_code, ProcessStatus_error_code, hfail])⟩
    | none =>
      rw [hfail] at hcols
      cases c
      all_goals
        exact ⟨_, (by
            simp only [InfinityServiceHandler.handle, InfinityServiceHandler.CreateTable, hcols, hl]
            rfl), (by
            simp [AnyResponse.error_code, ProcessStatus_error_code, hfail,
            infinity_thrift_rpc.CreateConflict.known, Status.SessionNotFound,
            Status.InvalidConflictType])⟩
  | DropTable r =>
    cases hsid
    have hl := GetInfinityBySessionID_none h r.session_id hf
    exact ⟨_, (by
        simp only [InfinityServiceHandler.handle, InfinityServiceHandler.DropTable, hl]
        rfl), (by
        simp [AnyResponse.error_code, ProcessStatus_error_code, Status.SessionNotFound])⟩
  | Import r =>
    cases hsid
    have hl := GetInfinityBySessionID_none h r.session_id hf
    exact ⟨_, (by
        simp only [InfinityServiceHandler.handle, InfinityServiceHandler.Import, hl]
        rfl), (by
        simp [AnyResponse.error_code, ProcessStatus_error_code, Status.SessionNotFound])⟩
  | GetDatabase r =>
    cases hsid
    have hl := GetInfinityBySessionID_none h r.session_id hf
    exact ⟨_, (by
        simp only [InfinityServiceHandler.handle, InfinityServiceHandler.GetDatabase, hl]
        rfl), (by
        simp [AnyResponse.error_code, ProcessStatus_error_code, Status.SessionNotFound])⟩
  | GetTable r =>
    cases hsid
    have hl := GetInfinityBySessionID_none h r.session_id hf
    exact ⟨_, (by
        simp only [InfinityServiceHandler.handle, InfinityServiceHandler.GetTable, hl]
        rfl), (by
        simp [AnyResponse.error_code, ProcessStatus_error_code, Status.SessionNotFound])⟩
  | Insert r =>
    cases hsid
    have hl := GetInfinityBySessionID_none h r.session_id hf
    exact ⟨_, (by
        simp only [InfinityServiceHandler.handle, InfinityServiceHandler.Insert, hl]
        rfl), (by
        simp [AnyResponse.error_code, ProcessStatus_error_code, Status.SessionNotFound])⟩
  | Select r =>
    cases hsid
    have hl := GetInfinityBySessionID_none h r.session_id hf
    exact ⟨_, (by
        simp only [InfinityServiceHandler.handle, InfinityServiceHandler.Select, hl]
        rfl), (by
        simp [AnyResponse.error_code, ProcessStatus_error_code, Status.SessionNotFound])⟩
  | Explain r =>
    cases hsid
    have hl := GetInfinityBySessionID_none h r.session_id hf
    exact ⟨_, (by
        simp only [InfinityServiceHandler.handle, InfinityServiceHandler.Explain, hl]
        rfl), (by
        simp [AnyResponse.error_code, ProcessStatus_error_code, Status.SessionNotFound])⟩
  | ShowVariable r =>
    cases hsid
    have hl := GetInfinityBySessionID_none h r.session_id hf
    exact ⟨_, (by
        simp only [InfinityServiceHandler.handle, InfinityServiceHandler.ShowVariable, hl]
        rfl), (by
        simp [AnyResponse.error_code, ProcessStatus_error_code, Status.SessionNotFound])⟩
  | Delete r =>
    cases hsid
    have hl := GetInfinityBySessionID_none h r.session_id hf
    exact ⟨_, (by
        simp only [InfinityServiceHandler.handle, InfinityServiceHandler.Delete, hl]
        rfl), (by
        simp [AnyResponse.error_code, ProcessStatus_error_code, Status.SessionNotFound])⟩
  | Update r =>
    cases hsid
    have hl := GetInfinityBySessionID_none h r.session_id hf
    exact ⟨_, (by
        simp only [InfinityServiceHandler.handle, InfinityServiceHandler.Update, hl]
        rfl), (by
        simp [AnyResponse.error_code, ProcessStatus_error_code, Status.SessionNotFound])⟩
  | ListDatabase r =>
    cases hsid
    have hl := GetInfinityBySessionID_none h r.session_id hf
    exact ⟨_, (by
        simp only [InfinityServiceHandler.handle, InfinityServiceHandler.ListDatabase, hl]
        rfl), (by
        simp [AnyResponse.error_code, ProcessStatus_error_code, Status.SessionNotFound])⟩
  | ListTable r =>
    cases hsid
    have hl := GetInfinityBySessionID_none h r.session_id hf
    exact ⟨_, (by
        simp only [InfinityServiceHandler.handle, InfinityServiceHandler.ListTable, hl]
        rfl), (by
        simp [AnyResponse.error_code, ProcessStatus_error_code, Status.SessionNotFound])⟩
  | ShowDatabase r =>
    cases hsid
    have hl := GetInfinityBySessionID_none h r.session_id hf
    exact ⟨_, (by
        simp only [InfinityServiceHandler.handle, InfinityServiceHandler.ShowDatabase, hl]
        rfl), (by
        simp [AnyResponse.error_code, ProcessStatus_error_code, Status.SessionNotFound])⟩
  | ShowTable r =>
    cases hsid
    have hl := GetInfinityBySessionID_none h r.session_id hf
    exact ⟨_, (by
        simp only [InfinityServiceHandler.handle, InfinityServiceHandler.ShowTable, hl]
        rfl), (by
        simp [AnyResponse.error_code, ProcessStatus_error_code, Status.SessionNotFound])⟩
  | ShowColumns r =>
    cases hsid
    have hl := GetInfinityBySessionID_none h r.session_id hf
    exact ⟨_, (by
        simp only [InfinityServiceHandler.handle, InfinityServiceHandler.ShowColumns, hl]
        rfl), (by
        simp [AnyResponse.error_code, ProcessStatus_error_code, Status.SessionNotFound])⟩
  | ShowTables r =>
    cases hsid
    have hl := GetInfinityBySessionID_none h r.session_id hf
    exact ⟨_, (by
        simp only [InfinityServiceHandler.handle, InfinityServiceHandler.ShowTables, hl]
        rfl), (by
        simp [AnyResponse.error_code, ProcessStatus_error_code, Status.SessionNotFound])⟩
  | ListIndex r =>
    cases hsid
    have hl := GetInfinityBySessionID_none h r.session_id hf
    exact ⟨_, (by
        simp only [InfinityServiceHandler.handle, InfinityServiceHandler.ListIndex, hl]
        rfl), (by
        simp [AnyResponse.error_code, ProcessStatus_error_code, Status.SessionNotFound])⟩
  | ShowIndex r =>
    cases hsid
    have hl := GetInfinityBySessionID_none h r.session_id hf
    exact ⟨_, (by
        simp only [InfinityServiceHandler.handle, InfinityServiceHandler.ShowIndex, hl]
        rfl), (by
        simp [AnyResponse.error_code, ProcessStatus_error_code, Status.SessionNotFound])⟩

/-- C15 at `DropTable` of session 5 on the handler which has session 7 only. -/
theorem handle_unknown_session_witness :
    ∃ response, sample_handler.handle sample_server_world sample_rpc_env
        (Request.DropTable ⟨"db", "t", 5, ⟨infinity_thrift_rpc.DropConflict.other 3⟩⟩) =
          Except.ok (response, sample_handler, sample_server_world) ∧
      response.error_code = some ErrorCode.kSessionNotFound :=
  handle_unknown_session sample_handler sample_server_world sample_rpc_env
    (Request.DropTable ⟨"db", "t", 5, ⟨infinity_thrift_rpc.DropConflict.other 3⟩⟩) 5 rfl
    (by decide) (fun r hr => by cases hr)

/-! ## The session map and the connections -/

theorem Except.map_eq_ok {ε α β : Type} (f : α → β) (x : Except ε α) (y : β)
    (h : x.map f = Except.ok y) : ∃ a, x = Except.ok a ∧ f a = y := by
  cases x with
  | error e => cases h
  | ok a => exact ⟨a, rfl, by injection h⟩

/-- A call keeps the keys of the session map, but for a `Disconnect` of the
key. -/
theorem handle_keeps_key (h : InfinityServiceHandler) (sw : ServerWorld) (env : RpcEnv)
    (request : Request) (k : Nat) (r : AnyResponse) (h1 : InfinityServiceHandler)
    (sw1 : ServerWorld) (heq : h.handle sw env request = Except.ok (r, h1, sw1))
    (hk : k ∈ Map.keys h.infinity_session_map_)
    (hreq : ∀ q, request = Request.Disconnect q → toU64 q.session_id ≠ k) :
    k ∈ Map.keys h1.infinity_session_map_ := by
  cases request with
  | Connect i =>
    simp only [InfinityServiceHandler.handle, InfinityServiceHandler.Connect, pure,
      Except.pure, Except.ok.injEq, Prod.mk.injEq] at heq
    rw [← heq.2.1]
    exact (Map.mem_keys_emplace _ _ _ _).2 (Or.inr hk)
  | Disconnect q =>
    have hne := hreq q rfl
    simp only [InfinityServiceHandler.handle, pure, Except.pure, Except.ok.injEq,
      Prod.mk.injEq] at heq
    rw [← heq.2.1]
    cases hf : Map.find h.infinity_session_map_ (toU64 q.session_id) with
    | none =>
      rw [Disconnect_not_found h sw env _ q.session_id hf]
      exact hk
    | some i =>
      rw [Disconnect_found h sw env _ q.session_id i hf]
      exact (Map.mem_keys_erase _ _ _).2 ⟨hk, fun e => hne e.symm⟩
  | CreateDatabase q | DropDatabase q | CreateTable q | DropTable q | Import q
  | UploadFileChunk q | GetDatabase q | GetTable q | CreateIndex q | DropIndex q =>
    simp only [InfinityServiceHandler.handle, pure, Except.pure, Except.ok.injEq,
      Prod.mk.injEq] at heq
    rw [← heq.2.1]
    exact hk
  | Insert q | Select q | Explain q | ShowVariable q | Delete q | Update q | ListDatabase q
  | ListTable q | ShowDatabase q | ShowTable q | ShowColumns q | ShowTables q | ListIndex q
  | ShowIndex q =>
    simp only [InfinityServiceHandler.handle] at heq
    obtain ⟨a, -, ha⟩ := Except.map_eq_ok _ _ _ heq
    simp only [Prod.mk.injEq] at ha
    rw [← ha.2.1]
    exact hk

theorem ThriftServer.handler_set_handler (s : ThriftServer) (conn c2 : Nat)
    (h : InfinityServiceHandler) :
    (s.set_handler conn h).handler c2 =
      if s.variant = ServerVariant.NonBlockPool ∨ c2 = conn then h else s.handler c2 := by
  unfold ThriftServer.set_handler ThriftServer.handler
  cases hv : s.variant <;> by_cases hc : c2 = conn <;> simp [hv, hc]

/-- A call on any connection keeps a key in the session map which serves
connection `c2`, but for a `Disconnect` of the key. -/
theorem serve_keeps_key (s : ThriftServer) (sw : ServerWorld) (env : RpcEnv) (conn c2 : Nat)
    (request : Request) (k : Nat) (r : AnyResponse) (s1 : ThriftServer) (sw1 : ServerWorld)
    (heq : s.serve sw env conn request = Except.ok (r, s1, sw1))
    (hk : k ∈ Map.keys (s.handler c2).infinity_session_map_)
    (hreq : ∀ q, request = Request.Disconnect q → toU64 q.session_id ≠ k) :
    k ∈ Map.keys (s1.handler c2).infinity_session_map_ := by
  unfold ThriftServer.serve at heq
  obtain ⟨a, ha, hs⟩ := Except.map_eq_ok _ _ _ heq
  obtain ⟨ra, ha1, swa⟩ := a
  simp only [Prod.mk.injEq] at hs
  rw [← hs.2.1, ThriftServer.handler_set_handler]
  split
  · next hc =>
    have hsame : s.handler c2 = s.handler conn := by
      rcases hc with hv | hc
      · simp [ThriftServer.handler, hv]
      · rw [hc]
    rw [hsame] at hk
    exact handle_keeps_key _ sw env request k ra ha1 swa ha hk hreq
  · exact hk

theorem run_keeps_key (env : RpcEnv) (c2 : Nat) (k : Nat) :
    ∀ (steps : List (Nat × Request)) (s : ThriftServer) (sw : ServerWorld) (s1 : ThriftServer)
      (sw1 : ServerWorld),
      ThriftServer.run env steps s sw = Except.ok (s1, sw1) →
      k ∈ Map.keys (s.handler c2).infinity_session_map_ →
      (∀ p ∈ steps, ∀ q, p.2 = Request.Disconnect q → toU64 q.session_id ≠ k) →
      k ∈ Map.keys (s1.handler c2).infinity_session_map_ := by
  intro steps
  induction steps with
  | nil =>
    intro s sw s1 sw1 heq hk _
    simp only [ThriftServer.run, pure, Except.pure, Except.ok.injEq, Prod.mk.injEq] at heq
    rw [← heq.1]
    exact hk
  | cons p tl ih =>
    intro s sw s1 sw1 heq hk hreq
    obtain ⟨conn, request⟩ := p
    simp only [ThriftServer.run] at heq
    cases hserve : s.serve sw env conn request with
    | error e => rw [hserve] at heq; cases heq
    | ok a =>
      rw [hserve] at heq
      obtain ⟨ra, sa, swa⟩ := a
      have hka := serve_keeps_key s sw env conn c2 request k ra sa swa hserve hk
        (hreq (conn, request) (List.mem_cons_self _ _))
      exact ih sa swa s1 sw1 heq hka (fun p hp => hreq p (List.mem_cons_of_mem _ hp))

/-- C17, as stated, fails for the threaded and the thread-pool server: the
session which `Connect` registers on connection 1 is found by a lookup on
connection 1 and not by a lookup on connection 2. -/
theorem session_lookup_counterexample :
    ((ThriftServer.Init ServerVariant.Threaded).serve sample_server_world sample_rpc_env 1
      (Request.Connect sample_infinity)).map
        (fun r => (r.1.error_code, (r.2.1.handler 1).GetInfinityBySessionID 7,
          (r.2.1.handler 2).GetInfinityBySessionID 7)) =
      Except.ok (some ErrorCode.kOk, (some sample_infinity, Status.OK),
        (none, Status.SessionNotFound 7)) ∧
    ((ThriftServer.Init ServerVariant.Pool).serve sample_server_world sample_rpc_env 1
      (Request.Connect sample_infinity)).map
        (fun r => (r.1.error_code, (r.2.1.handler 1).GetInfinityBySessionID 7,
          (r.2.1.handler 2).GetInfinityBySessionID 7)) =
      Except.ok (some ErrorCode.kOk, (some sample_infinity, Status.OK),
        (none, Status.SessionNotFound 7)) :=
  ⟨rfl, rfl⟩

/-- C17, amended: the session map belongs to a handler. On the non-blocking
pool server, whose single handler serves every connection, and on the threaded
and the thread-pool server for a request on the same connection, `Connect`
returns a session id, and after every sequence of calls that runs without an
exception and holds no `Disconnect` of that id, the session lookup of a request
with the id on connection `c2` finds a session. -/
theorem session_lookup_until_disconnect (s : ThriftServer) (sw : ServerWorld) (env : RpcEnv)
    (c1 c2 : Nat) (infinity : Infinity) (steps : List (Nat × Request))
    (hshare : s.variant = ServerVariant.NonBlockPool ∨ c1 = c2)
    (hsteps : ∀ p ∈ steps, ∀ q, p.2 = Request.Disconnect q →
      toU64 q.session_id ≠ infinity.GetSessionId) :
    ∃ response s1 sw1,
      s.serve sw env c1 (Request.Connect infinity) =
        Except.ok (AnyResponse.Common response, s1, sw1) ∧
      response.payload.session_id = some (toI64 infinity.GetSessionId) ∧
      ∀ s2 sw2, ThriftServer.run env steps s1 sw1 = Except.ok (s2, sw2) →
        ∃ i, (s2.handler c2).GetInfinityBySessionID (toI64 infinity.GetSessionId) =
          (some i, Status.OK) := by
  refine ⟨_, _, _, rfl, rfl, ?_⟩
  intro s2 sw2 hrun
  have h1 : infinity.GetSessionId ∈ Map.keys
      ((s.set_handler c1 ((s.handler c1).Connect sw infinity (Response.init ⟨none⟩)).2.1).handler
        c2).infinity_session_map_ := by
    rw [ThriftServer.handler_set_handler, if_pos (hshare.imp id Eq.symm)]
    exact (Map.mem_keys_emplace _ _ _ _).2 (Or.inl rfl)
  have h2 := run_keeps_key env c2 infinity.GetSessionId steps _ _ s2 sw2 hrun h1 hsteps
  obtain ⟨i, hi⟩ := Map.find_ne_none_of_mem _ _ h2
  refine ⟨i, GetInfinityBySessionID_some _ _ i ?_⟩
  rw [toU64_toI64_GetSessionId]
  exact hi

/-- C17 on the non-blocking pool server: session 7 connects on connection 1, a
table is dropped on connection 3, and the lookup on connection 2 finds the
session. -/
theorem session_lookup_until_disconnect_witness :
    ∃ response s1 sw1,
      (ThriftServer.Init ServerVariant.NonBlockPool).serve sample_server_world sample_rpc_env 1
          (Request.Connect sample_infinity) =
        Except.ok (AnyResponse.Common response, s1, sw1) ∧
      response.payload.session_id = some (toI64 sample_infinity.GetSessionId) ∧
      ∀ s2 sw2, ThriftServer.run sample_rpc_env
          [(3, Request.DropTable ⟨"db", "t", 7, ⟨infinity_thrift_rpc.DropConflict.Error⟩⟩)]
          s1 sw1 = Except.ok (s2, sw2) →
        ∃ i, (s2.handler 2).GetInfinityBySessionID (toI64 sample_infinity.GetSessionId) =
          (some i, Status.OK) :=
  session_lookup_until_disconnect (ThriftServer.Init ServerVariant.NonBlockPool)
    sample_server_world sample_rpc_env 1 2 sample_infinity
    [(3, Request.DropTable ⟨"db", "t", 7, ⟨infinity_thrift_rpc.DropConflict.Error⟩⟩)]
    (Or.inl rfl) (by simp)

/-! ## `Import` -/

/-- C18: `Import` at a CSV request of session 7 with the delimiter "ab", and at
a request with an unknown copy file type. In both the engine's `Import` is
invoked (with the first byte of the delimiter, 97 or 44), and the error code of
the response is the one of the engine's result, here `kOk`; of the status set
by the failed check only the message is left. -/
theorem Import_continues_after_failed_check :
    sample_handler.Import sample_server_world sample_rpc_env (Response.init ⟨none⟩)
        ⟨"db", "t", "f", ⟨"ab", infinity_thrift_rpc.CopyFileType.CSV⟩, 7⟩ =
      ({ error_code := some ErrorCode.kOk,
         error_msg := some "CSV file delimiter isn't a char.",
         payload := ⟨none⟩ },
       { calls := [EngineCall.Import sample_infinity "db" "t" "/tmp/infinity_db_t_f"
           CopyFileType.kCSV 97],
         fs := sample_server_world.fs }) ∧
    sample_handler.Import sample_server_world sample_rpc_env (Response.init ⟨none⟩)
        ⟨"db", "t", "f", ⟨",", infinity_thrift_rpc.CopyFileType.other 9⟩, 7⟩ =
      ({ error_code := some ErrorCode.kOk,
         error_msg := some "Not implemented yet",
         payload := ⟨none⟩ },
       { calls := [EngineCall.Import sample_infinity "db" "t" "/tmp/infinity_db_t_f"
           CopyFileType.kInvalid 44],
         fs := sample_server_world.fs }) :=
  ⟨rfl, rfl⟩

/-! ## `Explain` -/

/-- C19, as stated, fails: `Explain` of session 7 with an explain type outside
the seven values invokes the engine's `Explain` with `kInvalid`, and the
response carries the code of the engine's result. -/
theorem Explain_explain_type_counterexample :
    (sample_handler.Explain sample_server_world sample_rpc_env (Response.init ⟨[], []⟩)
        ⟨7, "db", "t", some [], none, none, infinity_thrift_rpc.ExplainType.other 99⟩).map
      (fun r => (r.1.error_code, r.2.calls)) =
    Except.ok (some ErrorCode.kOk,
      [EngineCall.Explain sample_infinity "db" "t" ExplainType.kInvalid none none []]) :=
  rfl

/-- C19, amended: for every `Explain` request of an existing session whose
select list is set and whose expressions convert, the engine's `Explain` is
invoked, with the internal explain type of the same name for each of the seven
listed values and with `kInvalid` for every other value; the handler ends with
the response built from the engine's result, and the call is the one engine
operation added. -/
theorem Explain_explain_type (h : InfinityServiceHandler) (sw : ServerWorld) (env : RpcEnv)
    (response : SelectResponse) (request : infinity_thrift_rpc.ExplainRequest)
    (infinity : Infinity) (select_list : List infinity_thrift_rpc.ParsedExpr)
    (p : InfinityServiceHandler.Select.Parsed)
    (hsession : Map.find h.infinity_session_map_ (toU64 request.session_id) = some infinity)
    (hlist : request.select_list = some select_list)
    (hparse : InfinityServiceHandler.Select.parse env.f64_to_f32 select_list request.search_expr
      request.where_expr = Except.ok (Except.ok p)) :
    let call := EngineCall.Explain infinity request.db_name request.table_name
      ((spec_explain_type request.explain_type).getD ExplainType.kInvalid)
      p.search_expr p.filter p.output_columns
    h.Explain sw env response request =
      (InfinityServiceHandler.Select.respond env (env.engine call) response).map
        (fun r => (r, { sw with calls := sw.calls ++ [call] })) := by
  intro call
  have hl := GetInfinityBySessionID_some h request.session_id infinity hsession
  have ht : GetExplainTypeFromProto request.explain_type =
      (spec_explain_type request.explain_type).getD ExplainType.kInvalid := by
    cases request.explain_type <;> rfl
  simp only [InfinityServiceHandler.Explain, hl, hlist, hparse, ht, ServerWorld.call]

/-- C19 at a request of session 7 with the explain type `Physical` and the
select list of all columns. -/
theorem Explain_explain_type_witness :
    sample_handler.Explain sample_server_world sample_rpc_env (Response.init ⟨[], []⟩)
        ⟨7, "db", "t", some [infinity_thrift_rpc.ParsedExpr.mk (some ⟨[], true⟩) none
          infinity_thrift_rpc.FunctionExprOpt.unset none none none], none, none,
          infinity_thrift_rpc.ExplainType.Physical⟩ =
      (InfinityServiceHandler.Select.respond sample_rpc_env
        (sample_rpc_env.engine (EngineCall.Explain sample_infinity "db" "t" ExplainType.kPhysical
          none none [some (ParsedExpr.Column ⟨[], true⟩)])) (Response.init ⟨[], []⟩)).map
        (fun r => (r, { sample_server_world with
          calls := sample_server_world.calls ++
            [EngineCall.Explain sample_infinity "db" "t" ExplainType.kPhysical
              none none [some (ParsedExpr.Column ⟨[], true⟩)]] })) :=
  Explain_explain_type sample_handler sample_server_world sample_rpc_env (Response.init ⟨[], []⟩)
    ⟨7, "db", "t", some [infinity_thrift_rpc.ParsedExpr.mk (some ⟨[], true⟩) none
      infinity_thrift_rpc.FunctionExprOpt.unset none none none], none, none,
      infinity_thrift_rpc.ExplainType.Physical⟩
    sample_infinity
    [infinity_thrift_rpc.ParsedExpr.mk (some ⟨[], true⟩) none
      infinity_thrift_rpc.FunctionExprOpt.unset none none none]
    ⟨none, none, [some (ParsedExpr.Column ⟨[], true⟩)]⟩ (by decide) rfl rfl

/-! ## Conflict types -/

theorem CreateTable.column_defs_ok (l : List infinity_thrift_rpc.ColumnDef)
    (hcols : first_column_def_failure l = none) :
    InfinityServiceHandler.CreateTable.column_defs l [] =
      Except.ok (l.map (fun d => (GetColumnDefFromProto d).1)) := by
  rw [CreateTable.column_defs_eq, hcols]
  rfl

/-- C20, as stated, fails on `DropTable` and on `CreateTable`: with a conflict
type that is not mapped, `DropTable` of the unknown session 5 answers with
`kSessionNotFound`, and `CreateTable` of session 7 with a column of an unknown
logic type answers with `kInvalidDataType`. -/
theorem conflict_type_counterexample :
    (sample_handler.DropTable sample_server_world sample_rpc_env (Response.init ⟨none⟩)
      ⟨"db", "t", 5, ⟨infinity_thrift_rpc.DropConflict.other 3⟩⟩).1.error_code =
        some ErrorCode.kSessionNotFound ∧
    (sample_handler.CreateTable sample_server_world sample_rpc_env (Response.init ⟨none⟩)
      ⟨"db", "t", [⟨0, "c", ⟨infinity_thrift_rpc.LogicType.other 99,
          ⟨0, infinity_thrift_rpc.ElementType.ElementBit⟩⟩, []⟩], 7,
        ⟨infinity_thrift_rpc.CreateConflict.other 3, []⟩⟩).1.error_code =
        some ErrorCode.kInvalidDataType :=
  ⟨rfl, rfl⟩

/-- C20, amended: the create verbs map the wire values `Ignore`, `Error` and
`Replace`, and the drop verbs the wire values `Ignore` and `Error`, to the
internal values of the same name, which go to the engine operation of a request
that reaches it. For every other wire value the response carries
`kInvalidConflictType` and the engine is not invoked: always in
`CreateDatabase`, `DropDatabase`, `CreateIndex` and `DropIndex`, in `DropTable`
when the session exists, and in `CreateTable` when the column definitions
convert. -/
theorem conflict_type_mapping (h : InfinityServiceHandler) (sw : ServerWorld) (env : RpcEnv)
    (response : CommonResponse) :
    (∀ request : infinity_thrift_rpc.CreateDatabaseRequest,
      match spec_create_conflict request.create_option.conflict_type with
      | some conflict_type_ =>
        ∀ infinity, Map.find h.infinity_session_map_ (toU64 request.session_id) = some infinity →
          (h.CreateDatabase sw env response request).2.calls = sw.calls ++
            [EngineCall.CreateDatabase infinity request.db_name conflict_type_]
      | none =>
        (h.CreateDatabase sw env response request).1.error_code =
          some ErrorCode.kInvalidConflictType ∧
        (h.CreateDatabase sw env response request).2 = sw) ∧
    (∀ request : infinity_thrift_rpc.CreateTableRequest,
      first_column_def_failure request.column_defs = none →
      match spec_create_conflict request.create_option.conflict_type with
      | some conflict_type_ =>
        ∀ infinity, Map.find h.infinity_session_map_ (toU64 request.session_id) = some infinity →
          (h.CreateTable sw env response request).2.calls = sw.calls ++
            [EngineCall.CreateTable infinity request.db_name request.table_name
              (request.column_defs.map (fun d => (GetColumnDefFromProto d).1)) conflict_type_
              (request.create_option.properties.map (fun q => ⟨q.key, q.value⟩))]
      | none =>
        (h.CreateTable sw env response request).1.error_code =
          some ErrorCode.kInvalidConflictType ∧
        (h.CreateTable sw env response request).2 = sw) ∧
    (∀ request : infinity_thrift_rpc.CreateIndexRequest,
      match spec_create_conflict request.create_option.conflict_type with
      | some conflict_type_ =>
        ∀ infinity index_info_list,
          Map.find h.infinity_session_map_ (toU64 request.session_id) = some infinity →
          InfinityServiceHandler.CreateIndex.index_info_list request.index_info_list [] =
            some index_info_list →
          (h.CreateIndex sw env response request).2.calls = sw.calls ++
            [EngineCall.CreateIndex infinity request.db_name request.table_name
              request.index_name index_info_list conflict_type_]
      | none =>
        (h.CreateIndex sw env response request).1.error_code =
          some ErrorCode.kInvalidConflictType ∧
        (h.CreateIndex sw env response request).2 = sw) ∧
    (∀ request : infinity_thrift_rpc.DropDatabaseRequest,
      match spec_drop_conflict request.drop_option.conflict_type with
      | some conflict_type_ =>
        ∀ infinity, Map.find h.infinity_session_map_ (toU64 request.session_id) = some infinity →
          (h.DropDatabase sw env response request).2.calls = sw.calls ++
            [EngineCall.DropDatabase infinity request.db_name conflict_type_]
      | none =>
        (h.DropDatabase sw env response request).1.error_code =
          some ErrorCode.kInvalidConflictType ∧
        (h.DropDatabase sw env response request).2 = sw) ∧
    (∀ request : infinity_thrift_rpc.DropTableRequest,
      ∀ infinity, Map.find h.infinity_session_map_ (toU64 request.session_id) = some infinity →
      match spec_drop_conflict request.drop_option.conflict_type with
      | some conflict_type_ =>
        (h.DropTable sw env response request).2.calls = sw.calls ++
          [EngineCall.DropTable infinity request.db_name request.table_name conflict_type_]
      | none =>
        (h.DropTable sw env response request).1.error_code =
          some ErrorCode.kInvalidConflictType ∧
        (h.DropTable sw env response request).2 = sw) ∧
    (∀ request : infinity_thrift_rpc.DropIndexRequest,
      match spec_drop_conflict request.drop_option.conflict_type with
      | some conflict_type_ =>
        ∀ infinity, Map.find h.infinity_session_map_ (toU64 request.session_id) = some infinity →
          (h.DropIndex sw env response request).2.calls = sw.calls ++
            [EngineCall.DropIndex infinity request.db_name request.table_name request.index_name
              conflict_type_]
      | none =>
        (h.DropIndex sw env response request).1.error_code =
          some ErrorCode.kInvalidConflictType ∧
        (h.DropIndex sw env response request).2 = sw) := by
  refine ⟨?_, ?_, ?_, ?_, ?_, ?_⟩
  · rintro ⟨db, sid, ⟨c, props⟩⟩
    cases c
    case other v => exact ⟨ProcessStatus_error_code _ _, rfl⟩
    all_goals
      intro infinity hs
      have hl := GetInfinityBySessionID_some h sid infinity hs
      simp only [InfinityServiceHandler.CreateDatabase, hl, ServerWorld.call]
  · rintro ⟨db, t, cols, sid, ⟨c, props⟩⟩ hcols
    have hc := CreateTable.column_defs_ok cols hcols
    cases c
    case other v =>
      refine ⟨?_, ?_⟩
      · simp only [InfinityServiceHandler.CreateTable, hc]
        exact ProcessStatus_error_code _ _
      · simp only [InfinityServiceHandler.CreateTable, hc]
    all_goals
      intro infinity hs
      have hl := GetInfinityBySessionID_some h sid infinity hs
      simp only [InfinityServiceHandler.CreateTable, hc, hl, ServerWorld.call]
  · rintro ⟨db, t, ix, infos, sid, ⟨c, props⟩⟩
    cases c
    case other v => exact ⟨ProcessStatus_error_code _ _, rfl⟩
    all_goals
      intro infinity index_info_list hs hinfo
      have hl := GetInfinityBySessionID_some h sid infinity hs
      simp only [InfinityServiceHandler.CreateIndex, hl, hinfo, ServerWorld.call]
  · rintro ⟨db, sid, ⟨c⟩⟩
    cases c
    case other v => exact ⟨ProcessStatus_error_code _ _, rfl⟩
    all_goals
      intro infinity hs
      have hl := GetInfinityBySessionID_some h sid infinity hs
      simp only [InfinityServiceHandler.DropDatabase, hl, ServerWorld.call]
  · rintro ⟨db, t, sid, ⟨c⟩⟩ infinity hs
    have hl := GetInfinityBySessionID_some h sid infinity hs
    cases c
    case other v =>
      refine ⟨?_, ?_⟩
      · simp only [InfinityServiceHandler.DropTable, hl]
        exact ProcessStatus_error_code _ _
      · simp only [InfinityServiceHandler.DropTable, hl]
    all_goals
      simp only [InfinityServiceHandler.DropTable, hl, ServerWorld.call, spec_drop_conflict]
  · rintro ⟨db, t, ix, sid, ⟨c⟩⟩
    cases c
    case other v => exact ⟨ProcessStatus_error_code _ _, rfl⟩
    all_goals
      intro infinity hs
      have hl := GetInfinityBySessionID_some h sid infinity hs
      simp only [InfinityServiceHandler.DropIndex, hl, ServerWorld.call]

/-- C20 on the handler with session 7: `DropTable` with `Error` reaches the
engine with `kError`, and `CreateTable` without columns and with a conflict
type that is not mapped answers with `kInvalidConflictType`. -/
theorem conflict_type_mapping_witness :
    (sample_handler.DropTable sample_server_world sample_rpc_env (Response.init ⟨none⟩)
      ⟨"db", "t", 7, ⟨infinity_thrift_rpc.DropConflict.Error⟩⟩).2.calls =
        sample_server_world.calls ++ [EngineCall.DropTable sample_infinity "db" "t"
          ConflictType.kError] ∧
    ((sample_handler.CreateTable sample_server_world sample_rpc_env (Response.init ⟨none⟩)
      ⟨"db", "t", [], 7, ⟨infinity_thrift_rpc.CreateConflict.other 3, []⟩⟩).1.error_code =
        some ErrorCode.kInvalidConflictType ∧
     (sample_handler.CreateTable sample_server_world sample_rpc_env (Response.init ⟨none⟩)
      ⟨"db", "t", [], 7, ⟨infinity_thrift_rpc.CreateConflict.other 3, []⟩⟩).2 =
        sample_server_world) :=
  ⟨(conflict_type_mapping sample_handler sample_server_world sample_rpc_env
      (Response.init ⟨none⟩)).2.2.2.2.1
      ⟨"db", "t", 7, ⟨infinity_thrift_rpc.DropConflict.Error⟩⟩ sample_infinity (by decide),
   (conflict_type_mapping sample_handler sample_server_world sample_rpc_env
      (Response.init ⟨none⟩)).2.1
      ⟨"db", "t", [], 7, ⟨infinity_thrift_rpc.CreateConflict.other 3, []⟩⟩ (by decide)⟩

/-! ## Column definitions of `CreateTable` -/

theorem GetColumnTypeFromProto_invalid_iff (type : infinity_thrift_rpc.DataType) :
    (GetColumnTypeFromProto type).type = LogicalType.kInvalid ↔ spec_unknown_data_type type := by
  obtain ⟨lt, ⟨dim, et⟩⟩ := type
  cases lt <;> cases et <;>
    simp [GetColumnTypeFromProto, spec_unknown_data_type, spec_logical_type, spec_element_type,
      GetEmbeddingDataTypeFromProto]

theorem GetColumnTypeFromProto_known (type : infinity_thrift_rpc.DataType)
    (h : ¬ spec_unknown_data_type type) :
    spec_logical_type type.logic_type = some (GetColumnTypeFromProto type).type ∧
    (GetColumnTypeFromProto type).type_info =
      if type.logic_type = infinity_thrift_rpc.LogicType.Embedding then
        (spec_element_type type.embedding_type.element_type).map
          (fun e => ⟨e, type.embedding_type.dimension⟩)
      else none := by
  obtain ⟨lt, ⟨dim, et⟩⟩ := type
  revert h
  cases lt <;> cases et <;>
    simp [GetColumnTypeFromProto, spec_unknown_data_type, spec_logical_type, spec_element_type,
      GetEmbeddingDataTypeFromProto]

/-- C21, as stated, fails in two places. A Boolean column with an unknown
constraint does not fail with `kInvalidDataType` and still gets no column: the
result is the null pointer with `kInvalidConstraintType`. And `CreateTable`
with that column first and a column of an unknown logic type second answers
with `kInvalidConstraintType`, not with the status of the second failing
column. -/
theorem GetColumnDefFromProto_counterexample :
    GetColumnDefFromProto ⟨0, "c", ⟨infinity_thrift_rpc.LogicType.Boolean,
        ⟨0, infinity_thrift_rpc.ElementType.ElementBit⟩⟩,
        [infinity_thrift_rpc.Constraint.other 9]⟩ = (none, Status.InvalidConstraintType) ∧
    GetColumnDefFromProto ⟨1, "d", ⟨infinity_thrift_rpc.LogicType.other 99,
        ⟨0, infinity_thrift_rpc.ElementType.ElementBit⟩⟩, []⟩ = (none, Status.InvalidDataType) ∧
    (sample_handler.CreateTable sample_server_world sample_rpc_env (Response.init ⟨none⟩)
      ⟨"db", "t",
        [⟨0, "c", ⟨infinity_thrift_rpc.LogicType.Boolean,
            ⟨0, infinity_thrift_rpc.ElementType.ElementBit⟩⟩,
            [infinity_thrift_rpc.Constraint.other 9]⟩,
         ⟨1, "d", ⟨infinity_thrift_rpc.LogicType.other 99,
            ⟨0, infinity_thrift_rpc.ElementType.ElementBit⟩⟩, []⟩], 7,
        ⟨infinity_thrift_rpc.CreateConflict.Error, []⟩⟩).1.error_code =
      some ErrorCode.kInvalidConstraintType := by
  decide

theorem spec_constraint_type_eq_none (constraint : infinity_thrift_rpc.Constraint) :
    spec_constraint_type constraint = none ↔
      GetConstraintTypeFromProto constraint = ConstraintType.kInvalid := by
  cases constraint <;> simp [spec_constraint_type, GetConstraintTypeFromProto]

theorem spec_constraint_type_eq_some (constraint : infinity_thrift_rpc.Constraint)
    (type : ConstraintType) :
    spec_constraint_type constraint = some type ↔
      GetConstraintTypeFromProto constraint = type ∧ type ≠ ConstraintType.kInvalid := by
  cases constraint <;> cases type <;> simp [spec_constraint_type, GetConstraintTypeFromProto]

/-- The loop over the wire constraints stops at an unknown constraint. -/
theorem GetColumnDefFromProto.constraints_unknown :
    ∀ (constraints : List infinity_thrift_rpc.Constraint) (acc : List ConstraintType),
      (∃ c ∈ constraints, spec_constraint_type c = none) →
      GetColumnDefFromProto.constraints constraints acc = none := by
  intro constraints
  induction constraints with
  | nil => intro acc h; obtain ⟨c, hc, -⟩ := h; cases hc
  | cons hd tl ih =>
    intro acc h
    unfold GetColumnDefFromProto.constraints
    by_cases hhd : GetConstraintTypeFromProto hd = ConstraintType.kInvalid
    · simp only [hhd, if_true]
    · simp only [hhd, if_false]
      apply ih
      obtain ⟨c, hc, hnone⟩ := h
      rcases List.mem_cons.1 hc with rfl | hc
      · exact absurd ((spec_constraint_type_eq_none c).1 hnone) hhd
      · exact ⟨c, hc, hnone⟩

/-- The loop over known wire constraints builds the set of the same-named
internal constraints. -/
theorem GetColumnDefFromProto.constraints_known :
    ∀ (constraints : List infinity_thrift_rpc.Constraint) (acc : List ConstraintType),
      (∀ c ∈ constraints, spec_constraint_type c ≠ none) → acc.Nodup →
      ∃ set, GetColumnDefFromProto.constraints constraints acc = some set ∧ set.Nodup ∧
        ∀ type, type ∈ set ↔
          type ∈ acc ∨ ∃ c ∈ constraints, spec_constraint_type c = some type := by
  intro constraints
  induction constraints with
  | nil =>
    intro acc _ hnd
    exact ⟨acc, rfl, hnd, fun type => by simp⟩
  | cons hd tl ih =>
    intro acc hknown hnd
    have hhd : ¬ GetConstraintTypeFromProto hd = ConstraintType.kInvalid := fun h =>
      hknown hd (List.mem_cons_self _ _) ((spec_constraint_type_eq_none hd).2 h)
    have hspec : spec_constraint_type hd = some (GetConstraintTypeFromProto hd) :=
      (spec_constraint_type_eq_some hd _).2 ⟨rfl, hhd⟩
    have hnd2 : (if GetConstraintTypeFromProto hd ∈ acc then acc
        else acc ++ [GetConstraintTypeFromProto hd]).Nodup := by
      split
      · exact hnd
      · rename_i hmem
        exact List.Nodup.append hnd (List.nodup_singleton _)
          (by
            intro x hx hx2
            rw [List.mem_singleton] at hx2
            exact hmem (hx2 ▸ hx))
    obtain ⟨set, hset, hsnd, hmem⟩ := ih _
      (fun c hc => hknown c (List.mem_cons_of_mem _ hc)) hnd2
    refine ⟨set, ?_, hsnd, ?_⟩
    · rw [GetColumnDefFromProto.constraints]
      simp only [hhd, if_false]
      exact hset
    · intro type
      rw [hmem type]
      constructor
      · rintro (h | ⟨c, hc, hct⟩)
        · by_cases hin : GetConstraintTypeFromProto hd ∈ acc
          · rw [if_pos hin] at h; exact Or.inl h
          · rw [if_neg hin] at h
            rcases List.mem_append.1 h with h | h
            · exact Or.inl h
            · rw [List.mem_singleton] at h
              exact Or.inr ⟨hd, List.mem_cons_self _ _, h ▸ hspec⟩
        · exact Or.inr ⟨c, List.mem_cons_of_mem _ hc, hct⟩
      · rintro (h | ⟨c, hc, hct⟩)
        · left
          split
          · exact h
          · exact List.mem_append_left _ h
        · rcases List.mem_cons.1 hc with rfl | hc
          · left
            rw [hspec] at hct
            cases hct
            split
            · assumption
            · exact List.mem_append_right _ (List.mem_singleton_self _)
          · exact Or.inr ⟨c, hc, hct⟩

/-- C21, amended: `GetColumnDefFromProto` fails with `kInvalidDataType` (and the
null pointer) exactly when the logic type is outside the eleven listed values
or is `Embedding` with an element type outside the seven listed values.
Otherwise the data type converts to the internal logical type of the same name
(an embedding keeps its dimension and element type); when one of the
constraints is outside the four listed values the function fails with
`kInvalidConstraintType` and the null pointer, and when all constraints are
listed it returns status OK and a column with the id and the name of the wire
column, that data type, and exactly the same-named internal constraints, each
once. `CreateTable` with a failing column answers with the status of its first
failing column, without an engine call. -/
theorem GetColumnDefFromProto_spec (column_def : infinity_thrift_rpc.ColumnDef) :
    ((GetColumnDefFromProto column_def).2.code = ErrorCode.kInvalidDataType ↔
      spec_unknown_data_type column_def.data_type) ∧
    (spec_unknown_data_type column_def.data_type →
      GetColumnDefFromProto column_def = (none, Status.InvalidDataType)) ∧
    (¬ spec_unknown_data_type column_def.data_type →
      spec_logical_type column_def.data_type.logic_type =
        some (GetColumnTypeFromProto column_def.data_type).type ∧
      (GetColumnTypeFromProto column_def.data_type).type_info =
        (if column_def.data_type.logic_type = infinity_thrift_rpc.LogicType.Embedding then
          (spec_element_type column_def.data_type.embedding_type.element_type).map
            (fun e => ⟨e, column_def.data_type.embedding_type.dimension⟩)
        else none) ∧
      ((∃ c ∈ column_def.constraints, spec_constraint_type c = none) →
        GetColumnDefFromProto column_def = (none, Status.InvalidConstraintType)) ∧
      ((∀ c ∈ column_def.constraints, spec_constraint_type c ≠ none) →
        ∃ constraints, GetColumnDefFromProto column_def =
          (some ⟨column_def.id, GetColumnTypeFromProto column_def.data_type, column_def.name,
            constraints⟩, Status.OK) ∧
          constraints.Nodup ∧
          ∀ type, type ∈ constraints ↔
            ∃ c ∈ column_def.constraints, spec_constraint_type c = some type)) ∧
    (∀ (h : InfinityServiceHandler) (sw : ServerWorld) (env : RpcEnv) (response : CommonResponse)
      (request : infinity_thrift_rpc.CreateTableRequest) (status : Status),
      column_def ∈ request.column_defs →
      first_column_def_failure request.column_defs = some status →
      h.CreateTable sw env response request = (ProcessStatus response status, sw) ∧
      (h.CreateTable sw env response request).1.error_code = some status.code) := by
  have hiff := GetColumnTypeFromProto_invalid_iff column_def.data_type
  refine ⟨?_, ?_, ?_, ?_⟩
  · by_cases hu : spec_unknown_data_type column_def.data_type
    · have hinv := hiff.2 hu
      simp [GetColumnDefFromProto, hinv, hu, Status.InvalidDataType]
    · have hinv : ¬ (GetColumnTypeFromProto column_def.data_type).type = LogicalType.kInvalid :=
        fun h => hu (hiff.1 h)
      simp only [GetColumnDefFromProto, hinv, if_false, hu, iff_false]
      cases GetColumnDefFromProto.constraints column_def.constraints [] <;>
        simp [Status.InvalidConstraintType, Status.OK]
  · intro hu
    simp [GetColumnDefFromProto, hiff.2 hu]
  · intro hu
    have hinv : ¬ (GetColumnTypeFromProto column_def.data_type).type = LogicalType.kInvalid :=
      fun h => hu (hiff.1 h)
    refine ⟨(GetColumnTypeFromProto_known _ hu).1, (GetColumnTypeFromProto_known _ hu).2, ?_, ?_⟩
    · intro hunknown
      simp only [GetColumnDefFromProto, hinv, if_false,
        GetColumnDefFromProto.constraints_unknown _ [] hunknown]
    · intro hknown
      obtain ⟨set, hset, hnd, hmem⟩ :=
        GetColumnDefFromProto.constraints_known _ [] hknown List.nodup_nil
      refine ⟨set, ?_, hnd, ?_⟩
      · simp only [GetColumnDefFromProto, hinv, if_false, hset]
      · intro type
        rw [hmem type]
        simp
  · intro h sw env response request status _ hfail
    have hcols := CreateTable.column_defs_eq request.column_defs []
    rw [hfail] at hcols
    have heq : h.CreateTable sw env response request = (ProcessStatus response status, sw) := by
      simp only [InfinityServiceHandler.CreateTable, hcols]
    exact ⟨heq, by rw [heq]; exact ProcessStatus_error_code _ _⟩

/-- C21 at an embedding column of 4 floats with the constraints `NotNull`,
`Unique`, `NotNull`: it converts to a column with the two constraints; and a
`CreateTable` request holding it after a column of an unknown logic type is
answered with `kInvalidDataType`. -/
theorem GetColumnDefFromProto_spec_witness :
    (∃ constraints, GetColumnDefFromProto ⟨0, "v", ⟨infinity_thrift_rpc.LogicType.Embedding,
        ⟨4, infinity_thrift_rpc.ElementType.ElementFloat32⟩⟩,
        [infinity_thrift_rpc.Constraint.NotNull, infinity_thrift_rpc.Constraint.Unique,
          infinity_thrift_rpc.Constraint.NotNull]⟩ =
      (some ⟨0, GetColumnTypeFromProto ⟨infinity_thrift_rpc.LogicType.Embedding,
        ⟨4, infinity_thrift_rpc.ElementType.ElementFloat32⟩⟩, "v", constraints⟩, Status.OK) ∧
      constraints.Nodup ∧
      ∀ type, type ∈ constraints ↔
        ∃ c ∈ [infinity_thrift_rpc.Constraint.NotNull, infinity_thrift_rpc.Constraint.Unique,
          infinity_thrift_rpc.Constraint.NotNull], spec_constraint_type c = some type) ∧
    (sample_handler.CreateTable sample_server_world sample_rpc_env (Response.init ⟨none⟩)
      ⟨"db", "t",
        [⟨1, "d", ⟨infinity_thrift_rpc.LogicType.other 99,
            ⟨0, infinity_thrift_rpc.ElementType.ElementBit⟩⟩, []⟩,
         ⟨0, "v", ⟨infinity_thrift_rpc.LogicType.Embedding,
            ⟨4, infinity_thrift_rpc.ElementType.ElementFloat32⟩⟩,
            [infinity_thrift_rpc.Constraint.NotNull, infinity_thrift_rpc.Constraint.Unique,
              infinity_thrift_rpc.Constraint.NotNull]⟩], 7,
        ⟨infinity_thrift_rpc.CreateConflict.Error, []⟩⟩).1.error_code =
      some ErrorCode.kInvalidDataType :=
  ⟨((GetColumnDefFromProto_spec ⟨0, "v", ⟨infinity_thrift_rpc.LogicType.Embedding,
        ⟨4, infinity_thrift_rpc.ElementType.ElementFloat32⟩⟩,
        [infinity_thrift_rpc.Constraint.NotNull, infinity_thrift_rpc.Constraint.Unique,
          infinity_thrift_rpc.Constraint.NotNull]⟩).2.2.1 (by decide)).2.2.2 (by decide),
   ((GetColumnDefFromProto_spec ⟨0, "v", ⟨infinity_thrift_rpc.LogicType.Embedding,
        ⟨4, infinity_thrift_rpc.ElementType.ElementFloat32⟩⟩,
        [infinity_thrift_rpc.Constraint.NotNull, infinity_thrift_rpc.Constraint.Unique,
          infinity_thrift_rpc.Constraint.NotNull]⟩).2.2.2 sample_handler sample_server_world
      sample_rpc_env (Response.init ⟨none⟩) _ Status.InvalidDataType (by decide) (by decide)).2⟩

/-! ## Conversion of parsed expressions -/

/-- C30: `GetParsedExprFromProto` at a constant whose literal type is none of
the seven known values, alone and as the argument of a function. The `default`
case of `GetConstantFromProto` assigns `InvalidConstantType` and reaches the end
of the function without a `return`: the call has undefined behaviour and
yields neither a null pointer nor a status. -/
theorem GetParsedExprFromProto_unknown_literal :
    GetConstantFromProto Status.OK
        ⟨infinity_thrift_rpc.LiteralType.other 99, false, 0, ⟨0⟩, "", [], []⟩ =
      Except.error Exception.UndefinedBehaviour ∧
    GetParsedExprFromProto sample_rpc_env.f64_to_f32 Status.OK
        (infinity_thrift_rpc.ParsedExpr.mk none
          (some ⟨infinity_thrift_rpc.LiteralType.other 99, false, 0, ⟨0⟩, "", [], []⟩)
          infinity_thrift_rpc.FunctionExprOpt.unset none none none) =
      Except.error Exception.UndefinedBehaviour ∧
    GetParsedExprFromProto sample_rpc_env.f64_to_f32 Status.OK
        (infinity_thrift_rpc.ParsedExpr.mk none none
          (infinity_thrift_rpc.FunctionExprOpt.set (infinity_thrift_rpc.FunctionExpr.mk "f"
            (infinity_thrift_rpc.ParsedExprList.cons
              (infinity_thrift_rpc.ParsedExpr.mk none
                (some ⟨infinity_thrift_rpc.LiteralType.other 99, false, 0, ⟨0⟩, "", [], []⟩)
                infinity_thrift_rpc.FunctionExprOpt.unset none none none)
              infinity_thrift_rpc.ParsedExprList.nil)))
          none none none) =
      Except.error Exception.UndefinedBehaviour :=
  ⟨rfl, rfl, rfl⟩

/-! ## The expression list of a search -/

theorem GetKnnExprFromProto_ok (f64_to_f32 : F64 → F32) (expr : infinity_thrift_rpc.KnnExpr)
    (h : (GetKnnExprFromProto f64_to_f32 expr).2.ok = true) :
    ∃ k, (GetKnnExprFromProto f64_to_f32 expr).1 = some k := by
  unfold GetKnnExprFromProto at h ⊢
  simp only at h ⊢
  split
  · rename_i h1; simp [h1, Status.InvalidKnnDistanceType, Status.ok] at h
  · rename_i h1
    split
    · rename_i h2; simp [h1, h2, Status.InvalidEmbeddingDataType, Status.ok] at h
    · rename_i h2
      split
      · rename_i h3
        simp only [h1, h2, h3, if_false, if_true] at h
        simp only [Bool.not_eq_true'] at h3
        rw [h3] at h
        cases h
      · rename_i h3
        split
        · rename_i h4
          simp only [h1, h2, h3, h4, if_false, if_true] at h
          simp [Status.InvalidParameterValue, Status.ok] at h
        · exact ⟨_, rfl⟩

theorem Select.knn_exprs_eq (f64_to_f32 : F64 → F32) :
    ∀ (l : List infinity_thrift_rpc.KnnExpr) (acc r : List (Option ParsedExpr)),
      InfinityServiceHandler.Select.knn_exprs f64_to_f32 l acc = Except.ok r →
      ∃ knn_exprs : List KnnExpr,
        l.map (fun e => (GetKnnExprFromProto f64_to_f32 e).1) = knn_exprs.map some ∧
        r = acc ++ knn_exprs.map (fun k => some (ParsedExpr.Knn k)) := by
  intro l
  induction l with
  | nil =>
    intro acc r h
    simp only [InfinityServiceHandler.Select.knn_exprs, Except.ok.injEq] at h
    exact ⟨[], rfl, by simp [h]⟩
  | cons e tl ih =>
    intro acc r h
    unfold InfinityServiceHandler.Select.knn_exprs at h
    simp only at h
    by_cases hok : (GetKnnExprFromProto f64_to_f32 e).2.ok = true
    · simp only [hok, Bool.not_true, Bool.false_eq_true, if_false] at h
      obtain ⟨k, hk⟩ := GetKnnExprFromProto_ok f64_to_f32 e hok
      obtain ⟨ks, hks, hr⟩ := ih _ _ h
      refine ⟨k :: ks, ?_, ?_⟩
      · simp [hk, hks]
      · rw [hr, hk]; simp
    · simp only [hok, Bool.not_false, if_true] at h
      cases h

theorem Select.search_expr_eq (f64_to_f32 : F64 → F32)
    (search_expr : infinity_thrift_rpc.SearchExpr) (r : SearchExpr)
    (h : InfinityServiceHandler.Select.search_expr f64_to_f32 search_expr = Except.ok r) :
    ∃ knn_exprs : List KnnExpr,
      search_expr.knn_exprs.map (fun e => (GetKnnExprFromProto f64_to_f32 e).1) =
        knn_exprs.map some ∧
      r.exprs = knn_exprs.map (fun k => some (ParsedExpr.Knn k)) ++
        search_expr.match_exprs.map (fun e => some (ParsedExpr.Match (GetMatchExprFromProto e))) ++
        search_expr.fusion_expr.toList.map
          (fun e => some (ParsedExpr.Fusion (GetFusionExprFromProto e))) := by
  unfold InfinityServiceHandler.Select.search_expr at h
  cases hk : InfinityServiceHandler.Select.knn_exprs f64_to_f32 search_expr.knn_exprs [] with
  | error st => rw [hk] at h; cases h
  | ok l =>
    rw [hk] at h
    obtain ⟨ks, hks, hl⟩ := Select.knn_exprs_eq f64_to_f32 _ _ _ hk
    refine ⟨ks, hks, ?_⟩
    simp only [Except.ok.injEq] at h
    rw [← h, hl]
    cases search_expr.fusion_expr <;> simp

theorem Select.parse_search_expr (f64_to_f32 : F64 → F32)
    (select_list : List infinity_thrift_rpc.ParsedExpr)
    (search_expr : infinity_thrift_rpc.SearchExpr)
    (where_expr : Option infinity_thrift_rpc.ParsedExpr) (p : InfinityServiceHandler.Select.Parsed)
    (h : InfinityServiceHandler.Select.parse f64_to_f32 select_list (some search_expr) where_expr =
      Except.ok (Except.ok p)) :
    ∃ r, InfinityServiceHandler.Select.search_expr f64_to_f32 search_expr = Except.ok r ∧
      p.search_expr = some r := by
  unfold InfinityServiceHandler.Select.parse at h
  cases ho : InfinityServiceHandler.Select.output_columns f64_to_f32 Status.OK select_list [] with
  | error e => rw [ho] at h; cases h
  | ok a =>
    obtain ⟨cols, st⟩ := a
    rw [ho] at h
    cases cols with
    | none => simp [pure, Except.pure] at h
    | some cols =>
      simp only at h
      cases hs : InfinityServiceHandler.Select.search_expr f64_to_f32 search_expr with
      | error e => simp [hs, Except.map, pure, Except.pure] at h
      | ok r =>
        refine ⟨r, rfl, ?_⟩
        simp only [hs, Except.map] at h
        cases where_expr with
        | none =>
          simp only [pure, Except.pure, Except.ok.injEq] at h
          rw [← h]
        | some w =>
          simp only at h
          cases hw : GetParsedExprFromProto f64_to_f32 st w with
          | error e => rw [hw] at h; cases h
          | ok q =>
            rw [hw] at h
            simp only at h
            split at h
            · simp [pure, Except.pure] at h
            · simp only [pure, Except.pure, Except.ok.injEq] at h
              rw [← h]

theorem Select_call (h : InfinityServiceHandler) (sw : ServerWorld) (env : RpcEnv)
    (response : SelectResponse) (request : infinity_thrift_rpc.SelectRequest)
    (infinity : Infinity) (select_list : List infinity_thrift_rpc.ParsedExpr)
    (p : InfinityServiceHandler.Select.Parsed)
    (hsession : Map.find h.infinity_session_map_ (toU64 request.session_id) = some infinity)
    (hlist : request.select_list = some select_list) (hne : select_list ≠ [])
    (hparse : InfinityServiceHandler.Select.parse env.f64_to_f32 select_list request.search_expr
      request.where_expr = Except.ok (Except.ok p)) :
    h.Select sw env response request =
      (InfinityServiceHandler.Select.respond env (env.engine (EngineCall.Search infinity
          request.db_name request.table_name p.search_expr p.filter p.output_columns))
        response).map
        (fun r => (r, { sw with calls := sw.calls ++ [EngineCall.Search infinity
          request.db_name request.table_name p.search_expr p.filter p.output_columns] })) := by
  have hl := GetInfinityBySessionID_some h request.session_id infinity hsession
  have hemp : select_list.isEmpty = false := by
    cases select_list with
    | nil => exact absurd rfl hne
    | cons a l => rfl
  simp only [InfinityServiceHandler.Select, hl, hlist, hemp, hparse, ServerWorld.call,
    Bool.false_eq_true, if_false]

theorem Explain_call (h : InfinityServiceHandler) (sw : ServerWorld) (env : RpcEnv)
    (response : SelectResponse) (request : infinity_thrift_rpc.ExplainRequest)
    (infinity : Infinity) (select_list : List infinity_thrift_rpc.ParsedExpr)
    (p : InfinityServiceHandler.Select.Parsed)
    (hsession : Map.find h.infinity_session_map_ (toU64 request.session_id) = some infinity)
    (hlist : request.select_list = some select_list)
    (hparse : InfinityServiceHandler.Select.parse env.f64_to_f32 select_list request.search_expr
      request.where_expr = Except.ok (Except.ok p)) :
    h.Explain sw env response request =
      (InfinityServiceHandler.Select.respond env (env.engine (EngineCall.Explain infinity
          request.db_name request.table_name (GetExplainTypeFromProto request.explain_type)
          p.search_expr p.filter p.output_columns)) response).map
        (fun r => (r, { sw with calls := sw.calls ++ [EngineCall.Explain infinity
          request.db_name request.table_name (GetExplainTypeFromProto request.explain_type)
          p.search_expr p.filter p.output_columns] })) := by
  have hl := GetInfinityBySessionID_some h request.session_id infinity hsession
  simp only [InfinityServiceHandler.Explain, hl, hlist, hparse, ServerWorld.call]

theorem fusion_only_last (knn_exprs : List KnnExpr) (match_exprs : List MatchExpr)
    (fusion : List FusionExpr) (hf : fusion.length ≤ 1) (i : Nat) (e : FusionExpr)
    (h : (knn_exprs.map (fun k => some (ParsedExpr.Knn k)) ++
        match_exprs.map (fun m => some (ParsedExpr.Match m)) ++
        fusion.map (fun x => some (ParsedExpr.Fusion x)))[i]? = some (some (ParsedExpr.Fusion e))) :
    i + 1 = (knn_exprs.map (fun k => some (ParsedExpr.Knn k)) ++
        match_exprs.map (fun m => some (ParsedExpr.Match m)) ++
        fusion.map (fun x => some (ParsedExpr.Fusion x))).length := by
  simp only [List.length_append, List.length_map]
  by_cases h1 : i < knn_exprs.length
  · rw [List.append_assoc, List.getElem?_append_left (by simpa using h1)] at h
    simp only [List.getElem?_map] at h
    cases hk : knn_exprs[i]? with
    | none => simp [hk] at h
    | some k => simp [hk] at h
  · have h1 : knn_exprs.length ≤ i := Nat.le_of_not_lt h1
    rw [List.append_assoc, List.getElem?_append_right (by simpa using h1)] at h
    simp only [List.length_map] at h
    by_cases h2 : i - knn_exprs.length < match_exprs.length
    · rw [List.getElem?_append_left (by simpa using h2)] at h
      simp only [List.getElem?_map] at h
      cases hm : match_exprs[i - knn_exprs.length]? with
      | none => simp [hm] at h
      | some m => simp [hm] at h
    · have h2 : match_exprs.length ≤ i - knn_exprs.length := Nat.le_of_not_lt h2
      rw [List.getElem?_append_right (by simpa using h2)] at h
      simp only [List.length_map, List.getElem?_map] at h
      cases hx : fusion[i - knn_exprs.length - match_exprs.length]? with
      | none => simp [hx] at h
      | some x =>
        have hlt := (List.getElem?_eq_some_iff.1 hx).1
        omega

/-- C26: let the conversions of a `Select` or `Explain` request with a search
expression succeed. Then every knn expression converted to a non-null pointer,
and the list given to the `SearchExpr` is the converted knn expressions in
request order, then the match expressions in request order, then the fusion
expression if it is set. Its length is the number of knn expressions plus the
number of match expressions plus one for a fusion expression; a fusion
expression occurs in it only as the last element. `Select` (with a non-empty
select list) and `Explain` of an existing session pass this `SearchExpr` to the
engine. -/
theorem search_expr_list (env : RpcEnv) (select_list : List infinity_thrift_rpc.ParsedExpr)
    (search_expr : infinity_thrift_rpc.SearchExpr)
    (where_expr : Option infinity_thrift_rpc.ParsedExpr) (p : InfinityServiceHandler.Select.Parsed)
    (hparse : InfinityServiceHandler.Select.parse env.f64_to_f32 select_list (some search_expr)
      where_expr = Except.ok (Except.ok p)) :
    ∃ (knn_exprs : List KnnExpr) (exprs : List (Option ParsedExpr)),
      search_expr.knn_exprs.map (fun e => (GetKnnExprFromProto env.f64_to_f32 e).1) =
        knn_exprs.map some ∧
      p.search_expr = some ⟨exprs⟩ ∧
      exprs = knn_exprs.map (fun k => some (ParsedExpr.Knn k)) ++
        search_expr.match_exprs.map (fun e => some (ParsedExpr.Match (GetMatchExprFromProto e))) ++
        search_expr.fusion_expr.toList.map
          (fun e => some (ParsedExpr.Fusion (GetFusionExprFromProto e))) ∧
      exprs.length = search_expr.knn_exprs.length + search_expr.match_exprs.length +
        (if search_expr.fusion_expr.isSome then 1 else 0) ∧
      (∀ i e, exprs[i]? = some (some (ParsedExpr.Fusion e)) → i + 1 = exprs.length) ∧
      (∀ (h : InfinityServiceHandler) (sw : ServerWorld) (response : SelectResponse)
        (session_id : Int) (db_name table_name : String) (infinity : Infinity),
        Map.find h.infinity_session_map_ (toU64 session_id) = some infinity →
        (select_list ≠ [] →
          h.Select sw env response
              ⟨session_id, db_name, table_name, some select_list, some search_expr, where_expr⟩ =
            (InfinityServiceHandler.Select.respond env (env.engine (EngineCall.Search infinity
              db_name table_name (some ⟨exprs⟩) p.filter p.output_columns)) response).map
              (fun r => (r, { sw with calls := sw.calls ++ [EngineCall.Search infinity
                db_name table_name (some ⟨exprs⟩) p.filter p.output_columns] }))) ∧
        (∀ explain_type,
          h.Explain sw env response ⟨session_id, db_name, table_name, some select_list,
              some search_expr, where_expr, explain_type⟩ =
            (InfinityServiceHandler.Select.respond env (env.engine (EngineCall.Explain infinity
              db_name table_name (GetExplainTypeFromProto explain_type) (some ⟨exprs⟩) p.filter
              p.output_columns)) response).map
              (fun r => (r, { sw with calls := sw.calls ++ [EngineCall.Explain infinity
                db_name table_name (GetExplainTypeFromProto explain_type) (some ⟨exprs⟩) p.filter
                p.output_columns] })))) := by
  obtain ⟨r, hr, hp⟩ := Select.parse_search_expr _ _ _ _ _ hparse
  obtain ⟨ks, hks, hex⟩ := Select.search_expr_eq _ _ _ hr
  have hlen : ks.length = search_expr.knn_exprs.length := by
    have := congrArg List.length hks
    simpa using this.symm
  refine ⟨ks, r.exprs, hks, hp, hex, ?_, ?_, ?_⟩
  · rw [hex]
    simp only [List.length_append, List.length_map, hlen]
    cases search_expr.fusion_expr <;> simp
  · intro i e hi
    rw [hex] at hi ⊢
    have hmap : search_expr.match_exprs.map
        (fun e => some (ParsedExpr.Match (GetMatchExprFromProto e))) =
        (search_expr.match_exprs.map GetMatchExprFromProto).map
          (fun m => some (ParsedExpr.Match m)) := by simp
    have hfus : search_expr.fusion_expr.toList.map
        (fun e => some (ParsedExpr.Fusion (GetFusionExprFromProto e))) =
        (search_expr.fusion_expr.toList.map GetFusionExprFromProto).map
          (fun x => some (ParsedExpr.Fusion x)) := by simp
    rw [hmap, hfus] at hi ⊢
    exact fusion_only_last ks _ _ (by cases search_expr.fusion_expr <;> simp) i e hi
  · intro h sw response session_id db_name table_name infinity hs
    have hp2 : p.search_expr = some ⟨r.exprs⟩ := hp
    refine ⟨?_, ?_⟩
    · intro hne
      rw [← hp2]
      exact Select_call h sw env response
        ⟨session_id, db_name, table_name, some select_list, some search_expr, where_expr⟩
        infinity select_list p hs rfl hne hparse
    · intro explain_type
      rw [← hp2]
      exact Explain_call h sw env response
        ⟨session_id, db_name, table_name, some select_list, some search_expr, where_expr,
          explain_type⟩ infinity select_list p hs rfl hparse

/-- C26 at a search with one match expression and a fusion expression. -/
theorem search_expr_list_witness :
    ∃ (knn_exprs : List KnnExpr) (exprs : List (Option ParsedExpr)),
      knn_exprs = [] ∧
      exprs = [some (ParsedExpr.Match ⟨"body", "cat", ""⟩), some (ParsedExpr.Fusion ⟨"rrf", ""⟩)] ∧
      exprs.length = 0 + 1 + 1 ∧
      (∀ i e, exprs[i]? = some (some (ParsedExpr.Fusion e)) → i + 1 = exprs.length) := by
  obtain ⟨ks, exprs, h1, -, h3, h4, h5, -⟩ := search_expr_list sample_rpc_env
    [infinity_thrift_rpc.ParsedExpr.mk (some ⟨[], true⟩) none
      infinity_thrift_rpc.FunctionExprOpt.unset none none none]
    ⟨[], [⟨"body", "cat", ""⟩], some ⟨"rrf", ""⟩⟩ none
    ⟨some ⟨[some (ParsedExpr.Match ⟨"body", "cat", ""⟩), some (ParsedExpr.Fusion ⟨"rrf", ""⟩)]⟩,
      none, [some (ParsedExpr.Column ⟨[], true⟩)]⟩ rfl
  have hks : ks = [] := by
    cases ks with
    | nil => rfl
    | cons a l => simp at h1
  subst hks
  exact ⟨[], exprs, rfl, h3, h4, h5⟩

/-! ## `UploadFileChunk` -/

theorem LocalFileSystem.find_filter_ne (files : List (String × List Nat)) (path : String) :
    (files.filter (fun f => f.1 != path)).find? (fun f => f.1 == path) = none := by
  rw [List.find?_eq_none]
  intro f hf
  have := (List.mem_filter.1 hf).2
  simpa using this

theorem LocalFileSystem.find_WriteFile_new (fs : LocalFileSystem) (path : String)
    (data : List Nat) :
    (fs.WriteFile path data false).files.find? (fun f => f.1 == path) = some (path, data) := by
  simp only [LocalFileSystem.WriteFile, Bool.false_and, Bool.false_eq_true, if_false,
    List.find?_append, LocalFileSystem.find_filter_ne]
  simp

theorem LocalFileSystem.contents_WriteFile_new (fs : LocalFileSystem) (path : String)
    (data : List Nat) : (fs.WriteFile path data false).contents path = some data := by
  simp only [LocalFileSystem.contents, LocalFileSystem.find_WriteFile_new, Option.map]

theorem LocalFileSystem.size_WriteFile_new (fs : LocalFileSystem) (path : String)
    (data : List Nat) : (fs.WriteFile path data false).GetFileSizeByPath path = data.length := by
  simp only [LocalFileSystem.GetFileSizeByPath, LocalFileSystem.find_WriteFile_new]

theorem LocalFileSystem.Exists_WriteFile_new (fs : LocalFileSystem) (path : String)
    (data : List Nat) : (fs.WriteFile path data false).Exists path = true := by
  simp [LocalFileSystem.WriteFile, LocalFileSystem.Exists]

theorem LocalFileSystem.WriteFile_DeleteFile (fs : LocalFileSystem) (path : String)
    (data : List Nat) :
    ((fs.DeleteFile path).WriteFile path data false).contents path = some data ∧
    ((fs.DeleteFile path).WriteFile path data false).GetFileSizeByPath path = data.length ∧
    ((fs.DeleteFile path).WriteFile path data false).Exists path = true :=
  ⟨LocalFileSystem.contents_WriteFile_new _ _ _, LocalFileSystem.size_WriteFile_new _ _ _,
    LocalFileSystem.Exists_WriteFile_new _ _ _⟩

theorem toI64_of_lt (n : Nat) (h : n < 2 ^ 63) : toI64 n = (n : Int) := by
  unfold toI64
  have h2 : n % 2 ^ 64 = n := Nat.mod_eq_of_lt (by omega)
  rw [h2, if_pos h]

/-- The three ways through `UploadFileChunk` for a chunk with index 0. -/
theorem UploadFileChunk_zero (sw : ServerWorld) (env : RpcEnv) (response : UploadResponse)
    (request : infinity_thrift_rpc.FileChunk) (h0 : request.index = 0) :
    InfinityServiceHandler.UploadFileChunk sw env response request =
      if sw.fs.Exists (upload_path env request.db_name request.table_name request.file_name) ∧
          toI64 (sw.fs.GetFileSizeByPath
            (upload_path env request.db_name request.table_name request.file_name)) =
            request.total_size then
        ({ response with error_code := some ErrorCode.kOk,
                         payload := (⟨some true⟩ : UploadPayload) }, sw)
      else if sw.fs.Exists
          (upload_path env request.db_name request.table_name request.file_name) then
        ({ response with error_code := some ErrorCode.kOk,
                         payload := (⟨some false⟩ : UploadPayload) },
         { sw with fs := ((sw.fs.DeleteFile
            (upload_path env request.db_name request.table_name request.file_name)).WriteFile
            (upload_path env request.db_name request.table_name request.file_name)
            request.data false) })
      else
        ({ response with error_code := some ErrorCode.kOk,
                         payload := (⟨some false⟩ : UploadPayload) },
         { sw with fs := (sw.fs.WriteFile
            (upload_path env request.db_name request.table_name request.file_name)
            request.data false) }) := by
  unfold InfinityServiceHandler.UploadFileChunk
  simp only [h0, ne_eq, not_true_eq_false, if_false]
  by_cases he : sw.fs.Exists
      (upload_path env request.db_name request.table_name request.file_name) = true
  · by_cases hs : toI64 (sw.fs.GetFileSizeByPath
        (upload_path env request.db_name request.table_name request.file_name)) =
        request.total_size
    · simp [he, hs]
    · simp [he, hs]
  · simp [he]

/-- C24: for a chunk with index 0 (and an existing file of a size below 2^63,
so that the size is the `i64` the handler compares): if the target path exists
with the size `total_size`, the response has `can_skip = true` and the code
`kOk`, and nothing is changed; otherwise the file at the target path holds
exactly the data of the request afterwards, and the response has
`can_skip = false` and the code `kOk`. Sending the chunk again, when its length
is its `total_size`, is answered with `can_skip = true`. -/
theorem UploadFileChunk_resume (sw : ServerWorld) (env : RpcEnv) (response : UploadResponse)
    (request : infinity_thrift_rpc.FileChunk) (h0 : request.index = 0)
    (hsize : sw.fs.GetFileSizeByPath
      (upload_path env request.db_name request.table_name request.file_name) < 2 ^ 63) :
    let path := upload_path env request.db_name request.table_name request.file_name
    let r := InfinityServiceHandler.UploadFileChunk sw env response request
    (sw.fs.Exists path = true ∧ (sw.fs.GetFileSizeByPath path : Int) = request.total_size →
      r.1.payload.can_skip = some true ∧ r.1.error_code = some ErrorCode.kOk ∧ r.2 = sw) ∧
    (¬ (sw.fs.Exists path = true ∧ (sw.fs.GetFileSizeByPath path : Int) = request.total_size) →
      r.2.fs.contents path = some request.data ∧ r.1.payload.can_skip = some false ∧
      r.1.error_code = some ErrorCode.kOk) ∧
    (∀ response2 : UploadResponse,
      (request.data.length : Int) = request.total_size → request.data.length < 2 ^ 63 →
      (InfinityServiceHandler.UploadFileChunk r.2 env response2 request).1.payload.can_skip =
        some true ∧
      (InfinityServiceHandler.UploadFileChunk r.2 env response2 request).1.error_code =
        some ErrorCode.kOk ∧
      (InfinityServiceHandler.UploadFileChunk r.2 env response2 request).2 = r.2) := by
  intro path r
  have hz := UploadFileChunk_zero sw env response request h0
  have hi := toI64_of_lt _ hsize
  have hskip : ∀ (sw1 : ServerWorld) (response1 : UploadResponse),
      sw1.fs.Exists path = true → toI64 (sw1.fs.GetFileSizeByPath path) = request.total_size →
      InfinityServiceHandler.UploadFileChunk sw1 env response1 request =
        ({ response1 with error_code := some ErrorCode.kOk,
                          payload := (⟨some true⟩ : UploadPayload) }, sw1) := by
    intro sw1 response1 he hs
    rw [UploadFileChunk_zero sw1 env response1 request h0, if_pos ⟨he, hs⟩]
  by_cases hc : sw.fs.Exists path = true ∧ (sw.fs.GetFileSizeByPath path : Int) = request.total_size
  · have hr : r = _ := hskip sw response hc.1 (by rw [hi]; exact hc.2)
    refine ⟨fun _ => ?_, fun hn => absurd hc hn, ?_⟩
    · rw [hr]; exact ⟨rfl, rfl, rfl⟩
    · intro response2 _ _
      rw [hr]
      rw [hskip sw response2 hc.1 (by rw [hi]; exact hc.2)]
      exact ⟨rfl, rfl, rfl⟩
  · have hc2 : ¬ (sw.fs.Exists path = true ∧ toI64 (sw.fs.GetFileSizeByPath path) =
        request.total_size) := by rw [hi]; exact hc
    have hr := hz
    rw [if_neg hc2] at hr
    have hfacts : r.2.fs.contents path = some request.data ∧
        r.2.fs.GetFileSizeByPath path = request.data.length ∧ r.2.fs.Exists path = true ∧
        r.1.payload.can_skip = some false ∧ r.1.error_code = some ErrorCode.kOk := by
      show (InfinityServiceHandler.UploadFileChunk sw env response request).2.fs.contents path =
          some request.data ∧
        (InfinityServiceHandler.UploadFileChunk sw env response request).2.fs.GetFileSizeByPath
          path = request.data.length ∧
        (InfinityServiceHandler.UploadFileChunk sw env response request).2.fs.Exists path = true ∧
        (InfinityServiceHandler.UploadFileChunk sw env response request).1.payload.can_skip =
          some false ∧
        (InfinityServiceHandler.UploadFileChunk sw env response request).1.error_code =
          some ErrorCode.kOk
      rw [hr]
      split
      · exact ⟨(LocalFileSystem.WriteFile_DeleteFile _ _ _).1,
          (LocalFileSystem.WriteFile_DeleteFile _ _ _).2.1,
          (LocalFileSystem.WriteFile_DeleteFile _ _ _).2.2, rfl, rfl⟩
      · exact ⟨LocalFileSystem.contents_WriteFile_new _ _ _,
          LocalFileSystem.size_WriteFile_new _ _ _, LocalFileSystem.Exists_WriteFile_new _ _ _,
          rfl, rfl⟩
    refine ⟨fun h => absurd h hc, fun _ => ⟨hfacts.1, hfacts.2.2.2.1, hfacts.2.2.2.2⟩, ?_⟩
    intro response2 hlen hlt
    rw [hskip r.2 response2 hfacts.2.2.1 (by rw [hfacts.2.1, toI64_of_lt _ hlt]; exact hlen)]
    exact ⟨rfl, rfl, rfl⟩

/-- C24 on the empty file system: a chunk 0 of 1024 bytes with
`total_size = 1024` is written, and sending it again is answered with
`can_skip = true`. -/
theorem UploadFileChunk_resume_witness :
    (InfinityServiceHandler.UploadFileChunk sample_server_world sample_rpc_env
      (Response.init ⟨none⟩)
      ⟨"db", "t", "f", 0, List.replicate 1024 7, 7, 1024⟩).2.fs.contents "/tmp/infinity_db_t_f" =
        some (List.replicate 1024 7) ∧
    (InfinityServiceHandler.UploadFileChunk
      (InfinityServiceHandler.UploadFileChunk sample_server_world sample_rpc_env
        (Response.init ⟨none⟩) ⟨"db", "t", "f", 0, List.replicate 1024 7, 7, 1024⟩).2
      sample_rpc_env (Response.init ⟨none⟩)
      ⟨"db", "t", "f", 0, List.replicate 1024 7, 7, 1024⟩).1.payload.can_skip = some true :=
  ⟨((UploadFileChunk_resume sample_server_world sample_rpc_env (Response.init ⟨none⟩)
      ⟨"db", "t", "f", 0, List.replicate 1024 7, 7, 1024⟩ rfl (by decide)).2.1
      (by decide)).1,
   ((UploadFileChunk_resume sample_server_world sample_rpc_env (Response.init ⟨none⟩)
      ⟨"db", "t", "f", 0, List.replicate 1024 7, 7, 1024⟩ rfl (by decide)).2.2
      (Response.init ⟨none⟩) (by simp only [List.length_replicate, Nat.cast_ofNat])
      (by simp only [List.length_replicate]; decide)).1⟩

theorem LocalFileSystem.find_map_append (files : List (String × List Nat)) (path : String)
    (data : List Nat) :
    (files.map (fun f => if f.1 == path then (f.1, f.2 ++ data) else f)).find?
        (fun f => f.1 == path) =
      (files.find? (fun f => f.1 == path)).map (fun f => (f.1, f.2 ++ data)) := by
  induction files with
  | nil => rfl
  | cons hd tl ih =>
    simp only [List.map_cons, List.find?_cons]
    cases h : hd.1 == path with
    | true => simp [h]
    | false => simp only [h, Bool.false_eq_true, if_false]; exact ih

theorem LocalFileSystem.WriteFile_append (fs : LocalFileSystem) (path : String) (data : List Nat)
    (hmem : path ∈ fs.files.map Prod.fst) :
    (fs.WriteFile path data true).contents path = (fs.contents path).map (· ++ data) ∧
    path ∈ (fs.WriteFile path data true).files.map Prod.fst := by
  have hw : fs.WriteFile path data true =
      { fs with files := (fs.files.map
        (fun f => if f.1 == path then (f.1, f.2 ++ data) else f)) } := by
    simp only [LocalFileSystem.WriteFile, Bool.true_and, decide_eq_true_eq, hmem, if_true]
  rw [hw]
  refine ⟨?_, ?_⟩
  · simp only [LocalFileSystem.contents, LocalFileSystem.find_map_append, Option.map_map]
    rfl
  · simp only [List.mem_map] at hmem ⊢
    obtain ⟨f, hf, hfp⟩ := hmem
    refine ⟨_, ⟨f, hf, rfl⟩, ?_⟩
    simp [hfp]

/-- The outcome of `UploadFileChunk` for a chunk whose index is not 0. -/
theorem UploadFileChunk_next (sw : ServerWorld) (env : RpcEnv) (response : UploadResponse)
    (request : infinity_thrift_rpc.FileChunk) (h0 : request.index ≠ 0) :
    InfinityServiceHandler.UploadFileChunk sw env response request =
      ({ response with error_code := some ErrorCode.kOk,
                       payload := (⟨some false⟩ : UploadPayload) },
       { sw with fs := (sw.fs.WriteFile
          (upload_path env request.db_name request.table_name request.file_name)
          request.data true) }) := by
  unfold InfinityServiceHandler.UploadFileChunk
  simp only [h0, ne_eq, not_false_eq_true, if_true]

theorem upload_chunks_next (env : RpcEnv) (path : String) :
    ∀ (requests : List infinity_thrift_rpc.FileChunk) (sw : ServerWorld),
      (∀ r ∈ requests, r.index ≠ 0 ∧
        upload_path env r.db_name r.table_name r.file_name = path) →
      path ∈ sw.fs.files.map Prod.fst →
      (upload_chunks env requests sw).2.fs.contents path =
        (sw.fs.contents path).map (· ++ (requests.map (·.data)).flatten) ∧
      (upload_chunks env requests sw).1.length = requests.length ∧
      ∀ response ∈ (upload_chunks env requests sw).1,
        response.error_code = some ErrorCode.kOk ∧ response.payload.can_skip = some false := by
  intro requests
  induction requests with
  | nil =>
    intro sw _ _
    refine ⟨?_, rfl, ?_⟩
    · cases h : sw.fs.contents path <;> simp [upload_chunks, h]
    · intro response hr
      cases hr
  | cons request rest ih =>
    intro sw hreq hmem
    have hr := hreq request (List.mem_cons_self _ _)
    have hstep := UploadFileChunk_next sw env (Response.init ⟨none⟩) request hr.1
    rw [hr.2] at hstep
    have hw := LocalFileSystem.WriteFile_append sw.fs path request.data hmem
    have hrest := ih { sw with fs := (sw.fs.WriteFile path request.data true) }
      (fun r h => hreq r (List.mem_cons_of_mem _ h)) hw.2
    simp only [upload_chunks, hstep]
    refine ⟨?_, ?_, ?_⟩
    · rw [hrest.1, hw.1]
      cases h : sw.fs.contents path <;> simp
    · simp [hrest.2.1]
    · intro response hmem2
      rcases List.mem_cons.1 hmem2 with h | h
      · rw [h]; exact ⟨rfl, rfl⟩
      · exact hrest.2.2 response h

/-- C25: let the chunks of one (database, table, file name) be uploaded in
index order, the first with index 0, to a target path that does not exist.
Then the file at the path made of the temporary directory, the database, the
table and the file name, joined by underscores, holds exactly the concatenation
of the chunks, every response has the code `kOk` and `can_skip = false`, and
`Import` of an existing session for the same names hands that path to the
engine. -/
theorem upload_chunks_concat (env : RpcEnv) (db_name table_name file_name : String)
    (requests : List infinity_thrift_rpc.FileChunk) (sw : ServerWorld)
    (hne : requests ≠ [])
    (hreq : ∀ (i : Nat) (hi : i < requests.length),
      (requests.get ⟨i, hi⟩).index = (i : Int) ∧ (requests.get ⟨i, hi⟩).db_name = db_name ∧
      (requests.get ⟨i, hi⟩).table_name = table_name ∧
      (requests.get ⟨i, hi⟩).file_name = file_name)
    (hnofile : sw.fs.Exists
      (env.temp_dir ++ "_" ++ db_name ++ "_" ++ table_name ++ "_" ++ file_name) = false) :
    (upload_chunks env requests sw).2.fs.contents
        (env.temp_dir ++ "_" ++ db_name ++ "_" ++ table_name ++ "_" ++ file_name) =
      some (requests.map (·.data)).flatten ∧
    (upload_chunks env requests sw).1.length = requests.length ∧
    (∀ response ∈ (upload_chunks env requests sw).1,
      response.error_code = some ErrorCode.kOk ∧ response.payload.can_skip = some false) ∧
    (∀ (h : InfinityServiceHandler) (sw1 : ServerWorld) (response : CommonResponse)
      (import_option : infinity_thrift_rpc.ImportOption) (session_id : Int) (infinity : Infinity),
      Map.find h.infinity_session_map_ (toU64 session_id) = some infinity →
      ∃ copy_file_type delimiter,
        (h.Import sw1 env response
          ⟨db_name, table_name, file_name, import_option, session_id⟩).2.calls =
        sw1.calls ++ [EngineCall.Import infinity db_name table_name
          (env.temp_dir ++ "_" ++ db_name ++ "_" ++ table_name ++ "_" ++ file_name)
          copy_file_type delimiter]) := by
  have hpath : ∀ r ∈ requests, upload_path env r.db_name r.table_name r.file_name =
      env.temp_dir ++ "_" ++ db_name ++ "_" ++ table_name ++ "_" ++ file_name := by
    intro r hr
    obtain ⟨i, hi, rfl⟩ := List.getElem_of_mem hr
    have h := hreq i hi
    simp only [List.get_eq_getElem] at h
    rw [upload_path, h.2.1, h.2.2.1, h.2.2.2]
  cases requests with
  | nil => exact absurd rfl hne
  | cons first rest =>
    have h0 : first.index = 0 := by
      have := (hreq 0 (by simp)).1
      simpa using this
    have hp0 := hpath first (List.mem_cons_self _ _)
    have hz := UploadFileChunk_zero sw env (Response.init ⟨none⟩) first h0
    rw [hp0] at hz
    rw [if_neg (by rw [hnofile]; simp), if_neg (by rw [hnofile]; simp)] at hz
    have hrest := upload_chunks_next env
      (env.temp_dir ++ "_" ++ db_name ++ "_" ++ table_name ++ "_" ++ file_name) rest
      { sw with fs := (sw.fs.WriteFile
        (env.temp_dir ++ "_" ++ db_name ++ "_" ++ table_name ++ "_" ++ file_name)
        first.data false) }
      (by
        intro r hr
        refine ⟨?_, hpath r (List.mem_cons_of_mem _ hr)⟩
        obtain ⟨i, hi, rfl⟩ := List.getElem_of_mem hr
        have h := (hreq (i + 1) (by simpa using hi)).1
        simp only [List.get_eq_getElem, List.getElem_cons_succ] at h
        rw [h]
        exact_mod_cast Nat.succ_ne_zero i)
      (by simp [LocalFileSystem.WriteFile])
    refine ⟨?_, ?_, ?_, ?_⟩
    · simp only [upload_chunks, hz]
      rw [hrest.1, LocalFileSystem.contents_WriteFile_new]
      simp
    · simp only [upload_chunks, hz]
      simp [hrest.2.1]
    · intro response hmem
      simp only [upload_chunks, hz] at hmem
      rcases List.mem_cons.1 hmem with h | h
      · rw [h]; exact ⟨rfl, rfl⟩
      · exact hrest.2.2 response h
    · intro h sw1 response import_option session_id infinity hs
      have hl := GetInfinityBySessionID_some h session_id infinity hs
      exact ⟨(GetCopyFileType import_option.copy_file_type).1,
        first_byte import_option.delimiter,
        by simp only [InfinityServiceHandler.Import, hl, ServerWorld.call, upload_path]⟩

/-- C25 at three chunks uploaded to the empty file system. -/
theorem upload_chunks_concat_witness :
    (upload_chunks sample_rpc_env
      [⟨"db", "t", "f", 0, [1, 2], 7, 5⟩, ⟨"db", "t", "f", 1, [3], 7, 5⟩,
       ⟨"db", "t", "f", 2, [4, 5], 7, 5⟩] sample_server_world).2.fs.contents
        "/tmp/infinity_db_t_f" = some [1, 2, 3, 4, 5] :=
  (upload_chunks_concat sample_rpc_env "db" "t" "f"
    [⟨"db", "t", "f", 0, [1, 2], 7, 5⟩, ⟨"db", "t", "f", 1, [3], 7, 5⟩,
     ⟨"db", "t", "f", 2, [4, 5], 7, 5⟩] sample_server_world (List.cons_ne_nil _ _)
    (by
      intro i hi
      have h3 : i < 3 := hi
      interval_cases i <;> exact ⟨rfl, rfl, rfl, rfl⟩)
    (by decide)).1

/-! ## The segment ids of a table index entry -/

theorem Map.mem_emplace {V : Type} (m : Map V) (k : SegmentID) (v : V) :
    ∀ p ∈ Map.emplace m k v, p = (k, v) ∨ p ∈ m := by
  induction m with
  | nil => intro p hp; simp [Map.emplace] at hp; exact Or.inl hp
  | cons hd tl ih =>
    intro p hp
    obtain ⟨k1, v1⟩ := hd
    unfold Map.emplace at hp
    split at hp
    · rcases List.mem_cons.1 hp with h | h
      · exact Or.inl h
      · exact Or.inr h
    · split at hp
      · exact Or.inr hp
      · rcases List.mem_cons.1 hp with h | h
        · exact Or.inr (h ▸ List.mem_cons_self _ _)
        · rcases ih p h with h2 | h2
          · exact Or.inl h2
          · exact Or.inr (List.mem_cons_of_mem _ h2)

theorem Map.WF_emplace {V : Type} (m : Map V) (k : SegmentID) (v : V) (h : Map.WF m) :
    Map.WF (Map.emplace m k v) := by
  induction m with
  | nil => simp [Map.emplace, Map.WF, Map.keys]
  | cons hd tl ih =>
    obtain ⟨k1, v1⟩ := hd
    have h0 := h
    unfold Map.WF Map.keys at h
    rw [List.map_cons, List.pairwise_cons] at h
    unfold Map.emplace
    split
    · rename_i hlt
      unfold Map.WF Map.keys
      rw [List.map_cons, List.pairwise_cons]
      refine ⟨?_, h0⟩
      intro j hj
      rw [List.map_cons] at hj
      rcases List.mem_cons.1 hj with hj | hj
      · rw [hj]; exact hlt
      · exact Nat.lt_trans hlt (h.1 j hj)
    · split
      · exact h0
      · rename_i hnlt hne
        have ih2 := ih h.2
        unfold Map.WF Map.keys
        rw [List.map_cons, List.pairwise_cons]
        refine ⟨?_, ih2⟩
        intro j hj
        rcases (Map.mem_keys_emplace tl k j v).1 hj with hj | hj
        · rw [hj]
          rcases Nat.lt_or_ge k1 k with h3 | h3
          · exact h3
          · rcases Nat.lt_or_eq_of_le h3 with h4 | h4
            · exact absurd h4 hnlt
            · exact absurd h4 hne
        · exact h.1 j hj

theorem Map.keyed_emplace (m : Map SegmentIndexEntry) (k : SegmentID) (v : SegmentIndexEntry)
    (hv : v.segment_id = k) (h : Map.keyed m) : Map.keyed (Map.emplace m k v) := by
  refine ⟨Map.WF_emplace m k v h.1, ?_⟩
  intro p hp
  rcases Map.mem_emplace m k v p hp with h1 | h1
  · rw [h1]; exact hv
  · exact h.2 p h1

theorem Map.keyed_filter (m : Map SegmentIndexEntry) (f : SegmentID × SegmentIndexEntry → Bool)
    (h : Map.keyed m) : Map.keyed (m.filter f) := by
  refine ⟨?_, fun p hp => h.2 p (List.mem_filter.1 hp).1⟩
  unfold Map.WF Map.keys
  exact List.Pairwise.sublist ((List.filter_sublist m).map Prod.fst) h.1

theorem Map.keyed_nodup (m : Map SegmentIndexEntry) (h : Map.keyed m) :
    (m.map (fun p => p.2.segment_id)).Nodup := by
  have hmap : m.map (fun p => p.2.segment_id) = Map.keys m := by
    unfold Map.keys
    exact List.map_congr_left (fun p hp => h.2 p hp)
  rw [hmap]
  exact List.Pairwise.imp (fun hlt => Nat.ne_of_lt hlt) h.1

theorem RollbackCreateIndex.loop_keyed :
    ∀ (store : List (SegmentID × SegmentIndexEntry)) (m m1 : Map SegmentIndexEntry) (w w1 : World),
      RollbackCreateIndex.loop store m w = Except.ok (m1, w1) → Map.keyed m → Map.keyed m1 := by
  intro store
  induction store with
  | nil =>
    intro m m1 w w1 h hk
    simp only [RollbackCreateIndex.loop, Except.ok.injEq, Prod.mk.injEq] at h
    rw [← h.1]; exact hk
  | cons hd tl ih =>
    intro m m1 w w1 h hk
    obtain ⟨k, v⟩ := hd
    unfold RollbackCreateIndex.loop at h
    simp only at h
    split at h
    · cases h
    · exact ih _ _ _ _ h (Map.keyed_filter m _ hk)

theorem CreateIndexPrepare.loop_prepare_keyed (u : SegmentID) (prepare is_replay check_ts : Bool) :
    ∀ (segments : List SegmentEntry) (e : TableIndexEntry) (w : World)
      (acc : List SegmentIndexEntry),
      Map.keyed e.index_by_segment_ →
      Map.keyed
        (CreateIndexPrepare.loop u prepare is_replay check_ts segments e w acc).2.1.index_by_segment_ := by
  intro segments
  induction segments with
  | nil => intro e w acc h; exact h
  | cons s tl ih =>
    intro e w acc h
    unfold CreateIndexPrepare.loop
    apply ih
    have hk := Map.keyed_emplace e.index_by_segment_ s.segment_id
      (SegmentIndexEntry.NewIndexEntry w s.segment_id).1 rfl h
    simp only
    split
    · exact hk
    · exact hk

theorem Op.apply_keyed (op : Op) (e e1 : TableIndexEntry) (w w1 : World)
    (h : op.apply e w = Except.ok (e1, w1)) (hk : Map.keyed e.index_by_segment_) :
    Map.keyed e1.index_by_segment_ := by
  cases op with
  | GetOrCreateSegment segment_id =>
    simp only [Op.apply, Except.ok.injEq] at h
    unfold TableIndexEntry.GetOrCreateSegment at h
    split at h
    · simp only [Prod.mk.injEq] at h
      rw [← h.1]
      exact Map.keyed_emplace _ _ _ rfl hk
    · simp only [Prod.mk.injEq] at h
      rw [← h.1]; exact hk
  | CommitCreateIndex store commit_ts is_replay =>
    simp only [Op.apply, TableIndexEntry.CommitCreateIndex] at h
    split at h
    · cases h
    · split at h
      · simp only [Except.ok.injEq, Prod.mk.injEq] at h
        rw [← h.1]
        split <;> exact hk
      · simp only [Except.ok.injEq, Prod.mk.injEq] at h
        rw [← h.1]
        split <;> exact hk
  | RollbackCreateIndex store =>
    simp only [Op.apply, TableIndexEntry.RollbackCreateIndex] at h
    split at h
    · cases h
    · rename_i r hr
      simp only [Except.ok.injEq, Prod.mk.injEq] at h
      rw [← h.1]
      exact RollbackCreateIndex.loop_keyed _ _ r.1 _ r.2 hr hk
  | PopulateEntirely segment_entry =>
    simp only [Op.apply, TableIndexEntry.PopulateEntirely] at h
    cases hib : e.index_base_ with
    | none => simp [hib] at h
    | some ib =>
      simp only [hib] at h
      by_cases hft : ib.index_type_ = IndexType.kFullText
      · simp only [hft, ne_eq, not_true_eq_false, if_false, Except.ok.injEq, Prod.mk.injEq] at h
        rw [← h.1]
        exact Map.keyed_emplace _ _ _ rfl hk
      · simp only [hft, ne_eq, not_false_eq_true, if_true, Except.ok.injEq, Prod.mk.injEq] at h
        rw [← h.1]; exact hk
  | CreateIndexPrepare unsealed_id segments prepare is_replay check_ts =>
    simp only [Op.apply, TableIndexEntry.CreateIndexPrepare, Except.ok.injEq, Prod.mk.injEq] at h
    rw [← h.1]
    exact CreateIndexPrepare.loop_prepare_keyed _ _ _ _ _ _ _ _ hk
  | PickCleanupBySegments sorted_segment_ids =>
    simp only [Op.apply, TableIndexEntry.PickCleanupBySegments, Except.ok.injEq,
      Prod.mk.injEq] at h
    rw [← h.1]
    show Map.keyed (PickCleanupBySegments.loop sorted_segment_ids e.index_by_segment_ ⟨[]⟩).1
    rw [PickCleanupBySegments.loop_fst]
    exact Map.keyed_filter _ _ hk
  | UpdateEntryReplay txn_id begin_ts commit_ts =>
    simp only [Op.apply, TableIndexEntry.UpdateEntryReplay, Except.ok.injEq, Prod.mk.injEq] at h
    rw [← h.1]; exact hk

theorem runOps_keyed :
    ∀ (ops : List Op) (e e1 : TableIndexEntry) (w w1 : World),
      runOps ops e w = Except.ok (e1, w1) → Map.keyed e.index_by_segment_ →
      Map.keyed e1.index_by_segment_ := by
  intro ops
  induction ops with
  | nil =>
    intro e e1 w w1 h hk
    simp only [runOps, Except.ok.injEq, Prod.mk.injEq] at h
    rw [← h.1]; exact hk
  | cons op tl ih =>
    intro e e1 w w1 h hk
    simp only [runOps] at h
    cases ha : op.apply e w with
    | error ex => rw [ha] at h; cases h
    | ok r =>
      rw [ha] at h
      exact ih r.1 e1 r.2 w1 h (Op.apply_keyed op e r.1 w r.2 ha hk)

theorem construct_index_by_segment (env : Env) (index_base : Option IndexBase) (is_delete : Bool)
    (dir : Option String) (txn_id : TransactionID) (begin_ts : TxnTimeStamp) (e : TableIndexEntry)
    (h : TableIndexEntry.construct env index_base is_delete dir txn_id begin_ts = Except.ok e) :
    e.index_by_segment_ = [] := by
  unfold TableIndexEntry.construct at h
  split at h
  · split at h
    · cases h
    · simp only [Except.ok.injEq] at h
      rw [← h]
  · simp only [Except.ok.injEq] at h
    rw [← h]

theorem NewTableIndexEntry_index_by_segment (env : Env) (index_base : Option IndexBase)
    (is_delete : Bool) (table_entry_dir : String) (txn_id : TransactionID)
    (begin_ts : TxnTimeStamp) (e : TableIndexEntry)
    (h : TableIndexEntry.NewTableIndexEntry env index_base is_delete table_entry_dir txn_id
      begin_ts = Except.ok e) :
    e.index_by_segment_ = [] := by
  unfold TableIndexEntry.NewTableIndexEntry at h
  by_cases hd : is_delete = true
  · rw [if_pos hd] at h
    exact construct_index_by_segment _ _ _ _ _ _ _ h
  · rw [if_neg hd] at h
    have hf : is_delete = false := by simpa using hd
    subst hf
    cases index_base with
    | none => cases h
    | some ib =>
      simp only [Bool.false_eq_true, if_false] at h
      cases hc : TableIndexEntry.construct env (some ib) false
          (some (env.DetermineIndexDir table_entry_dir ib.index_name_)) txn_id begin_ts with
      | error ex => rw [hc] at h; cases h
      | ok e1 =>
        rw [hc] at h
        simp only at h
        split at h
        · simp [RecoverableError] at h
        · simp only [Except.ok.injEq] at h
          rw [← h]
          exact construct_index_by_segment _ _ _ _ _ _ _ hc

theorem ReplayTableIndexEntry_index_by_segment (env : Env) (is_delete : Bool)
    (index_base : Option IndexBase) (dir : Option String) (txn_id : TransactionID)
    (begin_ts commit_ts : TxnTimeStamp) (e : TableIndexEntry)
    (h : TableIndexEntry.ReplayTableIndexEntry env is_delete index_base dir txn_id begin_ts
      commit_ts = Except.ok e) :
    e.index_by_segment_ = [] := by
  unfold TableIndexEntry.ReplayTableIndexEntry at h
  split at h
  · cases h
  · rename_i e1 he1
    simp only [Except.ok.injEq] at h
    rw [← h]
    show e1.index_by_segment_ = []
    exact construct_index_by_segment _ _ _ _ _ _ _ he1

theorem foldl_emplace_keyed (env : Env) :
    ∀ (segments : List Json) (m : Map SegmentIndexEntry), Map.keyed m →
      Map.keyed (segments.foldl
        (fun m segment_index_entry_json =>
          Map.emplace m (env.SegmentIndexEntry_Deserialize segment_index_entry_json).segment_id
            (env.SegmentIndexEntry_Deserialize segment_index_entry_json)) m) := by
  intro segments
  induction segments with
  | nil => intro m h; exact h
  | cons s tl ih =>
    intro m h
    exact ih _ (Map.keyed_emplace m _ _ rfl h)

theorem Deserialize_keyed (env : Env) (json : Json) (e : TableIndexEntry)
    (h : TableIndexEntry.Deserialize env json = Except.ok e) :
    Map.keyed e.index_by_segment_ := by
  have hnil : Map.keyed ([] : Map SegmentIndexEntry) :=
    ⟨List.Pairwise.nil, fun p hp => absurd hp (List.not_mem_nil p)⟩
  unfold TableIndexEntry.Deserialize at h
  split at h
  · split at h
    · rename_i txn_id begin_ts commit_ts deleted h1 h2 h3 h4
      by_cases hdel : deleted = true
      · rw [if_pos hdel] at h
        cases hrep : TableIndexEntry.ReplayTableIndexEntry env true none none txn_id begin_ts
            commit_ts with
        | error ex => rw [hrep] at h; cases h
        | ok e1 =>
          rw [hrep] at h
          simp only [Except.ok.injEq] at h
          rw [← h]
          show Map.keyed e1.index_by_segment_
          rw [ReplayTableIndexEntry_index_by_segment _ _ _ _ _ _ _ _ hrep]
          exact hnil
      · rw [if_neg hdel] at h
        split at h
        · rename_i index_dir index_base_json h5 h6
          simp only at h
          cases hrep : TableIndexEntry.ReplayTableIndexEntry env false
              (some (env.IndexBase_Deserialize index_base_json)) (some index_dir) txn_id begin_ts
              commit_ts with
          | error ex => rw [hrep] at h; cases h
          | ok e1 =>
            rw [hrep] at h
            have hm := ReplayTableIndexEntry_index_by_segment _ _ _ _ _ _ _ _ hrep
            simp only at h
            split at h
            · simp only [Except.ok.injEq] at h
              rw [← h]
              show Map.keyed (List.foldl _ e1.index_by_segment_ _)
              rw [hm]
              exact foldl_emplace_keyed env _ [] hnil
            · simp only [Except.ok.injEq] at h
              rw [← h]
              show Map.keyed e1.index_by_segment_
              rw [hm]
              exact hnil
        · cases h
        · cases h
    · cases h
    · cases h
    · cases h
    · cases h
  · cases h

/-- C29, as stated, fails for the entry behind `last_segment_`: on a new
full-text entry, `GetOrCreateSegment(5)` stores the entry at address 0 under
key 5; `CreateIndexPrepare` over segment 5, the unsealed segment, makes a
second entry with segment id 5 at address 1, whose `emplace` finds the key
taken, and assigns it to `last_segment_`. The table index entry then holds two
different segment index entries with the segment id 5. -/
theorem segment_id_shared_counterexample :
    TableIndexEntry.NewTableIndexEntry sample_env (some sample_fulltext_base) false "/tbl" 7 3 =
      Except.ok ⟨7, 3, 0, false, some sample_fulltext_base, some "/tbl/ft", none, [], none⟩ ∧
    (runOps [Op.GetOrCreateSegment 5, Op.CreateIndexPrepare 5 [⟨5, 10, 16⟩] true false true]
        ⟨7, 3, 0, false, some sample_fulltext_base, some "/tbl/ft", none, [], none⟩
        ⟨0, []⟩).map Prod.fst =
      Except.ok ⟨7, 3, 0, false, some sample_fulltext_base, some "/tbl/ft", none,
        [(5, ⟨0, 5⟩)], some ⟨1, 5⟩⟩ ∧
    (⟨0, 5⟩ : SegmentIndexEntry) ≠ ⟨1, 5⟩ ∧
    (⟨0, 5⟩ : SegmentIndexEntry).segment_id = (⟨1, 5⟩ : SegmentIndexEntry).segment_id :=
  ⟨rfl, rfl, by decide, rfl⟩

/-- C29, amended: in every state which a sequence of method calls
(`GetOrCreateSegment`, `PopulateEntirely`, `CreateIndexPrepare`,
`CommitCreateIndex`, `RollbackCreateIndex`, `PickCleanupBySegments`, and
`UpdateEntryReplay` as well) reaches from an entry made by `NewTableIndexEntry`
or by `Deserialize`, every segment index entry stored in `index_by_segment_`
under key `k` has the segment id `k`, and the segment ids of the entries stored
in `index_by_segment_` are pairwise different. -/
theorem segment_id_unique (env : Env) (e0 e : TableIndexEntry) (w0 w : World) (ops : List Op)
    (hinit : (∃ index_base is_delete table_entry_dir txn_id begin_ts,
        TableIndexEntry.NewTableIndexEntry env index_base is_delete table_entry_dir txn_id
          begin_ts = Except.ok e0) ∨
      (∃ json, TableIndexEntry.Deserialize env json = Except.ok e0))
    (hrun : runOps ops e0 w0 = Except.ok (e, w)) :
    (∀ p ∈ e.index_by_segment_, p.2.segment_id = p.1) ∧
    (e.index_by_segment_.map (fun p => p.2.segment_id)).Nodup := by
  have h0 : Map.keyed e0.index_by_segment_ := by
    rcases hinit with ⟨ib, d, dir, t, b, h⟩ | ⟨json, h⟩
    · rw [NewTableIndexEntry_index_by_segment _ _ _ _ _ _ _ h]
      exact ⟨List.Pairwise.nil, fun p hp => absurd hp (List.not_mem_nil p)⟩
    · exact Deserialize_keyed env json e0 h
  have hk := runOps_keyed ops e0 e w0 w hrun h0
  exact ⟨hk.2, Map.keyed_nodup _ hk⟩

/-- C29 at a new full-text entry on which segment 5 is created, segments 2 and
5 are prepared, segment 3 is populated and segment 2 is picked for cleanup: the
entries for 3 and 5 remain, each under its own id. -/
theorem segment_id_unique_witness :
    runOps [Op.GetOrCreateSegment 5, Op.CreateIndexPrepare 5 [⟨2, 10, 16⟩, ⟨5, 10, 16⟩]
          true false true, Op.PopulateEntirely ⟨3, 4, 16⟩, Op.PickCleanupBySegments [2]]
        ⟨7, 3, 0, false, some sample_fulltext_base, some "/tbl/ft", none, [], none⟩ ⟨0, []⟩ =
      Except.ok
        (⟨7, 3, 0, false, some sample_fulltext_base, some "/tbl/ft", none,
          [(3, ⟨3, 3⟩), (5, ⟨0, 5⟩)], some ⟨2, 5⟩⟩,
         ⟨4, [Event.CreateIndexPrepare ⟨1, 2⟩ 2 true true,
              Event.CreateIndexPrepare ⟨2, 5⟩ 5 true true, Event.PopulateEntirely ⟨3, 3⟩ 3]⟩) ∧
    ([(3, (⟨3, 3⟩ : SegmentIndexEntry)), (5, ⟨0, 5⟩)].map (fun p => p.2.segment_id)).Nodup :=
  ⟨rfl,
    (segment_id_unique sample_env
      ⟨7, 3, 0, false, some sample_fulltext_base, some "/tbl/ft", none, [], none⟩
      ⟨7, 3, 0, false, some sample_fulltext_base, some "/tbl/ft", none,
        [(3, ⟨3, 3⟩), (5, ⟨0, 5⟩)], some ⟨2, 5⟩⟩
      ⟨0, []⟩
      ⟨4, [Event.CreateIndexPrepare ⟨1, 2⟩ 2 true true,
           Event.CreateIndexPrepare ⟨2, 5⟩ 5 true true, Event.PopulateEntirely ⟨3, 3⟩ 3]⟩
      [Op.GetOrCreateSegment 5, Op.CreateIndexPrepare 5 [⟨2, 10, 16⟩, ⟨5, 10, 16⟩]
        true false true, Op.PopulateEntirely ⟨3, 4, 16⟩, Op.PickCleanupBySegments [2]]
      (Or.inl ⟨some sample_fulltext_base, false, "/tbl", 7, 3, rfl⟩) rfl).2⟩

/-! ## Encoding of fixed-width columns -/

theorem le_bytes_four (n : Nat) :
    le_bytes 4 n = [n % 256, n / 256 % 256, n / 65536 % 256, n / 16777216 % 256] := by
  simp [le_bytes, List.range, List.range.loop]

theorem from_le_bytes_le_bytes (n : Nat) (h : n < 2 ^ 32) : from_le_bytes (le_bytes 4 n) = n := by
  rw [le_bytes_four]
  simp only [from_le_bytes]
  norm_num at h
  omega

theorem toI32_of_lt (n : Nat) (h : n < 2 ^ 31) : toI32 n = (n : Int) := by
  unfold toI32
  have h2 : n % 2 ^ 32 = n := Nat.mod_eq_of_lt (by omega)
  rw [h2, if_pos h]

theorem toU64_natCast (n : Nat) (h : n < 2 ^ 64) : toU64 (n : Int) = n := by
  unfold toU64
  have h2 : ((n : Int) % 2 ^ 64) = (n : Int) := Int.emod_eq_of_lt (by omega) (by exact_mod_cast h)
  rw [h2]
  exact Int.toNat_natCast n

theorem i32_bytes_natCast (n : Nat) (h : n < 2 ^ 32) : i32_bytes (n : Int) = le_bytes 4 n := by
  unfold i32_bytes
  have h2 : ((n : Int) % 2 ^ 32) = (n : Int) := Int.emod_eq_of_lt (by omega) (by exact_mod_cast h)
  rw [h2, Int.toNat_natCast]

theorem memcpy_to_zeros (A s : List Nat) (k : Nat) (hs : s.length ≤ k) :
    memcpy_to (A ++ List.replicate k 0) (A.length : Int) s =
      Except.ok (A ++ s ++ List.replicate (k - s.length) 0) := by
  unfold memcpy_to
  have hcond : (0 : Int) ≤ (A.length : Int) ∧
      (A.length : Int) + (s.length : Int) ≤ ((A ++ List.replicate k 0).length : Int) := by
    refine ⟨Int.natCast_nonneg _, ?_⟩
    rw [List.length_append, List.length_replicate]
    exact_mod_cast Nat.add_le_add_left hs _
  rw [if_pos hcond, Int.toNat_natCast]
  have h1 : (A ++ List.replicate k 0).take A.length = A := by simp
  have h2 : (A ++ List.replicate k 0).drop (A.length + s.length) =
      List.replicate (k - s.length) 0 := by
    rw [List.drop_append_eq_append_drop]
    simp
  rw [h1, h2]
  rfl

theorem VarcharT.string_length (column_vector : ColumnVector) (varchar : VarcharT)
    (hinline : varchar.IsInlined = true → varchar.length_ ≤ varchar.short_data_.length) :
    (varchar.string column_vector).length = varchar.length_ := by
  unfold VarcharT.string
  split
  · rename_i h
    rw [List.length_take]
    exact Nat.min_eq_left (hinline h)
  · rw [List.length_take, List.length_append, List.length_replicate]
    omega

theorem take_append_zeros (r : List Nat) (n : Nat) :
    ((r ++ List.replicate (n + 1) 0).take (n + 1)).take n = (r ++ List.replicate n 0).take n := by
  rw [List.take_take, Nat.min_eq_left (Nat.le_succ n), List.replicate_succ', ← List.append_assoc]
  rw [List.take_append_of_le_length]
  rw [List.length_append, List.length_replicate]
  omega

theorem row_bytes_eq (column_vector : ColumnVector) (varchar : VarcharT)
    (hinline : varchar.IsInlined = true → varchar.length_ ≤ varchar.short_data_.length) :
    HandleVarcharType.row_bytes column_vector varchar =
      Except.ok (varchar.string column_vector) := by
  unfold HandleVarcharType.row_bytes VarcharT.string
  by_cases h : varchar.IsInlined = true
  · simp only [h, if_true, memcpy_from, hinline h]
    rfl
  · simp only [h, Bool.false_eq_true, if_false, memcpy_from]
    have hlen : varchar.length_ ≤
        ((column_vector.ReadFromHeap varchar.chunk_id_ varchar.chunk_offset_ varchar.length_ ++
          List.replicate (varchar.length_ + 1) 0).take (varchar.length_ + 1)).length := by
      rw [List.length_take, List.length_append, List.length_replicate]
      omega
    rw [if_pos hlen, take_append_zeros]
    rfl

/-- One round of the second loop of `HandleVarcharType`, at an offset below
2^31, on a destination whose bytes from the offset on are still zero. -/
theorem HandleVarcharType.loop_step (column_vector : ColumnVector) (n index : Nat)
    (A : List Nat) (k : Nat) (varchar : VarcharT)
    (hv : column_vector.varchars[index]? = some varchar)
    (hinline : varchar.IsInlined = true → varchar.length_ ≤ varchar.short_data_.length)
    (hlen : varchar.length_ < 2 ^ 31) (hoff : A.length < 2 ^ 31)
    (hk : 4 + varchar.length_ ≤ k) :
    HandleVarcharType.loop column_vector (n + 1) index (A.length : Int)
        (A ++ List.replicate k 0) =
      HandleVarcharType.loop column_vector n (index + 1)
        (toI32 (A.length + 4 + varchar.length_))
        ((A ++ le_bytes 4 varchar.length_ ++ varchar.string column_vector) ++
          List.replicate (k - 4 - varchar.length_) 0) := by
  have hle : (le_bytes 4 varchar.length_).length = 4 := by simp [le_bytes]
  have hs := VarcharT.string_length column_vector varchar hinline
  have h1 := memcpy_to_zeros A (le_bytes 4 varchar.length_) k (by omega)
  have h2 := memcpy_to_zeros (A ++ le_bytes 4 varchar.length_) (varchar.string column_vector)
    (k - 4) (by omega)
  rw [hle] at h1
  rw [List.length_append, hle, hs] at h2
  have hcast : (((A.length + 4 : Nat)) : Int) = (A.length : Int) + 4 := by push_cast; rfl
  rw [hcast] at h2
  have hu : toU64 (A.length : Int) = A.length := toU64_natCast _ (by omega)
  rw [HandleVarcharType.loop]
  simp only [hv, row_bytes_eq column_vector varchar hinline, toI32_of_lt _ hlen,
    i32_bytes_natCast _ (show varchar.length_ < 2 ^ 32 by omega), bind, Except.bind, h1, h2, hu]

/-- A round of the second loop at a negative offset writes before the
destination. -/
theorem HandleVarcharType.loop_negative (column_vector : ColumnVector) (n index : Nat)
    (current_offset : Int) (dst : List Nat) (varchar : VarcharT)
    (hv : column_vector.varchars[index]? = some varchar)
    (hinline : varchar.IsInlined = true → varchar.length_ ≤ varchar.short_data_.length)
    (hneg : current_offset < 0) :
    HandleVarcharType.loop column_vector (n + 1) index current_offset dst =
      Except.error Exception.UndefinedBehaviour := by
  unfold HandleVarcharType.loop
  have hc : ¬ (0 ≤ current_offset ∧
      current_offset + ((i32_bytes (toI32 varchar.length_)).length : Int) ≤ (dst.length : Int)) :=
    fun h => absurd h.1 (not_le.2 hneg)
  simp only [hv, row_bytes_eq column_vector varchar hinline, bind, Except.bind, memcpy_to, hc,
    if_false]

theorem spec_varchar_buffer_cons (s : List Nat) (rows : List (List Nat)) :
    spec_varchar_buffer (s :: rows) = le_bytes 4 s.length ++ s ++ spec_varchar_buffer rows := by
  simp [spec_varchar_buffer]

theorem spec_varchar_buffer_length (rows : List (List Nat)) :
    (spec_varchar_buffer rows).length = (rows.map List.length).sum + 4 * rows.length := by
  induction rows with
  | nil => rfl
  | cons s tl ih =>
    rw [spec_varchar_buffer_cons, List.length_append, List.length_append, ih]
    simp [le_bytes]
    omega

theorem HandleVarcharType.total_eq (varchars : List VarcharT) :
    ∀ (rows pre : List VarcharT) (acc : Nat), varchars = pre ++ rows →
      acc + (rows.map (·.length_)).sum < 2 ^ 64 →
      HandleVarcharType.total varchars rows.length pre.length acc =
        Except.ok (acc + (rows.map (·.length_)).sum) := by
  intro rows
  induction rows with
  | nil => intro pre acc _ _; simp [HandleVarcharType.total, pure, Except.pure]
  | cons v tl ih =>
    intro pre acc hv hlt
    have hget : varchars[pre.length]? = some v := by
      rw [hv, List.getElem?_append_right (le_refl _)]; simp
    simp only [List.map_cons, List.sum_cons] at hlt
    have hmod : (acc + v.length_) % 2 ^ 64 = acc + v.length_ := Nat.mod_eq_of_lt (by omega)
    have ih2 := ih (pre ++ [v]) (acc + v.length_) (by rw [hv]; simp) (by omega)
    rw [List.length_append, List.length_singleton] at ih2
    simp only [List.length_cons, HandleVarcharType.total, hget, hmod, ih2, List.map_cons,
      List.sum_cons, Nat.add_assoc]

theorem HandleVarcharType.loop_rows_eq (column_vector : ColumnVector) :
    ∀ (rows pre : List VarcharT) (A : List Nat), column_vector.varchars = pre ++ rows →
      (∀ v ∈ rows, v.IsInlined = true → v.length_ ≤ v.short_data_.length) →
      A.length + (spec_varchar_buffer (rows.map (VarcharT.string column_vector))).length <
        2 ^ 31 →
      HandleVarcharType.loop column_vector rows.length pre.length (A.length : Int)
          (A ++ List.replicate
            (spec_varchar_buffer (rows.map (VarcharT.string column_vector))).length 0) =
        Except.ok (A ++ spec_varchar_buffer (rows.map (VarcharT.string column_vector))) := by
  intro rows
  induction rows with
  | nil =>
    intro pre A _ _ _
    simp [HandleVarcharType.loop, spec_varchar_buffer, pure, Except.pure]
  | cons v tl ih =>
    intro pre A hv hinline hlt
    have hget : column_vector.varchars[pre.length]? = some v := by
      rw [hv, List.getElem?_append_right (le_refl _)]; simp
    have hin := hinline v (List.mem_cons_self _ _)
    have hs := VarcharT.string_length column_vector v hin
    have hle : (le_bytes 4 v.length_).length = 4 := by simp [le_bytes]
    rw [List.map_cons, spec_varchar_buffer_cons, hs] at hlt ⊢
    rw [List.length_append, List.length_append, hle, hs] at hlt ⊢
    have hstep := HandleVarcharType.loop_step column_vector tl.length pre.length A
      (4 + v.length_ + (spec_varchar_buffer (tl.map (VarcharT.string column_vector))).length)
      v hget hin (by omega) (by omega) (by omega)
    have hk : 4 + v.length_ + (spec_varchar_buffer (tl.map (VarcharT.string column_vector))).length
        - 4 - v.length_ =
        (spec_varchar_buffer (tl.map (VarcharT.string column_vector))).length := by omega
    rw [hk, toI32_of_lt _ (by omega)] at hstep
    have hA : (A ++ le_bytes 4 v.length_ ++ VarcharT.string column_vector v).length =
        A.length + 4 + v.length_ := by
      rw [List.length_append, List.length_append, hle, hs]
    have ih2 := ih (pre ++ [v]) (A ++ le_bytes 4 v.length_ ++ VarcharT.string column_vector v)
      (by rw [hv]; simp) (fun x hx => hinline x (List.mem_cons_of_mem _ hx))
      (by rw [hA]; omega)
    rw [hA, List.length_append, List.length_singleton] at ih2
    rw [List.length_cons, hstep, ih2]
    simp [List.append_assoc]

theorem decode_varchars_step (fuel a b c d : Nat) (rest : List Nat) :
    decode_varchars (fuel + 1) (a :: b :: c :: d :: rest) =
      rest.take (from_le_bytes [a, b, c, d]) ::
        decode_varchars fuel (rest.drop (from_le_bytes [a, b, c, d])) := rfl

theorem decode_varchars_eq :
    ∀ (rows : List (List Nat)) (fuel : Nat), (∀ s ∈ rows, s.length < 2 ^ 32) →
      rows.length ≤ fuel → decode_varchars fuel (spec_varchar_buffer rows) = rows := by
  intro rows
  induction rows with
  | nil =>
    intro fuel _ _
    cases fuel <;> rfl
  | cons s tl ih =>
    intro fuel hlt hfuel
    cases fuel with
    | zero => simp at hfuel
    | succ f =>
      have hs := hlt s (List.mem_cons_self _ _)
      have hfrom := from_le_bytes_le_bytes s.length hs
      rw [le_bytes_four] at hfrom
      have hbuf : spec_varchar_buffer (s :: tl) =
          s.length % 256 :: (s.length / 256 % 256) :: (s.length / 65536 % 256) ::
            (s.length / 16777216 % 256) :: (s ++ spec_varchar_buffer tl) := by
        rw [spec_varchar_buffer_cons, le_bytes_four]; simp
      rw [hbuf, decode_varchars_step, hfrom, List.take_left, List.drop_left,
        ih f (fun x hx => hlt x (List.mem_cons_of_mem _ hx)) (by simpa using hfuel)]

/-- The second loop over rows whose encoding ends below 2^31, with further
rows to come: the rows are written and the offset has advanced by their size. -/
theorem HandleVarcharType.loop_prefix (column_vector : ColumnVector) :
    ∀ (rows pre post : List VarcharT) (A : List Nat) (m extra : Nat),
      column_vector.varchars = pre ++ rows ++ post →
      (∀ v ∈ rows, v.IsInlined = true → v.length_ ≤ v.short_data_.length) →
      A.length + (spec_varchar_buffer (rows.map (VarcharT.string column_vector))).length <
        2 ^ 31 →
      HandleVarcharType.loop column_vector (rows.length + m) pre.length (A.length : Int)
          (A ++ List.replicate
            ((spec_varchar_buffer (rows.map (VarcharT.string column_vector))).length + extra)
            0) =
        HandleVarcharType.loop column_vector m (pre.length + rows.length)
          ((A.length + (spec_varchar_buffer
            (rows.map (VarcharT.string column_vector))).length : Nat) : Int)
          ((A ++ spec_varchar_buffer (rows.map (VarcharT.string column_vector))) ++
            List.replicate extra 0) := by
  intro rows
  induction rows with
  | nil =>
    intro pre post A m extra _ _ _
    simp [spec_varchar_buffer]
  | cons v tl ih =>
    intro pre post A m extra hv hinline hlt
    have hget : column_vector.varchars[pre.length]? = some v := by
      rw [hv, List.append_assoc, List.getElem?_append_right (le_refl _)]; simp
    have hin := hinline v (List.mem_cons_self _ _)
    have hs := VarcharT.string_length column_vector v hin
    have hle : (le_bytes 4 v.length_).length = 4 := by simp [le_bytes]
    rw [List.map_cons, spec_varchar_buffer_cons, hs] at hlt ⊢
    rw [List.length_append, List.length_append, hle, hs] at hlt ⊢
    have hstep := HandleVarcharType.loop_step column_vector (tl.length + m) pre.length A
      (4 + v.length_ + (spec_varchar_buffer (tl.map (VarcharT.string column_vector))).length +
        extra)
      v hget hin (by omega) (by omega) (by omega)
    have hk : 4 + v.length_ +
        (spec_varchar_buffer (tl.map (VarcharT.string column_vector))).length + extra
        - 4 - v.length_ =
        (spec_varchar_buffer (tl.map (VarcharT.string column_vector))).length + extra := by
      omega
    rw [hk, toI32_of_lt _ (by omega)] at hstep
    have hA : (A ++ le_bytes 4 v.length_ ++ VarcharT.string column_vector v).length =
        A.length + 4 + v.length_ := by
      rw [List.length_append, List.length_append, hle, hs]
    have ih2 := ih (pre ++ [v]) post
      (A ++ le_bytes 4 v.length_ ++ VarcharT.string column_vector v) m extra
      (by rw [hv]; simp) (fun x hx => hinline x (List.mem_cons_of_mem _ hx))
      (by rw [hA]; omega)
    rw [hA, List.length_append, List.length_singleton] at ih2
    have hn : (v :: tl).length + m = tl.length + m + 1 := by
      rw [List.length_cons]; omega
    rw [hn, hstep, ih2]
    have e1 : pre.length + 1 + tl.length = pre.length + (v :: tl).length := by
      rw [List.length_cons]; omega
    have e2 : A.length + 4 + v.length_ +
        (spec_varchar_buffer (tl.map (VarcharT.string column_vector))).length =
        A.length + (4 + v.length_ +
          (spec_varchar_buffer (tl.map (VarcharT.string column_vector))).length) := by omega
    rw [e1, e2]
    simp only [List.append_assoc]

/-- The second loop when the rows before the last end at or above 2^31: the
offset of the last row is negative and its `memcpy` leaves the destination. -/
theorem HandleVarcharType.loop_wraps (column_vector : ColumnVector)
    (rows : List VarcharT) (v w : VarcharT) (K : Nat)
    (hv : column_vector.varchars = rows ++ [v, w])
    (hinline : ∀ x ∈ rows ++ [v, w], x.IsInlined = true → x.length_ ≤ x.short_data_.length)
    (hfit : (spec_varchar_buffer (rows.map (VarcharT.string column_vector))).length < 2 ^ 31)
    (hlen : v.length_ < 2 ^ 31)
    (hwrap : 2 ^ 31 ≤ (spec_varchar_buffer (rows.map (VarcharT.string column_vector))).length +
      4 + v.length_)
    (hlt32 : (spec_varchar_buffer (rows.map (VarcharT.string column_vector))).length + 4 +
      v.length_ < 2 ^ 32)
    (hK : (spec_varchar_buffer (rows.map (VarcharT.string column_vector))).length + 4 +
      v.length_ ≤ K) :
    HandleVarcharType.loop column_vector (rows.length + 2) 0 0 (List.replicate K 0) =
      Except.error Exception.UndefinedBehaviour := by
  have hpre := HandleVarcharType.loop_prefix column_vector rows [] [v, w] [] 2
    (K - (spec_varchar_buffer (rows.map (VarcharT.string column_vector))).length)
    (by rw [hv]; simp) (fun x hx => hinline x (List.mem_append_left _ hx))
    (by simpa using hfit)
  have hK2 : (spec_varchar_buffer (rows.map (VarcharT.string column_vector))).length +
      (K - (spec_varchar_buffer (rows.map (VarcharT.string column_vector))).length) = K := by
    omega
  simp only [List.length_nil, List.nil_append, Nat.zero_add, hK2, Nat.cast_zero] at hpre
  rw [hpre]
  have hgv : column_vector.varchars[rows.length]? = some v := by
    rw [hv, List.getElem?_append_right (le_refl _)]; simp
  have hgw : column_vector.varchars[rows.length + 1]? = some w := by
    rw [hv, List.getElem?_append_right (by omega)]; simp
  have hstep := HandleVarcharType.loop_step column_vector 1 rows.length
    (spec_varchar_buffer (rows.map (VarcharT.string column_vector)))
    (K - (spec_varchar_buffer (rows.map (VarcharT.string column_vector))).length) v hgv
    (hinline v (by simp)) hlen hfit (by omega)
  rw [hstep]
  apply HandleVarcharType.loop_negative column_vector 0 (rows.length + 1) _ _ w hgw
    (hinline w (by simp))
  unfold toI32
  have h1 : ((spec_varchar_buffer (rows.map (VarcharT.string column_vector))).length + 4 +
      v.length_) % 2 ^ 32 =
      (spec_varchar_buffer (rows.map (VarcharT.string column_vector))).length + 4 +
        v.length_ := Nat.mod_eq_of_lt hlt32
  rw [h1, if_neg (by omega)]
  omega

/-- The first loop and the resize of `HandleVarcharType` followed by a second
loop which leaves the destination. -/
theorem HandleVarcharType_wraps (output_column_field : ColumnField)
    (column_vector : ColumnVector) (rows : List VarcharT) (v w : VarcharT)
    (hv : column_vector.varchars = rows ++ [v, w])
    (hinline : ∀ x ∈ rows ++ [v, w], x.IsInlined = true → x.length_ ≤ x.short_data_.length)
    (hfit : (spec_varchar_buffer (rows.map (VarcharT.string column_vector))).length < 2 ^ 31)
    (hlen : v.length_ < 2 ^ 31) (hlenw : w.length_ < 2 ^ 31)
    (hwrap : 2 ^ 31 ≤ (spec_varchar_buffer (rows.map (VarcharT.string column_vector))).length +
      4 + v.length_)
    (hlt32 : (spec_varchar_buffer (rows.map (VarcharT.string column_vector))).length + 4 +
      v.length_ < 2 ^ 32) :
    HandleVarcharType output_column_field (rows.length + 2) column_vector =
      Except.error Exception.UndefinedBehaviour := by
  have hL := spec_varchar_buffer_length (rows.map (VarcharT.string column_vector))
  have hmap : (rows.map (VarcharT.string column_vector)).map List.length =
      rows.map (·.length_) := by
    rw [List.map_map]
    apply List.map_congr_left
    intro x hx
    exact VarcharT.string_length column_vector x
      (hinline x (List.mem_append_left _ hx))
  rw [hmap, List.length_map] at hL
  have hsum : ((rows ++ [v, w]).map (·.length_)).sum =
      (rows.map (·.length_)).sum + v.length_ + w.length_ := by
    simp [List.sum_append]; omega
  have htotal := HandleVarcharType.total_eq column_vector.varchars (rows ++ [v, w]) [] 0
    (by rw [hv]; rfl) (by rw [hsum]; omega)
  have hlen2 : (rows ++ [v, w]).length = rows.length + 2 := by simp
  rw [hlen2, hsum] at htotal
  have hmod : (0 + ((rows.map (·.length_)).sum + v.length_ + w.length_) +
      (rows.length + 2) * 4) % 2 ^ 64 =
      0 + ((rows.map (·.length_)).sum + v.length_ + w.length_) + (rows.length + 2) * 4 :=
    Nat.mod_eq_of_lt (by omega)
  have hloop := HandleVarcharType.loop_wraps column_vector rows v w
    (0 + ((rows.map (·.length_)).sum + v.length_ + w.length_) + (rows.length + 2) * 4)
    hv hinline hfit hlen hwrap hlt32 (by omega)
  unfold HandleVarcharType
  simp only [List.length_nil] at htotal
  simp only [htotal, bind, Except.bind, hmod, hloop]

theorem spec_varchar_buffer_replicate (column_vector : ColumnVector) (v : VarcharT)
    (hin : v.IsInlined = true → v.length_ ≤ v.short_data_.length) (n : Nat) :
    (spec_varchar_buffer ((List.replicate n v).map
        (VarcharT.string column_vector))).length = n * (4 + v.length_) := by
  rw [spec_varchar_buffer_length, List.map_map, List.map_replicate, List.sum_replicate,
    List.length_map, List.length_replicate]
  have h : (List.length ∘ VarcharT.string column_vector) v = v.length_ :=
    VarcharT.string_length column_vector v hin
  rw [h, smul_eq_mul, Nat.mul_add, Nat.mul_comm 4 n, Nat.add_comm]

/-- Against C22 as stated: `current_offset` is an `i32` while the sizes are
`SizeT`. For 257 heap-stored rows of 8388607 bytes each, the offset after 256
rows is 2147484416, which as an `i32` is negative, and the copy of the last
row writes before the destination: `HandleVarcharType` produces no buffer. -/
theorem HandleVarcharType_counterexample :
    wide_varchar_column.varchars.length = 257 ∧
      HandleVarcharType ⟨none, []⟩ 257 wide_varchar_column =
        Except.error Exception.UndefinedBehaviour := by
  refine ⟨List.length_replicate _ _, ?_⟩
  have hrows := spec_varchar_buffer_replicate wide_varchar_column
    ⟨8388607, false, [], 0, 0⟩ (fun h => absurd h (by decide)) 255
  have h := HandleVarcharType_wraps ⟨none, []⟩ wide_varchar_column
    (List.replicate 255 ⟨8388607, false, [], 0, 0⟩) ⟨8388607, false, [], 0, 0⟩
    ⟨8388607, false, [], 0, 0⟩
    (show List.replicate (255 + 2) (⟨8388607, false, [], 0, 0⟩ : VarcharT) = _ by
      rw [List.replicate_add]; rfl)
    (fun x hmem hx => by
      have hx2 : x = ⟨8388607, false, [], 0, 0⟩ := by
        rcases List.mem_append.1 hmem with h | h
        · exact List.eq_of_mem_replicate h
        · simp at h; exact h
      rw [hx2] at hx
      exact absurd hx (by decide))
    (by rw [hrows]; norm_num) (by norm_num) (by norm_num) (by rw [hrows]; norm_num)
    (by rw [hrows]; norm_num)
  rw [List.length_replicate] at h
  exact h

/-- C22, amended: for a varchar column vector of `row_count` rows whose inlined
values lie within the inline array and whose encoded size, the sum of the
string lengths plus `4 * row_count`, is below 2^31, `HandleVarcharType` appends
one buffer which is the concatenation, in row order, of the 4-byte
little-endian length and the bytes of the row's string, and sets the column
type to varchar; every string has as many bytes as its length says; the
buffer's length is the sum of the lengths plus `4 * row_count`; and decoding
the buffer by reading a length prefix and that many bytes, row after row,
gives back the strings. -/
theorem HandleVarcharType_buffer (output_column_field : ColumnField) (row_count : Nat)
    (column_vector : ColumnVector)
    (hrows : column_vector.varchars.length = row_count)
    (htype : column_vector.data_type.type = LogicalType.kVarchar)
    (hinline : ∀ v ∈ column_vector.varchars,
      v.IsInlined = true → v.length_ ≤ v.short_data_.length)
    (hsize : (column_vector.varchars.map (·.length_)).sum + 4 * row_count < 2 ^ 31) :
    HandleVarcharType output_column_field row_count column_vector =
        Except.ok
          { column_vectors := output_column_field.column_vectors ++
              [spec_varchar_buffer (column_vector.varchars.map (VarcharT.string column_vector))],
            column_type := some infinity_thrift_rpc.ColumnType.ColumnVarchar } ∧
      (column_vector.varchars.map (VarcharT.string column_vector)).map List.length =
        column_vector.varchars.map (·.length_) ∧
      (spec_varchar_buffer
          (column_vector.varchars.map (VarcharT.string column_vector))).length =
        (column_vector.varchars.map (·.length_)).sum + 4 * row_count ∧
      decode_varchars row_count
          (spec_varchar_buffer (column_vector.varchars.map (VarcharT.string column_vector))) =
        column_vector.varchars.map (VarcharT.string column_vector) := by
  subst hrows
  have hmap : (column_vector.varchars.map (VarcharT.string column_vector)).map List.length =
      column_vector.varchars.map (·.length_) := by
    rw [List.map_map]
    apply List.map_congr_left
    intro x hx
    exact VarcharT.string_length column_vector x (hinline x hx)
  have hL := spec_varchar_buffer_length
    (column_vector.varchars.map (VarcharT.string column_vector))
  rw [hmap, List.length_map] at hL
  have htotal := HandleVarcharType.total_eq column_vector.varchars column_vector.varchars [] 0
    rfl (by omega)
  have hmod : (0 + (column_vector.varchars.map (·.length_)).sum +
      column_vector.varchars.length * 4) % 2 ^ 64 =
      (spec_varchar_buffer
        (column_vector.varchars.map (VarcharT.string column_vector))).length := by
    rw [hL]
    exact (Nat.mod_eq_of_lt (by omega)).trans (by omega)
  have hloop := HandleVarcharType.loop_rows_eq column_vector column_vector.varchars [] [] rfl
    hinline (by rw [hL]; simpa using hsize)
  simp only [List.length_nil, List.nil_append, Nat.cast_zero] at hloop htotal
  refine ⟨?_, hmap, hL, ?_⟩
  · unfold HandleVarcharType
    simp only [htotal, bind, Except.bind, hmod, hloop, DataTypeToProtoColumnType, htype, pure,
      Except.pure]
  · apply decode_varchars_eq
    · intro s hs
      obtain ⟨v, hv, rfl⟩ := List.mem_map.1 hs
      rw [VarcharT.string_length column_vector v (hinline v hv)]
      have := List.single_le_sum (fun _ _ => Nat.zero_le _) _
        (List.mem_map_of_mem (·.length_) hv)
      simp only at this
      omega
    · simp

/-- C22 at the sample column with the inlined row "ab" and the heap-stored row
"xyz": the buffer is 2, 0, 0, 0, 'a', 'b', 3, 0, 0, 0, 'x', 'y', 'z'. -/
theorem HandleVarcharType_buffer_witness :
    HandleVarcharType ⟨none, []⟩ 2 sample_varchar_column =
        Except.ok
          { column_vectors := [[2, 0, 0, 0, 97, 98, 3, 0, 0, 0, 120, 121, 122]],
            column_type := some infinity_thrift_rpc.ColumnType.ColumnVarchar } ∧
      decode_varchars 2 [2, 0, 0, 0, 97, 98, 3, 0, 0, 0, 120, 121, 122] =
        [[97, 98], [120, 121, 122]] :=
  have h := HandleVarcharType_buffer ⟨none, []⟩ 2 sample_varchar_column rfl rfl
    (by decide) (by decide)
  ⟨h.1, h.2.2.2⟩

/-! ## The mutex of a `TableIndexEntry` -/

/-- The model with steps returns what `GetOrCreateSegment` returns, and its
steps keep the discipline of the mutex. -/
theorem GetOrCreateSegment_locking (e : TableIndexEntry) (w : World) (segment_id : SegmentID) :
    (TableIndexEntry.GetOrCreateSegment.locking e w segment_id).1 =
      e.GetOrCreateSegment w segment_id ∧
    guarded (TableIndexEntry.GetOrCreateSegment.locking e w segment_id).2 = true := by
  unfold TableIndexEntry.GetOrCreateSegment.locking TableIndexEntry.GetOrCreateSegment
  cases Map.find e.index_by_segment_ segment_id <;> exact ⟨rfl, rfl⟩

/-- The model with steps returns what `PopulateEntirely` returns. -/
theorem PopulateEntirely_locking (e : TableIndexEntry) (w : World)
    (segment_entry : SegmentEntry) :
    (TableIndexEntry.PopulateEntirely.locking e w segment_entry).map Prod.fst =
      e.PopulateEntirely w segment_entry := by
  unfold TableIndexEntry.PopulateEntirely.locking TableIndexEntry.PopulateEntirely
  cases e.index_base_ with
  | none => rfl
  | some index_base =>
    simp only
    split <;> rfl

theorem CreateIndexPrepare.loop_locking_fst (unsealed_id : SegmentID)
    (prepare is_replay check_ts : Bool) :
    ∀ (segments : List SegmentEntry) (e : TableIndexEntry) (w : World)
      (segment_index_entries : List SegmentIndexEntry) (steps : List SyncStep),
      (CreateIndexPrepare.loop_locking unsealed_id prepare is_replay check_ts segments e w
        segment_index_entries steps).1 =
        CreateIndexPrepare.loop unsealed_id prepare is_replay check_ts segments e w
          segment_index_entries := by
  intro segments
  induction segments with
  | nil => intro e w entries steps; rfl
  | cons hd tl ih =>
    intro e w entries steps
    rw [CreateIndexPrepare.loop_locking, CreateIndexPrepare.loop]
    exact ih _ _ _ _

/-- The model with steps returns what `CreateIndexPrepare` returns. -/
theorem CreateIndexPrepare_locking (e : TableIndexEntry) (w : World) (unsealed_id : SegmentID)
    (segments : List SegmentEntry) (prepare is_replay check_ts : Bool) :
    (TableIndexEntry.CreateIndexPrepare.locking e w unsealed_id segments prepare is_replay
      check_ts).1 =
      e.CreateIndexPrepare w unsealed_id segments prepare is_replay check_ts := by
  unfold TableIndexEntry.CreateIndexPrepare.locking TableIndexEntry.CreateIndexPrepare
  simp only [CreateIndexPrepare.loop_locking_fst]

/-- C27 at a full-text entry without segments. `PopulateEntirely` of segment 5
puts a new entry into `index_by_segment_`, and `CreateIndexPrepare` over the
unsealed segment 5 puts a new entry into `index_by_segment_` and assigns
`last_segment_`; neither locks `rw_locker_`, so the modifications are not
guarded. `GetOrCreateSegment(5)` on the same entry makes the same `emplace`
with the mutex held exclusively. -/
theorem PopulateEntirely_without_lock :
    (sample_fulltext_entry.PopulateEntirely ⟨0, []⟩ ⟨5, 10, 16⟩ =
        Except.ok (some ⟨0, 5⟩,
          { sample_fulltext_entry with index_by_segment_ := [(5, ⟨0, 5⟩)] },
          ⟨1, [Event.PopulateEntirely ⟨0, 5⟩ 5]⟩) ∧
      TableIndexEntry.PopulateEntirely.locking sample_fulltext_entry ⟨0, []⟩ ⟨5, 10, 16⟩ =
        Except.ok ((some ⟨0, 5⟩,
          { sample_fulltext_entry with index_by_segment_ := [(5, ⟨0, 5⟩)] },
          ⟨1, [Event.PopulateEntirely ⟨0, 5⟩ 5]⟩),
          [SyncStep.write GuardedMember.index_by_segment_]) ∧
      guarded [SyncStep.write GuardedMember.index_by_segment_] = false) ∧
    (sample_fulltext_entry.CreateIndexPrepare ⟨0, []⟩ 5 [⟨5, 10, 16⟩] true false true =
        (([⟨0, 5⟩], Status.OK),
          { sample_fulltext_entry with
            index_by_segment_ := [(5, ⟨0, 5⟩)], last_segment_ := some ⟨0, 5⟩ },
          ⟨1, [Event.CreateIndexPrepare ⟨0, 5⟩ 5 true true]⟩) ∧
      (TableIndexEntry.CreateIndexPrepare.locking sample_fulltext_entry ⟨0, []⟩ 5 [⟨5, 10, 16⟩]
          true false true).2 =
        [SyncStep.write GuardedMember.index_by_segment_,
         SyncStep.write GuardedMember.last_segment_] ∧
      guarded [SyncStep.write GuardedMember.index_by_segment_,
        SyncStep.write GuardedMember.last_segment_] = false) ∧
    (sample_fulltext_entry.GetOrCreateSegment ⟨0, []⟩ 5 =
        ((true, ⟨0, 5⟩), { sample_fulltext_entry with index_by_segment_ := [(5, ⟨0, 5⟩)] },
          ⟨1, []⟩) ∧
      (TableIndexEntry.GetOrCreateSegment.locking sample_fulltext_entry ⟨0, []⟩ 5).2 =
        [SyncStep.lock_unique, SyncStep.read GuardedMember.index_by_segment_,
         SyncStep.write GuardedMember.index_by_segment_, SyncStep.unlock] ∧
      guarded [SyncStep.lock_unique, SyncStep.read GuardedMember.index_by_segment_,
        SyncStep.write GuardedMember.index_by_segment_, SyncStep.unlock] = true) :=
  ⟨⟨rfl, rfl, rfl⟩, ⟨rfl, rfl, rfl⟩, ⟨rfl, rfl, rfl⟩⟩

/-! ## The failure paths of `Update` -/

/-- C28 at an `Update` of session 7 whose `where_expr` converts and whose
update expression fails with `InvalidParsedExprType`: the response carries that
code and the engine is not invoked, but of the three allocations (the filter
tree, the vector, the `UpdateExpr`) the branch deletes the vector and the
`UpdateExpr` only: the filter tree is still allocated when `Update` returns. -/
theorem Update_failure_keeps_filter :
    (sample_handler.Update sample_server_world sample_rpc_env (Response.init ⟨none⟩)
        sample_update_request).map (fun r => (r.1.error_code, r.2.calls)) =
      Except.ok (some ErrorCode.kInvalidParsedExprType, []) ∧
    InfinityServiceHandler.Update.heap sample_handler sample_rpc_env sample_update_request =
      Except.ok [HeapEvent.new HeapObject.filter, HeapEvent.new HeapObject.update_expr_array,
        HeapEvent.new (HeapObject.update_expr 0), HeapEvent.delete HeapObject.update_expr_array,
        HeapEvent.delete (HeapObject.update_expr 0)] ∧
    live [HeapEvent.new HeapObject.filter, HeapEvent.new HeapObject.update_expr_array,
        HeapEvent.new (HeapObject.update_expr 0), HeapEvent.delete HeapObject.update_expr_array,
        HeapEvent.delete (HeapObject.update_expr 0)] = [HeapObject.filter] :=
  ⟨rfl, rfl, by decide⟩
end infinity
